import Mathlib

/-!
# The SPA processing graph (`spa/include/spa/graph.h`) and the reference source

A shallow embedding of the graph scheduler: the node and port records, the
topology operations, the port check and the scheduling loop, and of the
reference source of `spa/plugins/test/fakesrc.c`, followed by the properties
proved about them.

Memory is explicit.  Node records, port records and port I/O cells live in three
stores and a C pointer is an index into its store; dereferencing an index that
is outside the store (or an absent `io` / `peer`) is a fault.  The `schedule`
callbacks of the nodes are one function of the pointer and the record of the
node that is run; a callback reads and writes the I/O cells and the private
state of the plugins, not the records of the graph.
-/

namespace Spa

/-! ## Data model -/

/-- Modelled from the spec: `spa/defs.h` is not among the sources; these are the
result codes the specification lists for `SpaResult`. -/
inductive SpaResult where
  | OK
  | NEED_BUFFER
  | HAVE_BUFFER
  | NO_FORMAT
  | NO_BUFFERS
  | OUT_OF_BUFFERS
  | INVALID_PORT
  | INVALID_BUFFER_ID
  | INVALID_ARGUMENTS
  | WRONG_STATE
  | NOT_IMPLEMENTED
  | UNKNOWN_INTERFACE
  | ENUM_END
  | ERROR
  deriving DecidableEq, Repr

/-- Modelled from the spec: `SpaDirection` of `spa/defs.h`, the index of `ports[2]`. -/
inductive SpaDirection where
  | INPUT
  | OUTPUT
  deriving DecidableEq, Repr

/-- The flag `SPA_GRAPH_NODE_FLAG_ASYNC`, `(1 << 0)`. -/
def SPA_GRAPH_NODE_FLAG_ASYNC : Nat := 1

/-- The action `SPA_GRAPH_ACTION_CHECK`. -/
def SPA_GRAPH_ACTION_CHECK : Nat := 0

/-- The action `SPA_GRAPH_ACTION_IN`. -/
def SPA_GRAPH_ACTION_IN : Nat := 1

/-- The action `SPA_GRAPH_ACTION_OUT`. -/
def SPA_GRAPH_ACTION_OUT : Nat := 2

/-- Modelled from the spec: `spa/node.h` is not among the sources; `OPTIONAL` is one
bit of the port info flag set. -/
def SPA_PORT_INFO_FLAG_OPTIONAL : Nat := 2

/-- The width of the `uint32_t` counters of a node. -/
def UINT32_MOD : Nat := 4294967296

/-- The C test `flags & bit` of a flag word. -/
def flag_set (flags bit : Nat) : Bool := (flags &&& bit) != 0

/-- The port I/O cell, `SpaPortIO`: a status and a buffer id. -/
structure SpaPortIO where
  status : SpaResult
  buffer_id : Nat
  deriving DecidableEq, Repr

/-- The record `struct SpaGraphNode`.  `ready_link_next` is `ready_link.next != NULL`,
the sentinel the code tests; `link` is the membership in the node list of the graph;
`ports_input` and `ports_output` are `ports[SPA_DIRECTION_INPUT]` and
`ports[SPA_DIRECTION_OUTPUT]`; `schedule` and `user_data` are pointers. -/
structure SpaGraphNode where
  ready_link_next : Bool
  ports_input : List Nat
  ports_output : List Nat
  flags : Nat
  state : SpaResult
  action : Nat
  schedule : Nat
  user_data : Nat
  max_in : Nat
  required_in : Nat
  ready_in : Nat
  deriving DecidableEq, Repr

/-- The record `struct SpaGraphPort`; `io` and `peer` may be `NULL`. -/
structure SpaGraphPort where
  node : Nat
  direction : SpaDirection
  port_id : Nat
  flags : Nat
  io : Option Nat
  peer : Option Nat
  deriving DecidableEq, Repr

/-- The record `struct SpaGraph` (the node list `nodes` and the ready queue `ready`)
together with the memory its pointers lead to: the node records, the port records,
the I/O cells and the private state `user` of the plugins.  `calls` is a ghost
field: the invocations of `schedule` so far, each with the pointer of the node and
its record as the callback received it. -/
structure SpaGraph (σ : Type) where
  nodes : List Nat
  ready : List Nat
  node_mem : List SpaGraphNode
  port_mem : List SpaGraphPort
  io_mem : List SpaPortIO
  user : σ
  calls : List (Nat × SpaGraphNode)
  deriving DecidableEq

/-- The type `SpaGraphNodeFunc` of the `schedule` callbacks: from the pointer and the
record of the node, the I/O cells and the plugin state, the result code and the new
cells and plugin state. -/
abbrev SpaGraphNodeFunc (σ : Type) : Type :=
  Nat → SpaGraphNode → List SpaPortIO → σ → SpaResult × List SpaPortIO × σ

/-- The ways a run can fail to return: a `NULL` or invalid pointer is dereferenced, the
scheduling loop has not emptied the ready queue within the given number of iterations, or
a `read` blocks for ever. -/
inductive SpaFault where
  | bad_pointer
  | out_of_fuel
  | blocked
  deriving DecidableEq, Repr

/-! ## Memory access -/

/-- The read `*node` of a node record. -/
def load_node {σ : Type} (g : SpaGraph σ) (node : Nat) : Except SpaFault SpaGraphNode :=
  match g.node_mem[node]? with
  | some n => .ok n
  | none => .error .bad_pointer

/-- The write `*node = n` of a node record. -/
def store_node {σ : Type} (g : SpaGraph σ) (node : Nat) (n : SpaGraphNode) : SpaGraph σ :=
  { g with node_mem := g.node_mem.set node n }

/-- The read `*port` of a port record. -/
def load_port {σ : Type} (g : SpaGraph σ) (port : Nat) : Except SpaFault SpaGraphPort :=
  match g.port_mem[port]? with
  | some p => .ok p
  | none => .error .bad_pointer

/-- The read through a port pointer that may be `NULL` (`p->peer`). -/
def load_peer {σ : Type} (g : SpaGraph σ) (peer : Option Nat) : Except SpaFault SpaGraphPort :=
  match peer with
  | some q => load_port g q
  | none => .error .bad_pointer

/-- The write `*port = p` of a port record. -/
def store_port {σ : Type} (g : SpaGraph σ) (port : Nat) (p : SpaGraphPort) : SpaGraph σ :=
  { g with port_mem := g.port_mem.set port p }

/-- The read `*io` of an I/O cell through a pointer that may be `NULL`. -/
def load_io {σ : Type} (g : SpaGraph σ) (io : Option Nat) : Except SpaFault SpaPortIO :=
  match io with
  | some c =>
    match g.io_mem[c]? with
    | some v => .ok v
    | none => .error .bad_pointer
  | none => .error .bad_pointer

/-! ## Lists

`spa/list.h` is not among the sources.  The lists of the graph are kept as the
sequences the specification describes. -/

/-- Modelled from the spec: `spa_list_insert (list->prev, elem)` of the missing
`spa/list.h`, the insertion of `elem` at the tail of the sequence. -/
def spa_list_insert_tail (l : List Nat) (elem : Nat) : List Nat := l ++ [elem]

/-- Modelled from the spec: `spa_list_remove (elem)` of the missing `spa/list.h`, which
unlinks `elem` from the sequence it is in. -/
def spa_list_remove (l : List Nat) (elem : Nat) : List Nat := l.erase elem

/-- The call `spa_list_insert (graph->ready.prev, &node->ready_link)`: the node goes to
the tail of the ready queue and its `ready_link.next` becomes non-null.  The call is made
where the code makes it, also on a node whose `ready_link` is linked already: the
sequence then holds the node twice.  What such an insertion does to the links of the
intrusive list is in the missing `spa/list.h`, so a run with such an insertion shows
which insertions the scheduler makes, not that the list survives them. -/
def ready_insert {σ : Type} (g : SpaGraph σ) (node : Nat) : Except SpaFault (SpaGraph σ) := do
  let n ← load_node g node
  pure { g with
    ready := spa_list_insert_tail g.ready node
    node_mem := g.node_mem.set node { n with ready_link_next := true } }

/-! ## Topology operations -/

/-- The function `spa_graph_init`. -/
def spa_graph_init {σ : Type} (g : SpaGraph σ) : SpaGraph σ :=
  { g with nodes := [], ready := [] }

/-- The function `spa_graph_node_add`.  It writes every field of the record but
`ready_link`. -/
def spa_graph_node_add {σ : Type} (g : SpaGraph σ) (node : Nat) (schedule user_data : Nat) :
    Except SpaFault (SpaGraph σ) := do
  let n ← load_node g node
  let n := { n with
    ports_input := []
    ports_output := []
    flags := 0
    state := SpaResult.OK
    action := SPA_GRAPH_ACTION_OUT
    schedule := schedule
    user_data := user_data }
  let g := { store_node g node n with nodes := spa_list_insert_tail g.nodes node }
  pure (store_node g node { n with max_in := 0, required_in := 0, ready_in := 0 })

/-- The function `spa_graph_port_check`. -/
def spa_graph_port_check {σ : Type} (g : SpaGraph σ) (port : Nat) :
    Except SpaFault (SpaGraph σ) := do
  let p ← load_port g port
  let node := p.node
  let io ← load_io g p.io
  let n ← load_node g node
  let n := if io.status = SpaResult.HAVE_BUFFER then
      { n with ready_in := (n.ready_in + 1) % UINT32_MOD }
    else n
  if 0 < n.required_in ∧ n.ready_in = n.required_in then
    let n := { n with action := SPA_GRAPH_ACTION_IN }
    if n.ready_link_next = false then
      ready_insert (store_node g node n) node
    else
      pure (store_node g node n)
  else if n.ready_link_next = true then
    pure { store_node g node { n with ready_link_next := false } with
      ready := spa_list_remove g.ready node }
  else
    pure (store_node g node n)

/-- The function `spa_graph_port_add`. -/
def spa_graph_port_add {σ : Type} (g : SpaGraph σ) (node port : Nat) (direction : SpaDirection)
    (port_id flags : Nat) (io : Option Nat) : Except SpaFault (SpaGraph σ) := do
  let _ ← load_port g port
  let g := store_port g port
    { node := node, direction := direction, port_id := port_id, flags := flags, io := io,
      peer := none }
  let n ← load_node g node
  let n := match direction with
    | SpaDirection.INPUT => { n with ports_input := spa_list_insert_tail n.ports_input port }
    | SpaDirection.OUTPUT => { n with ports_output := spa_list_insert_tail n.ports_output port }
  let n := { n with max_in := (n.max_in + 1) % UINT32_MOD }
  let n := if flag_set flags SPA_PORT_INFO_FLAG_OPTIONAL = false
      ∧ direction = SpaDirection.INPUT then
      { n with required_in := (n.required_in + 1) % UINT32_MOD }
    else n
  spa_graph_port_check (store_node g node n) port

/-- The function `spa_graph_node_remove`: only `link` is unlinked. -/
def spa_graph_node_remove {σ : Type} (g : SpaGraph σ) (node : Nat) :
    Except SpaFault (SpaGraph σ) := do
  let _ ← load_node g node
  pure { g with nodes := spa_list_remove g.nodes node }

/-- The function `spa_graph_port_remove`: the port leaves the port sequence of its node
it is in. -/
def spa_graph_port_remove {σ : Type} (g : SpaGraph σ) (port : Nat) :
    Except SpaFault (SpaGraph σ) := do
  let p ← load_port g port
  let n ← load_node g p.node
  let n := match p.direction with
    | SpaDirection.INPUT => { n with ports_input := spa_list_remove n.ports_input port }
    | SpaDirection.OUTPUT => { n with ports_output := spa_list_remove n.ports_output port }
  pure (store_node g p.node n)

/-- The function `spa_graph_port_link`. -/
def spa_graph_port_link {σ : Type} (g : SpaGraph σ) (out in_ : Nat) :
    Except SpaFault (SpaGraph σ) := do
  let o ← load_port g out
  let g := store_port g out { o with peer := some in_ }
  let i ← load_port g in_
  pure (store_port g in_ { i with peer := some out })

/-- The function `spa_graph_port_unlink`. -/
def spa_graph_port_unlink {σ : Type} (g : SpaGraph σ) (out in_ : Nat) :
    Except SpaFault (SpaGraph σ) := do
  let o ← load_port g out
  let g := store_port g out { o with peer := none }
  let i ← load_port g in_
  pure (store_port g in_ { i with peer := none })

/-! ## The scheduling loop -/

/-- The loop over `n->ports[SPA_DIRECTION_INPUT]` of the `CHECK` case of
`spa_graph_node_schedule` when `n->state` is `NEED_BUFFER`; `node` is the trigger and
`ports` what is left of the port sequence. -/
def schedule_need_buffer {σ : Type} (node n : Nat) :
    List Nat → SpaGraph σ → Except SpaFault (SpaGraph σ)
  | [], g => pure g
  | p :: ps, g => do
    let port ← load_port g p
    let peer ← load_peer g port.peer
    let pn := peer.node
    let io ← load_io g port.io
    if io.status = SpaResult.NEED_BUFFER then
      let r ← load_node g pn
      if pn ≠ node ∨ flag_set r.flags SPA_GRAPH_NODE_FLAG_ASYNC = true then
        let g ← ready_insert (store_node g pn { r with action := SPA_GRAPH_ACTION_OUT }) pn
        schedule_need_buffer node n ps g
      else
        schedule_need_buffer node n ps g
    else if io.status = SpaResult.OK then
      let r ← load_node g n
      schedule_need_buffer node n ps
        (store_node g n { r with ready_in := (r.ready_in + 1) % UINT32_MOD })
    else
      schedule_need_buffer node n ps g

/-- The loop over `n->ports[SPA_DIRECTION_OUTPUT]` of the `CHECK` case of
`spa_graph_node_schedule` when `n->state` is `HAVE_BUFFER`: the port check on the peer
of every output port. -/
def schedule_have_buffer {σ : Type} :
    List Nat → SpaGraph σ → Except SpaFault (SpaGraph σ)
  | [], g => pure g
  | p :: ps, g => do
    let port ← load_port g p
    match port.peer with
    | none => throw SpaFault.bad_pointer
    | some q =>
      let g ← spa_graph_port_check g q
      schedule_have_buffer ps g

/-- One iteration of the `while` loop of `spa_graph_node_schedule` with trigger `node`:
the head of the ready queue is taken off, marked absent and dispatched on its action. -/
def spa_graph_node_schedule_step {σ : Type} (sched : SpaGraphNodeFunc σ) (node : Nat)
    (g : SpaGraph σ) : Except SpaFault (SpaGraph σ) :=
  match g.ready with
  | [] => pure g
  | h :: _ => do
    let n ← load_node g h
    let n := { n with ready_link_next := false }
    let g := { store_node g h n with ready := spa_list_remove g.ready h }
    if n.action = SPA_GRAPH_ACTION_IN ∨ n.action = SPA_GRAPH_ACTION_OUT then
      let r := sched h n g.io_mem g.user
      let g := { g with io_mem := r.2.1, user := r.2.2, calls := g.calls ++ [(h, n)] }
      let n := { n with state := r.1 }
      let g := store_node g h n
      if n.action = SPA_GRAPH_ACTION_IN ∧ h = node then
        pure g
      else
        ready_insert (store_node g h { n with action := SPA_GRAPH_ACTION_CHECK }) h
    else if n.action = SPA_GRAPH_ACTION_CHECK then
      if n.state = SpaResult.NEED_BUFFER then
        schedule_need_buffer node h n.ports_input (store_node g h { n with ready_in := 0 })
      else if n.state = SpaResult.HAVE_BUFFER then
        schedule_have_buffer n.ports_output g
      else
        pure g
    else
      pure g

/-- The `while (!spa_list_is_empty (&graph->ready))` loop, run for at most `fuel`
iterations. -/
def spa_graph_node_schedule_loop {σ : Type} (sched : SpaGraphNodeFunc σ) (node : Nat) :
    Nat → SpaGraph σ → Except SpaFault (SpaGraph σ)
  | 0, g => pure g
  | fuel + 1, g =>
    if g.ready = [] then pure g
    else do
      let g ← spa_graph_node_schedule_step sched node g
      spa_graph_node_schedule_loop sched node fuel g

/-- The first statement of `spa_graph_node_schedule`: the trigger is put on the ready
queue unless its `ready_link` is marked present. -/
def spa_graph_node_schedule_enter {σ : Type} (g : SpaGraph σ) (node : Nat) :
    Except SpaFault (SpaGraph σ) := do
  let n ← load_node g node
  if n.ready_link_next = false then ready_insert g node else pure g

/-- The function `spa_graph_node_schedule`: it returns when the loop has emptied the
ready queue, here within `fuel` iterations. -/
def spa_graph_node_schedule {σ : Type} (sched : SpaGraphNodeFunc σ) (fuel : Nat)
    (g : SpaGraph σ) (node : Nat) : Except SpaFault (SpaGraph σ) := do
  let g ← spa_graph_node_schedule_enter g node
  let g ← spa_graph_node_schedule_loop sched node fuel g
  if g.ready = [] then pure g else throw SpaFault.out_of_fuel

/-! ## Scenario graphs and predicates of the statements -/

/-- A zeroed node record. -/
def zero_node : SpaGraphNode :=
  { ready_link_next := false, ports_input := [], ports_output := [], flags := 0,
    state := SpaResult.OK, action := 0, schedule := 0, user_data := 0, max_in := 0,
    required_in := 0, ready_in := 0 }

/-- A zeroed port record. -/
def zero_port : SpaGraphPort :=
  { node := 0, direction := SpaDirection.INPUT, port_id := 0, flags := 0, io := none,
    peer := none }

/-- The write `node->flags = flags` a host does on a node it has added. -/
def set_node_flags {σ : Type} (g : SpaGraph σ) (node flags : Nat) :
    Except SpaFault (SpaGraph σ) := do
  let n ← load_node g node
  pure (store_node g node { n with flags := flags })

/-- The graph `source → sink` of the scenarios, built with the operations of the graph
from zeroed memory: node 0 is the source with output port 0, node 1 the sink with the
non-optional input port 1, the two ports are linked and share cell 0, which holds
`status` and `buffer_id`; `flags` are the flags of the source. -/
def source_sink_graph {σ : Type} (u : σ) (status : SpaResult) (buffer_id flags : Nat) :
    Except SpaFault (SpaGraph σ) := do
  let g : SpaGraph σ := spa_graph_init
    { nodes := [], ready := [], node_mem := [zero_node, zero_node],
      port_mem := [zero_port, zero_port],
      io_mem := [{ status := status, buffer_id := buffer_id }], user := u, calls := [] }
  let g ← spa_graph_node_add g 0 0 0
  let g ← spa_graph_node_add g 1 0 0
  let g ← set_node_flags g 0 flags
  let g ← spa_graph_port_add g 0 0 SpaDirection.OUTPUT 0 0 (some 0)
  let g ← spa_graph_port_add g 1 1 SpaDirection.INPUT 0 0 (some 0)
  spa_graph_port_link g 0 1

/-- The node `p->peer->node` upstream of a port, when the port and its peer exist. -/
def upstream_node {σ : Type} (g : SpaGraph σ) (p : Nat) : Option Nat :=
  match g.port_mem[p]? with
  | some port =>
    match port.peer with
    | some q =>
      match g.port_mem[q]? with
      | some peer => some peer.node
      | none => none
    | none => none
  | none => none

/-- The status `p->io->status` of the cell of a port, when the port has a cell. -/
def port_status {σ : Type} (g : SpaGraph σ) (p : Nat) : Option SpaResult :=
  match g.port_mem[p]? with
  | some port =>
    match port.io with
    | some c =>
      match g.io_mem[c]? with
      | some v => some v.status
      | none => none
    | none => none
  | none => none

/-- Whether the node at `m` carries `SPA_GRAPH_NODE_FLAG_ASYNC`. -/
def node_async {σ : Type} (g : SpaGraph σ) (m : Nat) : Bool :=
  match g.node_mem[m]? with
  | some n => flag_set n.flags SPA_GRAPH_NODE_FLAG_ASYNC
  | none => false

/-- The upstream node that the input port `p` asks to produce when the trigger is
`trigger`: the cell of `p` has status `NEED_BUFFER` and the upstream node is not the
trigger or is `ASYNC`. -/
def port_wakes {σ : Type} (g : SpaGraph σ) (trigger p : Nat) : Option Nat :=
  match port_status g p, upstream_node g p with
  | some SpaResult.NEED_BUFFER, some u =>
    if u ≠ trigger ∨ node_async g u = true then some u else none
  | _, _ => none

/-- The number of ports of `ports` whose cell has status `OK`. -/
def count_ok {σ : Type} (g : SpaGraph σ) (ports : List Nat) : Nat :=
  (ports.filter (fun p => decide (port_status g p = some SpaResult.OK))).length

/-- The `uint32_t` increment `x++`. -/
def incr32 (x : Nat) : Nat := (x + 1) % UINT32_MOD

/-- A pair of callbacks for the scenarios: the node at 0 is a source that always
produces (every cell gets status `HAVE_BUFFER`, result `HAVE_BUFFER`); any other node is
a sink that asks for input: run with action `IN` it consumes (every cell goes back to
`NEED_BUFFER`), and in both cases it returns `NEED_BUFFER`. -/
def sched_demo : SpaGraphNodeFunc Unit := fun node n io u =>
  if node = 0 then
    (SpaResult.HAVE_BUFFER, io.map (fun c => { c with status := SpaResult.HAVE_BUFFER }), u)
  else if n.action = SPA_GRAPH_ACTION_IN then
    (SpaResult.NEED_BUFFER, io.map (fun c => { c with status := SpaResult.NEED_BUFFER }), u)
  else
    (SpaResult.NEED_BUFFER, io, u)

/-- The graph `source → sink` that `source_sink_graph` builds, written out: the cell has
the given status and buffer id 0, the source has the given flags, and the sink has the
given action and `ready_link_next`. -/
def demo_graph (status : SpaResult) (flags action : Nat) (queued : Bool) : SpaGraph Unit :=
  { nodes := [0, 1]
    ready := if queued then [1] else []
    node_mem := [
      { ready_link_next := false, ports_input := [], ports_output := [0], flags := flags,
        state := SpaResult.OK, action := SPA_GRAPH_ACTION_OUT, schedule := 0, user_data := 0,
        max_in := 1, required_in := 0, ready_in := 0 },
      { ready_link_next := queued, ports_input := [1], ports_output := [], flags := 0,
        state := SpaResult.NEED_BUFFER, action := action, schedule := 0, user_data := 0,
        max_in := 1, required_in := 1, ready_in := 0 }]
    port_mem := [
      { node := 0, direction := SpaDirection.OUTPUT, port_id := 0, flags := 0, io := some 0,
        peer := some 1 },
      { node := 1, direction := SpaDirection.INPUT, port_id := 0, flags := 0, io := some 0,
        peer := some 0 }]
    io_mem := [{ status := status, buffer_id := 0 }]
    user := ()
    calls := [] }

/-- A callback for a source without buffers: it returns `OUT_OF_BUFFERS` and leaves the
cells alone. -/
def sched_underrun : SpaGraphNodeFunc Unit := fun _ _ io u =>
  (SpaResult.OUT_OF_BUFFERS, io, u)

/-- The pair of the counters of a node that the port operations only ever increment. -/
def node_bounds (n : SpaGraphNode) : Nat × Nat := (n.required_in, n.max_in)

/-- The part of the counter invariant that the code maintains:
`required_in ≤ max_in` for every node record. -/
def counters_inv {σ : Type} (g : SpaGraph σ) : Prop :=
  ∀ n ∈ g.node_mem, n.required_in ≤ n.max_in

/-- The counter invariant as the specification states it, for one node:
`ready_in ≤ required_in ≤ max_in`. -/
def counters_spec (n : SpaGraphNode) : Prop :=
  n.ready_in ≤ n.required_in ∧ n.required_in ≤ n.max_in

/-- Zeroed memory with one node record, one port record and one cell of the given
status, and an initialised graph. -/
def one_node_memory (status : SpaResult) : SpaGraph Unit :=
  spa_graph_init
    { nodes := [], ready := [], node_mem := [zero_node], port_mem := [zero_port],
      io_mem := [{ status := status, buffer_id := 0 }], user := (), calls := [] }

/-- The ready-queue invariant of the specification: no node is queued twice, every
queued pointer is a node record, and the `ready_link` of a node is marked present
exactly when the node is in the ready queue. -/
def ready_inv {σ : Type} (g : SpaGraph σ) : Prop :=
  g.ready.Nodup ∧ (∀ i ∈ g.ready, i < g.node_mem.length) ∧
    ∀ i n, g.node_mem[i]? = some n → (n.ready_link_next = true ↔ i ∈ g.ready)

/-- A source with two output ports feeding the two input ports of a sink (a stereo
pair), built with the operations of the graph from zeroed memory: node 0 is the source
with output ports 0 and 1, node 1 the sink with input ports 2 and 3, port 0 is linked to
port 2 over cell 0 and port 1 to port 3 over cell 1; both cells ask for a buffer. -/
def stereo_graph : Except SpaFault (SpaGraph Unit) := do
  let g : SpaGraph Unit := spa_graph_init
    { nodes := [], ready := [], node_mem := [zero_node, zero_node],
      port_mem := [zero_port, zero_port, zero_port, zero_port],
      io_mem := [{ status := SpaResult.NEED_BUFFER, buffer_id := 0 },
        { status := SpaResult.NEED_BUFFER, buffer_id := 0 }],
      user := (), calls := [] }
  let g ← spa_graph_node_add g 0 0 0
  let g ← spa_graph_node_add g 1 0 0
  let g ← spa_graph_port_add g 0 0 SpaDirection.OUTPUT 0 0 (some 0)
  let g ← spa_graph_port_add g 0 1 SpaDirection.OUTPUT 1 0 (some 1)
  let g ← spa_graph_port_add g 1 2 SpaDirection.INPUT 0 0 (some 0)
  let g ← spa_graph_port_add g 1 3 SpaDirection.INPUT 1 0 (some 1)
  let g ← spa_graph_port_link g 0 2
  spa_graph_port_link g 1 3

/-- The peer symmetry of the specification: for all port records `p` and `q`,
`p.peer == q` if and only if `q.peer == p`. -/
def peer_symmetric {σ : Type} (g : SpaGraph σ) : Prop :=
  ∀ (p q : Nat) (pr qr : SpaGraphPort), g.port_mem[p]? = some pr → g.port_mem[q]? = some qr →
    (pr.peer = some q ↔ qr.peer = some p)

/-- Zeroed memory with three port records, of which port 0 and port 2 are each other's
peers. -/
def three_ports : SpaGraph Unit :=
  { nodes := [], ready := [], node_mem := [],
    port_mem := [{ zero_port with peer := some 2 }, zero_port, { zero_port with peer := some 0 }],
    io_mem := [], user := (), calls := [] }

/-- A pair of callbacks with a passive sink: the node at 0 is a source that always
produces, any other node returns `OK` and leaves the cells alone. -/
def sched_passive : SpaGraphNodeFunc Unit := fun node _ io u =>
  if node = 0 then
    (SpaResult.HAVE_BUFFER, io.map (fun c => { c with status := SpaResult.HAVE_BUFFER }), u)
  else
    (SpaResult.OK, io, u)

/-- The states that `spa_graph_node_schedule (graph, source)` goes through on the graph
`source → sink` with an `ASYNC` source under `sched_demo`, by phase: 0, the source is
queued with action `OUT`; 1, the source is queued with action `CHECK` after producing;
2, the sink is queued with action `IN`; 3, the sink is queued with action `CHECK` after
consuming.  `cs` are the invocations so far, `ss` the state of the source and `ks`, `ka`
the state and action of the sink where the phase does not determine them. -/
def s2_state (phase : Nat) (cs : List (Nat × SpaGraphNode)) (ss ks : SpaResult) (ka : Nat) :
    SpaGraph Unit :=
  let ports : List SpaGraphPort :=
    [{ node := 0, direction := SpaDirection.OUTPUT, port_id := 0, flags := 0, io := some 0,
       peer := some 1 },
     { node := 1, direction := SpaDirection.INPUT, port_id := 0, flags := 0, io := some 0,
       peer := some 0 }]
  let src : Bool → SpaResult → Nat → SpaGraphNode := fun q st a =>
    { ready_link_next := q, ports_input := [], ports_output := [0],
      flags := SPA_GRAPH_NODE_FLAG_ASYNC, state := st, action := a, schedule := 0,
      user_data := 0, max_in := 1, required_in := 0, ready_in := 0 }
  let snk : Bool → SpaResult → Nat → Nat → SpaGraphNode := fun q st a r =>
    { ready_link_next := q, ports_input := [1], ports_output := [], flags := 0, state := st,
      action := a, schedule := 0, user_data := 0, max_in := 1, required_in := 1,
      ready_in := r }
  match phase with
  | 0 =>
    { nodes := [0, 1], ready := [0],
      node_mem := [src true ss SPA_GRAPH_ACTION_OUT, snk false ks ka 0], port_mem := ports,
      io_mem := [{ status := SpaResult.NEED_BUFFER, buffer_id := 0 }], user := (), calls := cs }
  | 1 =>
    { nodes := [0, 1], ready := [0],
      node_mem := [src true SpaResult.HAVE_BUFFER SPA_GRAPH_ACTION_CHECK, snk false ks ka 0],
      port_mem := ports,
      io_mem := [{ status := SpaResult.HAVE_BUFFER, buffer_id := 0 }], user := (), calls := cs }
  | 2 =>
    { nodes := [0, 1], ready := [1],
      node_mem := [src false SpaResult.HAVE_BUFFER SPA_GRAPH_ACTION_CHECK,
        snk true ks SPA_GRAPH_ACTION_IN 1],
      port_mem := ports,
      io_mem := [{ status := SpaResult.HAVE_BUFFER, buffer_id := 0 }], user := (), calls := cs }
  | _ =>
    { nodes := [0, 1], ready := [1],
      node_mem := [src false SpaResult.HAVE_BUFFER SPA_GRAPH_ACTION_CHECK,
        snk true SpaResult.NEED_BUFFER SPA_GRAPH_ACTION_CHECK 1],
      port_mem := ports,
      io_mem := [{ status := SpaResult.NEED_BUFFER, buffer_id := 0 }], user := (), calls := cs }

/-- The write `*io = v` of an I/O cell, as the peer on the other side of a port or the
host does it. -/
def store_io {σ : Type} (g : SpaGraph σ) (c : Nat) (v : SpaPortIO) : SpaGraph σ :=
  { g with io_mem := g.io_mem.set c v }

/-- The sink of scenario S4, built with the operations of the graph from zeroed memory:
node 0 with the input ports 0 and 1, which have the flags `f0` and `f1` and the cells 0
and 1, holding `c0` and `c1`. -/
def optional_sink_graph {σ : Type} (u : σ) (c0 c1 : SpaPortIO) (f0 f1 : Nat) :
    Except SpaFault (SpaGraph σ) := do
  let g : SpaGraph σ := spa_graph_init
    { nodes := [], ready := [], node_mem := [zero_node], port_mem := [zero_port, zero_port],
      io_mem := [c0, c1], user := u, calls := [] }
  let g ← spa_graph_node_add g 0 0 0
  let g ← spa_graph_port_add g 0 0 SpaDirection.INPUT 0 f0 (some 0)
  spa_graph_port_add g 0 1 SpaDirection.INPUT 1 f1 (some 1)

/-- The number of ports of `ports` that do not carry the `OPTIONAL` flag. -/
def required_count {σ : Type} (g : SpaGraph σ) (ports : List Nat) : Nat :=
  (ports.filter (fun p =>
    match g.port_mem[p]? with
    | some r => !flag_set r.flags SPA_PORT_INFO_FLAG_OPTIONAL
    | none => false)).length

/-- The invariant on `required_in` of the specification: for every node, `required_in` is
the number of ports in its input sequence that do not carry the `OPTIONAL` flag. -/
def required_inv {σ : Type} (g : SpaGraph σ) : Prop :=
  ∀ (i : Nat) (n : SpaGraphNode), g.node_mem[i]? = some n →
    n.required_in = required_count g n.ports_input

/-- The node record that `spa_graph_port_add` has built when it calls
`spa_graph_port_check`: the port is in the sequence of its direction, `max_in` is
incremented, and `required_in` is incremented for an input port that is not `OPTIONAL`. -/
def port_add_node (n : SpaGraphNode) (port : Nat) (direction : SpaDirection) (flags : Nat) :
    SpaGraphNode :=
  let n := match direction with
    | SpaDirection.INPUT => { n with ports_input := spa_list_insert_tail n.ports_input port }
    | SpaDirection.OUTPUT => { n with ports_output := spa_list_insert_tail n.ports_output port }
  let n := { n with max_in := (n.max_in + 1) % UINT32_MOD }
  if flag_set flags SPA_PORT_INFO_FLAG_OPTIONAL = false ∧ direction = SpaDirection.INPUT then
    { n with required_in := (n.required_in + 1) % UINT32_MOD }
  else n

/-- A port that is linked and bound: the port record exists, its peer is a port record
and its `io` points to a cell. -/
def port_linked_bound {σ : Type} (g : SpaGraph σ) (p : Nat) : Prop :=
  ∃ (port : SpaGraphPort) (q : Nat) (peer : SpaGraphPort) (c : Nat) (v : SpaPortIO),
    g.port_mem[p]? = some port ∧ port.peer = some q ∧ g.port_mem[q]? = some peer ∧
    port.io = some c ∧ g.io_mem[c]? = some v

/-- Every I/O cell has status `OK`. -/
def cells_ok {σ : Type} (g : SpaGraph σ) : Prop :=
  ∀ v ∈ g.io_mem, v.status = SpaResult.OK

/-- The record of a node after its `CHECK` step when no input port asks for a buffer and
the state is not `HAVE_BUFFER`: with state `NEED_BUFFER`, `ready_in` is reset and
incremented once per input port; otherwise the record is as it was. -/
def check_quiet (m : SpaGraphNode) : SpaGraphNode :=
  if m.state = SpaResult.NEED_BUFFER then
    { m with ready_in := incr32^[m.ports_input.length] 0 }
  else m

/-- The record of an idle trigger after `spa_graph_node_schedule` when its schedule
function returns `res` and nothing is woken: run with `IN` it keeps its action, run with
`OUT` it is checked afterwards, and with action `CHECK` it is only checked. -/
def schedule_quiet (res : SpaResult) (n : SpaGraphNode) : SpaGraphNode :=
  if n.action = SPA_GRAPH_ACTION_IN then { n with state := res }
  else if n.action = SPA_GRAPH_ACTION_OUT then
    check_quiet { n with state := res, action := SPA_GRAPH_ACTION_CHECK }
  else if n.action = SPA_GRAPH_ACTION_CHECK then check_quiet n
  else n

/-! ## The reference source (`spa/plugins/test/fakesrc.c`)

The state of one `SpaFakeSrc` handle and the operations on it.  The I/O cell that
`port_set_io` attaches lives in a memory of cells, as for the graph; the buffers are the
slots of the array `buffers`, and the list `empty` links slots of that array, so it is
kept as the sequence of their indices. -/

/-- Modelled from the spec: `SPA_ID_INVALID` of the missing `spa/defs.h`, the "invalid"
sentinel of `buffer_id`, all bits of a `uint32_t` set. -/
def SPA_ID_INVALID : Nat := 4294967295

/-- Modelled from the spec: `SPA_NSEC_PER_SEC` of the missing `spa/defs.h`. -/
def SPA_NSEC_PER_SEC : Nat := 1000000000

/-- The width of the `uint64_t` counters of the source. -/
def UINT64_MOD : Nat := 18446744073709551616

/-- The constant `MAX_BUFFERS`. -/
def MAX_BUFFERS : Nat := 16

/-- The constant `MAX_PORTS`. -/
def MAX_PORTS : Nat := 1

/-- The record `SpaFakeSrcProps`. -/
structure SpaFakeSrcProps where
  live : Bool
  pattern : Nat
  deriving DecidableEq, Repr

/-- Modelled from the spec: the callback table `SpaNodeCallbacks` of the missing
`spa/node.h`; each entry is a function pointer that may be `NULL`. -/
structure SpaNodeCallbacks where
  event : Option Nat
  need_input : Option Nat
  have_output : Option Nat
  reuse_buffer : Option Nat
  deriving DecidableEq, Repr

/-- Modelled from the spec: the header meta `SpaMetaHeader` of the missing `spa/meta.h`,
with the fields the source stamps. -/
structure SpaMetaHeader where
  seq : Nat
  pts : Nat
  dts_offset : Nat
  deriving DecidableEq, Repr

/-- Modelled from the spec: what the source reads and writes of a `SpaBuffer` of the
missing `spa/buffer.h`: its `id`, and of `datas[0]` the `maxsize` and the chunk
(`offset`, `size`, `stride`). -/
structure SpaBuffer where
  id : Nat
  maxsize : Nat
  chunk_offset : Nat
  chunk_size : Nat
  chunk_stride : Nat
  deriving DecidableEq, Repr

/-- The record `struct _Buffer`, a slot of the buffer array: `outbuf` may be `NULL`, `h`
is the header meta of `outbuf` when it has one, and `link` is the membership in the list
`empty`. -/
structure Buffer where
  outbuf : Option SpaBuffer
  outstanding : Bool
  h : Option SpaMetaHeader
  deriving DecidableEq, Repr

/-- The value `it_value` of the `struct itimerspec` the timer is set with. -/
structure Timespec where
  tv_sec : Nat
  tv_nsec : Nat
  deriving DecidableEq, Repr

/-- The record `struct _SpaFakeSrc`, with the memory `io_mem` of the I/O cells that the
pointer `io` leads to.  `data_loop` and `io` may be `NULL`; `timerspec` is the expiry the
timer was last set to by `timerfd_settime`, zero when it is disarmed; `info_flags` is
`info.flags`. -/
structure SpaFakeSrc where
  data_loop : Option Nat
  props : SpaFakeSrcProps
  callbacks : SpaNodeCallbacks
  user_data : Nat
  timerspec : Timespec
  info_flags : Nat
  io : Option Nat
  have_format : Bool
  buffers : List Buffer
  n_buffers : Nat
  started : Bool
  start_time : Nat
  elapsed_time : Nat
  buffer_count : Nat
  empty : List Nat
  underrun : Bool
  io_mem : List SpaPortIO
  deriving DecidableEq, Repr

/-- The function `set_timer`: when there is a `have_output` callback or the source is
live, the timer is set to the next expiry (`enabled`) or disarmed. -/
def set_timer (this : SpaFakeSrc) (enabled : Bool) : SpaFakeSrc :=
  if this.callbacks.have_output.isSome = true ∨ this.props.live = true then
    if enabled = true then
      if this.props.live = true then
        let next_time := (this.start_time + this.elapsed_time) % UINT64_MOD
        { this with timerspec :=
            ⟨next_time / SPA_NSEC_PER_SEC, next_time % SPA_NSEC_PER_SEC⟩ }
      else
        { this with timerspec := ⟨0, 1⟩ }
    else
      { this with timerspec := ⟨0, 0⟩ }
  else this

/-- The function `reuse_buffer`: an outstanding buffer goes back to the tail of `empty`,
and an under-run ends with the timer set again. -/
def reuse_buffer (this : SpaFakeSrc) (id : Nat) : Except SpaFault SpaFakeSrc :=
  match this.buffers[id]? with
  | none => throw SpaFault.bad_pointer
  | some b =>
    if b.outstanding = false then pure this
    else
      let this := { this with
        buffers := this.buffers.set id { b with outstanding := false }
        empty := spa_list_insert_tail this.empty id }
      if this.underrun = true then
        pure { set_timer this true with underrun := false }
      else pure this

/-- The function `read_timer`: with a `have_output` callback or a live source it reads
the timer descriptor, which `fakesrc_init` creates without `TFD_NONBLOCK`.  The
descriptor was last set by `set_timer` to the expiry `timerspec` (at the end of the
previous `fakesrc_make_buffer` or by another caller of `set_timer`), and the read waits
for that expiry: it returns when the timer is set, and blocks for ever when the timer is
disarmed, which is the zero expiry, or was never set. -/
def read_timer (this : SpaFakeSrc) : Except SpaFault Unit :=
  if this.callbacks.have_output.isSome = true ∨ this.props.live = true then
    if this.timerspec = ⟨0, 0⟩ then throw SpaFault.blocked else pure ()
  else pure ()

/-- The statements of `fakesrc_make_buffer` that follow the call of `read_timer`;
`fill_buffer` is empty. -/
def make_buffer_after_read (this : SpaFakeSrc) : Except SpaFault (SpaResult × SpaFakeSrc) :=
  match this.empty with
  | [] => pure (SpaResult.OUT_OF_BUFFERS, { set_timer this false with underrun := true })
  | i :: _ =>
    match this.buffers[i]? with
    | none => throw SpaFault.bad_pointer
    | some b =>
      match b.outbuf with
      | none => throw SpaFault.bad_pointer
      | some outbuf =>
        let n_bytes := outbuf.maxsize
        let outbuf := { outbuf with
          chunk_offset := 0, chunk_size := n_bytes, chunk_stride := n_bytes }
        let h := b.h.map (fun hdr => { hdr with
          seq := this.buffer_count
          pts := (this.start_time + this.elapsed_time) % UINT64_MOD
          dts_offset := 0 })
        let this := { this with
          empty := spa_list_remove this.empty i
          buffers := this.buffers.set i { outbuf := some outbuf, outstanding := true, h := h }
          buffer_count := (this.buffer_count + 1) % UINT64_MOD }
        let this := { this with elapsed_time := this.buffer_count }
        let this := set_timer this true
        match this.io with
        | none => throw SpaFault.bad_pointer
        | some c =>
          if c < this.io_mem.length then
            pure (SpaResult.HAVE_BUFFER, { this with
              io_mem := this.io_mem.set c
                { status := SpaResult.HAVE_BUFFER, buffer_id := outbuf.id } })
          else throw SpaFault.bad_pointer

/-- The function `fakesrc_make_buffer`: `read_timer`, then the rest of the function. -/
def fakesrc_make_buffer (this : SpaFakeSrc) : Except SpaFault (SpaResult × SpaFakeSrc) := do
  read_timer this
  make_buffer_after_read this

/-- The function `spa_fakesrc_node_process_output`. -/
def spa_fakesrc_node_process_output (this : SpaFakeSrc) :
    Except SpaFault (SpaResult × SpaFakeSrc) :=
  match this.io with
  | none => pure (SpaResult.WRONG_STATE, this)
  | some c =>
    match this.io_mem[c]? with
    | none => throw SpaFault.bad_pointer
    | some io =>
      if io.status = SpaResult.HAVE_BUFFER then pure (SpaResult.HAVE_BUFFER, this)
      else do
        let this ← if io.buffer_id ≠ SPA_ID_INVALID then do
            let this ← reuse_buffer this io.buffer_id
            pure { this with
              io_mem := this.io_mem.set c { io with buffer_id := SPA_ID_INVALID } }
          else pure this
        if this.callbacks.have_output = none ∧ io.status = SpaResult.NEED_BUFFER then
          fakesrc_make_buffer this
        else pure (SpaResult.OK, this)

/-- A state of the reference source for the examples: a data loop, slots 0 and 1 of the
buffer array bound to buffers with the ids 0 and 1 (the first with a header meta), the
format set, the node started at time 0, and cell 0 attached; the `have_output` callback,
`props.live`, the `empty` list and the contents of the cell are as given. -/
def fakesrc_demo (have_output : Option Nat) (live : Bool) (empty : List Nat)
    (cell : SpaPortIO) : SpaFakeSrc :=
  { data_loop := some 0
    props := { live := live, pattern := 0 }
    callbacks := { event := none, need_input := none, have_output := have_output,
                   reuse_buffer := none }
    user_data := 0
    timerspec := { tv_sec := 0, tv_nsec := 0 }
    info_flags := 0
    io := some 0
    have_format := true
    buffers := [{ outbuf := some ⟨0, 64, 0, 0, 0⟩, outstanding := false, h := some ⟨0, 0, 0⟩ },
        { outbuf := some ⟨1, 64, 0, 0, 0⟩, outstanding := false, h := none }]
      ++ List.replicate 14 { outbuf := none, outstanding := false, h := none }
    n_buffers := 2
    started := true
    start_time := 0
    elapsed_time := 0
    buffer_count := 0
    empty := empty
    underrun := false
    io_mem := [cell] }

/-- The weight of a node in the termination measure of the scheduling loop: nothing
when its `ready_link` is marked absent; otherwise `base ^ rk i`, counted twice while the
node has yet to run (action `IN` or `OUT`), where `rk i` is the rank of the node. -/
def node_weight (rk : Nat → Nat) (base : Nat) (i : Nat) (n : SpaGraphNode) : Nat :=
  if n.ready_link_next = true then
    (if n.action = SPA_GRAPH_ACTION_IN ∨ n.action = SPA_GRAPH_ACTION_OUT then 2 else 1)
      * base ^ rk i
  else 0

/-- The sum of the weights `w` of the records `mem`, which start at index `k`. -/
def potential_from (w : Nat → SpaGraphNode → Nat) : Nat → List SpaGraphNode → Nat
  | _, [] => 0
  | k, n :: ns => w k n + potential_from w (k + 1) ns

/-- The ready-queue invariant on a queue and a memory of node records: no node is queued
twice, every queued pointer is a node record, and the `ready_link` of a node is marked
present exactly when the node is in the queue. -/
def queue_inv (ready : List Nat) (mem : List SpaGraphNode) : Prop :=
  ready.Nodup ∧ (∀ i ∈ ready, i < mem.length) ∧
    ∀ i n, mem[i]? = some n → (n.ready_link_next = true ↔ i ∈ ready)

/-- The links of a graph are ranked by `rk`: no node is in state `NEED_BUFFER`, no node
has more than `k` output ports, and every output port of every node is linked to a port
that is bound to a cell and belongs to a node of lower rank. -/
def links_ranked {σ : Type} (rk : Nat → Nat) (k : Nat) (g : SpaGraph σ) : Prop :=
  ∀ (i : Nat) (n : SpaGraphNode), g.node_mem[i]? = some n →
    n.state ≠ SpaResult.NEED_BUFFER ∧ n.ports_output.length ≤ k ∧
    ∀ o ∈ n.ports_output, ∃ (po : SpaGraphPort) (q : Nat) (pq : SpaGraphPort) (c : Nat),
      g.port_mem[o]? = some po ∧ po.peer = some q ∧ g.port_mem[q]? = some pq ∧
      pq.io = some c ∧ c < g.io_mem.length ∧ pq.node < g.node_mem.length ∧
      rk pq.node < rk i

/-- A pair of callbacks that never return `NEED_BUFFER`: the node at 0 puts a buffer in
cell 0 and returns `HAVE_BUFFER`; any other node returns `HAVE_BUFFER` and leaves the
cells alone. -/
def sched_relay : SpaGraphNodeFunc Unit := fun node _ io u =>
  if node = 0 then
    (SpaResult.HAVE_BUFFER, io.set 0 { status := SpaResult.HAVE_BUFFER, buffer_id := 0 }, u)
  else
    (SpaResult.HAVE_BUFFER, io, u)

/-- A graph with a feedback link, built with the operations of the graph from zeroed
memory: node 0 is a source with the output port 0; node 1 has the input ports 1 and 3 and
the output port 2; port 0 is linked to port 1 over cell 0, and the output port 2 of node 1
is linked back to its own input port 3 over cell 1.  Both cells have status `OK`. -/
def feedback_graph : Except SpaFault (SpaGraph Unit) := do
  let g : SpaGraph Unit := spa_graph_init
    { nodes := [], ready := [], node_mem := [zero_node, zero_node],
      port_mem := [zero_port, zero_port, zero_port, zero_port],
      io_mem := [{ status := SpaResult.OK, buffer_id := 0 },
        { status := SpaResult.OK, buffer_id := 0 }],
      user := (), calls := [] }
  let g ← spa_graph_node_add g 0 0 0
  let g ← spa_graph_node_add g 1 0 0
  let g ← spa_graph_port_add g 0 0 SpaDirection.OUTPUT 0 0 (some 0)
  let g ← spa_graph_port_add g 1 1 SpaDirection.INPUT 0 0 (some 0)
  let g ← spa_graph_port_add g 1 2 SpaDirection.OUTPUT 0 0 (some 1)
  let g ← spa_graph_port_add g 1 3 SpaDirection.INPUT 1 0 (some 1)
  let g ← spa_graph_port_link g 0 1
  spa_graph_port_link g 2 3

/-- The states that the second `spa_graph_node_schedule (graph, node 0)` on
`feedback_graph` alternates between under `sched_relay`: node 1 is alone in the ready
queue, with action `CHECK` after it has run (`checking`), or with action `IN` and state
`ks` before it runs; `cs` are the invocations so far. -/
def feedback_state (checking : Bool) (cs : List (Nat × SpaGraphNode)) (ks : SpaResult) :
    SpaGraph Unit :=
  { nodes := [0, 1]
    ready := [1]
    node_mem := [
      { ready_link_next := false, ports_input := [], ports_output := [0], flags := 0,
        state := SpaResult.HAVE_BUFFER, action := SPA_GRAPH_ACTION_CHECK, schedule := 0,
        user_data := 0, max_in := 1, required_in := 0, ready_in := 0 },
      { ready_link_next := true, ports_input := [1, 3], ports_output := [2], flags := 0,
        state := if checking then SpaResult.HAVE_BUFFER else ks,
        action := if checking then SPA_GRAPH_ACTION_CHECK else SPA_GRAPH_ACTION_IN,
        schedule := 0, user_data := 0, max_in := 3, required_in := 2, ready_in := 2 }]
    port_mem := [
      { node := 0, direction := SpaDirection.OUTPUT, port_id := 0, flags := 0, io := some 0,
        peer := some 1 },
      { node := 1, direction := SpaDirection.INPUT, port_id := 0, flags := 0, io := some 0,
        peer := some 0 },
      { node := 1, direction := SpaDirection.OUTPUT, port_id := 0, flags := 0, io := some 1,
        peer := some 3 },
      { node := 1, direction := SpaDirection.INPUT, port_id := 1, flags := 0, io := some 1,
        peer := some 2 }]
    io_mem := [{ status := SpaResult.HAVE_BUFFER, buffer_id := 0 },
      { status := SpaResult.OK, buffer_id := 0 }]
    user := ()
    calls := cs }

/-- The function `fakesrc_on_output`, the callback of the timer source.  The loop runs it
when the timer descriptor is readable, that is when the timer has expired, so the `read`
of `read_timer` in `fakesrc_make_buffer` returns at once; the rest of
`fakesrc_make_buffer` makes a buffer without a look at the cell.  The Boolean of the
result tells whether the `have_output` callback of the host is invoked afterwards. -/
def fakesrc_on_output (this : SpaFakeSrc) : Except SpaFault (Bool × SpaFakeSrc) := do
  let r ← make_buffer_after_read this
  pure (decide (r.1 = SpaResult.HAVE_BUFFER ∧ r.2.callbacks.have_output.isSome = true), r.2)

/-- The function `clear_buffers`. -/
def clear_buffers (this : SpaFakeSrc) : SpaFakeSrc :=
  if 0 < this.n_buffers then
    set_timer { this with n_buffers := 0, empty := [], started := false } false
  else this

/-- The macro `CHECK_PORT_NUM`. -/
def CHECK_PORT_NUM (d : SpaDirection) (p : Nat) : Bool :=
  decide (d = SpaDirection.OUTPUT) && decide (p < MAX_PORTS)

/-- The macro `CHECK_PORT`. -/
def CHECK_PORT (this : SpaFakeSrc) (d : SpaDirection) (p : Nat) : Bool :=
  CHECK_PORT_NUM d p && this.io.isSome

/-- The size of `format_buffer`. -/
def FORMAT_BUFFER_SIZE : Nat := 1024

/-- The function `spa_fakesrc_node_port_set_format`.  A format is given by the size of
its POD, `none` is the `NULL` format; the bytes copied to `format_buffer` are not kept. -/
def spa_fakesrc_node_port_set_format (this : SpaFakeSrc) (direction : SpaDirection)
    (port_id _flags : Nat) (format : Option Nat) : SpaResult × SpaFakeSrc :=
  if CHECK_PORT this direction port_id = false then (SpaResult.INVALID_PORT, this)
  else
    match format with
    | none => (SpaResult.OK, clear_buffers { this with have_format := false })
    | some size =>
      if FORMAT_BUFFER_SIZE < size then (SpaResult.ERROR, this)
      else (SpaResult.OK, { this with have_format := true })

/-- The loop of `spa_fakesrc_node_port_use_buffers` over the given buffers, each with the
header meta `spa_buffer_find_meta` finds in it: `count` iterations are left and `i` is the
index of the next one.  Slot `i` of the buffer array takes buffer `i` and goes to the tail
of `empty`; a slot beyond the array or a buffer beyond the given ones is an invalid
pointer. -/
def port_use_buffers_loop (buffers : List (SpaBuffer × Option SpaMetaHeader)) :
    Nat → Nat → SpaFakeSrc → Except SpaFault SpaFakeSrc
  | 0, _, this => pure this
  | count + 1, i, this =>
    match buffers[i]? with
    | none => throw SpaFault.bad_pointer
    | some buf =>
      if i < this.buffers.length then
        port_use_buffers_loop buffers count (i + 1) { this with
          buffers := this.buffers.set i
            { outbuf := some buf.1, outstanding := false, h := buf.2 }
          empty := spa_list_insert_tail this.empty i }
      else throw SpaFault.bad_pointer

/-- The function `spa_fakesrc_node_port_use_buffers`. -/
def spa_fakesrc_node_port_use_buffers (this : SpaFakeSrc) (direction : SpaDirection)
    (port_id : Nat) (buffers : List (SpaBuffer × Option SpaMetaHeader)) (n_buffers : Nat) :
    Except SpaFault (SpaResult × SpaFakeSrc) :=
  if CHECK_PORT this direction port_id = false then pure (SpaResult.INVALID_PORT, this)
  else if this.have_format = false then pure (SpaResult.NO_FORMAT, this)
  else do
    let this ← port_use_buffers_loop buffers n_buffers 0 (clear_buffers this)
    pure (SpaResult.OK, { this with n_buffers := n_buffers, underrun := false })

/-- The function `spa_fakesrc_node_port_reuse_buffer`. -/
def spa_fakesrc_node_port_reuse_buffer (this : SpaFakeSrc) (port_id buffer_id : Nat) :
    Except SpaFault (SpaResult × SpaFakeSrc) :=
  if port_id ≠ 0 then pure (SpaResult.INVALID_PORT, this)
  else if this.n_buffers = 0 then pure (SpaResult.NO_BUFFERS, this)
  else if this.n_buffers ≤ buffer_id then pure (SpaResult.INVALID_BUFFER_ID, this)
  else do
    let this ← reuse_buffer this buffer_id
    pure (SpaResult.OK, this)

/-- Modelled from the spec: the type of a node command, `SPA_COMMAND_TYPE (command)`
compared with the ids `Start` and `Pause` of the missing `spa/command-node.h`. -/
inductive SpaCommandNode where
  | Start
  | Pause
  | other (type : Nat)
  deriving DecidableEq, Repr

/-- The function `spa_fakesrc_node_send_command`; `now` is the monotonic time that
`clock_gettime` returns, in nanoseconds, as `SPA_TIMESPEC_TO_TIME` gives it. -/
def spa_fakesrc_node_send_command (this : SpaFakeSrc) (command : SpaCommandNode) (now : Nat) :
    SpaResult × SpaFakeSrc :=
  match command with
  | SpaCommandNode.Start =>
    if this.have_format = false then (SpaResult.NO_FORMAT, this)
    else if this.n_buffers = 0 then (SpaResult.NO_BUFFERS, this)
    else if this.started = true then (SpaResult.OK, this)
    else
      let this := { this with
        start_time := if this.props.live = true then now % UINT64_MOD else 0
        buffer_count := 0
        elapsed_time := 0
        started := true }
      (SpaResult.OK, set_timer this true)
  | SpaCommandNode.Pause =>
    if this.have_format = false then (SpaResult.NO_FORMAT, this)
    else if this.n_buffers = 0 then (SpaResult.NO_BUFFERS, this)
    else if this.started = false then (SpaResult.OK, this)
    else (SpaResult.OK, set_timer { this with started := false } false)
  | SpaCommandNode.other _ => (SpaResult.NOT_IMPLEMENTED, this)

/-- The function `spa_fakesrc_node_set_callbacks`. -/
def spa_fakesrc_node_set_callbacks (this : SpaFakeSrc) (callbacks : SpaNodeCallbacks)
    (user_data : Nat) : SpaResult × SpaFakeSrc :=
  if this.data_loop = none ∧ callbacks.have_output ≠ none then (SpaResult.ERROR, this)
  else (SpaResult.OK, { this with callbacks := callbacks, user_data := user_data })

/-- A state of the reference source for the examples, as `fakesrc_demo` with the
`outstanding` flags `o0` and `o1` of the two bound buffers, the `underrun` flag and the
timer setting given as well. -/
def fakesrc_pool (have_output : Option Nat) (live : Bool) (o0 o1 : Bool) (empty : List Nat)
    (underrun : Bool) (timer : Timespec) (cell : SpaPortIO) : SpaFakeSrc :=
  { fakesrc_demo have_output live empty cell with
    buffers := [{ outbuf := some ⟨0, 64, 0, 0, 0⟩, outstanding := o0, h := some ⟨0, 0, 0⟩ },
        { outbuf := some ⟨1, 64, 0, 0, 0⟩, outstanding := o1, h := none }]
      ++ List.replicate 14 { outbuf := none, outstanding := false, h := none }
    underrun := underrun
    timerspec := timer }

/-- A run of the reference source in which `k` buffers are made: `productions k s s'`
holds when `s'` is reached from `s` by `k` calls of `fakesrc_make_buffer` that return
`HAVE_BUFFER` (from `spa_fakesrc_node_process_output` or from the timer callback), with
any steps in between that leave `props`, `start_time`, `elapsed_time` and `buffer_count`
alone (the consumer writing the cell, buffers being reused, a call that runs out of
buffers). -/
inductive productions : Nat → SpaFakeSrc → SpaFakeSrc → Prop where
  | start (s : SpaFakeSrc) : productions 0 s s
  | other (k : Nat) (s s1 s2 : SpaFakeSrc) :
      productions k s s1 → s2.props = s1.props → s2.start_time = s1.start_time →
      s2.elapsed_time = s1.elapsed_time → s2.buffer_count = s1.buffer_count →
      productions k s s2
  | make (k : Nat) (s s1 s2 : SpaFakeSrc) :
      productions k s s1 → fakesrc_make_buffer s1 = .ok (SpaResult.HAVE_BUFFER, s2) →
      productions (k + 1) s s2

/-- The write of the consumer to the attached cell: the status becomes `status` and the
`buffer_id` stays as the producer wrote it. -/
def consumer_status (this : SpaFakeSrc) (status : SpaResult) : SpaFakeSrc :=
  match this.io with
  | none => this
  | some c =>
    match this.io_mem[c]? with
    | none => this
    | some v => { this with io_mem := this.io_mem.set c { v with status := status } }

/-- Every buffer bound to a slot of the source has an id other than `SPA_ID_INVALID`. -/
def ids_valid (s : SpaFakeSrc) : Prop :=
  ∀ b ∈ s.buffers, ∀ ob ∈ b.outbuf, ob.id ≠ SPA_ID_INVALID

/-- The attached cell, when its status is `HAVE_BUFFER`, has a `buffer_id` other than
`SPA_ID_INVALID`. -/
def cell_valid (s : SpaFakeSrc) : Prop :=
  ∀ c ∈ s.io, ∀ v ∈ s.io_mem[c]?,
    v.status = SpaResult.HAVE_BUFFER → v.buffer_id ≠ SPA_ID_INVALID

/-! ## The port functions, the properties and the factory of the reference source -/

/-- The function `spa_fakesrc_node_port_enum_formats`: the result code (no format is
enumerated). -/
def spa_fakesrc_node_port_enum_formats (this : SpaFakeSrc) (direction : SpaDirection)
    (port_id : Nat) : SpaResult :=
  if CHECK_PORT this direction port_id = false then SpaResult.INVALID_PORT
  else SpaResult.ENUM_END

/-- Modelled from the spec: `SPA_PORT_INFO_FLAG_CAN_USE_BUFFERS` of the missing
`spa/node.h`, one bit of the port info flag set. -/
def SPA_PORT_INFO_FLAG_CAN_USE_BUFFERS : Nat := 2 ^ 3

/-- Modelled from the spec: `SPA_PORT_INFO_FLAG_NO_REF` of the missing `spa/node.h`, one
bit of the port info flag set. -/
def SPA_PORT_INFO_FLAG_NO_REF : Nat := 2 ^ 5

/-- Modelled from the spec: `SPA_PORT_INFO_FLAG_LIVE` of the missing `spa/node.h`, one
bit of the port info flag set. -/
def SPA_PORT_INFO_FLAG_LIVE : Nat := 2 ^ 6

/-- The function `reset_fakesrc_props`: the defaults `DEFAULT_LIVE` and
`DEFAULT_PATTERN`. -/
def reset_fakesrc_props : SpaFakeSrcProps := { live := false, pattern := 0 }

/-- Modelled from the spec: what `spa_props_query` of the missing `spa/props.h` finds in
a props object, the value of each of the two properties the source asks for when the
object has it with the type asked for. -/
structure SpaProps where
  live : Option Bool
  pattern : Option Nat
  deriving DecidableEq, Repr

/-- The function `spa_fakesrc_node_set_props`; `props` may be `NULL`.  The complement
`~SPA_PORT_INFO_FLAG_LIVE` is taken in the `uint32_t` of `info.flags`. -/
def spa_fakesrc_node_set_props (this : SpaFakeSrc) (props : Option SpaProps) :
    SpaResult × SpaFakeSrc :=
  let this := match props with
    | none => { this with props := reset_fakesrc_props }
    | some q => { this with props :=
        { live := q.live.getD this.props.live
          pattern := q.pattern.getD this.props.pattern } }
  if this.props.live = true then
    (SpaResult.OK, { this with
      info_flags := this.info_flags ||| SPA_PORT_INFO_FLAG_LIVE })
  else
    (SpaResult.OK, { this with
      info_flags := this.info_flags &&& (UINT32_MOD - 1 - SPA_PORT_INFO_FLAG_LIVE) })

/-- Modelled from the spec: the type of a support item as `fakesrc_init` compares it,
`SPA_TYPE__TypeMap`, `SPA_TYPE__Log`, `SPA_TYPE_LOOP__DataLoop` or anything else. -/
inductive SpaSupportType where
  | TypeMap
  | Log
  | DataLoop
  | other
  deriving DecidableEq, Repr

/-- The loop of `fakesrc_init` over the support items: the `map` and the `data_loop`
pointer of the handle after it (`log` only serves the log calls). -/
def init_support : List (SpaSupportType × Option Nat) → Option Nat × Option Nat →
    Option Nat × Option Nat
  | [], acc => acc
  | s :: rest, acc =>
    match s.1 with
    | SpaSupportType.TypeMap => init_support rest (s.2, acc.2)
    | SpaSupportType.Log => init_support rest acc
    | SpaSupportType.DataLoop => init_support rest (acc.1, s.2)
    | SpaSupportType.other => init_support rest acc

/-- The function `fakesrc_init` on the handle memory `this`, whose `map` pointer is `map`
before the call.  The fields the function does not assign keep what the memory held. -/
def fakesrc_init (this : SpaFakeSrc) (map : Option Nat)
    (support : List (SpaSupportType × Option Nat)) : SpaResult × SpaFakeSrc :=
  let found := init_support support (map, this.data_loop)
  let this := { this with data_loop := found.2 }
  if found.1 = none then (SpaResult.ERROR, this)
  else
    let this := { this with
      props := reset_fakesrc_props
      empty := []
      timerspec := ⟨0, 0⟩
      info_flags := SPA_PORT_INFO_FLAG_CAN_USE_BUFFERS ||| SPA_PORT_INFO_FLAG_NO_REF }
    if this.props.live = true then
      (SpaResult.OK, { this with
        info_flags := this.info_flags ||| SPA_PORT_INFO_FLAG_LIVE })
    else (SpaResult.OK, this)

/-- The run of `spa_fakesrc_node_set_props` with each of the given props objects in
turn. -/
def set_props_all : List (Option SpaProps) → SpaFakeSrc → SpaFakeSrc
  | [], this => this
  | q :: rest, this => set_props_all rest (spa_fakesrc_node_set_props this q).2

/-- Modelled from the spec: the interface types `SPA_TYPE__Node` and `SPA_TYPE__Clock`
of the missing `spa/node.h` and `spa/clock.h`. -/
inductive SpaInterfaceType where
  | Node
  | Clock
  deriving DecidableEq, Repr

/-- The table `fakesrc_interfaces`. -/
def fakesrc_interfaces : List SpaInterfaceType :=
  [SpaInterfaceType.Node, SpaInterfaceType.Clock]

/-- The function `fakesrc_enum_interface_info`: the result code and the entry `*info`
is set to. -/
def fakesrc_enum_interface_info (index : Nat) : SpaResult × Option SpaInterfaceType :=
  match index with
  | 0 => (SpaResult.OK, fakesrc_interfaces[index]?)
  | _ => (SpaResult.ENUM_END, none)

/-- The function `spa_fakesrc_get_interface`; `type_node` and `type_clock` are the ids
`this->type.node` and `this->type.clock` the type map gave, and the second component is
the interface `*interface` is set to. -/
def spa_fakesrc_get_interface (type_node type_clock interface_id : Nat) :
    SpaResult × Option SpaInterfaceType :=
  if interface_id = type_node then (SpaResult.OK, some SpaInterfaceType.Node)
  else if interface_id = type_clock then (SpaResult.OK, some SpaInterfaceType.Clock)
  else (SpaResult.UNKNOWN_INTERFACE, none)

/-- The partition of the bound buffers: every element of `empty` is the index of a bound
slot, no slot is in `empty` twice, and a bound slot is in `empty` exactly when its
`outstanding` flag is false. -/
def pool_partition (s : SpaFakeSrc) : Prop :=
  (∀ i ∈ s.empty, i < s.n_buffers) ∧ s.empty.Nodup ∧
  (∀ i, i < s.n_buffers →
    ∃ b : Buffer, s.buffers[i]? = some b ∧ (i ∈ s.empty ↔ b.outstanding = false))

/-- Every port has an attached I/O cell and is linked to a peer: the `node`, `io` and
`peer` pointers of every port record lead to a node record, a cell and a port record. -/
def ports_linked {σ : Type} (g : SpaGraph σ) : Prop :=
  ∀ port ∈ g.port_mem, port.node < g.node_mem.length ∧
    (∃ c, port.io = some c ∧ c < g.io_mem.length) ∧
    (∃ q, port.peer = some q ∧ q < g.port_mem.length)

/-- The pointers of the ready queue and of the port sequences of the nodes lead to node
records and port records. -/
def pointers_valid {σ : Type} (g : SpaGraph σ) : Prop :=
  (∀ h ∈ g.ready, h < g.node_mem.length) ∧
  (∀ n ∈ g.node_mem, ∀ p ∈ n.ports_input ++ n.ports_output, p < g.port_mem.length)

/-! ## Lemmas -/

theorem loop_of_empty {σ : Type} (sched : SpaGraphNodeFunc σ) (node fuel : Nat) (g : SpaGraph σ)
    (h : g.ready = []) : spa_graph_node_schedule_loop sched node fuel g = .ok g := by
  cases fuel <;> simp [spa_graph_node_schedule_loop, h, pure, Except.pure]

theorem loop_of_step {σ : Type} (sched : SpaGraphNodeFunc σ) (node fuel : Nat)
    (g g' : SpaGraph σ) (h : g.ready ≠ [])
    (hs : spa_graph_node_schedule_step sched node g = .ok g') :
    spa_graph_node_schedule_loop sched node (fuel + 1) g
      = spa_graph_node_schedule_loop sched node fuel g' := by
  simp [spa_graph_node_schedule_loop, h, hs, bind, Except.bind]

theorem schedule_of_loop {σ : Type} (sched : SpaGraphNodeFunc σ) (fuel : Nat)
    (g g1 g2 : SpaGraph σ) (node : Nat)
    (he : spa_graph_node_schedule_enter g node = .ok g1)
    (hl : spa_graph_node_schedule_loop sched node fuel g1 = .ok g2)
    (hr : g2.ready = []) :
    spa_graph_node_schedule sched fuel g node = .ok g2 := by
  simp [spa_graph_node_schedule, he, hl, hr, bind, Except.bind, pure, Except.pure]

theorem load_node_eq {σ : Type} {g : SpaGraph σ} {i : Nat} {n : SpaGraphNode}
    (h : g.node_mem[i]? = some n) : load_node g i = .ok n := by
  simp [load_node, h]

theorem load_port_eq {σ : Type} {g : SpaGraph σ} {i : Nat} {p : SpaGraphPort}
    (h : g.port_mem[i]? = some p) : load_port g i = .ok p := by
  simp [load_port, h]

theorem load_io_eq {σ : Type} {g : SpaGraph σ} {c : Nat} {v : SpaPortIO}
    (h : g.io_mem[c]? = some v) : load_io g (some c) = .ok v := by
  simp [load_io, h]

theorem getElem?_set_same {α : Type} {l : List α} {i : Nat} {a : α} (b : α)
    (h : l[i]? = some a) : (l.set i b)[i]? = some b := by
  have hi : i < l.length := by
    rcases List.getElem?_eq_some.mp h with ⟨hi, _⟩
    exact hi
  simp [hi]

theorem ready_insert_eq {σ : Type} (g : SpaGraph σ) (i : Nat) (a : SpaGraphNode)
    (h : g.node_mem[i]? = some a) :
    ready_insert g i = .ok { g with
      ready := g.ready ++ [i]
      node_mem := g.node_mem.set i { a with ready_link_next := true } } := by
  simp [ready_insert, load_node, h, spa_list_insert_tail, bind, Except.bind, pure, Except.pure]

theorem port_check_eq {σ : Type} (g : SpaGraph σ) (port : Nat) (p : SpaGraphPort) (c : Nat)
    (io : SpaPortIO) (n : SpaGraphNode)
    (hp : g.port_mem[port]? = some p) (hc : p.io = some c) (hio : g.io_mem[c]? = some io)
    (hn : g.node_mem[p.node]? = some n) :
    spa_graph_port_check g port = .ok
      (if 0 < n.required_in ∧
          (if io.status = SpaResult.HAVE_BUFFER then (n.ready_in + 1) % UINT32_MOD
            else n.ready_in) = n.required_in then
        { g with
          ready := if n.ready_link_next = true then g.ready else g.ready ++ [p.node]
          node_mem := g.node_mem.set p.node { n with
            ready_in := if io.status = SpaResult.HAVE_BUFFER then (n.ready_in + 1) % UINT32_MOD
              else n.ready_in
            action := SPA_GRAPH_ACTION_IN
            ready_link_next := true } }
      else
        { g with
          ready := if n.ready_link_next = true then g.ready.erase p.node else g.ready
          node_mem := g.node_mem.set p.node { n with
            ready_in := if io.status = SpaResult.HAVE_BUFFER then (n.ready_in + 1) % UINT32_MOD
              else n.ready_in
            ready_link_next := false } }) := by
  simp only [spa_graph_port_check, load_port_eq hp, hc, load_io_eq hio, load_node_eq hn,
    bind, Except.bind, pure, Except.pure]
  have hb : n.ready_link_next = true ∨ n.ready_link_next = false := by
    cases n.ready_link_next <;> simp
  have hset := fun (b : SpaGraphNode) => ready_insert_eq (store_node g p.node b) p.node b
    (getElem?_set_same b hn)
  obtain ⟨q, pi, po, fl, st, ac, sc, ud, mi, rq, ri⟩ := n
  simp only at hb hset ⊢
  rcases hb with rfl | rfl
  · split_ifs <;> simp_all [store_node, spa_list_remove]
  · split_ifs <;> simp_all [store_node, spa_list_remove, List.set_set]

theorem ready_insert_store {σ : Type} (g : SpaGraph σ) (i : Nat) (b : SpaGraphNode)
    (hlt : i < g.node_mem.length) :
    ready_insert (store_node g i b) i = .ok { g with
      ready := g.ready ++ [i]
      node_mem := g.node_mem.set i { b with ready_link_next := true } } := by
  have hb : (store_node g i b).node_mem[i]? = some b := by
    simp [store_node, hlt]
  rw [ready_insert_eq _ _ _ hb]
  simp [store_node, List.set_set]

theorem upstream_node_some {σ : Type} {g : SpaGraph σ} {p u : Nat}
    (h : upstream_node g p = some u) :
    ∃ port q peer, g.port_mem[p]? = some port ∧ port.peer = some q
      ∧ g.port_mem[q]? = some peer ∧ peer.node = u := by
  unfold upstream_node at h
  split at h
  · rename_i port hport
    split at h
    · rename_i q hq
      split at h
      · rename_i peer hpeer
        exact ⟨port, q, peer, hport, hq, hpeer, by simpa using h⟩
      · exact absurd h (by simp)
    · exact absurd h (by simp)
  · exact absurd h (by simp)

theorem port_status_some {σ : Type} {g : SpaGraph σ} {p : Nat} {st : SpaResult}
    (h : port_status g p = some st) :
    ∃ port c v, g.port_mem[p]? = some port ∧ port.io = some c
      ∧ g.io_mem[c]? = some v ∧ v.status = st := by
  unfold port_status at h
  split at h
  · rename_i port hport
    split at h
    · rename_i c hc
      split at h
      · rename_i v hv
        exact ⟨port, c, v, hport, hc, hv, by simpa using h⟩
      · exact absurd h (by simp)
    · exact absurd h (by simp)
  · exact absurd h (by simp)

theorem node_async_set {σ : Type} (g g1 : SpaGraph σ) (i : Nat) (r r1 : SpaGraphNode)
    (hr : g.node_mem[i]? = some r) (hf : r1.flags = r.flags)
    (hm : g1.node_mem = g.node_mem.set i r1) (m : Nat) :
    node_async g1 m = node_async g m := by
  unfold node_async
  rw [hm]
  by_cases hmi : i = m
  · subst hmi
    rw [getElem?_set_same r1 hr, hr]
    simp only [hf]
  · rw [List.getElem?_set_ne hmi]

theorem port_fns_congr {σ : Type} (g g1 : SpaGraph σ) (trigger : Nat)
    (hp : g1.port_mem = g.port_mem) (hi : g1.io_mem = g.io_mem)
    (ha : ∀ m, node_async g1 m = node_async g m) :
    (∀ p, upstream_node g1 p = upstream_node g p) ∧
    (∀ p, port_status g1 p = port_status g p) ∧
    (∀ p, port_wakes g1 trigger p = port_wakes g trigger p) ∧
    (∀ ps, count_ok g1 ps = count_ok g ps) := by
  have h1 : ∀ p, upstream_node g1 p = upstream_node g p := by
    intro p
    simp only [upstream_node, hp]
  have h2 : ∀ p, port_status g1 p = port_status g p := by
    intro p
    simp only [port_status, hp, hi]
  refine ⟨h1, h2, ?_, ?_⟩
  · intro p
    simp only [port_wakes, h1, h2, ha]
  · intro ps
    simp only [count_ok, h2]

theorem count_ok_cons {σ : Type} (g : SpaGraph σ) (p : Nat) (ps : List Nat) :
    count_ok g (p :: ps)
      = if port_status g p = some SpaResult.OK then count_ok g ps + 1 else count_ok g ps := by
  unfold count_ok
  by_cases h : port_status g p = some SpaResult.OK
  · rw [if_pos h, List.filter_cons_of_pos (by simpa using h), List.length_cons]
  · rw [if_neg h, List.filter_cons_of_neg (by simpa using h)]

theorem node_frame_trans (r r1 r2 : SpaGraphNode)
    (h1 : r1 = { r with ready_in := r1.ready_in, action := r1.action,
                        ready_link_next := r1.ready_link_next })
    (h2 : r2 = { r1 with ready_in := r2.ready_in, action := r2.action,
                         ready_link_next := r2.ready_link_next }) :
    r2 = { r with ready_in := r2.ready_in, action := r2.action,
                  ready_link_next := r2.ready_link_next } := by
  rw [h1] at h2
  exact h2

theorem incr32_iterate (k : Nat) (hk : k < UINT32_MOD) : incr32^[k] 0 = k := by
  induction k with
  | zero => rfl
  | succ k ih =>
    rw [Function.iterate_succ_apply', ih (by omega), incr32]
    exact Nat.mod_eq_of_lt hk

theorem need_buffer_loop {σ : Type} (trigger h : Nat) (ps : List Nat) :
    ∀ (g : SpaGraph σ), h < g.node_mem.length →
      (∀ p ∈ ps, ∃ u st, upstream_node g p = some u ∧ u < g.node_mem.length
        ∧ port_status g p = some st) →
      ∃ g' : SpaGraph σ, schedule_need_buffer trigger h ps g = .ok g' ∧
        g'.ready = g.ready ++ ps.filterMap (port_wakes g trigger) ∧
        (∀ m r, g.node_mem[m]? = some r → ∃ r', g'.node_mem[m]? = some r' ∧
          r'.ready_in = (if m = h then incr32^[count_ok g ps] r.ready_in else r.ready_in) ∧
          (if m ∈ ps.filterMap (port_wakes g trigger) then
            r'.action = SPA_GRAPH_ACTION_OUT ∧ r'.ready_link_next = true
          else r'.action = r.action ∧ r'.ready_link_next = r.ready_link_next) ∧
          r' = { r with ready_in := r'.ready_in, action := r'.action,
                        ready_link_next := r'.ready_link_next }) ∧
        g'.node_mem.length = g.node_mem.length ∧
        g'.port_mem = g.port_mem ∧ g'.io_mem = g.io_mem ∧ g'.calls = g.calls ∧
        g'.user = g.user ∧ g'.nodes = g.nodes := by
  induction ps with
  | nil =>
    intro g _ _
    refine ⟨g, rfl, by simp, ?_, rfl, rfl, rfl, rfl, rfl, rfl⟩
    intro m r hr
    refine ⟨r, hr, ?_, ?_, rfl⟩
    · have hz : count_ok g [] = 0 := rfl
      rw [hz]
      split <;> rfl
    · simp
  | cons p ps ih =>
    intro g hh hps
    obtain ⟨u, st, hu, hul, hst⟩ := hps p (List.mem_cons_self _ _)
    obtain ⟨port, q, peer, hport, hq, hpeer, hpn⟩ := upstream_node_some hu
    obtain ⟨port', c, v, hport', hc, hv, hvs⟩ := port_status_some hst
    have hpp : port' = port := by
      rw [hport] at hport'
      exact (Option.some.inj hport').symm
    subst hpp
    subst hpn
    subst hvs
    have hru : g.node_mem[peer.node]? = some (g.node_mem[peer.node]) := by simp [hul]
    have hrh : g.node_mem[h]? = some (g.node_mem[h]) := by simp [hh]
    generalize g.node_mem[peer.node] = ru at hru
    generalize g.node_mem[h] = rh at hrh
    have hps' : ∀ g1 : SpaGraph σ, g1.port_mem = g.port_mem → g1.io_mem = g.io_mem →
        g1.node_mem.length = g.node_mem.length → (∀ m, node_async g1 m = node_async g m) →
        ∀ p ∈ ps, ∃ u st, upstream_node g1 p = some u ∧ u < g1.node_mem.length
          ∧ port_status g1 p = some st := by
      intro g1 e1 e2 e3 e4 p' hp'
      obtain ⟨u', st', a1, a2, a3⟩ := hps p' (List.mem_cons_of_mem _ hp')
      obtain ⟨c1, c2, _, _⟩ := port_fns_congr g g1 trigger e1 e2 e4
      exact ⟨u', st', by rw [c1, a1], by rw [e3]; exact a2, by rw [c2, a3]⟩
    have hstep : schedule_need_buffer trigger h (p :: ps) g =
        if v.status = SpaResult.NEED_BUFFER then
          if peer.node ≠ trigger ∨ flag_set ru.flags SPA_GRAPH_NODE_FLAG_ASYNC = true then
            schedule_need_buffer trigger h ps { g with
              ready := g.ready ++ [peer.node]
              node_mem := g.node_mem.set peer.node { ru with
                action := SPA_GRAPH_ACTION_OUT, ready_link_next := true } }
          else schedule_need_buffer trigger h ps g
        else if v.status = SpaResult.OK then
          schedule_need_buffer trigger h ps
            (store_node g h { rh with ready_in := incr32 rh.ready_in })
        else schedule_need_buffer trigger h ps g := by
      rw [schedule_need_buffer]
      simp only [load_port_eq hport, hq, load_peer, load_port_eq hpeer, hc, load_io_eq hv,
        bind, Except.bind, load_node_eq hru, load_node_eq hrh,
        ready_insert_store g peer.node _ hul, incr32]
    have hcnt := count_ok_cons g p ps
    rw [hst] at hcnt
    have hasync : node_async g peer.node = flag_set ru.flags SPA_GRAPH_NODE_FLAG_ASYNC := by
      simp only [node_async, hru]
    have hwk : port_wakes g trigger p =
        if v.status = SpaResult.NEED_BUFFER ∧
          (peer.node ≠ trigger ∨ flag_set ru.flags SPA_GRAPH_NODE_FLAG_ASYNC = true)
        then some peer.node else none := by
      simp only [port_wakes, hst, hu, hasync]
      by_cases hv1 : v.status = SpaResult.NEED_BUFFER
      · rw [hv1]
        simp [hasync]
      · simp only [hv1, false_and, if_false]
        split <;> simp_all
    rw [hstep]
    by_cases hv1 : v.status = SpaResult.NEED_BUFFER
    · rw [if_pos hv1]
      have hnok : ¬ (some v.status = some SpaResult.OK) := by
        rw [hv1]
        simp
      rw [if_neg hnok] at hcnt
      by_cases hcond : peer.node ≠ trigger ∨ flag_set ru.flags SPA_GRAPH_NODE_FLAG_ASYNC = true
      · rw [if_pos hcond]
        rw [if_pos ⟨hv1, hcond⟩] at hwk
        set ru1 : SpaGraphNode := { ru with
          action := SPA_GRAPH_ACTION_OUT, ready_link_next := true } with hru1
        set g1 : SpaGraph σ := { g with
          ready := g.ready ++ [peer.node]
          node_mem := g.node_mem.set peer.node ru1 } with hg1
        have ha1 := node_async_set g g1 peer.node ru ru1 hru rfl rfl
        obtain ⟨_, _, c3, c4⟩ := port_fns_congr g g1 trigger rfl rfl ha1
        have hfm := List.filterMap_congr (l := ps) (fun x _ => c3 x)
        obtain ⟨g', e1, e2, e3, e4, e5, e6, e7, e8, e9⟩ := ih g1
          (by simpa [g1] using hh) (hps' g1 rfl rfl (by simp [g1]) ha1)
        refine ⟨g', e1, ?_, ?_, ?_, e5, e6, e7, e8, e9⟩
        · rw [e2, List.filterMap_cons_some hwk, hfm]
          simp [g1]
        · intro m r hr
          by_cases hm : m = peer.node
          · subst hm
            have hrr : r = ru := by
              rw [hru] at hr
              exact (Option.some.inj hr).symm
            subst hrr
            obtain ⟨r', f1, f2, f3, f4⟩ := e3 peer.node ru1 (getElem?_set_same ru1 hru)
            refine ⟨r', f1, ?_, ?_, f4⟩
            · rw [hcnt, ← c4 ps]
              exact f2
            · rw [if_pos (by rw [List.filterMap_cons_some hwk]; exact List.mem_cons_self _ _)]
              split at f3 <;> exact f3
          · have hr1 : g1.node_mem[m]? = some r := by
              simp only [g1]
              rw [List.getElem?_set_ne (Ne.symm hm)]
              exact hr
            obtain ⟨r', f1, f2, f3, f4⟩ := e3 m r hr1
            refine ⟨r', f1, ?_, ?_, f4⟩
            · rw [hcnt, ← c4 ps]
              exact f2
            · rw [hfm] at f3
              simp only [List.filterMap_cons_some hwk, List.mem_cons, hm, false_or]
              exact f3
        · rw [e4]
          simp [g1]
      · rw [if_neg hcond]
        rw [if_neg (fun hx => hcond hx.2)] at hwk
        obtain ⟨g', e1, e2, e3, e4, e5, e6, e7, e8, e9⟩ := ih g hh
          (fun p' hp' => hps p' (List.mem_cons_of_mem _ hp'))
        refine ⟨g', e1, ?_, ?_, e4, e5, e6, e7, e8, e9⟩
        · rw [List.filterMap_cons_none hwk]
          exact e2
        · rw [List.filterMap_cons_none hwk, hcnt]
          exact e3
    · rw [if_neg hv1]
      rw [if_neg (fun hx => hv1 hx.1)] at hwk
      by_cases hv2 : v.status = SpaResult.OK
      · rw [if_pos hv2]
        have hok : some v.status = some SpaResult.OK := by rw [hv2]
        rw [if_pos hok] at hcnt
        set rh1 : SpaGraphNode := { rh with ready_in := incr32 rh.ready_in } with hrh1
        set g1 : SpaGraph σ := store_node g h rh1 with hg1
        have ha1 := node_async_set g g1 h rh rh1 hrh rfl rfl
        obtain ⟨_, _, c3, c4⟩ := port_fns_congr g g1 trigger rfl rfl ha1
        have hfm := List.filterMap_congr (l := ps) (fun x _ => c3 x)
        obtain ⟨g', e1, e2, e3, e4, e5, e6, e7, e8, e9⟩ := ih g1
          (by simpa [g1, store_node] using hh) (hps' g1 rfl rfl (by simp [g1, store_node]) ha1)
        refine ⟨g', e1, ?_, ?_, ?_, e5, e6, e7, e8, e9⟩
        · rw [e2, List.filterMap_cons_none hwk, hfm]
          rfl
        · intro m r hr
          by_cases hm : m = h
          · subst hm
            have hrr : r = rh := by
              rw [hrh] at hr
              exact (Option.some.inj hr).symm
            subst hrr
            obtain ⟨r', f1, f2, f3, f4⟩ := e3 m rh1 (getElem?_set_same rh1 hrh)
            refine ⟨r', f1, ?_, ?_, f4⟩
            · rw [if_pos rfl] at f2 ⊢
              rw [hcnt, Function.iterate_succ_apply, ← c4 ps]
              exact f2
            · rw [hfm] at f3
              rw [List.filterMap_cons_none hwk]
              exact f3
          · have hr1 : g1.node_mem[m]? = some r := by
              simp only [g1, store_node]
              rw [List.getElem?_set_ne (Ne.symm hm)]
              exact hr
            obtain ⟨r', f1, f2, f3, f4⟩ := e3 m r hr1
            refine ⟨r', f1, ?_, ?_, f4⟩
            · rw [if_neg hm] at f2 ⊢
              exact f2
            · rw [hfm] at f3
              rw [List.filterMap_cons_none hwk]
              exact f3
        · rw [e4]
          simp [g1, store_node]
      · rw [if_neg hv2]
        have hnok : ¬ (some v.status = some SpaResult.OK) := by
          simpa using hv2
        rw [if_neg hnok] at hcnt
        obtain ⟨g', e1, e2, e3, e4, e5, e6, e7, e8, e9⟩ := ih g hh
          (fun p' hp' => hps p' (List.mem_cons_of_mem _ hp'))
        refine ⟨g', e1, ?_, ?_, e4, e5, e6, e7, e8, e9⟩
        · rw [List.filterMap_cons_none hwk]
          exact e2
        · rw [List.filterMap_cons_none hwk, hcnt]
          exact e3

theorem count_ok_le {σ : Type} (g : SpaGraph σ) (ps : List Nat) : count_ok g ps ≤ ps.length := by
  unfold count_ok
  exact List.length_filter_le _ _

theorem enter_eq {σ : Type} (g : SpaGraph σ) (node : Nat) (n : SpaGraphNode)
    (hn : g.node_mem[node]? = some n) (hq : n.ready_link_next = false) :
    spa_graph_node_schedule_enter g node = .ok { g with
      ready := g.ready ++ [node]
      node_mem := g.node_mem.set node { n with ready_link_next := true } } := by
  simp only [spa_graph_node_schedule_enter, load_node_eq hn, bind, Except.bind, hq, if_true]
  exact ready_insert_eq g node n hn

theorem step_run_eq {σ : Type} (sched : SpaGraphNodeFunc σ) (trigger : Nat)
    (g : SpaGraph σ) (h : Nat) (rest : List Nat) (n : SpaGraphNode)
    (hr : g.ready = h :: rest) (hn : g.node_mem[h]? = some n)
    (ha : n.action = SPA_GRAPH_ACTION_IN ∨ n.action = SPA_GRAPH_ACTION_OUT) :
    spa_graph_node_schedule_step sched trigger g = .ok
      (if n.action = SPA_GRAPH_ACTION_IN ∧ h = trigger then
        { g with
          ready := rest
          io_mem := (sched h { n with ready_link_next := false } g.io_mem g.user).2.1
          user := (sched h { n with ready_link_next := false } g.io_mem g.user).2.2
          calls := g.calls ++ [(h, { n with ready_link_next := false })]
          node_mem := g.node_mem.set h { n with
            ready_link_next := false
            state := (sched h { n with ready_link_next := false } g.io_mem g.user).1 } }
      else
        { g with
          ready := rest ++ [h]
          io_mem := (sched h { n with ready_link_next := false } g.io_mem g.user).2.1
          user := (sched h { n with ready_link_next := false } g.io_mem g.user).2.2
          calls := g.calls ++ [(h, { n with ready_link_next := false })]
          node_mem := g.node_mem.set h { n with
            ready_link_next := true
            action := SPA_GRAPH_ACTION_CHECK
            state := (sched h { n with ready_link_next := false } g.io_mem g.user).1 } }) := by
  have hlen : h < g.node_mem.length := by
    rcases List.getElem?_eq_some.mp hn with ⟨hi, _⟩
    exact hi
  simp only [spa_graph_node_schedule_step, hr, load_node_eq hn, bind, Except.bind, pure,
    Except.pure, ha, if_true, spa_list_remove, List.erase_cons_head]
  by_cases hc : n.action = SPA_GRAPH_ACTION_IN ∧ h = trigger
  · rw [if_pos hc, if_pos hc]
    simp [store_node, List.set_set]
  · rw [if_neg hc, if_neg hc, ready_insert_store _ _ _ (by simp [store_node, hlen])]
    simp [store_node, List.set_set]

theorem step_check_other {σ : Type} (sched : SpaGraphNodeFunc σ) (trigger : Nat)
    (g : SpaGraph σ) (h : Nat) (rest : List Nat) (n : SpaGraphNode)
    (hr : g.ready = h :: rest) (hn : g.node_mem[h]? = some n)
    (ha : n.action = SPA_GRAPH_ACTION_CHECK)
    (hs1 : n.state ≠ SpaResult.NEED_BUFFER) (hs2 : n.state ≠ SpaResult.HAVE_BUFFER) :
    spa_graph_node_schedule_step sched trigger g = .ok { g with
      ready := rest
      node_mem := g.node_mem.set h { n with ready_link_next := false } } := by
  have hno : ¬ (n.action = SPA_GRAPH_ACTION_IN ∨ n.action = SPA_GRAPH_ACTION_OUT) := by
    rw [ha]
    decide
  simp only [spa_graph_node_schedule_step, hr, load_node_eq hn, bind, Except.bind,
    spa_list_remove, List.erase_cons_head, store_node, List.set_set]
  rw [if_neg hno, if_pos ha, if_neg hs1, if_neg hs2]
  rfl

theorem bind_ok {α β : Type} {x : Except SpaFault α} {f : α → Except SpaFault β} {r : β}
    (hxf : (x >>= f) = Except.ok r) : ∃ a : α, x = Except.ok a ∧ f a = Except.ok r :=
  match x, hxf with
  | Except.ok a, hxf => ⟨a, rfl, hxf⟩
  | Except.error _, hxf => by simp [bind, Except.bind] at hxf

theorem load_node_ok {σ : Type} {g : SpaGraph σ} {i : Nat} {n : SpaGraphNode}
    (h : load_node g i = .ok n) : g.node_mem[i]? = some n := by
  unfold load_node at h
  split at h
  · rename_i m hm
    rw [hm]
    exact congrArg some (Except.ok.inj h)
  · exact absurd h (by simp)

theorem load_port_ok {σ : Type} {g : SpaGraph σ} {i : Nat} {p : SpaGraphPort}
    (h : load_port g i = .ok p) : g.port_mem[i]? = some p := by
  unfold load_port at h
  split at h
  · rename_i m hm
    rw [hm]
    exact congrArg some (Except.ok.inj h)
  · exact absurd h (by simp)

theorem load_io_ok {σ : Type} {g : SpaGraph σ} {io : Option Nat} {v : SpaPortIO}
    (h : load_io g io = .ok v) : ∃ c, io = some c ∧ g.io_mem[c]? = some v := by
  unfold load_io at h
  split at h
  · rename_i c
    split at h
    · rename_i w hw
      exact ⟨c, rfl, by rw [hw]; exact congrArg some (Except.ok.inj h)⟩
    · exact absurd h (by simp)
  · exact absurd h (by simp)

theorem port_check_ok {σ : Type} {g g' : SpaGraph σ} {port : Nat}
    (h : spa_graph_port_check g port = .ok g') :
    ∃ p c io n, g.port_mem[port]? = some p ∧ p.io = some c ∧ g.io_mem[c]? = some io
      ∧ g.node_mem[p.node]? = some n := by
  unfold spa_graph_port_check at h
  obtain ⟨p, hp, h⟩ := bind_ok h
  obtain ⟨io, hio, h⟩ := bind_ok h
  obtain ⟨n, hn, _⟩ := bind_ok h
  obtain ⟨c, hc, hv⟩ := load_io_ok hio
  exact ⟨p, c, io, n, load_port_ok hp, hc, hv, load_node_ok hn⟩

theorem map_set_same {α β : Type} (f : α → β) (l : List α) (i : Nat) (a b : α)
    (h : l[i]? = some a) (hf : f b = f a) : (l.set i b).map f = l.map f := by
  apply List.ext_getElem?
  intro j
  rw [List.map_set]
  by_cases hj : i = j
  · subst hj
    have h1 : (l.map f)[i]? = some (f a) := by simp [h]
    rw [getElem?_set_same (f b) h1, h1, hf]
  · rw [List.getElem?_set_ne hj]

theorem counters_inv_of_map {σ τ : Type} (g : SpaGraph σ) (g' : SpaGraph τ)
    (h : g'.node_mem.map node_bounds = g.node_mem.map node_bounds)
    (hi : counters_inv g) : counters_inv g' := by
  intro n' hn'
  have h1 : node_bounds n' ∈ g'.node_mem.map node_bounds := List.mem_map_of_mem _ hn'
  rw [h] at h1
  obtain ⟨n, hn, he⟩ := List.mem_map.mp h1
  have h2 := hi n hn
  simp only [node_bounds, Prod.mk.injEq] at he
  omega

theorem port_check_bounds {σ : Type} {g g' : SpaGraph σ} {port : Nat}
    (h : spa_graph_port_check g port = .ok g') :
    g'.node_mem.map node_bounds = g.node_mem.map node_bounds := by
  obtain ⟨p, c, io, n, hp, hc, hio, hn⟩ := port_check_ok h
  rw [port_check_eq g port p c io n hp hc hio hn] at h
  rw [← Except.ok.inj h]
  by_cases hcond : 0 < n.required_in ∧
      (if io.status = SpaResult.HAVE_BUFFER then (n.ready_in + 1) % UINT32_MOD
        else n.ready_in) = n.required_in
  · rw [if_pos hcond]
    exact map_set_same node_bounds _ _ n _ hn rfl
  · rw [if_neg hcond]
    exact map_set_same node_bounds _ _ n _ hn rfl

theorem ready_insert_bounds {σ : Type} {g g' : SpaGraph σ} {i : Nat}
    (h : ready_insert g i = .ok g') :
    g'.node_mem.map node_bounds = g.node_mem.map node_bounds := by
  unfold ready_insert at h
  obtain ⟨n, hn, h⟩ := bind_ok h
  rw [← Except.ok.inj h]
  exact map_set_same node_bounds _ _ n _ (load_node_ok hn) rfl

theorem store_node_bounds {σ : Type} (g : SpaGraph σ) (i : Nat) (n n' : SpaGraphNode)
    (hn : g.node_mem[i]? = some n) (hb : node_bounds n' = node_bounds n) :
    (store_node g i n').node_mem.map node_bounds = g.node_mem.map node_bounds :=
  map_set_same node_bounds _ _ n _ hn hb

theorem need_buffer_bounds {σ : Type} (trigger n : Nat) (ps : List Nat) :
    ∀ (g g' : SpaGraph σ), schedule_need_buffer trigger n ps g = .ok g' →
      g'.node_mem.map node_bounds = g.node_mem.map node_bounds := by
  induction ps with
  | nil =>
    intro g g' h
    rw [← Except.ok.inj h]
  | cons p ps ih =>
    intro g g' h
    rw [schedule_need_buffer] at h
    obtain ⟨port, _, h⟩ := bind_ok h
    obtain ⟨peer, _, h⟩ := bind_ok h
    obtain ⟨io, _, h⟩ := bind_ok h
    by_cases h1 : io.status = SpaResult.NEED_BUFFER
    · rw [if_pos h1] at h
      obtain ⟨r, hr, h⟩ := bind_ok h
      by_cases h2 : peer.node ≠ trigger ∨ flag_set r.flags SPA_GRAPH_NODE_FLAG_ASYNC = true
      · rw [if_pos h2] at h
        obtain ⟨g1, hg1, h⟩ := bind_ok h
        rw [ih g1 g' h, ready_insert_bounds hg1]
        exact store_node_bounds g _ r _ (load_node_ok hr) rfl
      · rw [if_neg h2] at h
        exact ih g g' h
    · rw [if_neg h1] at h
      by_cases h3 : io.status = SpaResult.OK
      · rw [if_pos h3] at h
        obtain ⟨r, hr, h⟩ := bind_ok h
        rw [ih _ g' h]
        exact store_node_bounds g _ r _ (load_node_ok hr) rfl
      · rw [if_neg h3] at h
        exact ih g g' h

theorem have_buffer_bounds {σ : Type} (ps : List Nat) :
    ∀ (g g' : SpaGraph σ), schedule_have_buffer ps g = .ok g' →
      g'.node_mem.map node_bounds = g.node_mem.map node_bounds := by
  induction ps with
  | nil =>
    intro g g' h
    rw [← Except.ok.inj h]
  | cons p ps ih =>
    intro g g' h
    rw [schedule_have_buffer] at h
    obtain ⟨port, _, h⟩ := bind_ok h
    cases hq : port.peer with
    | none =>
      rw [hq] at h
      exact absurd h (by simp [throw, throwThe, MonadExceptOf.throw])
    | some q =>
      rw [hq] at h
      obtain ⟨g1, hg1, h⟩ := bind_ok h
      rw [ih g1 g' h, port_check_bounds hg1]

theorem step_bounds {σ : Type} (sched : SpaGraphNodeFunc σ) (trigger : Nat)
    (g g' : SpaGraph σ) (h : spa_graph_node_schedule_step sched trigger g = .ok g') :
    g'.node_mem.map node_bounds = g.node_mem.map node_bounds := by
  unfold spa_graph_node_schedule_step at h
  cases hr : g.ready with
  | nil =>
    rw [hr] at h
    rw [← Except.ok.inj h]
  | cons hd rest =>
    rw [hr] at h
    obtain ⟨n, hn, h⟩ := bind_ok h
    have hn' := load_node_ok hn
    simp only at h
    have hfin : ∀ a b : SpaGraphNode, node_bounds b = node_bounds n →
        ((g.node_mem.set hd a).set hd b).map node_bounds = g.node_mem.map node_bounds := by
      intro a b hb
      rw [List.set_set]
      exact map_set_same node_bounds _ _ n _ hn' hb
    by_cases c1 : n.action = SPA_GRAPH_ACTION_IN ∨ n.action = SPA_GRAPH_ACTION_OUT
    · rw [if_pos c1] at h
      by_cases c2 : n.action = SPA_GRAPH_ACTION_IN ∧ hd = trigger
      · rw [if_pos c2] at h
        rw [← Except.ok.inj h]
        exact hfin _ _ rfl
      · rw [if_neg c2] at h
        rw [ready_insert_bounds h]
        simp only [store_node, List.set_set]
        exact map_set_same node_bounds _ _ n _ hn' rfl
    · rw [if_neg c1] at h
      by_cases c3 : n.action = SPA_GRAPH_ACTION_CHECK
      · rw [if_pos c3] at h
        by_cases c4 : n.state = SpaResult.NEED_BUFFER
        · rw [if_pos c4] at h
          rw [need_buffer_bounds _ _ _ _ _ h]
          exact hfin _ _ rfl
        · rw [if_neg c4] at h
          by_cases c5 : n.state = SpaResult.HAVE_BUFFER
          · rw [if_pos c5] at h
            rw [have_buffer_bounds _ _ _ h]
            exact map_set_same node_bounds _ _ n _ hn' rfl
          · rw [if_neg c5] at h
            rw [← Except.ok.inj h]
            exact map_set_same node_bounds _ _ n _ hn' rfl
      · rw [if_neg c3] at h
        rw [← Except.ok.inj h]
        exact map_set_same node_bounds _ _ n _ hn' rfl

theorem loop_bounds {σ : Type} (sched : SpaGraphNodeFunc σ) (trigger : Nat) (fuel : Nat) :
    ∀ (g g' : SpaGraph σ), spa_graph_node_schedule_loop sched trigger fuel g = .ok g' →
      g'.node_mem.map node_bounds = g.node_mem.map node_bounds := by
  induction fuel with
  | zero =>
    intro g g' h
    rw [← Except.ok.inj h]
  | succ k ih =>
    intro g g' h
    rw [spa_graph_node_schedule_loop] at h
    by_cases hr : g.ready = []
    · rw [if_pos hr] at h
      rw [← Except.ok.inj h]
    · rw [if_neg hr] at h
      obtain ⟨g1, hg1, h⟩ := bind_ok h
      rw [ih g1 g' h, step_bounds sched trigger g g1 hg1]

theorem schedule_bounds {σ : Type} (sched : SpaGraphNodeFunc σ) (fuel : Nat)
    (g g' : SpaGraph σ) (node : Nat) (h : spa_graph_node_schedule sched fuel g node = .ok g') :
    g'.node_mem.map node_bounds = g.node_mem.map node_bounds := by
  unfold spa_graph_node_schedule at h
  obtain ⟨g1, hg1, h⟩ := bind_ok h
  obtain ⟨g2, hg2, h⟩ := bind_ok h
  have h12 := loop_bounds sched node fuel g1 g2 hg2
  have h01 : g1.node_mem.map node_bounds = g.node_mem.map node_bounds := by
    unfold spa_graph_node_schedule_enter at hg1
    obtain ⟨n, _, hg1⟩ := bind_ok hg1
    by_cases hq : n.ready_link_next = false
    · rw [if_pos hq] at hg1
      exact ready_insert_bounds hg1
    · rw [if_neg hq] at hg1
      rw [← Except.ok.inj hg1]
  by_cases hr : g2.ready = []
  · rw [if_pos hr] at h
    rw [← Except.ok.inj h, h12, h01]
  · rw [if_neg hr] at h
    exact absurd h (by simp [throw, throwThe, MonadExceptOf.throw])

theorem set_getElem?_self {α : Type} (l : List α) (i : Nat) (a : α) (h : l[i]? = some a) :
    l.set i a = l := by
  apply List.ext_getElem?
  intro j
  by_cases hj : i = j
  · subst hj
    rw [getElem?_set_same a h, h]
  · rw [List.getElem?_set_ne hj]

theorem port_check_port_mem {σ : Type} {g g' : SpaGraph σ} {port : Nat}
    (h : spa_graph_port_check g port = .ok g') : g'.port_mem = g.port_mem := by
  obtain ⟨p, c, io, n, hp, hc, hio, hn⟩ := port_check_ok h
  rw [port_check_eq g port p c io n hp hc hio hn] at h
  rw [← Except.ok.inj h]
  split_ifs <;> rfl

theorem peer_symmetric_set2 (l : List SpaGraphPort) (a b : Nat) (pa pb : SpaGraphPort)
    (hsym : ∀ (p q : Nat) (pr qr : SpaGraphPort), l[p]? = some pr → l[q]? = some qr →
      (pr.peer = some q ↔ qr.peer = some p))
    (ha : a < l.length) (hb : b < l.length)
    (hna : ∀ (q : Nat) (qr : SpaGraphPort), l[q]? = some qr → q ≠ a → q ≠ b →
      qr.peer ≠ some a)
    (hnb : ∀ (q : Nat) (qr : SpaGraphPort), l[q]? = some qr → q ≠ a → q ≠ b →
      qr.peer ≠ some b)
    (hpa : pa.peer = some b ∨ pa.peer = none) (hpb : pb.peer = some a ∨ pb.peer = none)
    (hab : pa.peer = some b ↔ pb.peer = some a) :
    ∀ (p q : Nat) (pr qr : SpaGraphPort), ((l.set a pa).set b pb)[p]? = some pr →
      ((l.set a pa).set b pb)[q]? = some qr → (pr.peer = some q ↔ qr.peer = some p) := by
  have key : ∀ (p : Nat) (pr : SpaGraphPort), ((l.set a pa).set b pb)[p]? = some pr →
      (p = b ∧ pr = pb) ∨ (p ≠ b ∧ p = a ∧ pr = pa) ∨ (p ≠ b ∧ p ≠ a ∧ l[p]? = some pr) := by
    intro p pr hp
    by_cases h1 : b = p
    · subst h1
      rw [List.getElem?_set_self (by simpa using hb)] at hp
      exact Or.inl ⟨rfl, (Option.some.inj hp).symm⟩
    · rw [List.getElem?_set_ne h1] at hp
      by_cases h2 : a = p
      · subst h2
        rw [List.getElem?_set_self ha] at hp
        exact Or.inr (Or.inl ⟨Ne.symm h1, rfl, (Option.some.inj hp).symm⟩)
      · rw [List.getElem?_set_ne h2] at hp
        exact Or.inr (Or.inr ⟨Ne.symm h1, Ne.symm h2, hp⟩)
  intro p q pr qr hp hq
  rcases key p pr hp with ⟨rfl, rfl⟩ | ⟨hpb', rfl, rfl⟩ | ⟨hp1, hp2, hp3⟩ <;>
  rcases key q qr hq with ⟨rfl, rfl⟩ | ⟨hqb', rfl, rfl⟩ | ⟨hq1, hq2, hq3⟩
  · exact Iff.rfl
  · exact hab.symm
  · constructor
    · intro h
      rcases hpb with h' | h'
      · rw [h'] at h
        exact absurd (Option.some.inj h).symm hq2
      · rw [h'] at h
        exact absurd h (by simp)
    · intro h
      exact absurd h (hnb q qr hq3 hq2 hq1)
  · exact hab
  · exact Iff.rfl
  · constructor
    · intro h
      rcases hpa with h' | h'
      · rw [h'] at h
        exact absurd (Option.some.inj h).symm hq1
      · rw [h'] at h
        exact absurd h (by simp)
    · intro h
      exact absurd h (hna q qr hq3 hq2 hq1)
  · constructor
    · intro h
      exact absurd h (hnb p pr hp3 hp2 hp1)
    · intro h
      rcases hpb with h' | h'
      · rw [h'] at h
        exact absurd (Option.some.inj h).symm hp2
      · rw [h'] at h
        exact absurd h (by simp)
  · constructor
    · intro h
      exact absurd h (hna p pr hp3 hp2 hp1)
    · intro h
      rcases hpa with h' | h'
      · rw [h'] at h
        exact absurd (Option.some.inj h).symm hp1
      · rw [h'] at h
        exact absurd h (by simp)
  · exact hsym p q pr qr hp3 hq3

theorem lt_of_getElem? {α : Type} {l : List α} {i : Nat} {a : α} (h : l[i]? = some a) :
    i < l.length := by
  rcases List.getElem?_eq_some.mp h with ⟨hi, _⟩
  exact hi

theorem three_ports_symmetric : peer_symmetric three_ports := by
  intro p q pr qr hp hq
  rcases p with _ | _ | _ | p <;> rcases q with _ | _ | _ | q <;>
    simp [three_ports, zero_port] at hp hq <;> subst hp <;> subst hq <;> simp

theorem s2_state_step (phase : Nat) (cs : List (Nat × SpaGraphNode)) (ss ks : SpaResult)
    (ka : Nat) :
    ∃ (phase' : Nat) (cs' : List (Nat × SpaGraphNode)) (ss' ks' : SpaResult) (ka' : Nat),
      spa_graph_node_schedule_step sched_demo 0 (s2_state phase cs ss ks ka)
        = .ok (s2_state phase' cs' ss' ks' ka') := by
  match phase with
  | 0 => exact ⟨1, _, ss, ks, ka, rfl⟩
  | 1 => exact ⟨2, cs, ss, ks, ka, rfl⟩
  | 2 => exact ⟨3, _, ss, ks, ka, rfl⟩
  | k + 3 =>
    have h3 : s2_state (k + 3) cs ss ks ka = s2_state 3 cs ss ks ka := rfl
    rw [h3]
    exact ⟨0, cs, SpaResult.HAVE_BUFFER, SpaResult.NEED_BUFFER, 0, by with_unfolding_all rfl⟩

theorem s2_state_ready (phase : Nat) (cs : List (Nat × SpaGraphNode)) (ss ks : SpaResult)
    (ka : Nat) : (s2_state phase cs ss ks ka).ready ≠ [] := by
  match phase with
  | 0 => exact List.cons_ne_nil _ _
  | 1 => exact List.cons_ne_nil _ _
  | 2 => exact List.cons_ne_nil _ _
  | k + 3 => exact List.cons_ne_nil _ _

theorem s2_state_loop (fuel : Nat) :
    ∀ (phase : Nat) (cs : List (Nat × SpaGraphNode)) (ss ks : SpaResult) (ka : Nat),
      ∃ (phase' : Nat) (cs' : List (Nat × SpaGraphNode)) (ss' ks' : SpaResult) (ka' : Nat),
        spa_graph_node_schedule_loop sched_demo 0 fuel (s2_state phase cs ss ks ka)
          = .ok (s2_state phase' cs' ss' ks' ka') := by
  induction fuel with
  | zero =>
    intro phase cs ss ks ka
    exact ⟨phase, cs, ss, ks, ka, rfl⟩
  | succ k ih =>
    intro phase cs ss ks ka
    obtain ⟨p1, cs1, ss1, ks1, ka1, h1⟩ := s2_state_step phase cs ss ks ka
    obtain ⟨p2, cs2, ss2, ks2, ka2, h2⟩ := ih p1 cs1 ss1 ks1 ka1
    exact ⟨p2, cs2, ss2, ks2, ka2,
      (loop_of_step sched_demo 0 k _ _ (s2_state_ready phase cs ss ks ka) h1).trans h2⟩

theorem step_check_have {σ : Type} (sched : SpaGraphNodeFunc σ) (trigger : Nat)
    (g : SpaGraph σ) (h : Nat) (rest : List Nat) (n : SpaGraphNode)
    (hr : g.ready = h :: rest) (hn : g.node_mem[h]? = some n)
    (ha : n.action = SPA_GRAPH_ACTION_CHECK) (hs : n.state = SpaResult.HAVE_BUFFER) :
    spa_graph_node_schedule_step sched trigger g
      = schedule_have_buffer n.ports_output { g with
          ready := rest
          node_mem := g.node_mem.set h { n with ready_link_next := false } } := by
  have hno : ¬ (n.action = SPA_GRAPH_ACTION_IN ∨ n.action = SPA_GRAPH_ACTION_OUT) := by
    rw [ha]
    decide
  have hs1 : n.state ≠ SpaResult.NEED_BUFFER := by
    rw [hs]
    decide
  simp only [spa_graph_node_schedule_step, hr, load_node_eq hn, bind, Except.bind,
    spa_list_remove, List.erase_cons_head, store_node, List.set_set]
  rw [if_neg hno, if_pos ha, if_neg hs1, if_pos hs]

theorem have_buffer_single {σ : Type} (g : SpaGraph σ) (o q : Nat) (po : SpaGraphPort)
    (hpo : g.port_mem[o]? = some po) (hpeer : po.peer = some q) :
    schedule_have_buffer [o] g = spa_graph_port_check g q := by
  simp only [schedule_have_buffer, load_port_eq hpo, hpeer, bind, Except.bind, pure,
    Except.pure]
  cases spa_graph_port_check g q <;> rfl

theorem port_check_frame {σ : Type} (g : SpaGraph σ) (port : Nat) (p : SpaGraphPort) (c : Nat)
    (io : SpaPortIO) (n : SpaGraphNode)
    (hp : g.port_mem[port]? = some p) (hc : p.io = some c) (hio : g.io_mem[c]? = some io)
    (hn : g.node_mem[p.node]? = some n) :
    ∃ (g' : SpaGraph σ) (n' : SpaGraphNode),
      spa_graph_port_check g port = .ok g' ∧
      g'.port_mem = g.port_mem ∧ g'.node_mem = g.node_mem.set p.node n' ∧
      g'.nodes = g.nodes ∧ g'.io_mem = g.io_mem ∧ g'.user = g.user ∧ g'.calls = g.calls ∧
      n' = { n with ready_in := n'.ready_in, action := n'.action,
                    ready_link_next := n'.ready_link_next } := by
  have h := port_check_eq g port p c io n hp hc hio hn
  by_cases hcond : 0 < n.required_in ∧
      (if io.status = SpaResult.HAVE_BUFFER then (n.ready_in + 1) % UINT32_MOD
        else n.ready_in) = n.required_in
  · rw [if_pos hcond] at h
    exact ⟨_, _, h, rfl, rfl, rfl, rfl, rfl, rfl, rfl⟩
  · rw [if_neg hcond] at h
    exact ⟨_, _, h, rfl, rfl, rfl, rfl, rfl, rfl, rfl⟩

theorem port_add_unfold {σ : Type} (g : SpaGraph σ) (node port : Nat) (direction : SpaDirection)
    (port_id flags : Nat) (io : Option Nat) (old : SpaGraphPort) (n : SpaGraphNode)
    (hold : g.port_mem[port]? = some old) (hn : g.node_mem[node]? = some n) :
    spa_graph_port_add g node port direction port_id flags io
      = spa_graph_port_check
          (store_node (store_port g port ⟨node, direction, port_id, flags, io, none⟩) node
            (port_add_node n port direction flags)) port := by
  have hn1 : (store_port g port ⟨node, direction, port_id, flags, io, none⟩).node_mem[node]?
      = some n := hn
  simp only [spa_graph_port_add, load_port_eq hold, bind, Except.bind]
  rw [load_node_eq hn1]
  rfl

theorem port_add_node_fields (n : SpaGraphNode) (port : Nat) (direction : SpaDirection)
    (flags : Nat) :
    (port_add_node n port direction flags).ports_input
        = (if direction = SpaDirection.INPUT then n.ports_input ++ [port] else n.ports_input) ∧
      (port_add_node n port direction flags).ports_output
        = (if direction = SpaDirection.INPUT then n.ports_output
            else n.ports_output ++ [port]) ∧
      (port_add_node n port direction flags).max_in = (n.max_in + 1) % UINT32_MOD ∧
      (port_add_node n port direction flags).required_in
        = (if flag_set flags SPA_PORT_INFO_FLAG_OPTIONAL = false
            ∧ direction = SpaDirection.INPUT then (n.required_in + 1) % UINT32_MOD
          else n.required_in) := by
  cases direction <;> by_cases hf : flag_set flags SPA_PORT_INFO_FLAG_OPTIONAL = false <;>
    simp [port_add_node, hf, spa_list_insert_tail]

theorem port_add_eq {σ : Type} (g : SpaGraph σ) (node port : Nat) (direction : SpaDirection)
    (port_id flags c : Nat) (old : SpaGraphPort) (n : SpaGraphNode) (v : SpaPortIO)
    (hold : g.port_mem[port]? = some old) (hn : g.node_mem[node]? = some n)
    (hv : g.io_mem[c]? = some v) :
    ∃ (g' : SpaGraph σ) (n' : SpaGraphNode),
      spa_graph_port_add g node port direction port_id flags (some c) = .ok g' ∧
      g'.port_mem = g.port_mem.set port ⟨node, direction, port_id, flags, some c, none⟩ ∧
      g'.node_mem = g.node_mem.set node n' ∧ g'.nodes = g.nodes ∧ g'.io_mem = g.io_mem ∧
      n'.ports_input = (if direction = SpaDirection.INPUT then n.ports_input ++ [port]
        else n.ports_input) ∧
      n'.ports_output = (if direction = SpaDirection.INPUT then n.ports_output
        else n.ports_output ++ [port]) ∧
      n'.max_in = (n.max_in + 1) % UINT32_MOD ∧
      n'.required_in = (if flag_set flags SPA_PORT_INFO_FLAG_OPTIONAL = false
          ∧ direction = SpaDirection.INPUT then (n.required_in + 1) % UINT32_MOD
        else n.required_in) := by
  have hlt : node < g.node_mem.length := lt_of_getElem? hn
  have hpl : port < g.port_mem.length := lt_of_getElem? hold
  obtain ⟨f1, f2, f3, f4⟩ := port_add_node_fields n port direction flags
  obtain ⟨g', n', e, hpm, hnm, hnodes, hio, _, _, hn'⟩ :=
    port_check_frame
      (store_node (store_port g port ⟨node, direction, port_id, flags, some c, none⟩) node
        (port_add_node n port direction flags)) port
      ⟨node, direction, port_id, flags, some c, none⟩ c v
      (port_add_node n port direction flags)
      (List.getElem?_set_self hpl) rfl hv (List.getElem?_set_self hlt)
  refine ⟨g', n', (port_add_unfold g node port direction port_id flags (some c) old n hold
    hn).trans e, hpm, ?_, hnodes, hio, ?_, ?_, ?_, ?_⟩
  · rw [hnm]
    simp [store_node, store_port, List.set_set]
  · rw [hn']
    exact f1
  · rw [hn']
    exact f2
  · rw [hn']
    exact f3
  · rw [hn']
    exact f4

theorem required_count_congr {σ : Type} (g g' : SpaGraph σ) (ports : List Nat)
    (h : ∀ q ∈ ports, g'.port_mem[q]? = g.port_mem[q]?) :
    required_count g' ports = required_count g ports := by
  unfold required_count
  congr 1
  apply List.filter_congr
  intro q hq
  rw [h q hq]

theorem required_count_append {σ : Type} (g : SpaGraph σ) (ps qs : List Nat) :
    required_count g (ps ++ qs) = required_count g ps + required_count g qs := by
  simp [required_count, List.filter_append]

theorem node_add_eq {σ : Type} (g : SpaGraph σ) (node schedule user_data : Nat)
    (n : SpaGraphNode) (hn : g.node_mem[node]? = some n) :
    spa_graph_node_add g node schedule user_data = .ok { g with
      nodes := g.nodes ++ [node]
      node_mem := g.node_mem.set node ⟨n.ready_link_next, [], [], 0, SpaResult.OK,
        SPA_GRAPH_ACTION_OUT, schedule, user_data, 0, 0, 0⟩ } := by
  simp [spa_graph_node_add, load_node_eq hn, bind, Except.bind, pure, Except.pure, store_node,
    List.set_set, spa_list_insert_tail]

theorem port_remove_eq {σ : Type} (g : SpaGraph σ) (port : Nat) (p : SpaGraphPort)
    (n : SpaGraphNode) (hp : g.port_mem[port]? = some p) (hn : g.node_mem[p.node]? = some n) :
    spa_graph_port_remove g port = .ok { g with
      node_mem := g.node_mem.set p.node { n with
        ports_input := if p.direction = SpaDirection.INPUT then
          spa_list_remove n.ports_input port else n.ports_input
        ports_output := if p.direction = SpaDirection.INPUT then n.ports_output
          else spa_list_remove n.ports_output port } } := by
  cases hd : p.direction <;>
    simp [spa_graph_port_remove, load_port_eq hp, load_node_eq hn, bind, Except.bind, pure,
      Except.pure, store_node, hd]

theorem step_check_need {σ : Type} (sched : SpaGraphNodeFunc σ) (trigger : Nat)
    (g : SpaGraph σ) (h : Nat) (rest : List Nat) (n : SpaGraphNode)
    (hr : g.ready = h :: rest) (hn : g.node_mem[h]? = some n)
    (ha : n.action = SPA_GRAPH_ACTION_CHECK) (hs : n.state = SpaResult.NEED_BUFFER) :
    spa_graph_node_schedule_step sched trigger g
      = schedule_need_buffer trigger h n.ports_input { g with
          ready := rest
          node_mem := g.node_mem.set h { n with ready_link_next := false, ready_in := 0 } } := by
  have hno : ¬ (n.action = SPA_GRAPH_ACTION_IN ∨ n.action = SPA_GRAPH_ACTION_OUT) := by
    rw [ha]
    decide
  simp only [spa_graph_node_schedule_step, hr, load_node_eq hn, bind, Except.bind,
    spa_list_remove, List.erase_cons_head, store_node, List.set_set]
  rw [if_neg hno, if_pos ha, if_pos hs]

theorem step_no_action {σ : Type} (sched : SpaGraphNodeFunc σ) (trigger : Nat)
    (g : SpaGraph σ) (h : Nat) (rest : List Nat) (n : SpaGraphNode)
    (hr : g.ready = h :: rest) (hn : g.node_mem[h]? = some n)
    (h1 : n.action ≠ SPA_GRAPH_ACTION_IN) (h2 : n.action ≠ SPA_GRAPH_ACTION_OUT)
    (h3 : n.action ≠ SPA_GRAPH_ACTION_CHECK) :
    spa_graph_node_schedule_step sched trigger g = .ok { g with
      ready := rest
      node_mem := g.node_mem.set h { n with ready_link_next := false } } := by
  have hno : ¬ (n.action = SPA_GRAPH_ACTION_IN ∨ n.action = SPA_GRAPH_ACTION_OUT) :=
    fun hx => hx.elim h1 h2
  simp only [spa_graph_node_schedule_step, hr, load_node_eq hn, bind, Except.bind,
    spa_list_remove, List.erase_cons_head, store_node, List.set_set]
  rw [if_neg hno, if_neg h3]
  rfl

theorem need_buffer_quiet {σ : Type} (trigger h : Nat) (ps : List Nat) :
    ∀ (g : SpaGraph σ) (n : SpaGraphNode), g.node_mem[h]? = some n →
      (∀ p ∈ ps, port_linked_bound g p) → cells_ok g →
      schedule_need_buffer trigger h ps g = .ok { g with
        node_mem := g.node_mem.set h { n with ready_in := incr32^[ps.length] n.ready_in } } := by
  induction ps with
  | nil =>
    intro g n hn _ _
    have : g.node_mem.set h { n with ready_in := incr32^[([] : List Nat).length] n.ready_in }
        = g.node_mem := set_getElem?_self _ _ _ hn
    rw [this]
    rfl
  | cons p ps ih =>
    intro g n hn hps hok
    obtain ⟨port, q, peer, c, v, a1, a2, a3, a4, a5⟩ := hps p (List.mem_cons_self _ _)
    have hv : v.status = SpaResult.OK := hok v (List.getElem?_mem a5)
    have hne : ¬ v.status = SpaResult.NEED_BUFFER := by
      rw [hv]
      decide
    set n1 : SpaGraphNode := { n with ready_in := (n.ready_in + 1) % UINT32_MOD } with hn1
    have hstep : schedule_need_buffer trigger h (p :: ps) g
        = schedule_need_buffer trigger h ps (store_node g h n1) := by
      rw [schedule_need_buffer]
      simp only [load_port_eq a1, a2, load_peer, load_port_eq a3, a4, load_io_eq a5, bind,
        Except.bind, load_node_eq hn]
      rw [if_neg hne, if_pos hv]
    have hn1' : (store_node g h n1).node_mem[h]? = some n1 := getElem?_set_same n1 hn
    rw [hstep, ih (store_node g h n1) n1 hn1'
      (fun p' hp' => hps p' (List.mem_cons_of_mem _ hp')) hok]
    simp [store_node, List.set_set, hn1, Function.iterate_succ_apply, incr32]

theorem step_of_empty {σ : Type} (sched : SpaGraphNodeFunc σ) (trigger : Nat) (g : SpaGraph σ)
    (h : g.ready = []) : spa_graph_node_schedule_step sched trigger g = .ok g := by
  unfold spa_graph_node_schedule_step
  rw [h]
  rfl

theorem loop_two {σ : Type} (sched : SpaGraphNodeFunc σ) (trigger : Nat)
    (g1 g2 g3 : SpaGraph σ) (h1 : g1.ready ≠ [])
    (e1 : spa_graph_node_schedule_step sched trigger g1 = .ok g2)
    (e2 : spa_graph_node_schedule_step sched trigger g2 = .ok g3) (h3 : g3.ready = []) :
    ∀ fuel, 2 ≤ fuel → spa_graph_node_schedule_loop sched trigger fuel g1 = .ok g3 := by
  intro fuel hf
  obtain ⟨k, rfl⟩ : ∃ k, fuel = k + 2 := ⟨fuel - 2, by omega⟩
  rw [loop_of_step sched trigger (k + 1) g1 g2 h1 e1]
  by_cases h2 : g2.ready = []
  · rw [step_of_empty sched trigger g2 h2] at e2
    cases e2
    exact loop_of_empty sched trigger (k + 1) g2 h2
  · rw [loop_of_step sched trigger k g2 g3 h2 e2]
    exact loop_of_empty sched trigger k g3 h3

theorem check_step_quiet {σ : Type} (sched : SpaGraphNodeFunc σ) (trigger : Nat)
    (g : SpaGraph σ) (h : Nat) (n : SpaGraphNode)
    (hr : g.ready = [h]) (hn : g.node_mem[h]? = some n)
    (ha : n.action = SPA_GRAPH_ACTION_CHECK) (hs : n.state ≠ SpaResult.HAVE_BUFFER)
    (hports : ∀ p ∈ n.ports_input, port_linked_bound g p) (hok : cells_ok g) :
    spa_graph_node_schedule_step sched trigger g = .ok { g with
      ready := []
      node_mem := g.node_mem.set h (check_quiet { n with ready_link_next := false }) } := by
  have hlt : h < g.node_mem.length := lt_of_getElem? hn
  by_cases hs1 : n.state = SpaResult.NEED_BUFFER
  · have e := need_buffer_quiet trigger h n.ports_input
      ({ g with
        ready := []
        node_mem := g.node_mem.set h { n with ready_link_next := false, ready_in := 0 } } :
        SpaGraph σ)
      { n with ready_link_next := false, ready_in := 0 }
      (List.getElem?_set_self hlt) hports hok
    rw [step_check_need sched trigger g h [] n hr hn ha hs1, e]
    simp [check_quiet, hs1, List.set_set]
  · rw [step_check_other sched trigger g h [] n hr hn ha hs1 hs]
    simp [check_quiet, hs1]

theorem schedule_pass_quiet {σ : Type} (sched : SpaGraphNodeFunc σ) (g : SpaGraph σ) (t : Nat)
    (n : SpaGraphNode) (res : SpaResult)
    (hready : g.ready = []) (hn : g.node_mem[t]? = some n) (hidle : n.ready_link_next = false)
    (hports : ∀ p ∈ n.ports_input, port_linked_bound g p) (hok : cells_ok g)
    (hcb : ∀ (r : SpaGraphNode) (u : σ),
      (sched t r g.io_mem u).1 = res ∧ (sched t r g.io_mem u).2.1 = g.io_mem)
    (hres : res ≠ SpaResult.HAVE_BUFFER)
    (hst : n.action = SPA_GRAPH_ACTION_CHECK → n.state ≠ SpaResult.HAVE_BUFFER) :
    ∃ (u' : σ) (cs : List (Nat × SpaGraphNode)) (gE gA : SpaGraph σ),
      (∀ c ∈ cs, c.1 = t) ∧
      spa_graph_node_schedule_enter g t = .ok gE ∧ gE.ready = [t] ∧
      spa_graph_node_schedule_step sched t gE = .ok gA ∧ (∀ m ∈ gA.ready, m = t) ∧
      spa_graph_node_schedule_step sched t gA = .ok { g with
        node_mem := g.node_mem.set t (schedule_quiet res n)
        user := u'
        calls := g.calls ++ cs } ∧
      (∀ fuel, 2 ≤ fuel → spa_graph_node_schedule sched fuel g t = .ok { g with
        node_mem := g.node_mem.set t (schedule_quiet res n)
        user := u'
        calls := g.calls ++ cs }) := by
  have hlt : t < g.node_mem.length := lt_of_getElem? hn
  obtain ⟨q, pi, po, fl, st, ac, sc, ud, mi, rq, ri⟩ := n
  simp only at hidle hst hports
  subst hidle
  set nE : SpaGraphNode := ⟨true, pi, po, fl, st, ac, sc, ud, mi, rq, ri⟩ with hnE
  set gE : SpaGraph σ := { g with ready := [t], node_mem := g.node_mem.set t nE } with hgE
  have e0 : spa_graph_node_schedule_enter g t = .ok gE := by
    rw [enter_eq g t _ hn rfl, hgE, hready]
    rfl
  have hrE : gE.ready = [t] := rfl
  have hmE : gE.node_mem[t]? = some nE := List.getElem?_set_self hlt
  have key : ∀ (u' : σ) (cs : List (Nat × SpaGraphNode)) (gA : SpaGraph σ),
      (∀ c ∈ cs, c.1 = t) →
      spa_graph_node_schedule_step sched t gE = .ok gA → (∀ m ∈ gA.ready, m = t) →
      spa_graph_node_schedule_step sched t gA = .ok { g with
        node_mem := g.node_mem.set t
          (schedule_quiet res ⟨false, pi, po, fl, st, ac, sc, ud, mi, rq, ri⟩)
        user := u'
        calls := g.calls ++ cs } →
      ∃ (u' : σ) (cs : List (Nat × SpaGraphNode)) (gE gA : SpaGraph σ),
        (∀ c ∈ cs, c.1 = t) ∧
        spa_graph_node_schedule_enter g t = .ok gE ∧ gE.ready = [t] ∧
        spa_graph_node_schedule_step sched t gE = .ok gA ∧ (∀ m ∈ gA.ready, m = t) ∧
        spa_graph_node_schedule_step sched t gA = .ok { g with
          node_mem := g.node_mem.set t
            (schedule_quiet res ⟨false, pi, po, fl, st, ac, sc, ud, mi, rq, ri⟩)
          user := u'
          calls := g.calls ++ cs } ∧
        (∀ fuel, 2 ≤ fuel → spa_graph_node_schedule sched fuel g t = .ok { g with
          node_mem := g.node_mem.set t
            (schedule_quiet res ⟨false, pi, po, fl, st, ac, sc, ud, mi, rq, ri⟩)
          user := u'
          calls := g.calls ++ cs }) := by
    intro u' cs gA hcs e1 hA e2
    refine ⟨u', cs, gE, gA, hcs, e0, hrE, e1, hA, e2, ?_⟩
    intro fuel hf
    exact schedule_of_loop sched fuel g gE _ t e0
      (loop_two sched t gE gA _ (List.cons_ne_nil _ _) e1 e2 hready fuel hf) hready
  by_cases hIN : ac = SPA_GRAPH_ACTION_IN
  · -- the trigger is run with `IN` and is not checked
    subst hIN
    obtain ⟨h1, h2⟩ := hcb ⟨false, pi, po, fl, st, SPA_GRAPH_ACTION_IN, sc, ud, mi, rq, ri⟩ g.user
    have e1 := step_run_eq sched t gE t [] nE hrE hmE (Or.inl rfl)
    rw [if_pos ⟨rfl, rfl⟩] at e1
    simp only [hnE, hgE, h1, h2, List.set_set] at e1
    refine key
      (sched t ⟨false, pi, po, fl, st, SPA_GRAPH_ACTION_IN, sc, ud, mi, rq, ri⟩ g.io_mem
        g.user).2.2
      [(t, ⟨false, pi, po, fl, st, SPA_GRAPH_ACTION_IN, sc, ud, mi, rq, ri⟩)] _
      (by simp) e1 (by simp) ?_
    rw [step_of_empty sched t _ rfl]
    simp [schedule_quiet, hready]
  · by_cases hOUT : ac = SPA_GRAPH_ACTION_OUT
    · -- the trigger is run with `OUT` and then checked
      subst hOUT
      obtain ⟨h1, h2⟩ :=
        hcb ⟨false, pi, po, fl, st, SPA_GRAPH_ACTION_OUT, sc, ud, mi, rq, ri⟩ g.user
      have e1 := step_run_eq sched t gE t [] nE hrE hmE (Or.inr rfl)
      rw [if_neg (fun hx => absurd
        (hx.1 : SPA_GRAPH_ACTION_OUT = SPA_GRAPH_ACTION_IN) (by decide))] at e1
      simp only [hnE, hgE, h1, h2, List.set_set, List.nil_append] at e1
      refine key
        (sched t ⟨false, pi, po, fl, st, SPA_GRAPH_ACTION_OUT, sc, ud, mi, rq, ri⟩ g.io_mem
          g.user).2.2
        [(t, ⟨false, pi, po, fl, st, SPA_GRAPH_ACTION_OUT, sc, ud, mi, rq, ri⟩)] _
        (by simp) e1 (by simp) ?_
      have e2 := check_step_quiet sched t
        ({ g with
          ready := [t]
          node_mem := g.node_mem.set t
            ⟨true, pi, po, fl, res, SPA_GRAPH_ACTION_CHECK, sc, ud, mi, rq, ri⟩
          user := (sched t ⟨false, pi, po, fl, st, SPA_GRAPH_ACTION_OUT, sc, ud, mi, rq, ri⟩
            g.io_mem g.user).2.2
          calls := g.calls ++
            [(t, ⟨false, pi, po, fl, st, SPA_GRAPH_ACTION_OUT, sc, ud, mi, rq, ri⟩)] } :
          SpaGraph σ) t
        ⟨true, pi, po, fl, res, SPA_GRAPH_ACTION_CHECK, sc, ud, mi, rq, ri⟩ rfl
        (List.getElem?_set_self hlt) rfl hres hports hok
      rw [e2]
      simp [schedule_quiet, hIN, List.set_set, hready]
    · by_cases hCHECK : ac = SPA_GRAPH_ACTION_CHECK
      · -- the trigger is only checked
        subst hCHECK
        have e1 := check_step_quiet sched t gE t nE hrE hmE rfl (hst rfl) hports hok
        simp only [hnE, hgE, List.set_set] at e1
        refine key g.user [] _ (by simp) e1 (by simp) ?_
        rw [step_of_empty sched t _ rfl]
        simp [schedule_quiet, hIN, hOUT, hready]
      · have e1 := step_no_action sched t gE t [] nE hrE hmE hIN hOUT hCHECK
        simp only [hnE, hgE, List.set_set] at e1
        refine key g.user [] _ (by simp) e1 (by simp) ?_
        rw [step_of_empty sched t _ rfl]
        simp [schedule_quiet, hIN, hOUT, hCHECK, hready]

theorem check_quiet_fields (m : SpaGraphNode) :
    (check_quiet m).ready_link_next = m.ready_link_next ∧
      (check_quiet m).ports_input = m.ports_input ∧ (check_quiet m).state = m.state ∧
      (check_quiet m).action = m.action ∧ check_quiet (check_quiet m) = check_quiet m := by
  unfold check_quiet
  split_ifs <;> simp_all

theorem schedule_quiet_fields (res : SpaResult) (n : SpaGraphNode)
    (hres : res ≠ SpaResult.HAVE_BUFFER)
    (hst : n.action = SPA_GRAPH_ACTION_CHECK → n.state ≠ SpaResult.HAVE_BUFFER) :
    (schedule_quiet res n).ready_link_next = n.ready_link_next ∧
      (schedule_quiet res n).ports_input = n.ports_input ∧
      ((schedule_quiet res n).action = SPA_GRAPH_ACTION_CHECK →
        (schedule_quiet res n).state ≠ SpaResult.HAVE_BUFFER) ∧
      schedule_quiet res (schedule_quiet res n) = schedule_quiet res n := by
  have d1 : ¬ SPA_GRAPH_ACTION_CHECK = SPA_GRAPH_ACTION_IN := by decide
  have d2 : ¬ SPA_GRAPH_ACTION_CHECK = SPA_GRAPH_ACTION_OUT := by decide
  have d3 : ¬ SPA_GRAPH_ACTION_IN = SPA_GRAPH_ACTION_CHECK := by decide
  by_cases hIN : n.action = SPA_GRAPH_ACTION_IN
  · have e : schedule_quiet res n = { n with state := res } := by
      rw [schedule_quiet, if_pos hIN]
    have ha : ({ n with state := res } : SpaGraphNode).action = SPA_GRAPH_ACTION_IN := hIN
    rw [e]
    refine ⟨rfl, rfl, fun hx => absurd (ha.symm.trans hx) d3, ?_⟩
    rw [schedule_quiet, if_pos ha]
  · by_cases hOUT : n.action = SPA_GRAPH_ACTION_OUT
    · obtain ⟨f1, f2, f3, f4, f5⟩ :=
        check_quiet_fields { n with state := res, action := SPA_GRAPH_ACTION_CHECK }
      have e : schedule_quiet res n
          = check_quiet { n with state := res, action := SPA_GRAPH_ACTION_CHECK } := by
        rw [schedule_quiet, if_neg hIN, if_pos hOUT]
      rw [e]
      refine ⟨f1, f2, fun _ => by rw [f3]; exact hres, ?_⟩
      rw [schedule_quiet, if_neg (by rw [f4]; exact d1), if_neg (by rw [f4]; exact d2),
        if_pos f4, f5]
    · obtain ⟨f1, f2, f3, f4, f5⟩ := check_quiet_fields n
      by_cases hCHECK : n.action = SPA_GRAPH_ACTION_CHECK
      · have e : schedule_quiet res n = check_quiet n := by
          rw [schedule_quiet, if_neg hIN, if_neg hOUT, if_pos hCHECK]
        rw [e]
        refine ⟨f1, f2, fun _ => by rw [f3]; exact hst hCHECK, ?_⟩
        rw [schedule_quiet, if_neg (by rw [f4]; exact hIN), if_neg (by rw [f4]; exact hOUT),
          if_pos (by rw [f4]; exact hCHECK), f5]
      · have e : schedule_quiet res n = n := by
          rw [schedule_quiet, if_neg hIN, if_neg hOUT, if_neg hCHECK]
        rw [e]
        exact ⟨rfl, rfl, hst, e⟩

theorem potential_from_set (w : Nat → SpaGraphNode → Nat) (b : SpaGraphNode) :
    ∀ (l : List SpaGraphNode) (k i : Nat) (a : SpaGraphNode), l[i]? = some a →
      potential_from w k (l.set i b) + w (k + i) a = potential_from w k l + w (k + i) b := by
  intro l
  induction l with
  | nil =>
    intro k i a h
    simp at h
  | cons x xs ih =>
    intro k i a h
    cases i with
    | zero =>
      simp only [List.getElem?_cons_zero, Option.some.injEq] at h
      subst h
      simp only [List.set_cons_zero, potential_from, Nat.add_zero]
      omega
    | succ j =>
      simp only [List.getElem?_cons_succ] at h
      have e := ih (k + 1) j a h
      simp only [List.set_cons_succ, potential_from]
      have hk : k + 1 + j = k + (j + 1) := by omega
      rw [hk] at e
      omega

theorem node_weight_le (rk : Nat → Nat) (base i : Nat) (n : SpaGraphNode) :
    node_weight rk base i n ≤ 2 * base ^ rk i := by
  unfold node_weight
  split_ifs <;> omega

theorem queue_inv_push (ready : List Nat) (mem : List SpaGraphNode) (i : Nat)
    (n n' : SpaGraphNode) (h : queue_inv ready mem) (hn : mem[i]? = some n)
    (hq : n.ready_link_next = false) (hq' : n'.ready_link_next = true) :
    queue_inv (ready ++ [i]) (mem.set i n') := by
  obtain ⟨h1, h2, h3⟩ := h
  have hlt : i < mem.length := lt_of_getElem? hn
  have hni : i ∉ ready := fun hm => by
    have := (h3 i n hn).mpr hm
    rw [hq] at this
    exact absurd this (by decide)
  refine ⟨?_, ?_, ?_⟩
  · exact List.Nodup.append h1 (List.nodup_singleton i)
      (fun a ha hb => hni ((List.mem_singleton.mp hb) ▸ ha))
  · intro j hj
    rw [List.length_set]
    rcases List.mem_append.mp hj with hj | hj
    · exact h2 j hj
    · rw [List.mem_singleton.mp hj]
      exact hlt
  · intro j m hm
    by_cases hji : j = i
    · subst hji
      rw [List.getElem?_set_self hlt] at hm
      cases hm
      simp [hq']
    · rw [List.getElem?_set_ne (Ne.symm hji)] at hm
      rw [h3 j m hm]
      simp [hji]

theorem queue_inv_pop (ready : List Nat) (mem : List SpaGraphNode) (i : Nat)
    (n n' : SpaGraphNode) (h : queue_inv ready mem) (hn : mem[i]? = some n)
    (hq' : n'.ready_link_next = false) :
    queue_inv (ready.erase i) (mem.set i n') := by
  obtain ⟨h1, h2, h3⟩ := h
  have hlt : i < mem.length := lt_of_getElem? hn
  refine ⟨h1.erase i, ?_, ?_⟩
  · intro j hj
    rw [List.length_set]
    exact h2 j (List.mem_of_mem_erase hj)
  · intro j m hm
    by_cases hji : j = i
    · subst hji
      rw [List.getElem?_set_self hlt] at hm
      cases hm
      rw [hq']
      simp [List.Nodup.mem_erase_iff h1]
    · rw [List.getElem?_set_ne (Ne.symm hji)] at hm
      rw [h3 j m hm, List.Nodup.mem_erase_iff h1]
      simp [hji]

theorem queue_inv_keep (ready : List Nat) (mem : List SpaGraphNode) (i : Nat)
    (n n' : SpaGraphNode) (h : queue_inv ready mem) (hn : mem[i]? = some n)
    (hq' : n'.ready_link_next = n.ready_link_next) :
    queue_inv ready (mem.set i n') := by
  obtain ⟨h1, h2, h3⟩ := h
  have hlt : i < mem.length := lt_of_getElem? hn
  refine ⟨h1, ?_, ?_⟩
  · intro j hj
    rw [List.length_set]
    exact h2 j hj
  · intro j m hm
    by_cases hji : j = i
    · subst hji
      rw [List.getElem?_set_self hlt] at hm
      cases hm
      rw [hq']
      exact h3 j n hn
    · rw [List.getElem?_set_ne (Ne.symm hji)] at hm
      exact h3 j m hm

theorem links_ranked_set {σ : Type} (rk : Nat → Nat) (k : Nat) (g g' : SpaGraph σ) (i : Nat)
    (n n' : SpaGraphNode) (h : links_ranked rk k g) (hn : g.node_mem[i]? = some n)
    (hs : n'.state ≠ SpaResult.NEED_BUFFER) (ho : n'.ports_output = n.ports_output)
    (hm : g'.node_mem = g.node_mem.set i n') (hp : g'.port_mem = g.port_mem)
    (hio : g'.io_mem.length = g.io_mem.length) : links_ranked rk k g' := by
  have hlt : i < g.node_mem.length := lt_of_getElem? hn
  intro j m hj
  rw [hm] at hj
  have hlen : g'.node_mem.length = g.node_mem.length := by
    rw [hm, List.length_set]
  by_cases hji : j = i
  · subst hji
    rw [List.getElem?_set_self hlt] at hj
    cases hj
    obtain ⟨_, a2, a3⟩ := h j n hn
    rw [ho, hp, hio, hlen]
    exact ⟨hs, a2, a3⟩
  · rw [List.getElem?_set_ne (Ne.symm hji)] at hj
    rw [hp, hio, hlen]
    exact h j m hj

theorem port_check_measure {σ : Type} (rk : Nat → Nat) (base k : Nat) (g : SpaGraph σ) (q : Nat)
    (pq : SpaGraphPort) (c : Nat) (hl : links_ranked rk k g)
    (hq : queue_inv g.ready g.node_mem) (hpq : g.port_mem[q]? = some pq)
    (hc : pq.io = some c) (hcl : c < g.io_mem.length) (hd : pq.node < g.node_mem.length) :
    ∃ g' : SpaGraph σ, spa_graph_port_check g q = .ok g' ∧ links_ranked rk k g' ∧
      queue_inv g'.ready g'.node_mem ∧
      potential_from (node_weight rk base) 0 g'.node_mem
        ≤ potential_from (node_weight rk base) 0 g.node_mem + 2 * base ^ rk pq.node ∧
      g'.port_mem = g.port_mem ∧ g'.io_mem = g.io_mem ∧
      g'.node_mem.length = g.node_mem.length := by
  obtain ⟨io, hio⟩ : ∃ io, g.io_mem[c]? = some io := ⟨_, List.getElem?_eq_getElem hcl⟩
  obtain ⟨nd, hnd⟩ : ∃ nd, g.node_mem[pq.node]? = some nd := ⟨_, List.getElem?_eq_getElem hd⟩
  have e := port_check_eq g q pq c io nd hpq hc hio hnd
  have hst := (hl pq.node nd hnd).1
  by_cases hcond : 0 < nd.required_in ∧
      (if io.status = SpaResult.HAVE_BUFFER then (nd.ready_in + 1) % UINT32_MOD
        else nd.ready_in) = nd.required_in
  · rw [if_pos hcond] at e
    set n1 : SpaGraphNode := { nd with
      ready_in := if io.status = SpaResult.HAVE_BUFFER then (nd.ready_in + 1) % UINT32_MOD
        else nd.ready_in
      action := SPA_GRAPH_ACTION_IN
      ready_link_next := true } with hn1
    refine ⟨_, e, links_ranked_set rk k g _ pq.node nd n1 hl hnd hst rfl rfl rfl rfl, ?_, ?_,
      rfl, rfl, List.length_set _ _ _⟩
    · by_cases hs : nd.ready_link_next = true
      · simp only [hs, if_true]
        exact queue_inv_keep _ _ _ nd n1 hq hnd hs.symm
      · simp only [hs, if_false]
        exact queue_inv_push _ _ _ nd n1 hq hnd (by simpa using hs) rfl
    · have hp := potential_from_set (node_weight rk base) n1 g.node_mem 0 pq.node nd hnd
      have hw := node_weight_le rk base (0 + pq.node) n1
      simp only [Nat.zero_add] at hp hw
      show potential_from (node_weight rk base) 0 (g.node_mem.set pq.node n1) ≤ _
      omega
  · rw [if_neg hcond] at e
    set n1 : SpaGraphNode := { nd with
      ready_in := if io.status = SpaResult.HAVE_BUFFER then (nd.ready_in + 1) % UINT32_MOD
        else nd.ready_in
      ready_link_next := false } with hn1
    refine ⟨_, e, links_ranked_set rk k g _ pq.node nd n1 hl hnd hst rfl rfl rfl rfl, ?_, ?_,
      rfl, rfl, List.length_set _ _ _⟩
    · by_cases hs : nd.ready_link_next = true
      · simp only [hs, if_true]
        exact queue_inv_pop _ _ _ nd n1 hq hnd rfl
      · simp only [hs, if_false]
        have hs' : nd.ready_link_next = false := by simpa using hs
        exact queue_inv_keep _ _ _ nd n1 hq hnd hs'.symm
    · have hp := potential_from_set (node_weight rk base) n1 g.node_mem 0 pq.node nd hnd
      have hw : node_weight rk base pq.node n1 = 0 := by
        simp [node_weight, hn1]
      simp only [Nat.zero_add] at hp
      show potential_from (node_weight rk base) 0 (g.node_mem.set pq.node n1) ≤ _
      omega

theorem have_buffer_measure {σ : Type} (rk : Nat → Nat) (base k r : Nat) (hbase : 0 < base)
    (ps : List Nat) :
    ∀ (g : SpaGraph σ), links_ranked rk k g → queue_inv g.ready g.node_mem →
      (∀ o ∈ ps, ∃ (po : SpaGraphPort) (q : Nat) (pq : SpaGraphPort) (c : Nat),
        g.port_mem[o]? = some po ∧ po.peer = some q ∧ g.port_mem[q]? = some pq ∧
        pq.io = some c ∧ c < g.io_mem.length ∧ pq.node < g.node_mem.length ∧
        rk pq.node < r) →
      ∃ g' : SpaGraph σ, schedule_have_buffer ps g = .ok g' ∧ links_ranked rk k g' ∧
        queue_inv g'.ready g'.node_mem ∧
        potential_from (node_weight rk base) 0 g'.node_mem * base
          ≤ potential_from (node_weight rk base) 0 g.node_mem * base
            + ps.length * (2 * base ^ r) ∧
        g'.port_mem = g.port_mem ∧ g'.io_mem = g.io_mem ∧
        g'.node_mem.length = g.node_mem.length := by
  induction ps with
  | nil =>
    intro g hl hq _
    exact ⟨g, rfl, hl, hq, by simp, rfl, rfl, rfl⟩
  | cons o ps ih =>
    intro g hl hq hps
    obtain ⟨po, q, pq, c, a1, a2, a3, a4, a5, a6, a7⟩ := hps o (List.mem_cons_self _ _)
    obtain ⟨g1, e1, hl1, hq1, hp1, b1, b2, b3⟩ :=
      port_check_measure rk base k g q pq c hl hq a3 a4 a5 a6
    have hps1 : ∀ o' ∈ ps, ∃ (po : SpaGraphPort) (q : Nat) (pq : SpaGraphPort) (c : Nat),
        g1.port_mem[o']? = some po ∧ po.peer = some q ∧ g1.port_mem[q]? = some pq ∧
        pq.io = some c ∧ c < g1.io_mem.length ∧ pq.node < g1.node_mem.length ∧
        rk pq.node < r := by
      intro o' ho'
      rw [b1, b2, b3]
      exact hps o' (List.mem_cons_of_mem _ ho')
    obtain ⟨g2, e2, hl2, hq2, hp2, c1, c2, c3⟩ := ih g1 hl1 hq1 hps1
    have e : schedule_have_buffer (o :: ps) g = .ok g2 := by
      rw [schedule_have_buffer]
      simp only [load_port_eq a1, a2, bind, Except.bind, e1]
      exact e2
    refine ⟨g2, e, hl2, hq2, ?_, c1.trans b1, c2.trans b2, c3.trans b3⟩
    have hpow : base ^ rk pq.node * base ≤ base ^ r := by
      rw [← Nat.pow_succ]
      exact Nat.pow_le_pow_right hbase a7
    have h1 := Nat.mul_le_mul_right base hp1
    simp only [List.length_cons]
    nlinarith [h1, hpow, hp2]

theorem step_measure {σ : Type} (sched : SpaGraphNodeFunc σ)
    (hret : ∀ (h : Nat) (n : SpaGraphNode) (io : List SpaPortIO) (u : σ),
      (sched h n io u).1 ≠ SpaResult.NEED_BUFFER)
    (hcells : ∀ (h : Nat) (n : SpaGraphNode) (io : List SpaPortIO) (u : σ),
      (sched h n io u).2.1.length = io.length)
    (rk : Nat → Nat) (k t : Nat) (g : SpaGraph σ) (hl : links_ranked rk k g)
    (hq : queue_inv g.ready g.node_mem) (hne : g.ready ≠ []) :
    ∃ g' : SpaGraph σ, spa_graph_node_schedule_step sched t g = .ok g' ∧
      links_ranked rk k g' ∧ queue_inv g'.ready g'.node_mem ∧
      potential_from (node_weight rk (2 * k + 2)) 0 g'.node_mem
        < potential_from (node_weight rk (2 * k + 2)) 0 g.node_mem := by
  obtain ⟨h, rest, hr⟩ : ∃ h rest, g.ready = h :: rest := by
    cases hg : g.ready with
    | nil => exact absurd hg hne
    | cons h rest => exact ⟨h, rest, rfl⟩
  have hmem : h ∈ g.ready := by
    rw [hr]
    exact List.mem_cons_self _ _
  have hlt : h < g.node_mem.length := hq.2.1 h hmem
  obtain ⟨n, hn⟩ : ∃ n, g.node_mem[h]? = some n := ⟨_, List.getElem?_eq_getElem hlt⟩
  have hsent : n.ready_link_next = true := (hq.2.2 h n hn).mpr hmem
  have herase : g.ready.erase h = rest := by
    rw [hr]
    exact List.erase_cons_head h rest
  obtain ⟨hst, hk, hports⟩ := hl h n hn
  have hpos : 0 < (2 * k + 2) ^ rk h := Nat.pow_pos (by omega)
  -- the weight of the head before the step
  have hw : node_weight rk (2 * k + 2) h n
      = (if n.action = SPA_GRAPH_ACTION_IN ∨ n.action = SPA_GRAPH_ACTION_OUT then 2 else 1)
        * (2 * k + 2) ^ rk h := by
    simp [node_weight, hsent]
  -- the graph with the head taken off the queue
  set n0 : SpaGraphNode := { n with ready_link_next := false } with hn0
  have hq0 : queue_inv rest (g.node_mem.set h n0) := by
    have := queue_inv_pop g.ready g.node_mem h n n0 hq hn rfl
    rwa [herase] at this
  have hp0 := potential_from_set (node_weight rk (2 * k + 2)) n0 g.node_mem 0 h n hn
  have hw0 : node_weight rk (2 * k + 2) h n0 = 0 := by
    simp [node_weight, hn0]
  simp only [Nat.zero_add] at hp0
  by_cases ha : n.action = SPA_GRAPH_ACTION_IN ∨ n.action = SPA_GRAPH_ACTION_OUT
  · -- the head runs
    have e := step_run_eq sched t g h rest n hr hn ha
    rw [if_pos ha] at hw
    by_cases hc : n.action = SPA_GRAPH_ACTION_IN ∧ h = t
    · rw [if_pos hc] at e
      set n1 : SpaGraphNode := { n with
        ready_link_next := false
        state := (sched h { n with ready_link_next := false } g.io_mem g.user).1 } with hn1
      have hp1 := potential_from_set (node_weight rk (2 * k + 2)) n1 g.node_mem 0 h n hn
      have hw1 : node_weight rk (2 * k + 2) h n1 = 0 := by
        simp [node_weight, hn1]
      simp only [Nat.zero_add] at hp1
      refine ⟨_, e, links_ranked_set rk k g _ h n n1 hl hn (hret _ _ _ _) rfl rfl rfl
        (hcells _ _ _ _), ?_, ?_⟩
      · have := queue_inv_pop g.ready g.node_mem h n n1 hq hn rfl
        rwa [herase] at this
      · show potential_from _ 0 (g.node_mem.set h n1) < _
        omega
    · rw [if_neg hc] at e
      set n1 : SpaGraphNode := { n with
        ready_link_next := true
        action := SPA_GRAPH_ACTION_CHECK
        state := (sched h { n with ready_link_next := false } g.io_mem g.user).1 } with hn1
      have hp1 := potential_from_set (node_weight rk (2 * k + 2)) n1 g.node_mem 0 h n hn
      have hw1 : node_weight rk (2 * k + 2) h n1 = (2 * k + 2) ^ rk h := by
        have hno : ¬ (SPA_GRAPH_ACTION_CHECK = SPA_GRAPH_ACTION_IN
            ∨ SPA_GRAPH_ACTION_CHECK = SPA_GRAPH_ACTION_OUT) := by decide
        simp [node_weight, hn1, hno]
      simp only [Nat.zero_add] at hp1
      refine ⟨_, e, links_ranked_set rk k g _ h n n1 hl hn (hret _ _ _ _) rfl rfl rfl
        (hcells _ _ _ _), ?_, ?_⟩
      · have := queue_inv_push rest (g.node_mem.set h n0) h n0 n1 hq0
          (List.getElem?_set_self hlt) rfl rfl
        rwa [List.set_set] at this
      · show potential_from _ 0 (g.node_mem.set h n1) < _
        omega
  · rw [if_neg ha] at hw
    have hl0 : links_ranked rk k ({ g with ready := rest, node_mem := g.node_mem.set h n0 } :
        SpaGraph σ) :=
      links_ranked_set rk k g _ h n n0 hl hn hst rfl rfl rfl rfl
    by_cases hcheck : n.action = SPA_GRAPH_ACTION_CHECK
    · by_cases hhave : n.state = SpaResult.HAVE_BUFFER
      · -- the cascade over the output ports
        have e := step_check_have sched t g h rest n hr hn hcheck hhave
        obtain ⟨g', e', hl', hq', hp', _, _, _⟩ :=
          have_buffer_measure rk (2 * k + 2) k (rk h) (by omega) n.ports_output
            ({ g with ready := rest, node_mem := g.node_mem.set h n0 } : SpaGraph σ) hl0 hq0
            (by
              intro o ho
              obtain ⟨po, q, pq, c, a1, a2, a3, a4, a5, a6, a7⟩ := hports o ho
              exact ⟨po, q, pq, c, a1, a2, a3, a4, a5, by simpa using a6, a7⟩)
        refine ⟨g', e.trans e', hl', hq', ?_⟩
        have hmul : n.ports_output.length * (2 * (2 * k + 2) ^ rk h)
            ≤ k * (2 * (2 * k + 2) ^ rk h) := Nat.mul_le_mul_right _ hk
        have hp'' : potential_from (node_weight rk (2 * k + 2)) 0 g'.node_mem * (2 * k + 2)
            ≤ potential_from (node_weight rk (2 * k + 2)) 0 (g.node_mem.set h n0) * (2 * k + 2)
              + n.ports_output.length * (2 * (2 * k + 2) ^ rk h) := hp'
        apply Nat.lt_of_mul_lt_mul_right (a := 2 * k + 2)
        nlinarith [hp'', hmul, hp0, hw, hw0, hpos]
      · have e := step_check_other sched t g h rest n hr hn hcheck hst hhave
        refine ⟨_, e, hl0, hq0, ?_⟩
        show potential_from _ 0 (g.node_mem.set h n0) < _
        omega
    · have e := step_no_action sched t g h rest n hr hn (fun hx => ha (Or.inl hx))
        (fun hx => ha (Or.inr hx)) hcheck
      refine ⟨_, e, hl0, hq0, ?_⟩
      show potential_from _ 0 (g.node_mem.set h n0) < _
      omega

theorem loop_measure {σ : Type} (sched : SpaGraphNodeFunc σ)
    (hret : ∀ (h : Nat) (n : SpaGraphNode) (io : List SpaPortIO) (u : σ),
      (sched h n io u).1 ≠ SpaResult.NEED_BUFFER)
    (hcells : ∀ (h : Nat) (n : SpaGraphNode) (io : List SpaPortIO) (u : σ),
      (sched h n io u).2.1.length = io.length)
    (rk : Nat → Nat) (k t : Nat) (fuel : Nat) :
    ∀ (g : SpaGraph σ), links_ranked rk k g → queue_inv g.ready g.node_mem →
      potential_from (node_weight rk (2 * k + 2)) 0 g.node_mem ≤ fuel →
      ∃ g' : SpaGraph σ, spa_graph_node_schedule_loop sched t fuel g = .ok g' ∧
        g'.ready = [] ∧ queue_inv g'.ready g'.node_mem := by
  induction fuel with
  | zero =>
    intro g hl hq hp
    by_cases hr : g.ready = []
    · exact ⟨g, rfl, hr, hq⟩
    · obtain ⟨_, _, _, _, hlt⟩ := step_measure sched hret hcells rk k t g hl hq hr
      omega
  | succ f ih =>
    intro g hl hq hp
    by_cases hr : g.ready = []
    · exact ⟨g, loop_of_empty sched t (f + 1) g hr, hr, hq⟩
    · obtain ⟨g1, e1, hl1, hq1, hlt⟩ := step_measure sched hret hcells rk k t g hl hq hr
      obtain ⟨g2, e2, hr2, hq2⟩ := ih g1 hl1 hq1 (by omega)
      exact ⟨g2, (loop_of_step sched t f g g1 hr e1).trans e2, hr2, hq2⟩

theorem feedback_state_step (checking : Bool) (cs : List (Nat × SpaGraphNode))
    (ks : SpaResult) :
    ∃ (checking' : Bool) (cs' : List (Nat × SpaGraphNode)) (ks' : SpaResult),
      spa_graph_node_schedule_step sched_relay 0 (feedback_state checking cs ks)
        = .ok (feedback_state checking' cs' ks') := by
  cases checking with
  | false => exact ⟨true, _, ks, rfl⟩
  | true => exact ⟨false, cs, SpaResult.HAVE_BUFFER, rfl⟩

theorem feedback_state_loop (fuel : Nat) :
    ∀ (checking : Bool) (cs : List (Nat × SpaGraphNode)) (ks : SpaResult),
      ∃ (checking' : Bool) (cs' : List (Nat × SpaGraphNode)) (ks' : SpaResult),
        spa_graph_node_schedule_loop sched_relay 0 fuel (feedback_state checking cs ks)
          = .ok (feedback_state checking' cs' ks') := by
  induction fuel with
  | zero =>
    intro checking cs ks
    exact ⟨checking, cs, ks, rfl⟩
  | succ k ih =>
    intro checking cs ks
    obtain ⟨c1, cs1, ks1, h1⟩ := feedback_state_step checking cs ks
    obtain ⟨c2, cs2, ks2, h2⟩ := ih c1 cs1 ks1
    exact ⟨c2, cs2, ks2,
      (loop_of_step sched_relay 0 k _ _ (List.cons_ne_nil _ _) h1).trans h2⟩

theorem set_timer_eq (this : SpaFakeSrc) (enabled : Bool) :
    set_timer this enabled = { this with timerspec := (set_timer this enabled).timerspec } := by
  unfold set_timer
  split_ifs <;> rfl

theorem make_buffer_eq (this : SpaFakeSrc) (c i : Nat) (rest : List Nat) (b : Buffer)
    (ob : SpaBuffer) (hio : this.io = some c) (hc : c < this.io_mem.length)
    (hempty : this.empty = i :: rest) (hb : this.buffers[i]? = some b)
    (hob : b.outbuf = some ob) :
    ∃ ts : Timespec, make_buffer_after_read this = .ok (SpaResult.HAVE_BUFFER, { this with
      empty := rest
      buffers := this.buffers.set i
        { outbuf := some { ob with
            chunk_offset := 0, chunk_size := ob.maxsize, chunk_stride := ob.maxsize }
          outstanding := true
          h := b.h.map (fun hdr => { hdr with
            seq := this.buffer_count
            pts := (this.start_time + this.elapsed_time) % UINT64_MOD
            dts_offset := 0 }) }
      buffer_count := (this.buffer_count + 1) % UINT64_MOD
      elapsed_time := (this.buffer_count + 1) % UINT64_MOD
      timerspec := ts
      io_mem := this.io_mem.set c ⟨SpaResult.HAVE_BUFFER, ob.id⟩ }) := by
  unfold make_buffer_after_read set_timer
  simp only [hempty, hb, hob, spa_list_remove, List.erase_cons_head]
  split_ifs <;> simp only [hio, hc, if_true, pure, Except.pure] <;> exact ⟨_, rfl⟩

theorem read_timer_ok (this : SpaFakeSrc)
    (h : this.callbacks.have_output.isSome = true ∨ this.props.live = true →
      this.timerspec ≠ ⟨0, 0⟩) : read_timer this = .ok () := by
  unfold read_timer
  by_cases hg : this.callbacks.have_output.isSome = true ∨ this.props.live = true
  · rw [if_pos hg, if_neg (h hg)]
    rfl
  · rw [if_neg hg]
    rfl

theorem make_buffer_ready (this : SpaFakeSrc)
    (h : this.callbacks.have_output.isSome = true ∨ this.props.live = true →
      this.timerspec ≠ ⟨0, 0⟩) :
    fakesrc_make_buffer this = make_buffer_after_read this := by
  unfold fakesrc_make_buffer
  rw [read_timer_ok this h]
  rfl

theorem make_buffer_blocked (this : SpaFakeSrc)
    (hg : this.callbacks.have_output.isSome = true ∨ this.props.live = true)
    (ht : this.timerspec = ⟨0, 0⟩) :
    fakesrc_make_buffer this = .error SpaFault.blocked := by
  unfold fakesrc_make_buffer read_timer
  rw [if_pos hg, if_pos ht]
  rfl

theorem make_buffer_ok (this : SpaFakeSrc) (x : SpaResult × SpaFakeSrc)
    (h : fakesrc_make_buffer this = .ok x) : make_buffer_after_read this = .ok x := by
  by_cases hr : this.callbacks.have_output.isSome = true ∨ this.props.live = true →
      this.timerspec ≠ ⟨0, 0⟩
  · rw [← make_buffer_ready this hr]
    exact h
  · have hg : this.callbacks.have_output.isSome = true ∨ this.props.live = true := by
      by_contra hn
      exact hr (fun hx => absurd hx hn)
    have ht : this.timerspec = ⟨0, 0⟩ := by
      by_contra hn
      exact hr (fun _ => hn)
    rw [make_buffer_blocked this hg ht] at h
    cases h

theorem make_buffer_spec (this : SpaFakeSrc) (c i : Nat) (rest : List Nat) (b : Buffer)
    (ob : SpaBuffer) (hio : this.io = some c) (hc : c < this.io_mem.length)
    (hempty : this.empty = i :: rest) (hb : this.buffers[i]? = some b)
    (hob : b.outbuf = some ob) :
    ∃ (this' : SpaFakeSrc) (b' : Buffer),
      make_buffer_after_read this = .ok (SpaResult.HAVE_BUFFER, this') ∧
      this'.empty = rest ∧ this'.buffers = this.buffers.set i b' ∧ b'.outstanding = true ∧
      b'.outbuf.map (fun o => o.id) = some ob.id ∧
      b'.h = b.h.map (fun _ => ⟨this.buffer_count,
        (this.start_time + this.elapsed_time) % UINT64_MOD, 0⟩) ∧
      this'.io_mem = this.io_mem.set c ⟨SpaResult.HAVE_BUFFER, ob.id⟩ ∧
      this'.buffer_count = (this.buffer_count + 1) % UINT64_MOD ∧
      this'.elapsed_time = (this.buffer_count + 1) % UINT64_MOD ∧
      this'.callbacks = this.callbacks ∧ this'.props = this.props ∧ this'.io = this.io ∧
      this'.n_buffers = this.n_buffers ∧ this'.underrun = this.underrun ∧
      this'.start_time = this.start_time ∧ this'.started = this.started ∧
      this'.have_format = this.have_format := by
  obtain ⟨ts, hmk⟩ := make_buffer_eq this c i rest b ob hio hc hempty hb hob
  exact ⟨_, _, hmk, rfl, rfl, rfl, rfl, rfl, rfl, rfl, rfl, rfl, rfl, rfl, rfl, rfl, rfl,
    rfl, rfl⟩

theorem set_timer_timerspec (this : SpaFakeSrc) (enabled : Bool) :
    (set_timer this enabled).timerspec
      = (if this.callbacks.have_output.isSome = true ∨ this.props.live = true then
          (if enabled = true then
            (if this.props.live = true then
              ⟨(this.start_time + this.elapsed_time) % UINT64_MOD / SPA_NSEC_PER_SEC,
                (this.start_time + this.elapsed_time) % UINT64_MOD % SPA_NSEC_PER_SEC⟩
            else ⟨0, 1⟩)
          else ⟨0, 0⟩)
        else this.timerspec) := by
  unfold set_timer
  split_ifs <;> rfl

theorem reuse_buffer_eq (this : SpaFakeSrc) (id : Nat) (b : Buffer)
    (hb : this.buffers[id]? = some b) (hout : b.outstanding = true) :
    reuse_buffer this id = .ok { this with
      buffers := this.buffers.set id { b with outstanding := false }
      empty := this.empty ++ [id]
      underrun := false
      timerspec := if this.underrun = true then (set_timer this true).timerspec
        else this.timerspec } := by
  have hne : ¬ b.outstanding = false := by
    rw [hout]
    decide
  simp only [reuse_buffer, hb, if_neg hne, spa_list_insert_tail]
  by_cases hu : this.underrun = true
  · simp only [hu, if_true, pure, Except.pure]
    rw [set_timer_eq]
    simp only [set_timer_timerspec]
  · have hu' : this.underrun = false := by simpa using hu
    simp only [hu', pure, Except.pure]
    rfl

theorem reuse_buffer_idle (this : SpaFakeSrc) (id : Nat) (b : Buffer)
    (hb : this.buffers[id]? = some b) (hout : b.outstanding = false) :
    reuse_buffer this id = .ok this := by
  simp only [reuse_buffer, hb, hout, if_true, pure, Except.pure]

theorem reuse_buffer_spec (this : SpaFakeSrc) (id : Nat) (b : Buffer)
    (hb : this.buffers[id]? = some b) :
    ∃ (this' : SpaFakeSrc) (extra : List Nat),
      reuse_buffer this id = .ok this' ∧ this'.io = this.io ∧ this'.io_mem = this.io_mem ∧
      this'.callbacks = this.callbacks ∧ this'.empty = this.empty ++ extra ∧
      this'.buffers.length = this.buffers.length ∧
      (∀ j, j ≠ id → this'.buffers[j]? = this.buffers[j]?) ∧
      this'.buffers[id]? = some { b with outstanding := false } ∧
      this'.props = this.props ∧
      (this.underrun = false → this'.timerspec = this.timerspec) := by
  have hlt : id < this.buffers.length := lt_of_getElem? hb
  by_cases hout : b.outstanding = true
  · refine ⟨_, [id], reuse_buffer_eq this id b hb hout, rfl, rfl, rfl, rfl,
      List.length_set _ _ _, fun j hj => List.getElem?_set_ne (Ne.symm hj),
      List.getElem?_set_self hlt, rfl, ?_⟩
    intro hu
    have hu' : ¬ this.underrun = true := by
      rw [hu]
      decide
    exact if_neg hu'
  · have hout' : b.outstanding = false := by simpa using hout
    refine ⟨this, [], reuse_buffer_idle this id b hb hout', rfl, rfl, rfl, by simp, rfl,
      fun _ _ => rfl, ?_, rfl, fun _ => rfl⟩
    rw [hb]
    cases b
    simp only at hout'
    subst hout'
    rfl

theorem process_output_reuse (this : SpaFakeSrc) (c : Nat) (io : SpaPortIO)
    (hio : this.io = some c) (hcell : this.io_mem[c]? = some io)
    (hst : io.status ≠ SpaResult.HAVE_BUFFER)
    (hid : io.buffer_id = SPA_ID_INVALID ∨ io.buffer_id < this.buffers.length) :
    ∃ (t : SpaFakeSrc) (extra : List Nat),
      spa_fakesrc_node_process_output this
        = (if t.callbacks.have_output = none ∧ io.status = SpaResult.NEED_BUFFER then
            fakesrc_make_buffer t
          else .ok (SpaResult.OK, t)) ∧
      t.io = this.io ∧ t.io_mem.length = this.io_mem.length ∧
      t.io_mem[c]? = some ⟨io.status, SPA_ID_INVALID⟩ ∧
      (∀ d, d ≠ c → t.io_mem[d]? = this.io_mem[d]?) ∧
      t.callbacks = this.callbacks ∧ t.empty = this.empty ++ extra ∧
      (extra = [] ∨ extra = [io.buffer_id]) ∧
      t.buffers.length = this.buffers.length ∧
      (∀ j, j ≠ io.buffer_id → t.buffers[j]? = this.buffers[j]?) ∧
      (∀ (j : Nat) (b : Buffer), this.buffers[j]? = some b →
        t.buffers[j]? = some b ∨ t.buffers[j]? = some { b with outstanding := false }) ∧
      t.props = this.props ∧
      (this.underrun = false → t.timerspec = this.timerspec) := by
  have hc : c < this.io_mem.length := lt_of_getElem? hcell
  by_cases hinv : io.buffer_id = SPA_ID_INVALID
  · refine ⟨this, [], ?_, rfl, rfl, ?_, fun _ _ => rfl, rfl, by simp, Or.inl rfl, rfl,
      fun _ _ => rfl, fun j b hj => Or.inl hj, rfl, fun _ => rfl⟩
    · simp only [spa_fakesrc_node_process_output, hio, hcell, if_neg hst, hinv, ne_eq,
        not_true_eq_false, if_false, bind, Except.bind, pure, Except.pure]
    · rw [hcell, ← hinv]
  · have hlt : io.buffer_id < this.buffers.length := hid.resolve_left hinv
    obtain ⟨b, hb⟩ : ∃ b, this.buffers[io.buffer_id]? = some b :=
      ⟨_, List.getElem?_eq_getElem hlt⟩
    obtain ⟨s, extra, e, a1, a2, a3, a4, a5, a6, a7, a8, a9⟩ :=
      reuse_buffer_spec this io.buffer_id b hb
    refine ⟨{ s with io_mem := s.io_mem.set c { io with buffer_id := SPA_ID_INVALID } }, extra,
      ?_, a1, ?_, ?_, ?_, a3, a4, ?_, a5, a6, ?_, a8, a9⟩
    · simp only [spa_fakesrc_node_process_output, hio, hcell, if_neg hst, ne_eq, hinv,
        not_false_eq_true, if_true, bind, Except.bind, e, pure, Except.pure]
    · simp [a2]
    · exact List.getElem?_set_self (by rw [a2]; exact hc)
    · intro d hd
      show (s.io_mem.set c _)[d]? = _
      rw [List.getElem?_set_ne (Ne.symm hd), a2]
    · by_cases hout : b.outstanding = true
      · rw [reuse_buffer_eq this io.buffer_id b hb hout] at e
        cases e
        exact Or.inr (List.append_cancel_left a4).symm
      · have hout' : b.outstanding = false := by simpa using hout
        rw [reuse_buffer_idle this io.buffer_id b hb hout'] at e
        cases e
        exact Or.inl (List.append_cancel_left (a4.symm.trans (List.append_nil _).symm))
    · intro j bj hj
      by_cases hji : j = io.buffer_id
      · subst hji
        rw [hb] at hj
        cases hj
        exact Or.inr a7
      · exact Or.inl ((a6 j hji).trans hj)

theorem make_buffer_timer (this : SpaFakeSrc) (c i : Nat) (rest : List Nat) (b : Buffer)
    (ob : SpaBuffer) (hio : this.io = some c) (hc : c < this.io_mem.length)
    (hempty : this.empty = i :: rest) (hb : this.buffers[i]? = some b)
    (hob : b.outbuf = some ob) :
    make_buffer_after_read this = .ok (SpaResult.HAVE_BUFFER, { this with
      empty := rest
      buffers := this.buffers.set i
        { outbuf := some { ob with
            chunk_offset := 0, chunk_size := ob.maxsize, chunk_stride := ob.maxsize }
          outstanding := true
          h := b.h.map (fun hdr => { hdr with
            seq := this.buffer_count
            pts := (this.start_time + this.elapsed_time) % UINT64_MOD
            dts_offset := 0 }) }
      buffer_count := (this.buffer_count + 1) % UINT64_MOD
      elapsed_time := (this.buffer_count + 1) % UINT64_MOD
      timerspec :=
        if this.callbacks.have_output.isSome = true ∨ this.props.live = true then
          (if this.props.live = true then
            ⟨(this.start_time + (this.buffer_count + 1) % UINT64_MOD) % UINT64_MOD
                / SPA_NSEC_PER_SEC,
              (this.start_time + (this.buffer_count + 1) % UINT64_MOD) % UINT64_MOD
                % SPA_NSEC_PER_SEC⟩
          else ⟨0, 1⟩)
        else this.timerspec
      io_mem := this.io_mem.set c ⟨SpaResult.HAVE_BUFFER, ob.id⟩ }) := by
  unfold make_buffer_after_read set_timer
  simp only [hempty, hb, hob, spa_list_remove, List.erase_cons_head]
  split_ifs <;> simp only [hio, hc, if_true, pure, Except.pure]

theorem make_buffer_inv (this this' : SpaFakeSrc)
    (h : make_buffer_after_read this = .ok (SpaResult.HAVE_BUFFER, this')) :
    ∃ (c i : Nat) (rest : List Nat) (b : Buffer) (ob : SpaBuffer),
      this.io = some c ∧ c < this.io_mem.length ∧ this.empty = i :: rest ∧
      this.buffers[i]? = some b ∧ b.outbuf = some ob := by
  cases he : this.empty with
  | nil =>
    simp [make_buffer_after_read, he, pure, Except.pure] at h
  | cons i rest =>
    cases hb : this.buffers[i]? with
    | none =>
      simp [make_buffer_after_read, he, hb, throw, throwThe, MonadExceptOf.throw] at h
    | some b =>
      cases hob : b.outbuf with
      | none =>
        simp [make_buffer_after_read, he, hb, hob, throw, throwThe, MonadExceptOf.throw] at h
      | some ob =>
        cases hio : this.io with
        | none =>
          unfold make_buffer_after_read set_timer at h
          simp only [he, hb, hob] at h
          split_ifs at h <;>
            simp [hio, throw, throwThe, MonadExceptOf.throw] at h
        | some c =>
          by_cases hc : c < this.io_mem.length
          · exact ⟨c, i, rest, b, ob, rfl, hc, rfl, hb, hob⟩
          · unfold make_buffer_after_read set_timer at h
            simp only [he, hb, hob] at h
            split_ifs at h <;>
              simp [hio, hc, throw, throwThe, MonadExceptOf.throw] at h

theorem productions_count (k : Nat) (s s' : SpaFakeSrc) (h : productions k s s')
    (hc : s.buffer_count = 0) (he : s.elapsed_time = 0) :
    s'.props = s.props ∧ s'.start_time = s.start_time ∧
      s'.buffer_count = k % UINT64_MOD ∧ s'.elapsed_time = k % UINT64_MOD := by
  induction h with
  | start s0 => exact ⟨rfl, rfl, by rw [hc]; rfl, by rw [he]; rfl⟩
  | other k s0 s1 s2 _ h1 h2 h3 h4 ih =>
    obtain ⟨a1, a2, a3, a4⟩ := ih hc he
    exact ⟨h1.trans a1, h2.trans a2, h4.trans a3, h3.trans a4⟩
  | make k s0 s1 s2 _ hm ih =>
    obtain ⟨a1, a2, a3, a4⟩ := ih hc he
    have hm' := make_buffer_ok s1 _ hm
    obtain ⟨c, i, rest, b, ob, b1, b2, b3, b4, b5⟩ := make_buffer_inv s1 s2 hm'
    obtain ⟨t, _, hmk, _, _, _, _, _, _, c7, c8, _, c10, _, _, _, c14, _⟩ :=
      make_buffer_spec s1 c i rest b ob b1 b2 b3 b4 b5
    rw [hm'] at hmk
    cases hmk
    refine ⟨c10.trans a1, c14.trans a2, ?_, ?_⟩
    · rw [c7, a3, Nat.add_mod, Nat.mod_mod, ← Nat.add_mod]
    · rw [c8, a3, Nat.add_mod, Nat.mod_mod, ← Nat.add_mod]

theorem use_buffers_loop_spec (bufs : List (SpaBuffer × Option SpaMetaHeader)) (count : Nat) :
    ∀ (i : Nat) (this : SpaFakeSrc), i + count ≤ this.buffers.length →
      i + count ≤ bufs.length →
      ∃ this' : SpaFakeSrc, port_use_buffers_loop bufs count i this = .ok this' ∧
        this'.empty = this.empty ++ List.range' i count ∧
        this'.buffers.length = this.buffers.length ∧
        (∀ j, (j < i ∨ i + count ≤ j) → this'.buffers[j]? = this.buffers[j]?) ∧
        (∀ (j : Nat) (buf : SpaBuffer × Option SpaMetaHeader), i ≤ j → j < i + count →
          bufs[j]? = some buf → this'.buffers[j]? = some ⟨some buf.1, false, buf.2⟩) ∧
        this' = { this with buffers := this'.buffers, empty := this'.empty } := by
  induction count with
  | zero =>
    intro i this _ _
    refine ⟨this, rfl, by simp, rfl, fun _ _ => rfl, ?_, rfl⟩
    intro j buf h1 h2
    omega
  | succ k ih =>
    intro i this h1 h2
    obtain ⟨buf, hbuf⟩ : ∃ buf, bufs[i]? = some buf :=
      ⟨_, List.getElem?_eq_getElem (by omega)⟩
    have hi : i < this.buffers.length := by omega
    obtain ⟨t, e, a1, a2, a3, a4, a5⟩ := ih (i + 1)
      { this with
        buffers := this.buffers.set i { outbuf := some buf.1, outstanding := false, h := buf.2 }
        empty := spa_list_insert_tail this.empty i }
      (by simp only [List.length_set]; omega) (by omega)
    refine ⟨t, ?_, ?_, ?_, ?_, ?_, ?_⟩
    · rw [port_use_buffers_loop]
      simp only [hbuf, hi, if_true]
      exact e
    · rw [a1]
      simp [spa_list_insert_tail, List.range'_succ]
    · rw [a2]
      exact List.length_set _ _ _
    · intro j hj
      rw [a3 j (by omega)]
      exact List.getElem?_set_ne (by omega)
    · intro j bj hj1 hj2 hbj
      by_cases hji : j = i
      · subst hji
        rw [a3 j (Or.inl (by omega))]
        rw [hbuf] at hbj
        cases hbj
        exact List.getElem?_set_self hi
      · exact a4 j bj (by omega) (by omega) hbj
    · rw [a5]

theorem clear_buffers_fields (this : SpaFakeSrc) :
    (clear_buffers this).io = this.io ∧ (clear_buffers this).io_mem = this.io_mem ∧
    (clear_buffers this).callbacks = this.callbacks ∧
    (clear_buffers this).buffers = this.buffers ∧
    (clear_buffers this).have_format = this.have_format ∧
    (clear_buffers this).props = this.props ∧
    (clear_buffers this).underrun = this.underrun ∧
    ((clear_buffers this).empty = [] ∨
      (this.n_buffers = 0 ∧ (clear_buffers this).empty = this.empty)) := by
  unfold clear_buffers
  by_cases h : 0 < this.n_buffers
  · rw [if_pos h, set_timer_eq]
    exact ⟨rfl, rfl, rfl, rfl, rfl, rfl, rfl, Or.inl rfl⟩
  · rw [if_neg h]
    exact ⟨rfl, rfl, rfl, rfl, rfl, rfl, rfl, Or.inr ⟨by omega, rfl⟩⟩

theorem use_buffers_spec (this : SpaFakeSrc) (c n : Nat)
    (bufs : List (SpaBuffer × Option SpaMetaHeader)) (hio : this.io = some c)
    (hf : this.have_format = true) (hn : n ≤ this.buffers.length) (hlen : n ≤ bufs.length) :
    ∃ s1 : SpaFakeSrc,
      spa_fakesrc_node_port_use_buffers this SpaDirection.OUTPUT 0 bufs n
        = .ok (SpaResult.OK, s1) ∧
      s1.empty = (clear_buffers this).empty ++ List.range' 0 n ∧
      s1.buffers.length = this.buffers.length ∧
      (∀ (j : Nat) (buf : SpaBuffer × Option SpaMetaHeader), j < n → bufs[j]? = some buf →
        s1.buffers[j]? = some ⟨some buf.1, false, buf.2⟩) ∧
      (∀ j, n ≤ j → s1.buffers[j]? = this.buffers[j]?) ∧
      s1.n_buffers = n ∧ s1.underrun = false ∧ s1.io = this.io ∧ s1.io_mem = this.io_mem ∧
      s1.callbacks = this.callbacks ∧ s1.have_format = true ∧ s1.props = this.props := by
  obtain ⟨k1, k2, k3, k4, k5, k6, k7, k8⟩ := clear_buffers_fields this
  obtain ⟨t, e, a1, a2, a3, a4, a5⟩ := use_buffers_loop_spec bufs n 0 (clear_buffers this)
    (by rw [k4]; omega) (by omega)
  have hchk : CHECK_PORT this SpaDirection.OUTPUT 0 = true := by
    simp [CHECK_PORT, CHECK_PORT_NUM, MAX_PORTS, hio]
  have hchk' : ¬ CHECK_PORT this SpaDirection.OUTPUT 0 = false := by
    rw [hchk]
    decide
  have hf' : ¬ this.have_format = false := by
    rw [hf]
    decide
  refine ⟨{ t with n_buffers := n, underrun := false }, ?_, a1, ?_, ?_, ?_, rfl, rfl, ?_, ?_,
    ?_, ?_, ?_⟩
  · rw [spa_fakesrc_node_port_use_buffers, if_neg hchk', if_neg hf', e]
    rfl
  · show t.buffers.length = _
    rw [a2, k4]
  · intro j buf hj hb
    exact a4 j buf (by omega) (by omega) hb
  · intro j hj
    show t.buffers[j]? = _
    rw [a3 j (Or.inr (by omega)), k4]
  · show t.io = _
    rw [a5]
    exact k1
  · show t.io_mem = _
    rw [a5]
    exact k2
  · show t.callbacks = _
    rw [a5]
    exact k3
  · show t.have_format = _
    rw [a5]
    exact k5.trans hf
  · show t.props = _
    rw [a5]
    exact k6

theorem make_buffer_inv_any (this this' : SpaFakeSrc) (r : SpaResult)
    (h : make_buffer_after_read this = .ok (r, this')) (hne : this.empty ≠ []) :
    ∃ (c i : Nat) (rest : List Nat) (b : Buffer) (ob : SpaBuffer),
      this.io = some c ∧ c < this.io_mem.length ∧ this.empty = i :: rest ∧
      this.buffers[i]? = some b ∧ b.outbuf = some ob := by
  cases he : this.empty with
  | nil => exact absurd he hne
  | cons i rest =>
    cases hb : this.buffers[i]? with
    | none =>
      simp [make_buffer_after_read, he, hb, throw, throwThe, MonadExceptOf.throw] at h
    | some b =>
      cases hob : b.outbuf with
      | none =>
        simp [make_buffer_after_read, he, hb, hob, throw, throwThe, MonadExceptOf.throw] at h
      | some ob =>
        cases hio : this.io with
        | none =>
          unfold make_buffer_after_read set_timer at h
          simp only [he, hb, hob] at h
          split_ifs at h <;>
            simp [hio, throw, throwThe, MonadExceptOf.throw] at h
        | some c =>
          by_cases hc : c < this.io_mem.length
          · exact ⟨c, i, rest, b, ob, rfl, hc, rfl, hb, hob⟩
          · unfold make_buffer_after_read set_timer at h
            simp only [he, hb, hob] at h
            split_ifs at h <;>
              simp [hio, hc, throw, throwThe, MonadExceptOf.throw] at h

theorem make_buffer_valid (this this' : SpaFakeSrc) (r : SpaResult)
    (h : make_buffer_after_read this = .ok (r, this')) (hids : ids_valid this)
    (hcell : cell_valid this) : ids_valid this' ∧ cell_valid this' := by
  by_cases he : this.empty = []
  · simp only [make_buffer_after_read, he, pure, Except.pure] at h
    have h2 : { set_timer this false with underrun := true } = this' :=
      congrArg Prod.snd (Except.ok.inj h)
    have k1 : (set_timer this false).buffers = this.buffers := by
      rw [set_timer_eq]
    have k2 : (set_timer this false).io = this.io := by
      rw [set_timer_eq]
    have k3 : (set_timer this false).io_mem = this.io_mem := by
      rw [set_timer_eq]
    subst h2
    constructor
    · intro x hx o ho
      exact hids x (k1 ▸ hx) o ho
    · intro c hc v hv hs
      exact hcell c (k2 ▸ hc) v (k3 ▸ hv) hs
  · obtain ⟨c, i, rest, b, ob, b1, b2, b3, b4, b5⟩ := make_buffer_inv_any this this' r h he
    obtain ⟨t, b', hmk, _, q2, _, q4, _, q6, _, _, _, _, q11, _⟩ :=
      make_buffer_spec this c i rest b ob b1 b2 b3 b4 b5
    rw [hmk] at h
    cases h
    have hob : ob.id ≠ SPA_ID_INVALID := hids b (List.getElem?_mem b4) ob b5
    constructor
    · intro x hx o ho
      rw [q2] at hx
      rcases List.mem_or_eq_of_mem_set hx with hx | hx
      · exact hids x hx o ho
      · subst hx
        have ho' : x.outbuf = some o := ho
        rw [ho'] at q4
        have := Option.some.inj q4
        simp only at this
        rw [this]
        exact hob
    · intro c' hc' v hv _
      rw [q11, b1] at hc'
      cases hc'
      rw [q6, List.getElem?_set_self b2] at hv
      cases hv
      exact hob

theorem process_output_valid (this this' : SpaFakeSrc) (r : SpaResult)
    (h : spa_fakesrc_node_process_output this = .ok (r, this')) (hids : ids_valid this)
    (hcell : cell_valid this) : ids_valid this' ∧ cell_valid this' := by
  cases hio : this.io with
  | none =>
    simp only [spa_fakesrc_node_process_output, hio, pure, Except.pure] at h
    cases h
    exact ⟨hids, hcell⟩
  | some c =>
    cases hc : this.io_mem[c]? with
    | none =>
      simp [spa_fakesrc_node_process_output, hio, hc, throw, throwThe,
        MonadExceptOf.throw] at h
    | some io =>
      by_cases hst : io.status = SpaResult.HAVE_BUFFER
      · simp only [spa_fakesrc_node_process_output, hio, hc, hst, if_true, pure,
          Except.pure] at h
        cases h
        exact ⟨hids, hcell⟩
      · have hid : io.buffer_id = SPA_ID_INVALID ∨ io.buffer_id < this.buffers.length := by
          by_cases hinv : io.buffer_id = SPA_ID_INVALID
          · exact Or.inl hinv
          · by_cases hlt : io.buffer_id < this.buffers.length
            · exact Or.inr hlt
            · have hnone : this.buffers[io.buffer_id]? = none :=
                List.getElem?_eq_none (by omega)
              simp [spa_fakesrc_node_process_output, hio, hc, hst, hinv, reuse_buffer,
                hnone, throw, throwThe, MonadExceptOf.throw, bind, Except.bind] at h
        obtain ⟨t, extra, e, a1, a2, a3, _, _, _, _, a8, _, a10, _, _⟩ :=
          process_output_reuse this c io hio hc hst hid
        have htids : ids_valid t := by
          intro x hx o ho
          obtain ⟨j, hj, hjx⟩ := List.getElem_of_mem hx
          have hj' : j < this.buffers.length := by
            rw [← a8]
            exact hj
          have hx' : t.buffers[j]? = some x := by
            rw [List.getElem?_eq_getElem hj, hjx]
          have h0 : this.buffers[j]? = some (this.buffers[j]) := List.getElem?_eq_getElem hj'
          rcases a10 j _ h0 with h1 | h1
          · rw [hx'] at h1
            cases h1
            exact hids _ (List.getElem_mem hj') o ho
          · rw [hx'] at h1
            cases h1
            exact hids _ (List.getElem_mem hj') o ho
        have htcell : cell_valid t := by
          intro c' hc' v hv hv2
          rw [a1, hio] at hc'
          cases hc'
          rw [a3] at hv
          cases hv
          exact absurd hv2 hst
        rw [e] at h
        by_cases hcond : t.callbacks.have_output = none ∧ io.status = SpaResult.NEED_BUFFER
        · rw [if_pos hcond] at h
          exact make_buffer_valid t this' r (make_buffer_ok t _ h) htids htcell
        · rw [if_neg hcond] at h
          cases h
          exact ⟨htids, htcell⟩

theorem use_buffers_loop_valid (bufs : List (SpaBuffer × Option SpaMetaHeader))
    (hb : ∀ buf ∈ bufs, buf.1.id ≠ SPA_ID_INVALID) (count : Nat) :
    ∀ (i : Nat) (t t' : SpaFakeSrc), port_use_buffers_loop bufs count i t = .ok t' →
      ids_valid t → ids_valid t' ∧ t'.io = t.io ∧ t'.io_mem = t.io_mem := by
  induction count with
  | zero =>
    intro i t t' h hv
    cases h
    exact ⟨hv, rfl, rfl⟩
  | succ k ih =>
    intro i t t' h hv
    rw [port_use_buffers_loop] at h
    cases hbi : bufs[i]? with
    | none =>
      simp [hbi, throw, throwThe, MonadExceptOf.throw] at h
    | some buf =>
      simp only [hbi] at h
      by_cases hi : i < t.buffers.length
      · rw [if_pos hi] at h
        refine ih (i + 1) { t with
          buffers := t.buffers.set i { outbuf := some buf.1, outstanding := false, h := buf.2 }
          empty := spa_list_insert_tail t.empty i } t' h ?_
        intro x hx o ho
        rcases List.mem_or_eq_of_mem_set hx with hx | hx
        · exact hv x hx o ho
        · subst hx
          cases ho
          exact hb buf (List.getElem?_mem hbi)
      · rw [if_neg hi] at h
        cases h

theorem use_buffers_valid (this this' : SpaFakeSrc) (r : SpaResult) (d : SpaDirection)
    (p n : Nat) (bufs : List (SpaBuffer × Option SpaMetaHeader))
    (hb : ∀ buf ∈ bufs, buf.1.id ≠ SPA_ID_INVALID)
    (h : spa_fakesrc_node_port_use_buffers this d p bufs n = .ok (r, this'))
    (hids : ids_valid this) (hcell : cell_valid this) :
    ids_valid this' ∧ cell_valid this' := by
  rw [spa_fakesrc_node_port_use_buffers] at h
  by_cases h1 : CHECK_PORT this d p = false
  · rw [if_pos h1] at h
    cases h
    exact ⟨hids, hcell⟩
  · rw [if_neg h1] at h
    by_cases h2 : this.have_format = false
    · rw [if_pos h2] at h
      cases h
      exact ⟨hids, hcell⟩
    · rw [if_neg h2] at h
      obtain ⟨k1, k2, _, k4, _⟩ := clear_buffers_fields this
      cases hl : port_use_buffers_loop bufs n 0 (clear_buffers this) with
      | error e =>
        rw [hl] at h
        cases h
      | ok t =>
        rw [hl] at h
        cases h
        have hv0 : ids_valid (clear_buffers this) := by
          intro x hx o ho
          rw [k4] at hx
          exact hids x hx o ho
        obtain ⟨a1, a2, a3⟩ := use_buffers_loop_valid bufs hb n 0 _ t hl hv0
        refine ⟨a1, ?_⟩
        intro c hc v hv hs
        refine hcell c ?_ v ?_ hs
        · rw [← k1, ← a2]
          exact hc
        · rw [← k2, ← a3]
          exact hv

theorem clear_buffers_pool (this : SpaFakeSrc) :
    (clear_buffers this).empty = (if 0 < this.n_buffers then [] else this.empty) ∧
    (clear_buffers this).started
      = (if 0 < this.n_buffers then false else this.started) := by
  unfold clear_buffers
  by_cases h : 0 < this.n_buffers
  · rw [if_pos h, if_pos h, if_pos h, set_timer_eq]
    exact ⟨rfl, rfl⟩
  · rw [if_neg h, if_neg h, if_neg h]
    exact ⟨rfl, rfl⟩

theorem use_buffers_loop_overflow (bufs : List (SpaBuffer × Option SpaMetaHeader))
    (count : Nat) :
    ∀ (i : Nat) (this : SpaFakeSrc), i ≤ this.buffers.length → i ≤ bufs.length →
      (this.buffers.length < i + count ∨ bufs.length < i + count) →
      port_use_buffers_loop bufs count i this = .error SpaFault.bad_pointer := by
  induction count with
  | zero =>
    intro i this h1 h2 h3
    omega
  | succ k ih =>
    intro i this h1 h2 h3
    rw [port_use_buffers_loop]
    cases hb : bufs[i]? with
    | none => rfl
    | some buf =>
      have hi : i < bufs.length := lt_of_getElem? hb
      by_cases hs : i < this.buffers.length
      · simp only [if_pos hs]
        refine ih (i + 1) { this with
          buffers := this.buffers.set i { outbuf := some buf.1, outstanding := false, h := buf.2 }
          empty := spa_list_insert_tail this.empty i } ?_ (by omega) ?_
        · simp only [List.length_set]
          omega
        · simp only [List.length_set]
          omega
      · simp only [if_neg hs]
        rfl

theorem use_buffers_loop_ok_bounds (bufs : List (SpaBuffer × Option SpaMetaHeader))
    (count : Nat) (this this' : SpaFakeSrc)
    (h : port_use_buffers_loop bufs count 0 this = .ok this') :
    count ≤ this.buffers.length ∧ count ≤ bufs.length := by
  by_contra hc
  have hov := use_buffers_loop_overflow bufs count 0 this (Nat.zero_le _) (Nat.zero_le _)
    (by omega)
  rw [hov] at h
  cases h

theorem flag_set_two_pow (f k : Nat) : flag_set f (2 ^ k) = f.testBit k := by
  unfold flag_set
  cases hb : f.testBit k with
  | false =>
    have h0 : f &&& 2 ^ k = 0 := by
      apply Nat.eq_of_testBit_eq
      intro i
      rw [Nat.testBit_and, Nat.testBit_two_pow, Nat.zero_testBit]
      by_cases hki : k = i
      · subst hki
        rw [hb]
        rfl
      · simp [hki]
    rw [h0]
    rfl
  | true =>
    have hne : f &&& 2 ^ k ≠ 0 := by
      intro h0
      have h1 : (f &&& 2 ^ k).testBit k = true := by
        rw [Nat.testBit_and, hb, Nat.testBit_two_pow_self]
        rfl
      rw [h0, Nat.zero_testBit] at h1
      cases h1
    simpa using hne

theorem set_props_live_bit (this : SpaFakeSrc) (props : Option SpaProps) :
    (spa_fakesrc_node_set_props this props).2.info_flags.testBit 6
      = (spa_fakesrc_node_set_props this props).2.props.live := by
  have hm : (UINT32_MOD - 1 - SPA_PORT_INFO_FLAG_LIVE).testBit 6 = false := by decide
  unfold spa_fakesrc_node_set_props
  cases props with
  | none =>
    simp only [reset_fakesrc_props, Bool.false_eq_true, if_false, Nat.testBit_and, hm,
      Bool.and_false]
  | some q =>
    by_cases hl : q.live.getD this.props.live = true
    · simp only [hl, if_true, Nat.testBit_or, SPA_PORT_INFO_FLAG_LIVE,
        Nat.testBit_two_pow_self, Bool.or_true]
    · have hl' : q.live.getD this.props.live = false := by simpa using hl
      simp only [hl', Bool.false_eq_true, if_false, Nat.testBit_and, hm, Bool.and_false]

theorem set_props_other_bit (this : SpaFakeSrc) (props : Option SpaProps) (k : Nat)
    (hk : k = 3 ∨ k = 5) :
    (spa_fakesrc_node_set_props this props).2.info_flags.testBit k
      = this.info_flags.testBit k := by
  have hm : (UINT32_MOD - 1 - SPA_PORT_INFO_FLAG_LIVE).testBit k = true := by
    rcases hk with rfl | rfl <;> decide
  have hne : (6 = k) = False := by
    rcases hk with rfl | rfl <;> simp
  unfold spa_fakesrc_node_set_props
  cases props with
  | none =>
    simp only [reset_fakesrc_props, Bool.false_eq_true, if_false, Nat.testBit_and, hm,
      Bool.and_true]
  | some q =>
    by_cases hl : q.live.getD this.props.live = true
    · simp only [hl, if_true, Nat.testBit_or, SPA_PORT_INFO_FLAG_LIVE, Nat.testBit_two_pow,
        hne, decide_False, Bool.or_false]
    · have hl' : q.live.getD this.props.live = false := by simpa using hl
      simp only [hl', Bool.false_eq_true, if_false, Nat.testBit_and, hm, Bool.and_true]

theorem init_ok (this s : SpaFakeSrc) (map : Option Nat)
    (support : List (SpaSupportType × Option Nat))
    (h : fakesrc_init this map support = (SpaResult.OK, s)) :
    s.props = reset_fakesrc_props ∧
    s.info_flags = SPA_PORT_INFO_FLAG_CAN_USE_BUFFERS ||| SPA_PORT_INFO_FLAG_NO_REF ∧
    s.empty = [] ∧ s.timerspec = ⟨0, 0⟩ := by
  unfold fakesrc_init at h
  by_cases hm : (init_support support (map, this.data_loop)).1 = none
  · simp only [hm, if_true] at h
    cases h
  · simp only [hm, if_false, reset_fakesrc_props, Bool.false_eq_true] at h
    have h2 := (Prod.mk.inj h).2
    subst h2
    exact ⟨rfl, rfl, rfl, rfl⟩

theorem pool_partition_congr (s s' : SpaFakeSrc) (he : s'.empty = s.empty)
    (hb : s'.buffers = s.buffers) (hn : s'.n_buffers = s.n_buffers)
    (h : pool_partition s) : pool_partition s' := by
  unfold pool_partition
  rw [he, hb, hn]
  exact h

theorem make_buffer_partition (this this' : SpaFakeSrc) (r : SpaResult)
    (h : make_buffer_after_read this = .ok (r, this')) (hp : pool_partition this) :
    pool_partition this' := by
  by_cases he : this.empty = []
  · simp only [make_buffer_after_read, he, pure, Except.pure] at h
    have h2 : { set_timer this false with underrun := true } = this' :=
      congrArg Prod.snd (Except.ok.inj h)
    subst h2
    refine pool_partition_congr this _ ?_ ?_ ?_ hp
    · show (set_timer this false).empty = _
      rw [set_timer_eq]
    · show (set_timer this false).buffers = _
      rw [set_timer_eq]
    · show (set_timer this false).n_buffers = _
      rw [set_timer_eq]
  · obtain ⟨c, i, rest, b, ob, b1, b2, b3, b4, b5⟩ := make_buffer_inv_any this this' r h he
    obtain ⟨t, b', hmk, q1, q2, q3, _, _, _, _, _, _, _, _, q12, _⟩ :=
      make_buffer_spec this c i rest b ob b1 b2 b3 b4 b5
    rw [hmk] at h
    cases h
    obtain ⟨p1, p2, p3⟩ := hp
    rw [b3] at p1 p2 p3
    have hi : i < this.buffers.length := lt_of_getElem? b4
    have hnd := List.nodup_cons.mp p2
    refine ⟨?_, ?_, ?_⟩
    · intro j hj
      rw [q1] at hj
      rw [q12]
      exact p1 j (List.mem_cons_of_mem i hj)
    · rw [q1]
      exact hnd.2
    · intro j hj
      rw [q12] at hj
      rw [q1, q2]
      by_cases hji : j = i
      · subst hji
        refine ⟨b', List.getElem?_set_self hi, ?_⟩
        rw [q3]
        constructor
        · intro hm
          exact absurd hm hnd.1
        · intro hx
          cases hx
      · obtain ⟨bj, e1, e2⟩ := p3 j hj
        refine ⟨bj, ?_, ?_⟩
        · rw [List.getElem?_set_ne (Ne.symm hji)]
          exact e1
        · rw [← e2]
          simp [hji]

theorem reuse_buffer_partition (this this' : SpaFakeSrc) (id : Nat)
    (hid : id < this.n_buffers) (h : reuse_buffer this id = .ok this')
    (hp : pool_partition this) : pool_partition this' := by
  obtain ⟨p1, p2, p3⟩ := hp
  obtain ⟨b, hb, hbm⟩ := p3 id hid
  have hlt : id < this.buffers.length := lt_of_getElem? hb
  by_cases hout : b.outstanding = true
  · rw [reuse_buffer_eq this id b hb hout] at h
    have h2 := Except.ok.inj h
    subst h2
    have hnot : id ∉ this.empty := by
      intro hm
      rw [hbm.mp hm] at hout
      cases hout
    refine ⟨?_, ?_, ?_⟩
    · intro j hj
      show j < this.n_buffers
      have hj' : j ∈ this.empty ++ [id] := hj
      rcases List.mem_append.mp hj' with h1 | h1
      · exact p1 j h1
      · rw [List.mem_singleton.mp h1]
        exact hid
    · show (this.empty ++ [id]).Nodup
      refine List.nodup_append.mpr ⟨p2, List.nodup_singleton id, ?_⟩
      intro a ha hb'
      rw [List.mem_singleton.mp hb'] at ha
      exact hnot ha
    · intro j hj
      have hj' : j < this.n_buffers := hj
      show ∃ bj : Buffer, (this.buffers.set id { b with outstanding := false })[j]? = some bj ∧
        (j ∈ this.empty ++ [id] ↔ bj.outstanding = false)
      by_cases hji : j = id
      · subst hji
        exact ⟨_, List.getElem?_set_self hlt, by simp⟩
      · obtain ⟨bj, e1, e2⟩ := p3 j hj'
        refine ⟨bj, ?_, ?_⟩
        · rw [List.getElem?_set_ne (Ne.symm hji)]
          exact e1
        · rw [← e2]
          simp [hji]
  · have hout' : b.outstanding = false := by simpa using hout
    rw [reuse_buffer_idle this id b hb hout'] at h
    have h2 := Except.ok.inj h
    subst h2
    exact ⟨p1, p2, p3⟩

theorem use_buffers_partition (this this' : SpaFakeSrc) (r : SpaResult) (d : SpaDirection)
    (p n : Nat) (bufs : List (SpaBuffer × Option SpaMetaHeader))
    (h : spa_fakesrc_node_port_use_buffers this d p bufs n = .ok (r, this'))
    (hp : pool_partition this) : pool_partition this' := by
  rw [spa_fakesrc_node_port_use_buffers] at h
  by_cases h1 : CHECK_PORT this d p = false
  · rw [if_pos h1] at h
    cases h
    exact hp
  · rw [if_neg h1] at h
    by_cases h2 : this.have_format = false
    · rw [if_pos h2] at h
      cases h
      exact hp
    · rw [if_neg h2] at h
      cases hl : port_use_buffers_loop bufs n 0 (clear_buffers this) with
      | error e =>
        rw [hl] at h
        cases h
      | ok t =>
        rw [hl] at h
        cases h
        obtain ⟨hb1, hb2⟩ := use_buffers_loop_ok_bounds bufs n (clear_buffers this) t hl
        obtain ⟨t2, e, a1, _, _, a4, _⟩ := use_buffers_loop_spec bufs n 0 (clear_buffers this)
          (by omega) (by omega)
        rw [hl] at e
        have e2 := Except.ok.inj e
        subst e2
        have hE : (clear_buffers this).empty = [] := by
          rw [(clear_buffers_pool this).1]
          by_cases hn : 0 < this.n_buffers
          · rw [if_pos hn]
          · rw [if_neg hn]
            cases he : this.empty with
            | nil => rfl
            | cons a rest =>
              have := hp.1 a (by rw [he]; exact List.mem_cons_self a rest)
              omega
        rw [hE, List.nil_append] at a1
        refine ⟨?_, ?_, ?_⟩
        · intro j hj
          have hj' : j ∈ t.empty := hj
          rw [a1, List.mem_range'_1] at hj'
          show j < n
          omega
        · show t.empty.Nodup
          rw [a1]
          exact List.nodup_range' _ _
        · intro j hj
          have hj' : j < n := hj
          have hb : bufs[j]? = some (bufs[j]) := List.getElem?_eq_getElem (by omega)
          refine ⟨_, a4 j _ (Nat.zero_le _) (by omega) hb, ?_⟩
          show j ∈ t.empty ↔ _
          rw [a1, List.mem_range'_1]
          simp
          omega

theorem process_output_partition (this this' : SpaFakeSrc) (r : SpaResult)
    (hcell : ∀ (c : Nat) (io : SpaPortIO), this.io = some c → this.io_mem[c]? = some io →
      io.buffer_id = SPA_ID_INVALID ∨ io.buffer_id < this.n_buffers)
    (h : spa_fakesrc_node_process_output this = .ok (r, this'))
    (hp : pool_partition this) : pool_partition this' := by
  cases hio : this.io with
  | none =>
    simp only [spa_fakesrc_node_process_output, hio, pure, Except.pure] at h
    cases h
    exact hp
  | some c =>
    cases hc : this.io_mem[c]? with
    | none =>
      simp [spa_fakesrc_node_process_output, hio, hc, throw, throwThe,
        MonadExceptOf.throw] at h
    | some io =>
      by_cases hst : io.status = SpaResult.HAVE_BUFFER
      · simp only [spa_fakesrc_node_process_output, hio, hc, hst, if_true, pure,
          Except.pure] at h
        cases h
        exact hp
      · have hpart : ∃ t : SpaFakeSrc, pool_partition t ∧
            (if t.callbacks.have_output = none ∧ io.status = SpaResult.NEED_BUFFER then
              fakesrc_make_buffer t
            else .ok (SpaResult.OK, t)) = .ok (r, this') := by
          by_cases hinv : io.buffer_id = SPA_ID_INVALID
          · refine ⟨this, hp, ?_⟩
            simpa only [spa_fakesrc_node_process_output, hio, hc, if_neg hst, hinv, ne_eq,
              not_true_eq_false, if_false, bind, Except.bind, pure, Except.pure] using h
          · have hlt : io.buffer_id < this.n_buffers := (hcell c io hio hc).resolve_left hinv
            cases hre : reuse_buffer this io.buffer_id with
            | error e =>
              simp [spa_fakesrc_node_process_output, hio, hc, hst, hinv, hre, bind,
                Except.bind] at h
            | ok t1 =>
              refine ⟨{ t1 with
                io_mem := t1.io_mem.set c { io with buffer_id := SPA_ID_INVALID } }, ?_, ?_⟩
              · exact pool_partition_congr t1 _ rfl rfl rfl
                  (reuse_buffer_partition this t1 io.buffer_id hlt hre hp)
              · simpa only [spa_fakesrc_node_process_output, hio, hc, if_neg hst, ne_eq, hinv,
                  not_false_eq_true, if_true, bind, Except.bind, hre, pure, Except.pure]
                  using h
        obtain ⟨t, htp, ht⟩ := hpart
        by_cases hcond : t.callbacks.have_output = none ∧ io.status = SpaResult.NEED_BUFFER
        · rw [if_pos hcond] at ht
          exact make_buffer_partition t this' r (make_buffer_ok t _ ht) htp
        · rw [if_neg hcond] at ht
          cases ht
          exact htp

/-- C2 (port check): for a port with an attached cell, `spa_graph_port_check` first
increments `ready_in` of the owning node (as a `uint32_t`) exactly when the cell status is
`HAVE_BUFFER`; then, if `required_in > 0` and the updated `ready_in` equals `required_in`,
it sets the action to `IN` and appends the node to the tail of the ready queue unless it
is already queued (its position is then unchanged); otherwise it removes the node from the
ready queue if it was queued and leaves the action unchanged.  Nothing else changes. -/
theorem port_check_spec {σ : Type} (g : SpaGraph σ) (port : Nat) (p : SpaGraphPort) (c : Nat)
    (io : SpaPortIO) (n : SpaGraphNode)
    (hp : g.port_mem[port]? = some p) (hc : p.io = some c) (hio : g.io_mem[c]? = some io)
    (hn : g.node_mem[p.node]? = some n) :
    ∃ (g' : SpaGraph σ) (n' : SpaGraphNode),
      spa_graph_port_check g port = .ok g' ∧ g'.node_mem[p.node]? = some n' ∧
      n'.ready_in = (if io.status = SpaResult.HAVE_BUFFER then (n.ready_in + 1) % UINT32_MOD
        else n.ready_in) ∧
      (if 0 < n.required_in ∧ n'.ready_in = n.required_in then
        n'.action = SPA_GRAPH_ACTION_IN ∧ n'.ready_link_next = true ∧
          g'.ready = (if n.ready_link_next = true then g.ready else g.ready ++ [p.node])
      else
        n'.action = n.action ∧ n'.ready_link_next = false ∧
          g'.ready = (if n.ready_link_next = true then g.ready.erase p.node else g.ready)) ∧
      ((n.ready_link_next = true ↔ p.node ∈ g.ready) → g.ready.Nodup →
        if 0 < n.required_in ∧ n'.ready_in = n.required_in then
          p.node ∈ g'.ready ∧ (p.node ∈ g.ready → g'.ready = g.ready) ∧
            (p.node ∉ g.ready → g'.ready = g.ready ++ [p.node])
        else
          p.node ∉ g'.ready ∧ g'.ready = g.ready.filter (fun j => j != p.node)) ∧
      n' = { n with ready_in := n'.ready_in, action := n'.action,
                    ready_link_next := n'.ready_link_next } ∧
      (∀ j, j ≠ p.node → g'.node_mem[j]? = g.node_mem[j]?) ∧
      g'.port_mem = g.port_mem ∧ g'.io_mem = g.io_mem ∧ g'.nodes = g.nodes ∧
      g'.user = g.user ∧ g'.calls = g.calls := by
  have hE := port_check_eq g port p c io n hp hc hio hn
  by_cases hcond : 0 < n.required_in ∧
      (if io.status = SpaResult.HAVE_BUFFER then (n.ready_in + 1) % UINT32_MOD
        else n.ready_in) = n.required_in
  · rw [if_pos hcond] at hE
    refine ⟨_, _, hE, getElem?_set_same _ hn, rfl, ?_, ?_, rfl, ?_, rfl, rfl, rfl, rfl, rfl⟩
    · simp only [hcond, and_self, if_true]
    · intro hq hnd
      simp only [hcond, and_self, if_true]
      by_cases hm : p.node ∈ g.ready
      · simp [hq.mpr hm, hm]
      · have hf : ¬ n.ready_link_next = true := fun h => hm (hq.mp h)
        simp [hf, hm]
    · intro j hj
      simp [List.getElem?_set_ne (Ne.symm hj)]
  · rw [if_neg hcond] at hE
    refine ⟨_, _, hE, getElem?_set_same _ hn, rfl, ?_, ?_, rfl, ?_, rfl, rfl, rfl, rfl, rfl⟩
    · simp only [hcond, if_false]
      exact ⟨trivial, trivial, trivial⟩
    · intro hq hnd
      simp only [hcond, if_false]
      by_cases hm : p.node ∈ g.ready
      · simp only [hq.mpr hm, if_true]
        exact ⟨fun h => (List.Nodup.mem_erase_iff hnd).mp h |>.1 rfl,
          List.Nodup.erase_eq_filter hnd p.node⟩
      · have hf : ¬ n.ready_link_next = true := fun h => hm (hq.mp h)
        simp only [hf, if_false]
        have hfl : g.ready.filter (fun j => j != p.node) = g.ready :=
          List.filter_eq_self.mpr (fun a ha => by
            simp only [bne_iff_ne, ne_eq]
            rintro rfl
            exact hm ha)
        refine ⟨hm, ?_⟩
        rw [hfl]
        simp
    · intro j hj
      simp [List.getElem?_set_ne (Ne.symm hj)]

/-- The port check on the input port of the sink of `demo_graph` when the cell holds a buffer. -/
theorem port_check_spec_witness :
    ∃ g' : SpaGraph Unit,
      spa_graph_port_check (demo_graph SpaResult.HAVE_BUFFER 0 SPA_GRAPH_ACTION_CHECK false) 1
        = .ok g' ∧ g'.ready = [1] := by
  obtain ⟨g', n', h1, _, _, h4, _⟩ := port_check_spec
    (demo_graph SpaResult.HAVE_BUFFER 0 SPA_GRAPH_ACTION_CHECK false) 1
    ⟨1, SpaDirection.INPUT, 0, 0, some 0, some 0⟩ 0 ⟨SpaResult.HAVE_BUFFER, 0⟩
    ⟨false, [1], [], 0, SpaResult.NEED_BUFFER, SPA_GRAPH_ACTION_CHECK, 0, 0, 1, 1, 0⟩
    rfl rfl rfl rfl
  refine ⟨g', h1, ?_⟩
  have h5 : n'.ready_in = 1 := by assumption
  rw [h5] at h4
  exact h4.2.2

/-- C3 (synchrony guard): when an iteration of `spa_graph_node_schedule` pops a node with
action `IN` or `OUT`, its `schedule` is invoked exactly once and the result is stored in
its `state`; if the node is the trigger and its action is `IN` it is not put back on the
queue and its action stays `IN`; in every other case its action becomes `CHECK` and it is
appended at the tail of the ready queue. -/
theorem schedule_step_run {σ : Type} (sched : SpaGraphNodeFunc σ) (trigger : Nat)
    (g : SpaGraph σ) (h : Nat) (rest : List Nat) (n : SpaGraphNode)
    (hr : g.ready = h :: rest) (hn : g.node_mem[h]? = some n)
    (ha : n.action = SPA_GRAPH_ACTION_IN ∨ n.action = SPA_GRAPH_ACTION_OUT) :
    ∃ (g' : SpaGraph σ) (n' : SpaGraphNode),
      spa_graph_node_schedule_step sched trigger g = .ok g' ∧
      g'.node_mem[h]? = some n' ∧
      g'.calls = g.calls ++ [(h, { n with ready_link_next := false })] ∧
      n'.state = (sched h { n with ready_link_next := false } g.io_mem g.user).1 ∧
      g'.io_mem = (sched h { n with ready_link_next := false } g.io_mem g.user).2.1 ∧
      g'.user = (sched h { n with ready_link_next := false } g.io_mem g.user).2.2 ∧
      (if n.action = SPA_GRAPH_ACTION_IN ∧ h = trigger then
        g'.ready = rest ∧ n'.action = SPA_GRAPH_ACTION_IN ∧ n'.ready_link_next = false
      else
        g'.ready = rest ++ [h] ∧ n'.action = SPA_GRAPH_ACTION_CHECK ∧
          n'.ready_link_next = true) ∧
      n' = { n with state := n'.state, action := n'.action,
                    ready_link_next := n'.ready_link_next } ∧
      (∀ j, j ≠ h → g'.node_mem[j]? = g.node_mem[j]?) ∧
      g'.port_mem = g.port_mem ∧ g'.nodes = g.nodes := by
  have hlen : h < g.node_mem.length := by
    rcases List.getElem?_eq_some.mp hn with ⟨hi, _⟩
    exact hi
  by_cases hc : n.action = SPA_GRAPH_ACTION_IN ∧ h = trigger
  · refine ⟨{ g with
        ready := rest
        io_mem := (sched h { n with ready_link_next := false } g.io_mem g.user).2.1
        user := (sched h { n with ready_link_next := false } g.io_mem g.user).2.2
        calls := g.calls ++ [(h, { n with ready_link_next := false })]
        node_mem := g.node_mem.set h { n with
          ready_link_next := false
          state := (sched h { n with ready_link_next := false } g.io_mem g.user).1 } },
      _, ?_, getElem?_set_same _ hn, rfl, rfl, rfl, rfl, ?_, ?_, ?_, rfl, rfl⟩
    · simp only [spa_graph_node_schedule_step, hr, load_node_eq hn, bind, Except.bind, pure,
        Except.pure, ha, if_true, spa_list_remove, List.erase_cons_head]
      rw [if_pos hc]
      simp [store_node, List.set_set]
    · simp [hc]
    · simp [hc.1]
    · intro j hj
      simp [List.getElem?_set_ne (Ne.symm hj)]
  · refine ⟨{ g with
        ready := rest ++ [h]
        io_mem := (sched h { n with ready_link_next := false } g.io_mem g.user).2.1
        user := (sched h { n with ready_link_next := false } g.io_mem g.user).2.2
        calls := g.calls ++ [(h, { n with ready_link_next := false })]
        node_mem := g.node_mem.set h { n with
          ready_link_next := true
          action := SPA_GRAPH_ACTION_CHECK
          state := (sched h { n with ready_link_next := false } g.io_mem g.user).1 } },
      _, ?_, getElem?_set_same _ hn, rfl, rfl, rfl, rfl, ?_, ?_, ?_, rfl, rfl⟩
    · simp only [spa_graph_node_schedule_step, hr, load_node_eq hn, bind, Except.bind, pure,
        Except.pure, ha, if_true, spa_list_remove, List.erase_cons_head]
      rw [if_neg hc, ready_insert_store _ _ _ (by simp [store_node, hlen])]
      simp [store_node, List.set_set]
    · simp [hc]
    · rfl
    · intro j hj
      simp [List.getElem?_set_ne (Ne.symm hj)]

/-- One iteration on `demo_graph` with the sink queued with action `IN` as the trigger. -/
theorem schedule_step_run_witness :
    ∃ g' : SpaGraph Unit,
      spa_graph_node_schedule_step sched_demo 1
        (demo_graph SpaResult.HAVE_BUFFER 0 SPA_GRAPH_ACTION_IN true) = .ok g' ∧
      g'.ready = [] ∧ g'.calls.length = 1 := by
  obtain ⟨g', n', h1, _, h3, _, _, _, h7, _⟩ := schedule_step_run sched_demo 1
    (demo_graph SpaResult.HAVE_BUFFER 0 SPA_GRAPH_ACTION_IN true) 1 []
    ⟨true, [1], [], 0, SpaResult.NEED_BUFFER, SPA_GRAPH_ACTION_IN, 0, 0, 1, 1, 0⟩
    rfl rfl (Or.inl rfl)
  refine ⟨g', h1, h7.1, ?_⟩
  rw [h3]
  rfl

/-- C4 (`CHECK` with state `NEED_BUFFER`): when an iteration of
`spa_graph_node_schedule` pops a node `h` with action `CHECK` and state `NEED_BUFFER`, all
of whose input ports are linked and bound, it sets `ready_in` of `h` to the number of its
input ports whose cell status is `OK`, and for each input port whose cell status is
`NEED_BUFFER` it sets the upstream node to action `OUT` and appends it at the tail of the
ready queue exactly when the upstream node is not the trigger or is `ASYNC`
(`port_wakes`); no other node is modified or enqueued, and no `schedule` is invoked. -/
theorem schedule_step_need_buffer {σ : Type} (sched : SpaGraphNodeFunc σ) (trigger : Nat)
    (g : SpaGraph σ) (h : Nat) (rest : List Nat) (n : SpaGraphNode)
    (hr : g.ready = h :: rest) (hn : g.node_mem[h]? = some n)
    (ha : n.action = SPA_GRAPH_ACTION_CHECK) (hs : n.state = SpaResult.NEED_BUFFER)
    (hps : ∀ p ∈ n.ports_input, ∃ u st, upstream_node g p = some u ∧ u < g.node_mem.length
      ∧ port_status g p = some st)
    (hlen : n.ports_input.length < UINT32_MOD) :
    ∃ g' : SpaGraph σ, spa_graph_node_schedule_step sched trigger g = .ok g' ∧
      g'.ready = rest ++ n.ports_input.filterMap (port_wakes g trigger) ∧
      (∀ m r, g.node_mem[m]? = some r → ∃ r', g'.node_mem[m]? = some r' ∧
        r'.ready_in = (if m = h then count_ok g n.ports_input else r.ready_in) ∧
        (if m ∈ n.ports_input.filterMap (port_wakes g trigger) then
          r'.action = SPA_GRAPH_ACTION_OUT ∧ r'.ready_link_next = true
        else r'.action = r.action ∧
          r'.ready_link_next = (if m = h then false else r.ready_link_next)) ∧
        r' = { r with ready_in := r'.ready_in, action := r'.action,
                      ready_link_next := r'.ready_link_next }) ∧
      g'.port_mem = g.port_mem ∧ g'.io_mem = g.io_mem ∧ g'.calls = g.calls ∧
      g'.user = g.user ∧ g'.nodes = g.nodes := by
  have hh : h < g.node_mem.length := by
    rcases List.getElem?_eq_some.mp hn with ⟨hi, _⟩
    exact hi
  set nS : SpaGraphNode := { n with ready_link_next := false, ready_in := 0 } with hnS
  set gS : SpaGraph σ := { g with ready := rest, node_mem := g.node_mem.set h nS } with hgS
  have hstep : spa_graph_node_schedule_step sched trigger g
      = schedule_need_buffer trigger h n.ports_input gS := by
    have hno : ¬ (n.action = SPA_GRAPH_ACTION_IN ∨ n.action = SPA_GRAPH_ACTION_OUT) := by
      rw [ha]
      decide
    simp only [spa_graph_node_schedule_step, hr, load_node_eq hn, bind, Except.bind,
      spa_list_remove, List.erase_cons_head, store_node, List.set_set]
    rw [if_neg hno, if_pos ha, if_pos hs]
  have haS : ∀ m, node_async gS m = node_async g m :=
    node_async_set g gS h n nS hn rfl rfl
  obtain ⟨c1, c2, c3, c4⟩ := port_fns_congr g gS trigger rfl rfl haS
  have hfm := List.filterMap_congr (l := n.ports_input) (fun x _ => c3 x)
  have hpsS : ∀ p ∈ n.ports_input, ∃ u st, upstream_node gS p = some u
      ∧ u < gS.node_mem.length ∧ port_status gS p = some st := by
    intro p hp
    obtain ⟨u, st, a1, a2, a3⟩ := hps p hp
    exact ⟨u, st, by rw [c1, a1], by simpa [gS] using a2, by rw [c2, a3]⟩
  obtain ⟨g', e1, e2, e3, _, e5, e6, e7, e8, e9⟩ :=
    need_buffer_loop trigger h n.ports_input gS (by simpa [gS] using hh) hpsS
  rw [hfm] at e2
  simp only [hfm] at e3
  refine ⟨g', by rw [hstep]; exact e1, e2, ?_, e5, e6, e7, e8, e9⟩
  intro m r hmr
  by_cases hm : m = h
  · subst hm
    have hrr : r = n := by
      rw [hn] at hmr
      exact (Option.some.inj hmr).symm
    subst hrr
    obtain ⟨r', f1, f2, f3, f4⟩ := e3 m nS (getElem?_set_same nS hn)
    refine ⟨r', f1, ?_, ?_, f4⟩
    · rw [if_pos rfl] at f2 ⊢
      rw [f2, c4]
      exact incr32_iterate _ (lt_of_le_of_lt (count_ok_le _ _) hlen)
    · rw [if_pos rfl]
      exact f3
  · have hr1 : gS.node_mem[m]? = some r := by
      simp only [gS]
      rw [List.getElem?_set_ne (Ne.symm hm)]
      exact hmr
    obtain ⟨r', f1, f2, f3, f4⟩ := e3 m r hr1
    refine ⟨r', f1, ?_, ?_, f4⟩
    · rw [if_neg hm] at f2 ⊢
      exact f2
    · rw [if_neg hm]
      exact f3

/-- One iteration on `demo_graph` with the sink queued with action `CHECK` and state `NEED_BUFFER`. -/
theorem schedule_step_need_buffer_witness :
    ∃ g' : SpaGraph Unit,
      spa_graph_node_schedule_step sched_demo 1
        (demo_graph SpaResult.NEED_BUFFER 0 SPA_GRAPH_ACTION_CHECK true) = .ok g' ∧
      g'.ready = [0] := by
  obtain ⟨g', h1, h2, _⟩ := schedule_step_need_buffer sched_demo 1
    (demo_graph SpaResult.NEED_BUFFER 0 SPA_GRAPH_ACTION_CHECK true) 1 []
    ⟨true, [1], [], 0, SpaResult.NEED_BUFFER, SPA_GRAPH_ACTION_CHECK, 0, 0, 1, 1, 0⟩
    rfl rfl rfl rfl
    (fun p hp => by
      have hp1 : p = 1 := by simpa using hp
      subst hp1
      exact ⟨0, SpaResult.NEED_BUFFER, rfl, by decide, rfl⟩)
    (by decide)
  exact ⟨g', h1, h2⟩

/-- C5 (failure semantics), as the code has it: in a graph with an empty ready queue, for
a node `i` with action `IN` or `OUT` whose `schedule` returns a result `r` other than
`NEED_BUFFER` and `HAVE_BUFFER`: when the `ready_link` of `i` is marked absent,
`spa_graph_node_schedule (graph, i)` returns (with any fuel of at least 2 iterations)
with `i.state = r`, exactly one invocation of `schedule`, that of `i`, every other node
record and every port unchanged, and the ready queue empty; when the `ready_link` of `i`
is marked present, as `spa_graph_node_add` leaves it on a record that was not zeroed, the
call returns with any fuel and the graph is as it was: `schedule` is not invoked and
`i.state` is not written. -/
theorem schedule_failure_semantics {σ : Type} (sched : SpaGraphNodeFunc σ) (g : SpaGraph σ)
    (i : Nat) (n : SpaGraphNode)
    (hready : g.ready = []) (hn : g.node_mem[i]? = some n)
    (ha : n.action = SPA_GRAPH_ACTION_IN ∨ n.action = SPA_GRAPH_ACTION_OUT)
    (hr1 : (sched i n g.io_mem g.user).1 ≠ SpaResult.NEED_BUFFER)
    (hr2 : (sched i n g.io_mem g.user).1 ≠ SpaResult.HAVE_BUFFER) :
    (n.ready_link_next = false →
      ∃ (g' : SpaGraph σ) (n' : SpaGraphNode),
        (∀ fuel, 2 ≤ fuel → spa_graph_node_schedule sched fuel g i = .ok g') ∧
        g'.ready = [] ∧
        g'.node_mem[i]? = some n' ∧
        n'.state = (sched i n g.io_mem g.user).1 ∧
        n'.ready_link_next = false ∧
        g'.calls = g.calls ++ [(i, n)] ∧
        (∀ j, j ≠ i → g'.node_mem[j]? = g.node_mem[j]?) ∧
        g'.port_mem = g.port_mem ∧ g'.nodes = g.nodes) ∧
    (n.ready_link_next = true →
      ∀ fuel, spa_graph_node_schedule sched fuel g i = .ok g) := by
  refine ⟨fun hq => ?_, fun hq fuel => ?_⟩
  · have hnn : ({ n with ready_link_next := false } : SpaGraphNode) = n := by
      cases n
      simp_all
    have hlen : i < g.node_mem.length := by
      rcases List.getElem?_eq_some.mp hn with ⟨hi, _⟩
      exact hi
    have he := enter_eq g i n hn hq
    rw [hready, List.nil_append] at he
    set n1 : SpaGraphNode := { n with ready_link_next := true } with hn1d
    set g1 : SpaGraph σ := { g with ready := [i], node_mem := g.node_mem.set i n1 } with hg1
    have hn1 : g1.node_mem[i]? = some n1 := getElem?_set_same n1 hn
    have hn10 : ({ n1 with ready_link_next := false } : SpaGraphNode) = n := hnn
    have e1 := step_run_eq sched i g1 i [] n1 rfl hn1 ha
    rw [hn10] at e1
    change spa_graph_node_schedule_step sched i g1 = .ok
      (if n.action = SPA_GRAPH_ACTION_IN ∧ i = i then
        { g1 with
          ready := []
          io_mem := (sched i n g.io_mem g.user).2.1
          user := (sched i n g.io_mem g.user).2.2
          calls := g.calls ++ [(i, n)]
          node_mem := g1.node_mem.set i { n1 with
            ready_link_next := false
            state := (sched i n g.io_mem g.user).1 } }
      else
        { g1 with
          ready := [i]
          io_mem := (sched i n g.io_mem g.user).2.1
          user := (sched i n g.io_mem g.user).2.2
          calls := g.calls ++ [(i, n)]
          node_mem := g1.node_mem.set i { n1 with
            ready_link_next := true
            action := SPA_GRAPH_ACTION_CHECK
            state := (sched i n g.io_mem g.user).1 } }) at e1
    rcases ha with hin | hout
    · rw [if_pos ⟨hin, rfl⟩] at e1
      set n2 : SpaGraphNode := { n1 with
        ready_link_next := false
        state := (sched i n g.io_mem g.user).1 } with hn2d
      set g2 : SpaGraph σ := { g1 with
        ready := []
        io_mem := (sched i n g.io_mem g.user).2.1
        user := (sched i n g.io_mem g.user).2.2
        calls := g.calls ++ [(i, n)]
        node_mem := g1.node_mem.set i n2 } with hg2
      refine ⟨g2, n2, ?_, rfl, getElem?_set_same n2 hn1, rfl, rfl, rfl, ?_, rfl, rfl⟩
      · intro fuel hfuel
        obtain ⟨k, rfl⟩ := Nat.exists_eq_add_of_le hfuel
        have hk : 2 + k = k + 1 + 1 := by omega
        rw [hk]
        exact schedule_of_loop sched _ g g1 g2 i he
          ((loop_of_step sched i _ g1 g2 (List.cons_ne_nil _ _) e1).trans
            (loop_of_empty sched i _ g2 rfl)) rfl
      · intro j hj
        simp only [g2, g1, List.set_set]
        exact List.getElem?_set_ne (Ne.symm hj)
    · have hc : ¬ (n.action = SPA_GRAPH_ACTION_IN ∧ i = i) := by
        intro hx
        rw [hout] at hx
        exact absurd hx.1 (by decide)
      rw [if_neg hc] at e1
      set n2 : SpaGraphNode := { n1 with
        ready_link_next := true
        action := SPA_GRAPH_ACTION_CHECK
        state := (sched i n g.io_mem g.user).1 } with hn2d
      set g2 : SpaGraph σ := { g1 with
        ready := [i]
        io_mem := (sched i n g.io_mem g.user).2.1
        user := (sched i n g.io_mem g.user).2.2
        calls := g.calls ++ [(i, n)]
        node_mem := g1.node_mem.set i n2 } with hg2
      have hn2 : g2.node_mem[i]? = some n2 := getElem?_set_same n2 hn1
      have e2 := step_check_other sched i g2 i [] n2 rfl hn2 rfl hr1 hr2
      set n3 : SpaGraphNode := { n2 with ready_link_next := false } with hn3d
      set g3 : SpaGraph σ := { g2 with ready := [], node_mem := g2.node_mem.set i n3 } with hg3
      refine ⟨g3, n3, ?_, rfl, getElem?_set_same n3 hn2, rfl, rfl, rfl, ?_, rfl, rfl⟩
      · intro fuel hfuel
        obtain ⟨k, rfl⟩ := Nat.exists_eq_add_of_le hfuel
        have hk : 2 + k = k + 1 + 1 := by omega
        rw [hk]
        exact schedule_of_loop sched _ g g1 _ i he
          ((loop_of_step sched i _ g1 g2 (List.cons_ne_nil _ _) e1).trans
            ((loop_of_step sched i _ g2 g3 (List.cons_ne_nil _ _) e2).trans
              (loop_of_empty sched i _ g3 rfl))) rfl
      · intro j hj
        simp only [g3, g2, g1, List.set_set]
        exact List.getElem?_set_ne (Ne.symm hj)
  · have he : spa_graph_node_schedule_enter g i = .ok g := by
      simp [spa_graph_node_schedule_enter, load_node_eq hn, bind, Except.bind, hq, pure,
        Except.pure]
    exact schedule_of_loop sched fuel g g g i he (loop_of_empty sched i fuel g hready) hready

/-- The under-run of scenario S3 on the source of `demo_graph`. -/
theorem schedule_failure_semantics_witness :
    ∃ g' : SpaGraph Unit,
      spa_graph_node_schedule sched_underrun 2
        (demo_graph SpaResult.NEED_BUFFER 0 SPA_GRAPH_ACTION_CHECK false) 0 = .ok g' ∧
      g'.ready = [] ∧ g'.calls.length = 1 := by
  obtain ⟨g', n', h1, h2, _, _, _, h6, _⟩ := (schedule_failure_semantics sched_underrun
    (demo_graph SpaResult.NEED_BUFFER 0 SPA_GRAPH_ACTION_CHECK false) 0
    ⟨false, [], [0], 0, SpaResult.OK, SPA_GRAPH_ACTION_OUT, 0, 0, 1, 0, 0⟩
    rfl rfl (Or.inr rfl) (by decide) (by decide)).1 rfl
  refine ⟨g', h1 2 (Nat.le_refl 2), h2, ?_⟩
  rw [h6]
  rfl

/-- C5, counterexample: a node record that was not zeroed (its `ready_link.next` is not
`NULL`) is added with `spa_graph_node_add` to an initialised graph.  The ready queue is
empty, the action of the node is `OUT` and its `schedule` returns `OUT_OF_BUFFERS`;
`spa_graph_node_schedule` on the node returns without having invoked `schedule`, and the
`state` of the node is still `OK`, not `OUT_OF_BUFFERS`. -/
theorem schedule_failure_not_invoked :
    ∃ g g1 : SpaGraph Unit,
      spa_graph_node_add
        (spa_graph_init
          { nodes := [], ready := [], node_mem := [{ zero_node with ready_link_next := true }],
            port_mem := [], io_mem := [], user := (), calls := [] }) 0 0 0 = .ok g ∧
      g.ready = [] ∧
      (∃ n : SpaGraphNode, g.node_mem[0]? = some n ∧ n.action = SPA_GRAPH_ACTION_OUT ∧
        (sched_underrun 0 n g.io_mem g.user).1 = SpaResult.OUT_OF_BUFFERS) ∧
      spa_graph_node_schedule sched_underrun 2 g 0 = .ok g1 ∧
      g1.calls = [] ∧
      (∃ n1 : SpaGraphNode, g1.node_mem[0]? = some n1 ∧ n1.state = SpaResult.OK ∧
        n1.state ≠ SpaResult.OUT_OF_BUFFERS) :=
  ⟨_, _, rfl, rfl, ⟨_, rfl, rfl, rfl⟩, rfl, rfl, ⟨_, rfl, rfl, by decide⟩⟩

/-- C6, as the code has it: `required_in ≤ max_in` (and `0 ≤ ready_in`, which holds of
any `uint32_t`) holds of a node after `spa_graph_node_add`, which zeroes the three
counters, and `required_in ≤ max_in` for every node is preserved by
`spa_graph_port_add` (as long as `max_in` of the node has not reached `2^32 - 1`), by
`spa_graph_port_check`, by every iteration of `spa_graph_node_schedule` and by the whole
call, for every port direction, port flags and cell status.  `ready_in ≤ required_in` is
not part of what is preserved. -/
theorem counters_preserved {σ : Type} :
    (∀ (g g' : SpaGraph σ) (node schedule user_data : Nat),
      spa_graph_node_add g node schedule user_data = .ok g' →
      (∃ n, g'.node_mem[node]? = some n ∧ n.ready_in = 0 ∧ n.required_in = 0 ∧ n.max_in = 0)
        ∧ (counters_inv g → counters_inv g')) ∧
    (∀ (g g' : SpaGraph σ) (node port : Nat) (direction : SpaDirection) (port_id flags : Nat)
      (io : Option Nat),
      spa_graph_port_add g node port direction port_id flags io = .ok g' →
      counters_inv g → (∀ n, g.node_mem[node]? = some n → n.max_in + 1 < UINT32_MOD) →
      counters_inv g') ∧
    (∀ (g g' : SpaGraph σ) (port : Nat),
      spa_graph_port_check g port = .ok g' → counters_inv g → counters_inv g') ∧
    (∀ (sched : SpaGraphNodeFunc σ) (trigger : Nat) (g g' : SpaGraph σ),
      spa_graph_node_schedule_step sched trigger g = .ok g' →
      counters_inv g → counters_inv g') ∧
    (∀ (sched : SpaGraphNodeFunc σ) (fuel : Nat) (g g' : SpaGraph σ) (node : Nat),
      spa_graph_node_schedule sched fuel g node = .ok g' →
      counters_inv g → counters_inv g') := by
  refine ⟨?_, ?_, ?_, ?_, ?_⟩
  · intro g g' node schedule user_data h
    unfold spa_graph_node_add at h
    obtain ⟨n, hn, h⟩ := bind_ok h
    have hn' := load_node_ok hn
    rw [← Except.ok.inj h]
    simp only [store_node, List.set_set]
    refine ⟨⟨_, getElem?_set_same _ hn', rfl, rfl, rfl⟩, ?_⟩
    intro hi m hm
    rcases List.mem_or_eq_of_mem_set hm with hm | rfl
    · exact hi m hm
    · exact Nat.le_refl 0
  · intro g g' node port direction port_id flags io h hi hmax
    unfold spa_graph_port_add at h
    obtain ⟨_, _, h⟩ := bind_ok h
    obtain ⟨n, hn, h⟩ := bind_ok h
    have hn' : g.node_mem[node]? = some n := load_node_ok hn
    have hb := port_check_bounds h
    refine counters_inv_of_map _ g' hb ?_
    have hle := hi n (List.getElem?_mem hn')
    have hm := hmax n hn'
    intro m hm'
    simp only [store_node, store_port] at hm'
    rcases List.mem_or_eq_of_mem_set hm' with hm' | rfl
    · exact hi m hm'
    · have hmx : (n.max_in + 1) % UINT32_MOD = n.max_in + 1 := Nat.mod_eq_of_lt hm
      have hrq : (n.required_in + 1) % UINT32_MOD = n.required_in + 1 :=
        Nat.mod_eq_of_lt (by omega)
      cases direction <;> split_ifs <;> simp only [hmx, hrq] <;> omega
  · intro g g' port h hi
    exact counters_inv_of_map g g' (port_check_bounds h) hi
  · intro sched trigger g g' h hi
    exact counters_inv_of_map g g' (step_bounds sched trigger g g' h) hi
  · intro sched fuel g g' node h hi
    exact counters_inv_of_map g g' (schedule_bounds sched fuel g g' node h) hi

/-- The port check on the input port of the sink of `demo_graph` keeps
`required_in ≤ max_in`. -/
theorem counters_preserved_witness :
    ∃ g' : SpaGraph Unit,
      spa_graph_port_check (demo_graph SpaResult.HAVE_BUFFER 0 SPA_GRAPH_ACTION_CHECK false) 1
        = .ok g' ∧ counters_inv g' := by
  obtain ⟨g', hg'⟩ : ∃ g' : SpaGraph Unit, spa_graph_port_check
      (demo_graph SpaResult.HAVE_BUFFER 0 SPA_GRAPH_ACTION_CHECK false) 1 = .ok g' := ⟨_, rfl⟩
  refine ⟨g', hg', (counters_preserved (σ := Unit)).2.2.1 _ g' 1 hg' ?_⟩
  intro n hn
  simp only [demo_graph, List.mem_cons, List.mem_singleton, List.not_mem_nil, or_false] at hn
  rcases hn with rfl | rfl <;> decide

/-- C6, counterexample: on a node just added, `spa_graph_port_add` of an `OPTIONAL` input
port whose cell holds a buffer leaves `ready_in = 1` and `required_in = 0`. -/
theorem counters_spec_violated :
    ∃ (g1 g2 : SpaGraph Unit),
      spa_graph_node_add (one_node_memory SpaResult.HAVE_BUFFER) 0 0 0 = .ok g1 ∧
      (∀ n ∈ g1.node_mem, counters_spec n) ∧
      spa_graph_port_add g1 0 0 SpaDirection.INPUT 0 SPA_PORT_INFO_FLAG_OPTIONAL (some 0)
        = .ok g2 ∧
      ∃ n ∈ g2.node_mem, n.ready_in = 1 ∧ n.required_in = 0 ∧ ¬ counters_spec n := by
  refine ⟨⟨[0], [], [ ⟨false, [], [], 0, SpaResult.OK, 2, 0, 0, 0, 0, 0⟩], [zero_port],
      [ ⟨SpaResult.HAVE_BUFFER, 0⟩], (), []⟩,
    ⟨[0], [], [ ⟨false, [0], [], 0, SpaResult.OK, 2, 0, 0, 1, 0, 1⟩],
      [ ⟨0, SpaDirection.INPUT, 0, 2, some 0, none⟩], [ ⟨SpaResult.HAVE_BUFFER, 0⟩], (), []⟩,
    rfl, ?_, rfl, ⟨⟨false, [0], [], 0, SpaResult.OK, 2, 0, 0, 1, 0, 1⟩, ?_, rfl, rfl, ?_⟩⟩
  · intro n hn
    simp only [List.mem_singleton] at hn
    subst hn
    exact ⟨Nat.le_refl 0, Nat.le_refl 0⟩
  · exact List.mem_singleton.mpr rfl
  · intro h
    exact absurd h.1 (by decide)

/-- C7, the code at the failing input: on the stereo graph, which satisfies the
ready-queue invariant, `spa_graph_node_schedule (graph, sink)` reaches its
`CHECK`/`NEED_BUFFER` step in the second iteration, and that step inserts the source
into the ready queue once for each of the two input ports: the queue holds the source
twice. -/
theorem ready_queue_double_insert :
    ∃ (g0 g1 g2 : SpaGraph Unit),
      stereo_graph = .ok g0 ∧ ready_inv g0 ∧
      spa_graph_node_schedule_enter g0 1 = .ok g1 ∧
      spa_graph_node_schedule_loop sched_demo 1 2 g1 = .ok g2 ∧
      g2.ready = [0, 0] ∧ ¬ g2.ready.Nodup ∧ ¬ ready_inv g2 := by
  refine ⟨⟨[0, 1], [],
      [ ⟨false, [], [0, 1], 0, SpaResult.OK, 2, 0, 0, 2, 0, 0⟩,
        ⟨false, [2, 3], [], 0, SpaResult.OK, 2, 0, 0, 2, 2, 0⟩],
      [ ⟨0, SpaDirection.OUTPUT, 0, 0, some 0, some 2⟩,
        ⟨0, SpaDirection.OUTPUT, 1, 0, some 1, some 3⟩,
        ⟨1, SpaDirection.INPUT, 0, 0, some 0, some 0⟩,
        ⟨1, SpaDirection.INPUT, 1, 0, some 1, some 1⟩],
      [ ⟨SpaResult.NEED_BUFFER, 0⟩, ⟨SpaResult.NEED_BUFFER, 0⟩], (), []⟩,
    ⟨[0, 1], [1],
      [ ⟨false, [], [0, 1], 0, SpaResult.OK, 2, 0, 0, 2, 0, 0⟩,
        ⟨true, [2, 3], [], 0, SpaResult.OK, 2, 0, 0, 2, 2, 0⟩],
      [ ⟨0, SpaDirection.OUTPUT, 0, 0, some 0, some 2⟩,
        ⟨0, SpaDirection.OUTPUT, 1, 0, some 1, some 3⟩,
        ⟨1, SpaDirection.INPUT, 0, 0, some 0, some 0⟩,
        ⟨1, SpaDirection.INPUT, 1, 0, some 1, some 1⟩],
      [ ⟨SpaResult.NEED_BUFFER, 0⟩, ⟨SpaResult.NEED_BUFFER, 0⟩], (), []⟩,
    ⟨[0, 1], [0, 0],
      [ ⟨true, [], [0, 1], 0, SpaResult.OK, 2, 0, 0, 2, 0, 0⟩,
        ⟨false, [2, 3], [], 0, SpaResult.NEED_BUFFER, 0, 0, 0, 2, 2, 0⟩],
      [ ⟨0, SpaDirection.OUTPUT, 0, 0, some 0, some 2⟩,
        ⟨0, SpaDirection.OUTPUT, 1, 0, some 1, some 3⟩,
        ⟨1, SpaDirection.INPUT, 0, 0, some 0, some 0⟩,
        ⟨1, SpaDirection.INPUT, 1, 0, some 1, some 1⟩],
      [ ⟨SpaResult.NEED_BUFFER, 0⟩, ⟨SpaResult.NEED_BUFFER, 0⟩], (),
      [(1, ⟨false, [2, 3], [], 0, SpaResult.OK, 2, 0, 0, 2, 2, 0⟩)]⟩,
    rfl, ?_, rfl, rfl, rfl, ?_, ?_⟩
  · refine ⟨List.nodup_nil, ?_, ?_⟩
    · intro i hi
      exact absurd hi (List.not_mem_nil i)
    · intro i n hn
      match i with
      | 0 =>
        simp only [List.getElem?_cons_zero, Option.some.injEq] at hn
        subst hn
        simp
      | 1 =>
        simp only [List.getElem?_cons_succ, List.getElem?_cons_zero, Option.some.injEq] at hn
        subst hn
        simp
      | k + 2 => simp at hn
  · decide
  · intro h
    exact absurd h.1 (by decide)

/-- C8, as the code has it: for a port with an attached cell whose status is not
`HAVE_BUFFER`, a second `spa_graph_port_check` changes nothing: the graph after two
checks is the graph after one, and so is the ready-queue membership of the owning
node. -/
theorem port_check_idempotent {σ : Type} (g : SpaGraph σ) (port : Nat) (p : SpaGraphPort)
    (c : Nat) (io : SpaPortIO) (n : SpaGraphNode)
    (hp : g.port_mem[port]? = some p) (hc : p.io = some c) (hio : g.io_mem[c]? = some io)
    (hn : g.node_mem[p.node]? = some n) (hs : io.status ≠ SpaResult.HAVE_BUFFER) :
    ∃ g1 : SpaGraph σ, spa_graph_port_check g port = .ok g1 ∧
      spa_graph_port_check g1 port = .ok g1 := by
  have h1 := port_check_eq g port p c io n hp hc hio hn
  simp only [hs, if_false] at h1
  by_cases hcond : 0 < n.required_in ∧ n.ready_in = n.required_in
  · rw [if_pos hcond] at h1
    set n1 : SpaGraphNode := { n with
      ready_in := n.ready_in, action := SPA_GRAPH_ACTION_IN, ready_link_next := true } with hn1d
    set g1 : SpaGraph σ := { g with
      ready := if n.ready_link_next = true then g.ready else g.ready ++ [p.node]
      node_mem := g.node_mem.set p.node n1 } with hg1
    have hn1 : g1.node_mem[p.node]? = some n1 := getElem?_set_same n1 hn
    have h2 := port_check_eq g1 port p c io n1 hp hc hio hn1
    have hc1 : 0 < n1.required_in ∧
        (if io.status = SpaResult.HAVE_BUFFER then (n1.ready_in + 1) % UINT32_MOD
          else n1.ready_in) = n1.required_in := by
      rw [if_neg hs]
      exact hcond
    rw [if_pos hc1, if_neg hs] at h2
    refine ⟨g1, h1, ?_⟩
    rw [h2]
    have hs1 : g1.node_mem.set p.node n1 = g1.node_mem := set_getElem?_self _ _ _ hn1
    have hs2 : ({ n1 with
        ready_in := n1.ready_in, action := SPA_GRAPH_ACTION_IN, ready_link_next := true }
        : SpaGraphNode) = n1 := rfl
    rw [hs2, hs1]
    rfl
  · rw [if_neg hcond] at h1
    set n1 : SpaGraphNode := { n with
      ready_in := n.ready_in, ready_link_next := false } with hn1d
    set g1 : SpaGraph σ := { g with
      ready := if n.ready_link_next = true then g.ready.erase p.node else g.ready
      node_mem := g.node_mem.set p.node n1 } with hg1
    have hn1 : g1.node_mem[p.node]? = some n1 := getElem?_set_same n1 hn
    have h2 := port_check_eq g1 port p c io n1 hp hc hio hn1
    have hc1 : ¬ (0 < n1.required_in ∧
        (if io.status = SpaResult.HAVE_BUFFER then (n1.ready_in + 1) % UINT32_MOD
          else n1.ready_in) = n1.required_in) := by
      rw [if_neg hs]
      exact hcond
    rw [if_neg hc1, if_neg hs] at h2
    refine ⟨g1, h1, ?_⟩
    rw [h2]
    have hs1 : g1.node_mem.set p.node n1 = g1.node_mem := set_getElem?_self _ _ _ hn1
    have hs2 : ({ n1 with ready_in := n1.ready_in, ready_link_next := false }
        : SpaGraphNode) = n1 := rfl
    rw [hs2, hs1]
    rfl

/-- The port check twice on the input port of the sink of `demo_graph` while the cell
asks for a buffer. -/
theorem port_check_idempotent_witness :
    ∃ g1 : SpaGraph Unit,
      spa_graph_port_check (demo_graph SpaResult.NEED_BUFFER 0 SPA_GRAPH_ACTION_CHECK true) 1
        = .ok g1 ∧ spa_graph_port_check g1 1 = .ok g1 :=
  port_check_idempotent (demo_graph SpaResult.NEED_BUFFER 0 SPA_GRAPH_ACTION_CHECK true) 1
    ⟨1, SpaDirection.INPUT, 0, 0, some 0, some 0⟩ 0 ⟨SpaResult.NEED_BUFFER, 0⟩
    ⟨true, [1], [], 0, SpaResult.NEED_BUFFER, SPA_GRAPH_ACTION_CHECK, 0, 0, 1, 1, 0⟩
    rfl rfl rfl rfl (by decide)

/-- C8, counterexample: with the cell at `HAVE_BUFFER`, `required_in = 1` and
`ready_in = 0`, one port check puts the sink on the ready queue and a second one takes
it off again. -/
theorem port_check_twice_differs :
    ∃ (g1 g2 : SpaGraph Unit),
      spa_graph_port_check (demo_graph SpaResult.HAVE_BUFFER 0 SPA_GRAPH_ACTION_CHECK false) 1
        = .ok g1 ∧
      spa_graph_port_check g1 1 = .ok g2 ∧ 1 ∈ g1.ready ∧ 1 ∉ g2.ready := by
  refine ⟨⟨[0, 1], [1],
      [ ⟨false, [], [0], 0, SpaResult.OK, 2, 0, 0, 1, 0, 0⟩,
        ⟨true, [1], [], 0, SpaResult.NEED_BUFFER, 1, 0, 0, 1, 1, 1⟩],
      [ ⟨0, SpaDirection.OUTPUT, 0, 0, some 0, some 1⟩,
        ⟨1, SpaDirection.INPUT, 0, 0, some 0, some 0⟩],
      [ ⟨SpaResult.HAVE_BUFFER, 0⟩], (), []⟩,
    ⟨[0, 1], [],
      [ ⟨false, [], [0], 0, SpaResult.OK, 2, 0, 0, 1, 0, 0⟩,
        ⟨false, [1], [], 0, SpaResult.NEED_BUFFER, 1, 0, 0, 1, 1, 2⟩],
      [ ⟨0, SpaDirection.OUTPUT, 0, 0, some 0, some 1⟩,
        ⟨1, SpaDirection.INPUT, 0, 0, some 0, some 0⟩],
      [ ⟨SpaResult.HAVE_BUFFER, 0⟩], (), []⟩,
    rfl, rfl, by decide, by decide⟩

/-- C9, as the code has it: peer symmetry is preserved by `spa_graph_port_add` of a port
whose record had no peer, by `spa_graph_port_link (out, in)` when neither port has a peer
(afterwards the two are each other's peers), and by `spa_graph_port_unlink (out, in)`
when `in` is the peer of `out` (afterwards neither has a peer).  The two functions only
assign the two peer pointers; they neither check nor detach a previous peer. -/
theorem peer_symmetry_preserved {σ : Type} :
    (∀ (g g' : SpaGraph σ) (node port : Nat) (direction : SpaDirection) (port_id flags : Nat)
      (io : Option Nat) (pr0 : SpaGraphPort),
      spa_graph_port_add g node port direction port_id flags io = .ok g' →
      peer_symmetric g → g.port_mem[port]? = some pr0 → pr0.peer = none →
      peer_symmetric g' ∧ (g'.port_mem[port]?).map (fun r => r.peer) = some none) ∧
    (∀ (g g' : SpaGraph σ) (out in_ : Nat) (po pi : SpaGraphPort),
      spa_graph_port_link g out in_ = .ok g' → peer_symmetric g →
      g.port_mem[out]? = some po → g.port_mem[in_]? = some pi →
      po.peer = none → pi.peer = none →
      peer_symmetric g' ∧ (g'.port_mem[out]?).map (fun r => r.peer) = some (some in_) ∧
        (g'.port_mem[in_]?).map (fun r => r.peer) = some (some out)) ∧
    (∀ (g g' : SpaGraph σ) (out in_ : Nat) (po : SpaGraphPort),
      spa_graph_port_unlink g out in_ = .ok g' → peer_symmetric g →
      g.port_mem[out]? = some po → po.peer = some in_ →
      peer_symmetric g' ∧ (g'.port_mem[out]?).map (fun r => r.peer) = some none ∧
        (g'.port_mem[in_]?).map (fun r => r.peer) = some none) := by
  refine ⟨?_, ?_, ?_⟩
  · intro g g' node port direction port_id flags io pr0 h hsym hp0 hnone
    unfold spa_graph_port_add at h
    obtain ⟨_, _, h⟩ := bind_ok h
    obtain ⟨n, _, h⟩ := bind_ok h
    have hpm := port_check_port_mem h
    simp only [store_node, store_port] at hpm
    have hlt := lt_of_getElem? hp0
    have hno : ∀ (q : Nat) (qr : SpaGraphPort), g.port_mem[q]? = some qr → q ≠ port →
        q ≠ port → qr.peer ≠ some port := by
      intro q qr hq _ _ hx
      have := (hsym q port qr pr0 hq hp0).mp hx
      rw [hnone] at this
      exact absurd this (by simp)
    have hs := peer_symmetric_set2 g.port_mem port port
      ⟨node, direction, port_id, flags, io, none⟩ ⟨node, direction, port_id, flags, io, none⟩
      hsym hlt hlt hno hno (Or.inr rfl) (Or.inr rfl) (by simp)
    rw [List.set_set] at hs
    refine ⟨?_, ?_⟩
    · intro p q pr qr hp hq
      rw [hpm] at hp hq
      exact hs p q pr qr hp hq
    · rw [hpm, List.getElem?_set_self hlt]
      rfl
  · intro g g' out in_ po pi h hsym hpo hpi hno hni
    unfold spa_graph_port_link at h
    obtain ⟨o, ho, h⟩ := bind_ok h
    obtain ⟨i, _, h⟩ := bind_ok h
    have ho' := load_port_ok ho
    rw [hpo] at ho'
    have hoe : o = po := (Option.some.inj ho').symm
    subst hoe
    rw [← Except.ok.inj h]
    simp only [store_port]
    have hlo := lt_of_getElem? hpo
    have hli := lt_of_getElem? hpi
    have hna : ∀ (q : Nat) (qr : SpaGraphPort), g.port_mem[q]? = some qr → q ≠ out →
        q ≠ in_ → qr.peer ≠ some out := by
      intro q qr hq _ _ hx
      have := (hsym q out qr o hq hpo).mp hx
      rw [hno] at this
      exact absurd this (by simp)
    have hnb : ∀ (q : Nat) (qr : SpaGraphPort), g.port_mem[q]? = some qr → q ≠ out →
        q ≠ in_ → qr.peer ≠ some in_ := by
      intro q qr hq _ _ hx
      have := (hsym q in_ qr pi hq hpi).mp hx
      rw [hni] at this
      exact absurd this (by simp)
    refine ⟨peer_symmetric_set2 g.port_mem out in_ _ _ hsym hlo hli hna hnb (Or.inl rfl)
      (Or.inl rfl) (by simp), ?_⟩
    have hin := List.getElem?_set_self (l := g.port_mem.set out { o with peer := some in_ })
      (i := in_) (a := { i with peer := some out }) (by simpa using hli)
    refine ⟨?_, by rw [hin]; rfl⟩
    by_cases hoi : in_ = out
    · subst hoi
      rw [List.getElem?_set_self (by simpa using hli)]
      rfl
    · rw [List.getElem?_set_ne hoi, List.getElem?_set_self hlo]
      rfl
  · intro g g' out in_ po h hsym hpo hpeer
    unfold spa_graph_port_unlink at h
    obtain ⟨o, ho, h⟩ := bind_ok h
    obtain ⟨i, hi, h⟩ := bind_ok h
    have ho' := load_port_ok ho
    rw [hpo] at ho'
    have hoe : o = po := (Option.some.inj ho').symm
    subst hoe
    have hi' := load_port_ok hi
    simp only [store_port] at hi'
    have hlo := lt_of_getElem? hpo
    have hli : in_ < g.port_mem.length := by
      have := lt_of_getElem? hi'
      simpa using this
    obtain ⟨pi, hpi⟩ : ∃ pi, g.port_mem[in_]? = some pi := ⟨g.port_mem[in_], by simp [hli]⟩
    have hpi_peer : pi.peer = some out := (hsym out in_ o pi hpo hpi).mp hpeer
    rw [← Except.ok.inj h]
    simp only [store_port]
    have hna : ∀ (q : Nat) (qr : SpaGraphPort), g.port_mem[q]? = some qr → q ≠ out →
        q ≠ in_ → qr.peer ≠ some out := by
      intro q qr hq _ hq2 hx
      have := (hsym q out qr o hq hpo).mp hx
      rw [hpeer] at this
      exact hq2 (Option.some.inj this).symm
    have hnb : ∀ (q : Nat) (qr : SpaGraphPort), g.port_mem[q]? = some qr → q ≠ out →
        q ≠ in_ → qr.peer ≠ some in_ := by
      intro q qr hq hq1 _ hx
      have := (hsym q in_ qr pi hq hpi).mp hx
      rw [hpi_peer] at this
      exact hq1 (Option.some.inj this).symm
    refine ⟨peer_symmetric_set2 g.port_mem out in_ _ _ hsym hlo hli hna hnb (Or.inr rfl)
      (Or.inr rfl) (by simp), ?_⟩
    have hin := List.getElem?_set_self (l := g.port_mem.set out { o with peer := none })
      (i := in_) (a := { i with peer := none }) (by simpa using hli)
    refine ⟨?_, by rw [hin]; rfl⟩
    by_cases hoi : in_ = out
    · subst hoi
      rw [List.getElem?_set_self (by simpa using hli)]
      rfl
    · rw [List.getElem?_set_ne hoi, List.getElem?_set_self hlo]
      rfl

/-- Unlinking the two linked ports of `three_ports`. -/
theorem peer_symmetry_preserved_witness :
    ∃ g' : SpaGraph Unit, spa_graph_port_unlink three_ports 0 2 = .ok g' ∧
      peer_symmetric g' := by
  obtain ⟨g', hg'⟩ : ∃ g' : SpaGraph Unit, spa_graph_port_unlink three_ports 0 2 = .ok g' :=
    ⟨_, rfl⟩
  exact ⟨g', hg', ((peer_symmetry_preserved (σ := Unit)).2.2 three_ports g' 0 2
    { zero_port with peer := some 2 } hg' three_ports_symmetric rfl rfl).1⟩

/-- C9, counterexample: in `three_ports`, where ports 0 and 2 are each other's peers,
`spa_graph_port_link (0, 1)` leaves port 2 pointing at port 0 while port 0 points at
port 1, and `spa_graph_port_unlink (0, 1)` leaves port 2 pointing at port 0 while port 0
has no peer. -/
theorem peer_symmetry_broken :
    ∃ (g1 g2 : SpaGraph Unit),
      peer_symmetric three_ports ∧
      spa_graph_port_link three_ports 0 1 = .ok g1 ∧ ¬ peer_symmetric g1 ∧
      spa_graph_port_unlink three_ports 0 1 = .ok g2 ∧ ¬ peer_symmetric g2 := by
  refine ⟨⟨[], [], [],
      [{ zero_port with peer := some 1 }, { zero_port with peer := some 0 },
        { zero_port with peer := some 0 }], [], (), []⟩,
    ⟨[], [], [],
      [{ zero_port with peer := none }, { zero_port with peer := none },
        { zero_port with peer := some 0 }], [], (), []⟩,
    three_ports_symmetric, rfl, ?_, rfl, ?_⟩
  · intro h
    have := (h 2 0 { zero_port with peer := some 0 } { zero_port with peer := some 1 }
      rfl rfl).mp rfl
    exact absurd this (by decide)
  · intro h
    have := (h 2 0 { zero_port with peer := some 0 } { zero_port with peer := none }
      rfl rfl).mp rfl
    exact absurd this (by decide)

/-- C10 (scenario S2), as the code has it: in the graph `source → sink` with the cell at
`NEED_BUFFER`, whatever the flags of the source (`ASYNC` included), when the source
produces a buffer (cell set to `HAVE_BUFFER`, result `HAVE_BUFFER`),
`spa_graph_node_schedule (graph, source)` invokes the source with `OUT`, then the sink
with `IN`, and returns with the source invoked exactly once, for every behaviour of the
sink except the one that returns `NEED_BUFFER` and leaves the cell at `NEED_BUFFER`; for
that behaviour and an `ASYNC` source, the `CHECK` step of the sink puts the source back
on the ready queue with action `OUT` and the source is run again in the same pass. -/
theorem s2_async_source {σ : Type} (sched : SpaGraphNodeFunc σ) (u : σ) (b f : Nat)
    (hsrc : ∀ (n : SpaGraphNode) (c : Nat) (v : σ),
      ∃ c', (sched 0 n [ ⟨SpaResult.NEED_BUFFER, c⟩] v).1 = SpaResult.HAVE_BUFFER
        ∧ (sched 0 n [ ⟨SpaResult.NEED_BUFFER, c⟩] v).2.1 = [ ⟨SpaResult.HAVE_BUFFER, c'⟩]) :
    ∃ g0 : SpaGraph σ,
      source_sink_graph u SpaResult.NEED_BUFFER b f = .ok g0 ∧ g0.ready = [] ∧
      ((∀ (n : SpaGraphNode) (c : Nat) (v : σ),
          ∃ cell', (sched 1 n [ ⟨SpaResult.HAVE_BUFFER, c⟩] v).2.1 = [cell'] ∧
            ¬ ((sched 1 n [ ⟨SpaResult.HAVE_BUFFER, c⟩] v).1 = SpaResult.NEED_BUFFER
              ∧ cell'.status = SpaResult.NEED_BUFFER)) →
        ∃ g1 : SpaGraph σ,
          (∀ fuel, 4 ≤ fuel → spa_graph_node_schedule sched fuel g0 0 = .ok g1) ∧
          g1.ready = [] ∧
          g1.calls.map (fun c => (c.1, c.2.action))
            = [(0, SPA_GRAPH_ACTION_OUT), (1, SPA_GRAPH_ACTION_IN)]) ∧
      (flag_set f SPA_GRAPH_NODE_FLAG_ASYNC = true →
        (∀ (n : SpaGraphNode) (c : Nat) (v : σ),
          ∃ c', (sched 1 n [ ⟨SpaResult.HAVE_BUFFER, c⟩] v).1 = SpaResult.NEED_BUFFER
            ∧ (sched 1 n [ ⟨SpaResult.HAVE_BUFFER, c⟩] v).2.1
              = [ ⟨SpaResult.NEED_BUFFER, c'⟩]) →
        ∃ g1 g5 : SpaGraph σ,
          spa_graph_node_schedule_enter g0 0 = .ok g1 ∧
          spa_graph_node_schedule_loop sched 0 5 g1 = .ok g5 ∧
          g5.calls.map (fun c => (c.1, c.2.action))
            = [(0, SPA_GRAPH_ACTION_OUT), (1, SPA_GRAPH_ACTION_IN),
               (0, SPA_GRAPH_ACTION_OUT)]) := by
  let src : Bool → SpaResult → Nat → SpaGraphNode :=
    fun q st a => ⟨q, [], [0], f, st, a, 0, 0, 1, 0, 0⟩
  let snk : Bool → SpaResult → Nat → Nat → SpaGraphNode :=
    fun q st a r => ⟨q, [1], [], 0, st, a, 0, 0, 1, 1, r⟩
  let ports : List SpaGraphPort :=
    [ ⟨0, .OUTPUT, 0, 0, some 0, some 1⟩, ⟨1, .INPUT, 0, 0, some 0, some 0⟩]
  obtain ⟨c1, hr1, hc1⟩ := hsrc (src false .OK 2) b u
  have e0 : spa_graph_node_schedule_enter
      (⟨[0, 1], [], [src false .OK 2, snk false .OK 2 0], ports, [ ⟨.NEED_BUFFER, b⟩], u, []⟩ :
        SpaGraph σ) 0
      = .ok ⟨[0, 1], [0], [src true .OK 2, snk false .OK 2 0], ports,
          [ ⟨.NEED_BUFFER, b⟩], u, []⟩ := rfl
  have e1 : spa_graph_node_schedule_step sched 0
      (⟨[0, 1], [0], [src true .OK 2, snk false .OK 2 0], ports,
          [ ⟨.NEED_BUFFER, b⟩], u, []⟩ : SpaGraph σ)
      = .ok ⟨[0, 1], [0], [src true (sched 0 (src false .OK 2) [ ⟨.NEED_BUFFER, b⟩] u).1 0,
            snk false .OK 2 0], ports,
          (sched 0 (src false .OK 2) [ ⟨.NEED_BUFFER, b⟩] u).2.1,
          (sched 0 (src false .OK 2) [ ⟨.NEED_BUFFER, b⟩] u).2.2,
          [(0, src false .OK 2)]⟩ := rfl
  rw [hr1, hc1] at e1
  generalize (sched 0 (src false .OK 2) [ ⟨.NEED_BUFFER, b⟩] u).2.2 = u1 at e1
  have e2 : spa_graph_node_schedule_step sched 0
      (⟨[0, 1], [0], [src true .HAVE_BUFFER 0, snk false .OK 2 0], ports,
          [ ⟨.HAVE_BUFFER, c1⟩], u1, [(0, src false .OK 2)]⟩ : SpaGraph σ)
      = .ok ⟨[0, 1], [1], [src false .HAVE_BUFFER 0, snk true .OK 1 1], ports,
          [ ⟨.HAVE_BUFFER, c1⟩], u1, [(0, src false .OK 2)]⟩ := rfl
  have e3 : spa_graph_node_schedule_step sched 0
      (⟨[0, 1], [1], [src false .HAVE_BUFFER 0, snk true .OK 1 1], ports,
          [ ⟨.HAVE_BUFFER, c1⟩], u1, [(0, src false .OK 2)]⟩ : SpaGraph σ)
      = .ok ⟨[0, 1], [1], [src false .HAVE_BUFFER 0,
            snk true (sched 1 (snk false .OK 1 1) [ ⟨.HAVE_BUFFER, c1⟩] u1).1 0 1], ports,
          (sched 1 (snk false .OK 1 1) [ ⟨.HAVE_BUFFER, c1⟩] u1).2.1,
          (sched 1 (snk false .OK 1 1) [ ⟨.HAVE_BUFFER, c1⟩] u1).2.2,
          [(0, src false .OK 2), (1, snk false .OK 1 1)]⟩ := rfl
  refine ⟨⟨[0, 1], [], [src false .OK 2, snk false .OK 2 0], ports, [ ⟨.NEED_BUFFER, b⟩], u, []⟩,
    rfl, rfl, ?_, ?_⟩
  · intro hsink
    obtain ⟨cell', hcs, hnot⟩ := hsink (snk false .OK 1 1) c1 u1
    rw [hcs] at e3
    generalize (sched 1 (snk false .OK 1 1) [ ⟨.HAVE_BUFFER, c1⟩] u1).2.2 = u2 at e3
    generalize (sched 1 (snk false .OK 1 1) [ ⟨.HAVE_BUFFER, c1⟩] u1).1 = r at e3 hnot
    obtain ⟨s', bid⟩ := cell'
    have e4 : ∃ g5 : SpaGraph σ, spa_graph_node_schedule_step sched 0
        (⟨[0, 1], [1], [src false .HAVE_BUFFER 0, snk true r 0 1], ports,
          [ ⟨s', bid⟩], u2, [(0, src false .OK 2), (1, snk false .OK 1 1)]⟩ : SpaGraph σ)
        = .ok g5 ∧ g5.ready = [] ∧
          g5.calls = [(0, src false .OK 2), (1, snk false .OK 1 1)] := by
      cases r <;> first
        | exact ⟨_, rfl, rfl, rfl⟩
        | (cases s' <;> first
            | exact ⟨_, rfl, rfl, rfl⟩
            | exact absurd ⟨rfl, rfl⟩ hnot)
    obtain ⟨g5, e4, hready, hcalls⟩ := e4
    refine ⟨g5, ?_, hready, ?_⟩
    · intro fuel hfuel
      obtain ⟨k, rfl⟩ := Nat.exists_eq_add_of_le hfuel
      have hk : 4 + k = k + 1 + 1 + 1 + 1 := by omega
      rw [hk]
      exact schedule_of_loop sched _ _ _ _ _ e0
        ((loop_of_step sched 0 _ _ _ (List.cons_ne_nil _ _) e1).trans
          ((loop_of_step sched 0 _ _ _ (List.cons_ne_nil _ _) e2).trans
            ((loop_of_step sched 0 _ _ _ (List.cons_ne_nil _ _) e3).trans
              ((loop_of_step sched 0 _ _ _ (List.cons_ne_nil _ _) e4).trans
                (loop_of_empty sched 0 _ _ hready))))) hready
    · rw [hcalls]
      rfl
  · intro hf hsink
    obtain ⟨c2, hr2, hc2⟩ := hsink (snk false .OK 1 1) c1 u1
    rw [hr2, hc2] at e3
    generalize (sched 1 (snk false .OK 1 1) [ ⟨.HAVE_BUFFER, c1⟩] u1).2.2 = u2 at e3
    have e4 : spa_graph_node_schedule_step sched 0
        (⟨[0, 1], [1], [src false .HAVE_BUFFER 0, snk true .NEED_BUFFER 0 1], ports,
          [ ⟨.NEED_BUFFER, c2⟩], u2, [(0, src false .OK 2), (1, snk false .OK 1 1)]⟩ :
          SpaGraph σ)
        = .ok ⟨[0, 1], [0], [src true .HAVE_BUFFER 2, snk false .NEED_BUFFER 0 0], ports,
          [ ⟨.NEED_BUFFER, c2⟩], u2, [(0, src false .OK 2), (1, snk false .OK 1 1)]⟩ := by
      simp [spa_graph_node_schedule_step, schedule_need_buffer, load_node, load_port,
        load_peer, load_io, store_node, ready_insert, spa_list_remove, spa_list_insert_tail,
        src, snk, ports, hf, bind, Except.bind, pure, Except.pure, SPA_GRAPH_ACTION_IN,
        SPA_GRAPH_ACTION_OUT, SPA_GRAPH_ACTION_CHECK]
    have e5 : spa_graph_node_schedule_step sched 0
        (⟨[0, 1], [0], [src true .HAVE_BUFFER 2, snk false .NEED_BUFFER 0 0], ports,
          [ ⟨.NEED_BUFFER, c2⟩], u2, [(0, src false .OK 2), (1, snk false .OK 1 1)]⟩ :
          SpaGraph σ)
        = .ok ⟨[0, 1], [0],
          [src true (sched 0 (src false .HAVE_BUFFER 2) [ ⟨.NEED_BUFFER, c2⟩] u2).1 0,
            snk false .NEED_BUFFER 0 0], ports,
          (sched 0 (src false .HAVE_BUFFER 2) [ ⟨.NEED_BUFFER, c2⟩] u2).2.1,
          (sched 0 (src false .HAVE_BUFFER 2) [ ⟨.NEED_BUFFER, c2⟩] u2).2.2,
          [(0, src false .OK 2), (1, snk false .OK 1 1), (0, src false .HAVE_BUFFER 2)]⟩ :=
      rfl
    refine ⟨_, ⟨[0, 1], [0],
          [src true (sched 0 (src false .HAVE_BUFFER 2) [ ⟨.NEED_BUFFER, c2⟩] u2).1 0,
            snk false .NEED_BUFFER 0 0], ports,
          (sched 0 (src false .HAVE_BUFFER 2) [ ⟨.NEED_BUFFER, c2⟩] u2).2.1,
          (sched 0 (src false .HAVE_BUFFER 2) [ ⟨.NEED_BUFFER, c2⟩] u2).2.2,
          [(0, src false .OK 2), (1, snk false .OK 1 1), (0, src false .HAVE_BUFFER 2)]⟩,
      e0, ?_, rfl⟩
    exact (loop_of_step sched 0 _ _ _ (List.cons_ne_nil _ _) e1).trans
      ((loop_of_step sched 0 _ _ _ (List.cons_ne_nil _ _) e2).trans
        ((loop_of_step sched 0 _ _ _ (List.cons_ne_nil _ _) e3).trans
          ((loop_of_step sched 0 _ _ _ (List.cons_ne_nil _ _) e4).trans
            ((loop_of_step sched 0 _ _ _ (List.cons_ne_nil _ _) e5).trans rfl))))

/-- The scenario S2 with an `ASYNC` source and the passive sink of `sched_passive`. -/
theorem s2_async_source_witness :
    ∃ g0 g1 : SpaGraph Unit,
      source_sink_graph () SpaResult.NEED_BUFFER 0 SPA_GRAPH_NODE_FLAG_ASYNC = .ok g0 ∧
      spa_graph_node_schedule sched_passive 4 g0 0 = .ok g1 ∧
      g1.calls.map (fun c => (c.1, c.2.action))
        = [(0, SPA_GRAPH_ACTION_OUT), (1, SPA_GRAPH_ACTION_IN)] := by
  obtain ⟨g0, h0, _, h1, _⟩ := s2_async_source sched_passive () 0 SPA_GRAPH_NODE_FLAG_ASYNC
    (fun _ c _ => ⟨c, by simp [sched_passive], by simp [sched_passive]⟩)
  obtain ⟨g1, hf, _, hc⟩ := h1
    (fun _ c _ => ⟨⟨SpaResult.HAVE_BUFFER, c⟩, by simp [sched_passive], by simp [sched_passive]⟩)
  exact ⟨g0, g1, h0, hf 4 (Nat.le_refl 4), hc⟩

/-- C10, counterexample: with an `ASYNC` source that produces and a sink that consumes
the buffer, sets the cell back to `NEED_BUFFER` and returns `NEED_BUFFER` (`sched_demo`),
the source has been run twice after five iterations of
`spa_graph_node_schedule (graph, source)`, and the call does not return for any number of
iterations. -/
theorem s2_async_source_reentered :
    ∃ g0 g1 g5 : SpaGraph Unit,
      source_sink_graph () SpaResult.NEED_BUFFER 0 SPA_GRAPH_NODE_FLAG_ASYNC = .ok g0 ∧
      spa_graph_node_schedule_enter g0 0 = .ok g1 ∧
      spa_graph_node_schedule_loop sched_demo 0 5 g1 = .ok g5 ∧
      g5.calls.map (fun c => (c.1, c.2.action))
        = [(0, SPA_GRAPH_ACTION_OUT), (1, SPA_GRAPH_ACTION_IN), (0, SPA_GRAPH_ACTION_OUT)] ∧
      ¬ ∃ (fuel : Nat) (g' : SpaGraph Unit),
        spa_graph_node_schedule sched_demo fuel g0 0 = .ok g' := by
  refine ⟨⟨[0, 1], [],
      [ ⟨false, [], [0], 1, SpaResult.OK, 2, 0, 0, 1, 0, 0⟩,
        ⟨false, [1], [], 0, SpaResult.OK, 2, 0, 0, 1, 1, 0⟩],
      [ ⟨0, SpaDirection.OUTPUT, 0, 0, some 0, some 1⟩,
        ⟨1, SpaDirection.INPUT, 0, 0, some 0, some 0⟩],
      [ ⟨SpaResult.NEED_BUFFER, 0⟩], (), []⟩,
    s2_state 0 [] SpaResult.OK SpaResult.OK SPA_GRAPH_ACTION_OUT,
    s2_state 1 [(0, ⟨false, [], [0], 1, SpaResult.OK, 2, 0, 0, 1, 0, 0⟩),
        (1, ⟨false, [1], [], 0, SpaResult.OK, 1, 0, 0, 1, 1, 1⟩),
        (0, ⟨false, [], [0], 1, SpaResult.HAVE_BUFFER, 2, 0, 0, 1, 0, 0⟩)]
      SpaResult.HAVE_BUFFER SpaResult.NEED_BUFFER 0,
    rfl, rfl, by with_unfolding_all rfl, rfl, ?_⟩
  rintro ⟨fuel, g', h⟩
  unfold spa_graph_node_schedule at h
  obtain ⟨g1, hg1, h⟩ := bind_ok h
  have he : g1 = s2_state 0 [] SpaResult.OK SpaResult.OK SPA_GRAPH_ACTION_OUT :=
    (Except.ok.inj hg1).symm
  subst he
  obtain ⟨g2, hg2, h⟩ := bind_ok h
  obtain ⟨p, cs, ss, ks, ka, hl⟩ :=
    s2_state_loop fuel 0 [] SpaResult.OK SpaResult.OK SPA_GRAPH_ACTION_OUT
  rw [hl] at hg2
  have hg : g2 = s2_state p cs ss ks ka := (Except.ok.inj hg2).symm
  subst hg
  rw [if_neg (s2_state_ready p cs ss ks ka)] at h
  exact absurd h (by simp [throw, throwThe, MonadExceptOf.throw])

/-- C11, as the code has it: the `ASYNC` flag of the trigger plays no part in the
`HAVE_BUFFER` cascade.  For every graph with an empty ready queue and an idle trigger `t`
with action `OUT`, whatever the flags of `t` (`ASYNC` included), whose one output port is
linked to a port of another idle node `d` that lacks exactly one ready input: when the
schedule function of `t` returns `HAVE_BUFFER` and leaves the cell of that port at
`HAVE_BUFFER`, the first three iterations of `spa_graph_node_schedule (graph, t)` run `t`
with `OUT`, check it, and run `d` with action `IN`, in the same pass. -/
theorem async_trigger_cascade {σ : Type} (sched : SpaGraphNodeFunc σ) (g : SpaGraph σ)
    (t d o q c : Nat) (n r : SpaGraphNode) (po pq : SpaGraphPort) (io : SpaPortIO)
    (hready : g.ready = [])
    (hn : g.node_mem[t]? = some n) (hidle : n.ready_link_next = false)
    (ha : n.action = SPA_GRAPH_ACTION_OUT) (hports : n.ports_output = [o])
    (hpo : g.port_mem[o]? = some po) (hpeer : po.peer = some q)
    (hpq : g.port_mem[q]? = some pq) (hd : pq.node = d) (hdt : d ≠ t) (hc : pq.io = some c)
    (hr : g.node_mem[d]? = some r) (hq : r.ready_link_next = false)
    (hreq : 0 < r.required_in) (heq : (r.ready_in + 1) % UINT32_MOD = r.required_in)
    (hres : (sched t { n with ready_link_next := false } g.io_mem g.user).1
      = SpaResult.HAVE_BUFFER)
    (hcell : (sched t { n with ready_link_next := false } g.io_mem g.user).2.1[c]? = some io)
    (hst : io.status = SpaResult.HAVE_BUFFER) :
    ∃ g1 g3 : SpaGraph σ,
      spa_graph_node_schedule_enter g t = .ok g1 ∧
      spa_graph_node_schedule_loop sched t 3 g1 = .ok g3 ∧
      g3.calls = g.calls ++ [(t, { n with ready_link_next := false }),
        (d, { r with ready_in := r.required_in, action := SPA_GRAPH_ACTION_IN })] := by
  have hlt : t < g.node_mem.length := lt_of_getElem? hn
  have hld : d < g.node_mem.length := lt_of_getElem? hr
  set res := sched t { n with ready_link_next := false } g.io_mem g.user with hresdef
  -- entry
  set n1 : SpaGraphNode := { n with ready_link_next := true } with hn1
  set g1 : SpaGraph σ := { g with
    ready := g.ready ++ [t]
    node_mem := g.node_mem.set t n1 } with hg1
  have e0 : spa_graph_node_schedule_enter g t = .ok g1 := enter_eq g t n hn hidle
  -- the trigger runs
  have hr1 : g1.ready = [t] := by simp [hg1, hready]
  have hm1 : g1.node_mem[t]? = some n1 := by
    simp [hg1, List.getElem?_set_self hlt]
  have hnin : ¬ (n1.action = SPA_GRAPH_ACTION_IN ∧ t = t) := by
    intro hx
    rw [hn1] at hx
    simp only [ha] at hx
    exact absurd hx.1 (by decide)
  set n2 : SpaGraphNode := { n with
    ready_link_next := true
    action := SPA_GRAPH_ACTION_CHECK
    state := res.1 } with hn2
  set g2 : SpaGraph σ := { g with
    ready := [t]
    io_mem := res.2.1
    user := res.2.2
    calls := g.calls ++ [(t, { n with ready_link_next := false })]
    node_mem := g.node_mem.set t n2 } with hg2
  have e1 : spa_graph_node_schedule_step sched t g1 = .ok g2 := by
    rw [step_run_eq sched t g1 t [] n1 hr1 hm1 (Or.inr ha), if_neg hnin]
    simp [hg1, hg2, hn1, hn2, List.set_set, hresdef]
  -- the trigger is checked
  have hr2 : g2.ready = [t] := rfl
  have hm2 : g2.node_mem[t]? = some n2 := by
    simp [hg2, List.getElem?_set_self hlt]
  set g2' : SpaGraph σ := { g2 with
    ready := []
    node_mem := g2.node_mem.set t { n2 with ready_link_next := false } } with hg2'
  have hd2 : g2'.node_mem[pq.node]? = some r := by
    rw [hd]
    simp only [hg2', hg2, List.set_set]
    rw [List.getElem?_set_ne (Ne.symm hdt)]
    exact hr
  set n3 : SpaGraphNode := { r with
    ready_in := r.required_in
    action := SPA_GRAPH_ACTION_IN
    ready_link_next := true } with hn3
  set g3 : SpaGraph σ := { g2' with
    ready := [d]
    node_mem := g2'.node_mem.set d n3 } with hg3
  have e2 : spa_graph_node_schedule_step sched t g2 = .ok g3 := by
    have e2a : spa_graph_node_schedule_step sched t g2
        = schedule_have_buffer n2.ports_output g2' :=
      step_check_have sched t g2 t [] n2 hr2 hm2 rfl hres
    have hpo2 : g2'.port_mem[o]? = some po := hpo
    have hpq2 : g2'.port_mem[q]? = some pq := hpq
    have hio2 : g2'.io_mem[c]? = some io := hcell
    have hout : n2.ports_output = [o] := hports
    rw [e2a, hout, have_buffer_single g2' o q po hpo2 hpeer,
      port_check_eq g2' q pq c io r hpq2 hc hio2 hd2]
    simp only [hst, if_true, heq, hreq, and_self, hq, hd]
    simp [hg3, hn3]
  -- the downstream node runs with action `IN`
  have hr3 : g3.ready = [d] := rfl
  have hm3 : g3.node_mem[d]? = some n3 := by
    simp only [hg3]
    exact List.getElem?_set_self (by simpa [hg2', hg2] using hld)
  have hnin3 : ¬ (n3.action = SPA_GRAPH_ACTION_IN ∧ d = t) := fun hx => hdt hx.2
  obtain ⟨g4, e3, hc4⟩ : ∃ g4 : SpaGraph σ, spa_graph_node_schedule_step sched t g3 = .ok g4 ∧
      g4.calls = g3.calls ++ [(d, { n3 with ready_link_next := false })] := by
    rw [step_run_eq sched t g3 d [] n3 hr3 hm3 (Or.inl rfl), if_neg hnin3]
    exact ⟨_, rfl, rfl⟩
  refine ⟨g1, g4, e0, ?_, ?_⟩
  · exact (loop_of_step sched t 2 g1 g2 (by rw [hr1]; exact List.cons_ne_nil _ _) e1).trans
      ((loop_of_step sched t 1 g2 g3 (List.cons_ne_nil _ _) e2).trans
        ((loop_of_step sched t 0 g3 g4 (List.cons_ne_nil _ _) e3).trans rfl))
  · rw [hc4]
    simp [hg3, hg2', hg2, hn3, hq]

/-- The cascade on the graph `source → sink` with an `ASYNC` source that produces and the
passive sink of `sched_passive`. -/
theorem async_trigger_cascade_witness :
    node_async (demo_graph SpaResult.NEED_BUFFER SPA_GRAPH_NODE_FLAG_ASYNC
      SPA_GRAPH_ACTION_OUT false) 0 = true ∧
    ∃ g1 g3 : SpaGraph Unit,
      spa_graph_node_schedule_enter (demo_graph SpaResult.NEED_BUFFER SPA_GRAPH_NODE_FLAG_ASYNC
        SPA_GRAPH_ACTION_OUT false) 0 = .ok g1 ∧
      spa_graph_node_schedule_loop sched_passive 0 3 g1 = .ok g3 ∧
      g3.calls = [(0, ⟨false, [], [0], SPA_GRAPH_NODE_FLAG_ASYNC, SpaResult.OK,
          SPA_GRAPH_ACTION_OUT, 0, 0, 1, 0, 0⟩),
        (1, ⟨false, [1], [], 0, SpaResult.NEED_BUFFER, SPA_GRAPH_ACTION_IN, 0, 0, 1, 1, 1⟩)] :=
  ⟨rfl, async_trigger_cascade sched_passive
    (demo_graph SpaResult.NEED_BUFFER SPA_GRAPH_NODE_FLAG_ASYNC SPA_GRAPH_ACTION_OUT false)
    0 1 0 1 0
    ⟨false, [], [0], SPA_GRAPH_NODE_FLAG_ASYNC, SpaResult.OK, SPA_GRAPH_ACTION_OUT, 0, 0, 1, 0, 0⟩
    ⟨false, [1], [], 0, SpaResult.NEED_BUFFER, SPA_GRAPH_ACTION_OUT, 0, 0, 1, 1, 0⟩
    ⟨0, SpaDirection.OUTPUT, 0, 0, some 0, some 1⟩
    ⟨1, SpaDirection.INPUT, 0, 0, some 0, some 0⟩
    ⟨SpaResult.HAVE_BUFFER, 0⟩
    rfl rfl rfl rfl rfl rfl rfl rfl rfl (by decide) rfl rfl rfl (by decide) rfl rfl rfl rfl⟩

/-- C11, counterexample: in the graph `source → sink` with an `ASYNC` source as trigger
whose schedule function returns `HAVE_BUFFER`, the sink, which is downstream of the
source, is invoked with action `IN` before `spa_graph_node_schedule (graph, source)`
returns. -/
theorem async_trigger_consumed_in_pass :
    ∃ g0 g1 : SpaGraph Unit,
      source_sink_graph () SpaResult.NEED_BUFFER 0 SPA_GRAPH_NODE_FLAG_ASYNC = .ok g0 ∧
      node_async g0 0 = true ∧ upstream_node g0 1 = some 0 ∧
      spa_graph_node_schedule sched_passive 4 g0 0 = .ok g1 ∧
      (g1.node_mem[0]?).map (fun n => n.state) = some SpaResult.HAVE_BUFFER ∧
      g1.calls.map (fun c => (c.1, c.2.action))
        = [(0, SPA_GRAPH_ACTION_OUT), (1, SPA_GRAPH_ACTION_IN)] :=
  ⟨⟨[0, 1], [],
      [ ⟨false, [], [0], 1, SpaResult.OK, 2, 0, 0, 1, 0, 0⟩,
        ⟨false, [1], [], 0, SpaResult.OK, 2, 0, 0, 1, 1, 0⟩],
      [ ⟨0, SpaDirection.OUTPUT, 0, 0, some 0, some 1⟩,
        ⟨1, SpaDirection.INPUT, 0, 0, some 0, some 0⟩],
      [ ⟨SpaResult.NEED_BUFFER, 0⟩], (), []⟩,
    ⟨[0, 1], [],
      [ ⟨false, [], [0], 1, SpaResult.HAVE_BUFFER, 0, 0, 0, 1, 0, 0⟩,
        ⟨false, [1], [], 0, SpaResult.OK, 0, 0, 0, 1, 1, 1⟩],
      [ ⟨0, SpaDirection.OUTPUT, 0, 0, some 0, some 1⟩,
        ⟨1, SpaDirection.INPUT, 0, 0, some 0, some 0⟩],
      [ ⟨SpaResult.HAVE_BUFFER, 0⟩], (),
      [(0, ⟨false, [], [0], 1, SpaResult.OK, 2, 0, 0, 1, 0, 0⟩),
        (1, ⟨false, [1], [], 0, SpaResult.OK, 1, 0, 0, 1, 1, 1⟩)]⟩,
    rfl, rfl, rfl, by with_unfolding_all rfl, rfl, rfl⟩

/-- C12 (scenario S4): for a sink to which `spa_graph_port_add` added two input ports,
the required one at `r` without the `OPTIONAL` flag and the other one with it, in either
order and with cells that are not `HAVE_BUFFER` at that time, `required_in` is 1 and the
sink is idle; and once the cell of the required port is `HAVE_BUFFER`, the port check on
the required port sets the action of the sink to `IN` and puts the sink on the ready
queue. -/
theorem s4_optional_input {σ : Type} (u : σ) (c0 c1 : SpaPortIO) (f0 f1 r b : Nat)
    (hr : r = 0 ∨ r = 1)
    (hreq : flag_set (if r = 0 then f0 else f1) SPA_PORT_INFO_FLAG_OPTIONAL = false)
    (hopt : flag_set (if r = 0 then f1 else f0) SPA_PORT_INFO_FLAG_OPTIONAL = true)
    (h0 : c0.status ≠ SpaResult.HAVE_BUFFER) (h1 : c1.status ≠ SpaResult.HAVE_BUFFER) :
    ∃ (g g' : SpaGraph σ) (n n' : SpaGraphNode),
      optional_sink_graph u c0 c1 f0 f1 = .ok g ∧
      g.node_mem[0]? = some n ∧ n.ports_input = [0, 1] ∧ n.required_in = 1 ∧
      n.ready_link_next = false ∧ g.ready = [] ∧
      spa_graph_port_check (store_io g r ⟨SpaResult.HAVE_BUFFER, b⟩) r = .ok g' ∧
      g'.node_mem[0]? = some n' ∧ n'.action = SPA_GRAPH_ACTION_IN ∧
      n'.ready_link_next = true ∧ g'.ready = [0] := by
  rcases hr with rfl | rfl
  · simp only [if_true] at hreq hopt
    refine ⟨⟨[0], [], [ ⟨false, [0, 1], [], 0, .OK, 2, 0, 0, 2, 1, 0⟩],
        [ ⟨0, .INPUT, 0, f0, some 0, none⟩, ⟨0, .INPUT, 1, f1, some 1, none⟩], [c0, c1], u, []⟩,
      ⟨[0], [0], [ ⟨true, [0, 1], [], 0, .OK, 1, 0, 0, 2, 1, 1⟩],
        [ ⟨0, .INPUT, 0, f0, some 0, none⟩, ⟨0, .INPUT, 1, f1, some 1, none⟩],
        [ ⟨.HAVE_BUFFER, b⟩, c1], u, []⟩,
      ⟨false, [0, 1], [], 0, .OK, 2, 0, 0, 2, 1, 0⟩,
      ⟨true, [0, 1], [], 0, .OK, 1, 0, 0, 2, 1, 1⟩, ?_, rfl, rfl, rfl, rfl, rfl, rfl, rfl,
      rfl, rfl, rfl⟩
    simp [optional_sink_graph, spa_graph_init, spa_graph_node_add, spa_graph_port_add,
      spa_graph_port_check, load_node, load_port, load_io, store_node, store_port,
      spa_list_insert_tail, ready_insert, spa_list_remove, zero_node, zero_port,
      bind, Except.bind, pure, Except.pure, hreq, hopt, h0, h1, UINT32_MOD, SPA_GRAPH_ACTION_OUT]
  · simp only [Nat.one_ne_zero, if_false] at hreq hopt
    refine ⟨⟨[0], [], [ ⟨false, [0, 1], [], 0, .OK, 2, 0, 0, 2, 1, 0⟩],
        [ ⟨0, .INPUT, 0, f0, some 0, none⟩, ⟨0, .INPUT, 1, f1, some 1, none⟩], [c0, c1], u, []⟩,
      ⟨[0], [0], [ ⟨true, [0, 1], [], 0, .OK, 1, 0, 0, 2, 1, 1⟩],
        [ ⟨0, .INPUT, 0, f0, some 0, none⟩, ⟨0, .INPUT, 1, f1, some 1, none⟩],
        [c0, ⟨.HAVE_BUFFER, b⟩], u, []⟩,
      ⟨false, [0, 1], [], 0, .OK, 2, 0, 0, 2, 1, 0⟩,
      ⟨true, [0, 1], [], 0, .OK, 1, 0, 0, 2, 1, 1⟩, ?_, rfl, rfl, rfl, rfl, rfl, rfl, rfl,
      rfl, rfl, rfl⟩
    simp [optional_sink_graph, spa_graph_init, spa_graph_node_add, spa_graph_port_add,
      spa_graph_port_check, load_node, load_port, load_io, store_node, store_port,
      spa_list_insert_tail, ready_insert, spa_list_remove, zero_node, zero_port,
      bind, Except.bind, pure, Except.pure, hreq, hopt, h0, h1, UINT32_MOD,
      SPA_GRAPH_ACTION_OUT]

/-- Scenario S4 with the required port first, the optional port second and both cells at
`NEED_BUFFER`. -/
theorem s4_optional_input_witness :
    ∃ (g g' : SpaGraph Unit) (n n' : SpaGraphNode),
      optional_sink_graph () ⟨SpaResult.NEED_BUFFER, 0⟩ ⟨SpaResult.NEED_BUFFER, 0⟩ 0
        SPA_PORT_INFO_FLAG_OPTIONAL = .ok g ∧
      g.node_mem[0]? = some n ∧ n.ports_input = [0, 1] ∧ n.required_in = 1 ∧
      n.ready_link_next = false ∧ g.ready = [] ∧
      spa_graph_port_check (store_io g 0 ⟨SpaResult.HAVE_BUFFER, 7⟩) 0 = .ok g' ∧
      g'.node_mem[0]? = some n' ∧ n'.action = SPA_GRAPH_ACTION_IN ∧
      n'.ready_link_next = true ∧ g'.ready = [0] :=
  s4_optional_input () ⟨SpaResult.NEED_BUFFER, 0⟩ ⟨SpaResult.NEED_BUFFER, 0⟩ 0
    SPA_PORT_INFO_FLAG_OPTIONAL 0 7 (Or.inl rfl) (by decide) (by decide) (by decide) (by decide)

/-- C13, as the code has it: for every node with `required_in == 0` and every port of that
node with an attached cell, whatever the status of the cell, `spa_graph_port_check` does
not append the node to the ready queue: when the `ready_link` of the node is marked
present it unlinks the node once, otherwise it leaves the queue as it is, and it marks
the `ready_link` absent.  The node is not on the ready queue after the check when, before
it, the node was queued at most once and only with its `ready_link` marked present; a
node that the scheduler has queued twice is still on the queue after the check. -/
theorem pure_source_not_enqueued {σ : Type} (g : SpaGraph σ) (port : Nat) (p : SpaGraphPort)
    (c : Nat) (io : SpaPortIO) (n : SpaGraphNode)
    (hp : g.port_mem[port]? = some p) (hc : p.io = some c) (hio : g.io_mem[c]? = some io)
    (hn : g.node_mem[p.node]? = some n) (hreq : n.required_in = 0) :
    ∃ (g' : SpaGraph σ) (n' : SpaGraphNode),
      spa_graph_port_check g port = .ok g' ∧
      g'.ready = (if n.ready_link_next = true then spa_list_remove g.ready p.node
        else g.ready) ∧
      g'.ready.Sublist g.ready ∧
      g'.ready.count p.node
        = g.ready.count p.node - (if n.ready_link_next = true then 1 else 0) ∧
      g'.node_mem[p.node]? = some n' ∧ n'.ready_link_next = false ∧
      n'.required_in = 0 ∧
      ((p.node ∈ g.ready → n.ready_link_next = true) → g.ready.count p.node ≤ 1 →
        p.node ∉ g'.ready) ∧
      (2 ≤ g.ready.count p.node → p.node ∈ g'.ready) := by
  have hno : ¬ (0 < n.required_in ∧
      (if io.status = SpaResult.HAVE_BUFFER then (n.ready_in + 1) % UINT32_MOD
        else n.ready_in) = n.required_in) := by
    intro hx
    rw [hreq] at hx
    exact absurd hx.1 (Nat.lt_irrefl 0)
  have hlt : p.node < g.node_mem.length := lt_of_getElem? hn
  have hcount : (if n.ready_link_next = true then g.ready.erase p.node else g.ready).count p.node
      = g.ready.count p.node - (if n.ready_link_next = true then 1 else 0) := by
    split
    · exact List.count_erase_self p.node g.ready
    · rfl
  refine ⟨_, _, (port_check_eq g port p c io n hp hc hio hn).trans
    (congrArg Except.ok (if_neg hno)), rfl, ?_, hcount, List.getElem?_set_self hlt, rfl, hreq,
    ?_, ?_⟩
  · show (if n.ready_link_next = true then g.ready.erase p.node else g.ready).Sublist g.ready
    split
    · exact List.erase_sublist _ _
    · exact List.Sublist.refl _
  · intro hlink hone
    show p.node ∉ (if n.ready_link_next = true then g.ready.erase p.node else g.ready)
    intro hm
    have hpos := List.count_pos_iff.mpr hm
    rw [hcount] at hpos
    by_cases hq : n.ready_link_next = true
    · rw [if_pos hq] at hpos
      omega
    · rw [if_neg hq] at hm
      exact hq (hlink hm)
  · intro htwo
    show p.node ∈ (if n.ready_link_next = true then g.ready.erase p.node else g.ready)
    refine List.count_pos_iff.mp ?_
    rw [hcount]
    split <;> omega

/-- The port check on the output port of the source of the graph `source → sink`, whose
`required_in` is 0, with the cell at `HAVE_BUFFER`. -/
theorem pure_source_not_enqueued_witness :
    ∃ (g' : SpaGraph Unit) (n' : SpaGraphNode),
      spa_graph_port_check
        (demo_graph SpaResult.HAVE_BUFFER 0 SPA_GRAPH_ACTION_OUT true) 0 = .ok g' ∧
      g'.ready = [1] ∧ g'.ready.Sublist [1] ∧
      g'.node_mem[0]? = some n' ∧ n'.ready_link_next = false ∧
      n'.required_in = 0 ∧ 0 ∉ g'.ready := by
  obtain ⟨g', n', h1, h2, h3, _, h5, h6, h7, h8, _⟩ :=
    pure_source_not_enqueued (demo_graph SpaResult.HAVE_BUFFER 0 SPA_GRAPH_ACTION_OUT true) 0
      ⟨0, SpaDirection.OUTPUT, 0, 0, some 0, some 1⟩ 0 ⟨SpaResult.HAVE_BUFFER, 0⟩
      ⟨false, [], [0], 0, SpaResult.OK, SPA_GRAPH_ACTION_OUT, 0, 0, 1, 0, 0⟩
      rfl rfl rfl rfl rfl
  exact ⟨g', n', h1, h2, h3, h5, h6, h7, h8 (by decide) (by decide)⟩

/-- C13, counterexample: in the schedule of the sink of the stereo graph the
`CHECK`/`NEED_BUFFER` step has put the source, whose `required_in` is 0, on the ready
queue twice.  `spa_graph_port_check` on output port 0 of the source, whose cell is
attached, unlinks the source once and marks its `ready_link` absent: the source is still
on the ready queue after the check. -/
theorem pure_source_still_queued :
    ∃ (g0 g1 g2 g3 : SpaGraph Unit),
      stereo_graph = .ok g0 ∧
      spa_graph_node_schedule_enter g0 1 = .ok g1 ∧
      spa_graph_node_schedule_loop sched_demo 1 2 g1 = .ok g2 ∧
      g2.ready = [0, 0] ∧
      g2.port_mem[0]? = some ⟨0, SpaDirection.OUTPUT, 0, 0, some 0, some 2⟩ ∧
      g2.node_mem[0]?
        = some ⟨true, [], [0, 1], 0, SpaResult.OK, SPA_GRAPH_ACTION_OUT, 0, 0, 2, 0, 0⟩ ∧
      spa_graph_port_check g2 0 = .ok g3 ∧
      g3.ready = [0] ∧ 0 ∈ g3.ready ∧
      g3.node_mem[0]?
        = some ⟨false, [], [0, 1], 0, SpaResult.OK, SPA_GRAPH_ACTION_OUT, 0, 0, 2, 0, 0⟩ :=
  ⟨_, _, _, _, rfl, rfl, rfl, rfl, rfl, rfl, rfl, rfl, by decide, rfl⟩

/-- C14, as the code has it: `spa_graph_node_remove (graph, n)` never rejects a node; it
unlinks `n` from the node list and leaves the ready queue, the node records (the
`ready_link` of `n` among them), the ports and the cells as they were, so a node that is
in the ready queue before the call is in it after the call. -/
theorem node_remove_keeps_ready {σ : Type} (g : SpaGraph σ) (node : Nat) (n : SpaGraphNode)
    (hn : g.node_mem[node]? = some n) :
    ∃ g' : SpaGraph σ,
      spa_graph_node_remove g node = .ok g' ∧
      g'.nodes = spa_list_remove g.nodes node ∧ g'.ready = g.ready ∧
      g'.node_mem = g.node_mem ∧ g'.port_mem = g.port_mem ∧ g'.io_mem = g.io_mem ∧
      (node ∈ g.ready → node ∈ g'.ready) := by
  refine ⟨{ g with nodes := spa_list_remove g.nodes node }, ?_, rfl, rfl, rfl, rfl, rfl,
    fun h => h⟩
  simp only [spa_graph_node_remove, load_node_eq hn, bind, Except.bind, pure, Except.pure]

/-- The removal of the queued sink of the graph `source → sink`. -/
theorem node_remove_keeps_ready_witness :
    ∃ g' : SpaGraph Unit,
      spa_graph_node_remove (demo_graph SpaResult.HAVE_BUFFER 0 SPA_GRAPH_ACTION_IN true) 1
        = .ok g' ∧
      g'.nodes = [0] ∧ g'.ready = [1] ∧
      g'.node_mem = (demo_graph SpaResult.HAVE_BUFFER 0 SPA_GRAPH_ACTION_IN true).node_mem ∧
      g'.port_mem = (demo_graph SpaResult.HAVE_BUFFER 0 SPA_GRAPH_ACTION_IN true).port_mem ∧
      g'.io_mem = (demo_graph SpaResult.HAVE_BUFFER 0 SPA_GRAPH_ACTION_IN true).io_mem ∧
      (1 ∈ [1] → 1 ∈ g'.ready) :=
  node_remove_keeps_ready (demo_graph SpaResult.HAVE_BUFFER 0 SPA_GRAPH_ACTION_IN true) 1
    ⟨true, [1], [], 0, SpaResult.NEED_BUFFER, SPA_GRAPH_ACTION_IN, 0, 0, 1, 1, 0⟩ rfl

/-- C14, counterexample: in the graph `source → sink` with the sink on the ready queue,
`spa_graph_node_remove (graph, sink)` is not rejected, and afterwards the sink is gone
from the node list and still in the ready queue, with its `ready_link` marked present. -/
theorem node_remove_dangling :
    ∃ g' : SpaGraph Unit,
      (demo_graph SpaResult.HAVE_BUFFER 0 SPA_GRAPH_ACTION_IN true).ready = [1] ∧
      spa_graph_node_remove (demo_graph SpaResult.HAVE_BUFFER 0 SPA_GRAPH_ACTION_IN true) 1
        = .ok g' ∧
      1 ∉ g'.nodes ∧ 1 ∈ g'.ready ∧
      (g'.node_mem[1]?).map (fun n => n.ready_link_next) = some true :=
  ⟨{ demo_graph SpaResult.HAVE_BUFFER 0 SPA_GRAPH_ACTION_IN true with nodes := [0] },
    rfl, rfl, by decide, by decide, rfl⟩

/-- C15, the code at the failing input: on a node that `spa_graph_node_add` has just
initialised, `spa_graph_port_add` of one port of direction `OUTPUT` leaves the input
sequence of the node empty and makes `max_in` 1, while `required_in`, whose increment is
under the test `direction == SPA_DIRECTION_INPUT`, stays 0. -/
theorem port_add_output_max_in :
    ∃ (g g' : SpaGraph Unit) (n : SpaGraphNode),
      spa_graph_node_add (one_node_memory SpaResult.OK) 0 0 0 = .ok g ∧
      (g.node_mem[0]?).map (fun r => r.max_in) = some 0 ∧
      spa_graph_port_add g 0 0 SpaDirection.OUTPUT 0 0 (some 0) = .ok g' ∧
      g'.node_mem[0]? = some n ∧ n.ports_input = [] ∧ n.ports_output = [0] ∧
      n.max_in = 1 ∧ n.required_in = 0 :=
  ⟨⟨[0], [], [ ⟨false, [], [], 0, SpaResult.OK, 2, 0, 0, 0, 0, 0⟩], [zero_port],
      [ ⟨SpaResult.OK, 0⟩], (), []⟩,
    ⟨[0], [], [ ⟨false, [], [0], 0, SpaResult.OK, 2, 0, 0, 1, 0, 0⟩],
      [ ⟨0, SpaDirection.OUTPUT, 0, 0, some 0, none⟩], [ ⟨SpaResult.OK, 0⟩], (), []⟩,
    ⟨false, [], [0], 0, SpaResult.OK, 2, 0, 0, 1, 0, 0⟩,
    rfl, rfl, rfl, rfl, rfl, rfl, rfl, rfl⟩

/-- C16, as the code has it: on a graph where `required_in` of every node is the number of
ports in its input sequence that are not `OPTIONAL`, `spa_graph_node_add` keeps this (the
added node has no ports and `required_in == 0`), and so does `spa_graph_port_add` of a
port that is in no input sequence yet, `required_in` growing by exactly one when the port
is an input and not `OPTIONAL` and staying as it is otherwise (short of the `uint32_t`
wrap); `spa_graph_port_remove` takes the port out of the sequence it is in and leaves
`required_in` as it was. -/
theorem required_in_counts {σ : Type} (g : SpaGraph σ) (hinv : required_inv g) :
    (∀ (node schedule user_data : Nat) (n : SpaGraphNode), g.node_mem[node]? = some n →
      ∃ (g' : SpaGraph σ) (n' : SpaGraphNode),
        spa_graph_node_add g node schedule user_data = .ok g' ∧
        g'.node_mem[node]? = some n' ∧ n'.ports_input = [] ∧ n'.required_in = 0 ∧
        required_inv g') ∧
    (∀ (node port : Nat) (direction : SpaDirection) (port_id flags c : Nat)
        (old : SpaGraphPort) (n : SpaGraphNode) (v : SpaPortIO),
      g.port_mem[port]? = some old → g.node_mem[node]? = some n → g.io_mem[c]? = some v →
      (∀ (i : Nat) (m : SpaGraphNode), g.node_mem[i]? = some m → port ∉ m.ports_input) →
      n.required_in + 1 < UINT32_MOD →
      ∃ (g' : SpaGraph σ) (n' : SpaGraphNode),
        spa_graph_port_add g node port direction port_id flags (some c) = .ok g' ∧
        g'.node_mem[node]? = some n' ∧
        n'.required_in = n.required_in +
          (if flag_set flags SPA_PORT_INFO_FLAG_OPTIONAL = false
            ∧ direction = SpaDirection.INPUT then 1 else 0) ∧
        required_inv g') ∧
    (∀ (port : Nat) (p : SpaGraphPort) (n : SpaGraphNode),
      g.port_mem[port]? = some p → g.node_mem[p.node]? = some n →
      ∃ (g' : SpaGraph σ) (n' : SpaGraphNode),
        spa_graph_port_remove g port = .ok g' ∧ g'.port_mem = g.port_mem ∧
        g'.node_mem[p.node]? = some n' ∧ n'.required_in = n.required_in ∧
        n'.ports_input = (if p.direction = SpaDirection.INPUT then
          spa_list_remove n.ports_input port else n.ports_input)) := by
  refine ⟨?_, ?_, ?_⟩
  · intro node schedule user_data n hn
    have hlt : node < g.node_mem.length := lt_of_getElem? hn
    refine ⟨_, _, node_add_eq g node schedule user_data n hn, List.getElem?_set_self hlt, rfl,
      rfl, ?_⟩
    intro i m hm
    by_cases hi : i = node
    · subst hi
      have hm' : (g.node_mem.set i _)[i]? = some m := hm
      rw [List.getElem?_set_self hlt] at hm'
      cases hm'
      rfl
    · have hm' : (g.node_mem.set node _)[i]? = some m := hm
      rw [List.getElem?_set_ne (Ne.symm hi)] at hm'
      exact (hinv i m hm').trans (required_count_congr _ _ _ (fun _ _ => rfl)).symm
  · intro node port direction port_id flags c old n v hold hn hv hfresh hwrap
    have hlt : node < g.node_mem.length := lt_of_getElem? hn
    obtain ⟨g', n', e, hpm, hnm, _, _, hin, _, _, hreq⟩ :=
      port_add_eq g node port direction port_id flags c old n v hold hn hv
    have hn' : g'.node_mem[node]? = some n' := by
      rw [hnm]
      exact List.getElem?_set_self hlt
    have hother : ∀ ps : List Nat, port ∉ ps → required_count g' ps = required_count g ps := by
      intro ps hps
      apply required_count_congr
      intro q hq
      rw [hpm, List.getElem?_set_ne]
      intro hx
      exact hps (hx ▸ hq)
    have hself : required_count g' [port]
        = (if flag_set flags SPA_PORT_INFO_FLAG_OPTIONAL = false then 1 else 0) := by
      have hl : g'.port_mem[port]?
          = some ⟨node, direction, port_id, flags, some c, none⟩ := by
        rw [hpm]
        exact List.getElem?_set_self (lt_of_getElem? hold)
      unfold required_count
      by_cases hf : flag_set flags SPA_PORT_INFO_FLAG_OPTIONAL = false
      · simp [List.filter, hl, hf]
      · simp [List.filter, hl, hf]
    have hreq' : n'.required_in = n.required_in +
        (if flag_set flags SPA_PORT_INFO_FLAG_OPTIONAL = false
          ∧ direction = SpaDirection.INPUT then 1 else 0) := by
      rw [hreq]
      split
      · exact Nat.mod_eq_of_lt hwrap
      · rfl
    refine ⟨g', n', e, hn', hreq', ?_⟩
    intro i m hm
    by_cases hi : i = node
    · subst hi
      rw [hn'] at hm
      cases hm
      rw [hreq', hin, hinv i n hn]
      by_cases hd : direction = SpaDirection.INPUT
      · rw [if_pos hd, required_count_append, hother _ (hfresh i n hn), hself]
        simp [hd]
      · rw [if_neg hd, hother _ (hfresh i n hn)]
        simp [hd]
    · rw [hnm, List.getElem?_set_ne (Ne.symm hi)] at hm
      rw [hinv i m hm, hother _ (hfresh i m hm)]
  · intro port p n hp hn
    have hlt : p.node < g.node_mem.length := lt_of_getElem? hn
    exact ⟨_, _, port_remove_eq g port p n hp hn, rfl, List.getElem?_set_self hlt, rfl, rfl⟩

/-- The addition of a first input port without the `OPTIONAL` flag to the node of
`one_node_memory`. -/
theorem required_in_counts_witness :
    ∃ (g' : SpaGraph Unit) (n' : SpaGraphNode),
      spa_graph_port_add (one_node_memory SpaResult.OK) 0 0 SpaDirection.INPUT 0 0 (some 0)
        = .ok g' ∧
      g'.node_mem[0]? = some n' ∧ n'.required_in = 1 ∧ required_inv g' := by
  have hinv : required_inv (one_node_memory SpaResult.OK) := by
    intro i n h
    match i, h with
    | 0, h =>
      cases h
      rfl
  exact (required_in_counts (one_node_memory SpaResult.OK) hinv).2.1 0 0 SpaDirection.INPUT 0 0 0
    zero_port zero_node ⟨SpaResult.OK, 0⟩ rfl rfl rfl
    (fun i m h => by
      match i, h with
      | 0, h =>
        cases h
        exact List.not_mem_nil _)
    (by decide)

/-- C16, counterexample: on a node with one input port that is not `OPTIONAL`, added by
`spa_graph_port_add`, `required_in` is 1, the number of such ports; after
`spa_graph_port_remove` of the port the input sequence is empty and `required_in` is
still 1. -/
theorem port_remove_breaks_required_in :
    ∃ g0 g g' : SpaGraph Unit,
      spa_graph_node_add (one_node_memory SpaResult.OK) 0 0 0 = .ok g0 ∧
      spa_graph_port_add g0 0 0 SpaDirection.INPUT 0 0 (some 0) = .ok g ∧
      required_inv g ∧
      spa_graph_port_remove g 0 = .ok g' ∧
      (g'.node_mem[0]?).map (fun n => (n.ports_input, n.required_in)) = some ([], 1) ∧
      ¬ required_inv g' := by
  refine ⟨⟨[0], [], [ ⟨false, [], [], 0, SpaResult.OK, 2, 0, 0, 0, 0, 0⟩], [zero_port],
      [ ⟨SpaResult.OK, 0⟩], (), []⟩,
    ⟨[0], [], [ ⟨false, [0], [], 0, SpaResult.OK, 2, 0, 0, 1, 1, 0⟩],
      [ ⟨0, SpaDirection.INPUT, 0, 0, some 0, none⟩], [ ⟨SpaResult.OK, 0⟩], (), []⟩,
    ⟨[0], [], [ ⟨false, [], [], 0, SpaResult.OK, 2, 0, 0, 1, 1, 0⟩],
      [ ⟨0, SpaDirection.INPUT, 0, 0, some 0, none⟩], [ ⟨SpaResult.OK, 0⟩], (), []⟩,
    rfl, rfl, ?_, rfl, rfl, ?_⟩
  · intro i n h
    match i, h with
    | 0, h =>
      cases h
      rfl
  · intro h
    exact absurd (h 0 _ rfl) (by decide)

/-- C17, the code at the failing input: on a node record whose `ready_link.next` is not
`NULL` (a record that is not zeroed), `spa_graph_node_add` sets every other field as
stated and appends the node to the node list, and leaves `ready_link` marked present
although the ready queue is empty; `spa_graph_node_schedule` on the node then returns
without having invoked its schedule function. -/
theorem node_add_keeps_ready_link :
    ∃ g g1 : SpaGraph Unit,
      spa_graph_node_add
        (spa_graph_init
          { nodes := [], ready := [],
            node_mem := [ ⟨true, [3], [4], 8, SpaResult.ERROR, 1, 6, 6, 7, 7, 7⟩],
            port_mem := [], io_mem := [], user := (), calls := [] }) 0 5 9 = .ok g ∧
      g.nodes = [0] ∧ g.ready = [] ∧
      g.node_mem[0]?
        = some ⟨true, [], [], 0, SpaResult.OK, SPA_GRAPH_ACTION_OUT, 5, 9, 0, 0, 0⟩ ∧
      spa_graph_node_schedule sched_demo 1 g 0 = .ok g1 ∧ g1.calls = [] :=
  ⟨⟨[0], [], [ ⟨true, [], [], 0, SpaResult.OK, 2, 5, 9, 0, 0, 0⟩], [], [], (), []⟩,
    ⟨[0], [], [ ⟨true, [], [], 0, SpaResult.OK, 2, 5, 9, 0, 0, 0⟩], [], [], (), []⟩,
    rfl, rfl, rfl, rfl, rfl, rfl⟩

/-- C18, as the code has it: for every graph whose links are ranked (every output port of
every node is linked to a port that is bound to a cell and belongs to a node of lower
rank, so no node is downstream of itself; no node has more than `k` output ports and no
node is in state `NEED_BUFFER`), with an empty ready queue and every `ready_link` marked
absent, if no schedule function returns `NEED_BUFFER` and the schedule functions leave
the cells in place, `spa_graph_node_schedule (graph, t)` returns, given enough
iterations, and on return the ready queue is empty and the `ready_link` of every node is
marked absent. -/
theorem schedule_terminates_ranked {σ : Type} (sched : SpaGraphNodeFunc σ) (g : SpaGraph σ)
    (t : Nat) (rk : Nat → Nat) (k : Nat)
    (hret : ∀ (h : Nat) (n : SpaGraphNode) (io : List SpaPortIO) (u : σ),
      (sched h n io u).1 ≠ SpaResult.NEED_BUFFER)
    (hcells : ∀ (h : Nat) (n : SpaGraphNode) (io : List SpaPortIO) (u : σ),
      (sched h n io u).2.1.length = io.length)
    (hready : g.ready = []) (hidle : ∀ n ∈ g.node_mem, n.ready_link_next = false)
    (ht : t < g.node_mem.length) (hl : links_ranked rk k g) :
    ∃ N : Nat, ∀ fuel, N ≤ fuel →
      ∃ g' : SpaGraph σ, spa_graph_node_schedule sched fuel g t = .ok g' ∧ g'.ready = [] ∧
        ∀ n ∈ g'.node_mem, n.ready_link_next = false := by
  obtain ⟨n, hn⟩ : ∃ n, g.node_mem[t]? = some n := ⟨_, List.getElem?_eq_getElem ht⟩
  have hq : queue_inv g.ready g.node_mem := by
    rw [hready]
    refine ⟨List.nodup_nil, fun i hi => absurd hi (List.not_mem_nil i), ?_⟩
    intro i m hm
    rw [hidle m (List.getElem?_mem hm)]
    simp
  have hsent : n.ready_link_next = false := hidle n (List.getElem?_mem hn)
  set nE : SpaGraphNode := { n with ready_link_next := true } with hnE
  set gE : SpaGraph σ := { g with
    ready := g.ready ++ [t]
    node_mem := g.node_mem.set t nE } with hgE
  have e0 : spa_graph_node_schedule_enter g t = .ok gE := enter_eq g t n hn hsent
  have hlE : links_ranked rk k gE :=
    links_ranked_set rk k g gE t n nE hl hn (hl t n hn).1 rfl rfl rfl rfl
  have hqE : queue_inv gE.ready gE.node_mem :=
    queue_inv_push g.ready g.node_mem t n nE hq hn hsent rfl
  refine ⟨potential_from (node_weight rk (2 * k + 2)) 0 gE.node_mem, ?_⟩
  intro fuel hf
  obtain ⟨g', e1, hr', hq'⟩ := loop_measure sched hret hcells rk k t fuel gE hlE hqE hf
  refine ⟨g', schedule_of_loop sched fuel g gE g' t e0 e1 hr', hr', ?_⟩
  intro m hm
  obtain ⟨i, hi⟩ := List.mem_iff_getElem?.mp hm
  have := hq'.2.2 i m hi
  rw [hr'] at this
  cases hb : m.ready_link_next with
  | false => rfl
  | true => exact absurd (this.mp hb) (List.not_mem_nil i)

/-- Termination on the graph `source → sink` that `source_sink_graph` builds, ranked with
the source above the sink, with the callbacks of `sched_passive` and the source as
trigger. -/
theorem schedule_terminates_ranked_witness :
    ∃ N : Nat, ∀ fuel, N ≤ fuel →
      ∃ g' : SpaGraph Unit,
        spa_graph_node_schedule sched_passive fuel
          ⟨[0, 1], [],
            [ ⟨false, [], [0], 0, SpaResult.OK, 2, 0, 0, 1, 0, 0⟩,
              ⟨false, [1], [], 0, SpaResult.OK, 2, 0, 0, 1, 1, 0⟩],
            [ ⟨0, SpaDirection.OUTPUT, 0, 0, some 0, some 1⟩,
              ⟨1, SpaDirection.INPUT, 0, 0, some 0, some 0⟩],
            [ ⟨SpaResult.NEED_BUFFER, 0⟩], (), []⟩ 0 = .ok g' ∧
        g'.ready = [] ∧ ∀ n ∈ g'.node_mem, n.ready_link_next = false :=
  schedule_terminates_ranked sched_passive
    ⟨[0, 1], [],
      [ ⟨false, [], [0], 0, SpaResult.OK, 2, 0, 0, 1, 0, 0⟩,
        ⟨false, [1], [], 0, SpaResult.OK, 2, 0, 0, 1, 1, 0⟩],
      [ ⟨0, SpaDirection.OUTPUT, 0, 0, some 0, some 1⟩,
        ⟨1, SpaDirection.INPUT, 0, 0, some 0, some 0⟩],
      [ ⟨SpaResult.NEED_BUFFER, 0⟩], (), []⟩ 0 (fun i => 1 - i) 1
    (fun h n io u => by
      unfold sched_passive
      split <;> simp)
    (fun h n io u => by
      unfold sched_passive
      split <;> simp)
    rfl
    (fun n hn => by
      simp only [List.mem_cons, List.mem_singleton, List.not_mem_nil, or_false] at hn
      rcases hn with rfl | rfl <;> rfl)
    (by decide)
    (fun i n hn => by
      match i, hn with
      | 0, hn =>
        cases hn
        refine ⟨by decide, by decide, ?_⟩
        intro o ho
        rw [List.mem_singleton.mp ho]
        exact ⟨_, 1, _, 0, rfl, rfl, rfl, rfl, by decide, by decide, by decide⟩
      | 1, hn =>
        cases hn
        exact ⟨by decide, by decide, fun o ho => absurd ho (List.not_mem_nil o)⟩)

/-- C18, counterexample: `feedback_graph`, in which the output of node 1 is linked back to
one of its own inputs, has every port linked and bound; with callbacks that never return
`NEED_BUFFER` (`sched_relay`), a first `spa_graph_node_schedule (graph, node 0)` returns
with an empty ready queue, and a second one does not return for any number of
iterations: node 1 is put back on the ready queue at each of its checks. -/
theorem feedback_never_returns :
    ∃ g0 g1 : SpaGraph Unit,
      feedback_graph = .ok g0 ∧ g0.ready = [] ∧
      (∀ (h : Nat) (n : SpaGraphNode) (io : List SpaPortIO) (u : Unit),
        (sched_relay h n io u).1 ≠ SpaResult.NEED_BUFFER) ∧
      spa_graph_node_schedule sched_relay 2 g0 0 = .ok g1 ∧ g1.ready = [] ∧
      (∀ p ∈ [0, 1, 2, 3], port_linked_bound g1 p) ∧
      ¬ ∃ (fuel : Nat) (g' : SpaGraph Unit),
        spa_graph_node_schedule sched_relay fuel g1 0 = .ok g' := by
  refine ⟨⟨[0, 1], [],
      [ ⟨false, [], [0], 0, SpaResult.OK, 2, 0, 0, 1, 0, 0⟩,
        ⟨false, [1, 3], [2], 0, SpaResult.OK, 2, 0, 0, 3, 2, 0⟩],
      [ ⟨0, SpaDirection.OUTPUT, 0, 0, some 0, some 1⟩,
        ⟨1, SpaDirection.INPUT, 0, 0, some 0, some 0⟩,
        ⟨1, SpaDirection.OUTPUT, 0, 0, some 1, some 3⟩,
        ⟨1, SpaDirection.INPUT, 1, 0, some 1, some 2⟩],
      [ ⟨SpaResult.OK, 0⟩, ⟨SpaResult.OK, 0⟩], (), []⟩,
    ⟨[0, 1], [],
      [ ⟨false, [], [0], 0, SpaResult.HAVE_BUFFER, 0, 0, 0, 1, 0, 0⟩,
        ⟨false, [1, 3], [2], 0, SpaResult.OK, 2, 0, 0, 3, 2, 1⟩],
      [ ⟨0, SpaDirection.OUTPUT, 0, 0, some 0, some 1⟩,
        ⟨1, SpaDirection.INPUT, 0, 0, some 0, some 0⟩,
        ⟨1, SpaDirection.OUTPUT, 0, 0, some 1, some 3⟩,
        ⟨1, SpaDirection.INPUT, 1, 0, some 1, some 2⟩],
      [ ⟨SpaResult.HAVE_BUFFER, 0⟩, ⟨SpaResult.OK, 0⟩], (),
      [(0, ⟨false, [], [0], 0, SpaResult.OK, 2, 0, 0, 1, 0, 0⟩)]⟩,
    rfl, rfl, ?_, by with_unfolding_all rfl, rfl, ?_, ?_⟩
  · intro h n io u
    unfold sched_relay
    split <;> simp
  · intro p hp
    simp only [List.mem_cons, List.mem_singleton, List.not_mem_nil, or_false] at hp
    rcases hp with rfl | rfl | rfl | rfl
    · exact ⟨_, 1, _, 0, _, rfl, rfl, rfl, rfl, rfl⟩
    · exact ⟨_, 0, _, 0, _, rfl, rfl, rfl, rfl, rfl⟩
    · exact ⟨_, 3, _, 1, _, rfl, rfl, rfl, rfl, rfl⟩
    · exact ⟨_, 2, _, 1, _, rfl, rfl, rfl, rfl, rfl⟩
  · rintro ⟨fuel, g', h⟩
    unfold spa_graph_node_schedule at h
    obtain ⟨gE, hgE, h⟩ := bind_ok h
    have he : gE = ⟨[0, 1], [0],
        [ ⟨true, [], [0], 0, SpaResult.HAVE_BUFFER, 0, 0, 0, 1, 0, 0⟩,
          ⟨false, [1, 3], [2], 0, SpaResult.OK, 2, 0, 0, 3, 2, 1⟩],
        [ ⟨0, SpaDirection.OUTPUT, 0, 0, some 0, some 1⟩,
          ⟨1, SpaDirection.INPUT, 0, 0, some 0, some 0⟩,
          ⟨1, SpaDirection.OUTPUT, 0, 0, some 1, some 3⟩,
          ⟨1, SpaDirection.INPUT, 1, 0, some 1, some 2⟩],
        [ ⟨SpaResult.HAVE_BUFFER, 0⟩, ⟨SpaResult.OK, 0⟩], (),
        [(0, ⟨false, [], [0], 0, SpaResult.OK, 2, 0, 0, 1, 0, 0⟩)]⟩ :=
      (Except.ok.inj hgE).symm
    subst he
    obtain ⟨g2, hg2, h⟩ := bind_ok h
    cases fuel with
    | zero =>
      cases hg2
      exact absurd h (by simp [throw, throwThe, MonadExceptOf.throw, pure, Except.pure])
    | succ f =>
      have e1 : spa_graph_node_schedule_step sched_relay 0
          (⟨[0, 1], [0],
            [ ⟨true, [], [0], 0, SpaResult.HAVE_BUFFER, 0, 0, 0, 1, 0, 0⟩,
              ⟨false, [1, 3], [2], 0, SpaResult.OK, 2, 0, 0, 3, 2, 1⟩],
            [ ⟨0, SpaDirection.OUTPUT, 0, 0, some 0, some 1⟩,
              ⟨1, SpaDirection.INPUT, 0, 0, some 0, some 0⟩,
              ⟨1, SpaDirection.OUTPUT, 0, 0, some 1, some 3⟩,
              ⟨1, SpaDirection.INPUT, 1, 0, some 1, some 2⟩],
            [ ⟨SpaResult.HAVE_BUFFER, 0⟩, ⟨SpaResult.OK, 0⟩], (),
            [(0, ⟨false, [], [0], 0, SpaResult.OK, 2, 0, 0, 1, 0, 0⟩)]⟩ : SpaGraph Unit)
          = .ok (feedback_state false
              [(0, ⟨false, [], [0], 0, SpaResult.OK, 2, 0, 0, 1, 0, 0⟩)] SpaResult.OK) := rfl
      rw [loop_of_step sched_relay 0 f _ _ (List.cons_ne_nil _ _) e1] at hg2
      obtain ⟨c, cs, ks, hl⟩ := feedback_state_loop f false
        [(0, ⟨false, [], [0], 0, SpaResult.OK, 2, 0, 0, 1, 0, 0⟩)] SpaResult.OK
      rw [hl] at hg2
      cases hg2
      exact absurd h (by simp [throw, throwThe, MonadExceptOf.throw, pure, Except.pure,
        feedback_state])

/-- C19, as the code has it: for every graph in which every I/O cell has status `OK`, the
ready queue is empty and the node `t` is idle with its input ports linked and bound, when
the schedule function of `t` leaves the cells as they are and returns one code other
than `HAVE_BUFFER` (and `t`, if its action is `CHECK`, is not in state `HAVE_BUFFER`),
`spa_graph_node_schedule (graph, t)` returns after at most two iterations, during which
only `t` is in the ready queue and only `t` is invoked, with the records of all other
nodes, the ports and the cells unchanged; and a second call leaves the node records, the
ready queue, the node list, the ports and the cells exactly as the first call left
them. -/
theorem idempotent_quiet_schedule {σ : Type} (sched : SpaGraphNodeFunc σ) (g : SpaGraph σ)
    (t : Nat) (n : SpaGraphNode) (res : SpaResult)
    (hready : g.ready = []) (hn : g.node_mem[t]? = some n) (hidle : n.ready_link_next = false)
    (hports : ∀ p ∈ n.ports_input, port_linked_bound g p) (hok : cells_ok g)
    (hcb : ∀ (r : SpaGraphNode) (u : σ),
      (sched t r g.io_mem u).1 = res ∧ (sched t r g.io_mem u).2.1 = g.io_mem)
    (hres : res ≠ SpaResult.HAVE_BUFFER)
    (hst : n.action = SPA_GRAPH_ACTION_CHECK → n.state ≠ SpaResult.HAVE_BUFFER) :
    ∃ (g1 g2 gE gA : SpaGraph σ) (cs : List (Nat × SpaGraphNode)),
      (∀ fuel, 2 ≤ fuel → spa_graph_node_schedule sched fuel g t = .ok g1) ∧
      spa_graph_node_schedule_enter g t = .ok gE ∧ gE.ready = [t] ∧
      spa_graph_node_schedule_step sched t gE = .ok gA ∧ (∀ m ∈ gA.ready, m = t) ∧
      spa_graph_node_schedule_step sched t gA = .ok g1 ∧ g1.ready = [] ∧
      g1.calls = g.calls ++ cs ∧ (∀ c ∈ cs, c.1 = t) ∧
      (∀ m, m ≠ t → g1.node_mem[m]? = g.node_mem[m]?) ∧
      g1.nodes = g.nodes ∧ g1.port_mem = g.port_mem ∧ g1.io_mem = g.io_mem ∧ cells_ok g1 ∧
      (∀ fuel, 2 ≤ fuel → spa_graph_node_schedule sched fuel g1 t = .ok g2) ∧
      g2.node_mem = g1.node_mem ∧ g2.ready = g1.ready ∧ g2.nodes = g1.nodes ∧
      g2.port_mem = g1.port_mem ∧ g2.io_mem = g1.io_mem := by
  have hlt : t < g.node_mem.length := lt_of_getElem? hn
  obtain ⟨u1, cs1, gE, gA, hcs, e0, hE, e1, hA, e2, hfirst⟩ :=
    schedule_pass_quiet sched g t n res hready hn hidle hports hok hcb hres hst
  obtain ⟨f1, f2, f3, f4⟩ := schedule_quiet_fields res n hres hst
  set g1 : SpaGraph σ := { g with
    node_mem := g.node_mem.set t (schedule_quiet res n)
    user := u1
    calls := g.calls ++ cs1 } with hg1
  have hports1 : ∀ p ∈ (schedule_quiet res n).ports_input, port_linked_bound g1 p := by
    rw [f2]
    exact hports
  obtain ⟨u2, cs2, _, _, _, _, _, _, _, _, hsecond⟩ :=
    schedule_pass_quiet sched g1 t (schedule_quiet res n) res hready
      (List.getElem?_set_self hlt) (f1.trans hidle) hports1 hok hcb hres f3
  rw [f4] at hsecond
  refine ⟨g1, _, gE, gA, cs1, hfirst, e0, hE, e1, hA, e2, hready, rfl, hcs, ?_, rfl, rfl, rfl,
    hok, hsecond, ?_, rfl, rfl, rfl, rfl⟩
  · intro m hm
    exact List.getElem?_set_ne (Ne.symm hm)
  · simp [hg1, List.set_set]

/-- Two calls on the sink of the graph `source → sink` with the cell at `OK` and a schedule
function that returns `NEED_BUFFER` and leaves the cells alone. -/
theorem idempotent_quiet_schedule_witness :
    ∃ g1 g2 : SpaGraph Unit,
      spa_graph_node_schedule (fun _ _ io u => (SpaResult.NEED_BUFFER, io, u)) 2
        (demo_graph SpaResult.OK 0 SPA_GRAPH_ACTION_OUT false) 1 = .ok g1 ∧
      g1.ready = [] ∧ (∀ c ∈ g1.calls, c.1 = 1) ∧
      g1.node_mem[0]? = (demo_graph SpaResult.OK 0 SPA_GRAPH_ACTION_OUT false).node_mem[0]? ∧
      spa_graph_node_schedule (fun _ _ io u => (SpaResult.NEED_BUFFER, io, u)) 2 g1 1
        = .ok g2 ∧
      g2.node_mem = g1.node_mem ∧ g2.ready = g1.ready := by
  obtain ⟨g1, g2, _, _, cs, h1, _, _, _, _, _, h2, h3, h4, h5, _, _, _, _, h6, h7, h8, _⟩ :=
    idempotent_quiet_schedule (fun _ _ io u => (SpaResult.NEED_BUFFER, io, u))
      (demo_graph SpaResult.OK 0 SPA_GRAPH_ACTION_OUT false) 1
      ⟨false, [1], [], 0, SpaResult.NEED_BUFFER, SPA_GRAPH_ACTION_OUT, 0, 0, 1, 1, 0⟩
      SpaResult.NEED_BUFFER rfl rfl rfl
      (fun p hp => by
        rw [List.mem_singleton.mp hp]
        exact ⟨_, 0, _, 0, _, rfl, rfl, rfl, rfl, rfl⟩)
      (fun v hv => by
        rw [List.mem_singleton.mp hv])
      (fun _ _ => ⟨rfl, rfl⟩) (by decide) (fun _ => by decide)
  refine ⟨g1, g2, h1 2 (Nat.le_refl 2), h2, ?_, h5 0 (by decide), h6 2 (Nat.le_refl 2), h7, h8⟩
  intro c hc
  rw [h3] at hc
  exact h4 c (by simpa [demo_graph] using hc)

/-- C19, counterexample: in the graph `source → sink` with the cell at `OK` and an empty
ready queue, `spa_graph_node_schedule (graph, source)` with a source that produces a
buffer invokes the sink, a node other than the one scheduled, and changes its record. -/
theorem quiet_schedule_invokes_sink :
    ∃ g0 g1 : SpaGraph Unit,
      source_sink_graph () SpaResult.OK 0 0 = .ok g0 ∧ cells_ok g0 ∧ g0.ready = [] ∧
      spa_graph_node_schedule sched_demo 4 g0 0 = .ok g1 ∧
      g1.calls.map (fun c => (c.1, c.2.action))
        = [(0, SPA_GRAPH_ACTION_OUT), (1, SPA_GRAPH_ACTION_IN)] ∧
      g1.node_mem[1]? ≠ g0.node_mem[1]? :=
  ⟨⟨[0, 1], [],
      [ ⟨false, [], [0], 0, SpaResult.OK, 2, 0, 0, 1, 0, 0⟩,
        ⟨false, [1], [], 0, SpaResult.OK, 2, 0, 0, 1, 1, 0⟩],
      [ ⟨0, SpaDirection.OUTPUT, 0, 0, some 0, some 1⟩,
        ⟨1, SpaDirection.INPUT, 0, 0, some 0, some 0⟩],
      [ ⟨SpaResult.OK, 0⟩], (), []⟩,
    ⟨[0, 1], [],
      [ ⟨false, [], [0], 0, SpaResult.HAVE_BUFFER, 0, 0, 0, 1, 0, 0⟩,
        ⟨false, [1], [], 0, SpaResult.NEED_BUFFER, 0, 0, 0, 1, 1, 0⟩],
      [ ⟨0, SpaDirection.OUTPUT, 0, 0, some 0, some 1⟩,
        ⟨1, SpaDirection.INPUT, 0, 0, some 0, some 0⟩],
      [ ⟨SpaResult.NEED_BUFFER, 0⟩], (),
      [(0, ⟨false, [], [0], 0, SpaResult.OK, 2, 0, 0, 1, 0, 0⟩),
        (1, ⟨false, [1], [], 0, SpaResult.OK, 1, 0, 0, 1, 1, 1⟩)]⟩,
    rfl, fun v hv => by rw [List.mem_singleton.mp hv], rfl, by with_unfolding_all rfl, rfl,
    by decide⟩

/-- C20, as the code has it: for every state of the reference source with an attached
cell of status `NEED_BUFFER` and invalid `buffer_id` and a non-empty `empty` list whose
head is the slot `i` of a buffer with id `ob.id`: when no `have_output` callback is
installed and, if the source is live, its timer is set,
`spa_fakesrc_node_process_output` takes `i` off `empty`, marks the buffer outstanding,
sets the cell to `HAVE_BUFFER` with the id of the buffer, increments `buffer_count` by
one (as a `uint64_t`), leaves the other buffers alone and returns `HAVE_BUFFER`; on a live
source without callback whose timer is disarmed the call blocks in `read_timer`; and
when a `have_output` callback is installed it returns `OK` and changes nothing. -/
theorem process_output_produces (this : SpaFakeSrc) (c i : Nat) (rest : List Nat) (b : Buffer)
    (ob : SpaBuffer) (hio : this.io = some c)
    (hcell : this.io_mem[c]? = some ⟨SpaResult.NEED_BUFFER, SPA_ID_INVALID⟩)
    (hempty : this.empty = i :: rest) (hb : this.buffers[i]? = some b)
    (hob : b.outbuf = some ob) :
    (this.callbacks.have_output = none →
      (this.props.live = true → this.timerspec ≠ ⟨0, 0⟩) →
      ∃ (this' : SpaFakeSrc) (b' : Buffer),
        spa_fakesrc_node_process_output this = .ok (SpaResult.HAVE_BUFFER, this') ∧
        this'.empty = rest ∧ this'.buffers[i]? = some b' ∧ b'.outstanding = true ∧
        b'.outbuf.map (fun o => o.id) = some ob.id ∧
        (∀ j, j ≠ i → this'.buffers[j]? = this.buffers[j]?) ∧
        this'.io_mem[c]? = some ⟨SpaResult.HAVE_BUFFER, ob.id⟩ ∧
        this'.buffer_count = (this.buffer_count + 1) % UINT64_MOD ∧
        this'.n_buffers = this.n_buffers ∧ this'.io = this.io) ∧
    (this.callbacks.have_output = none → this.props.live = true →
      this.timerspec = ⟨0, 0⟩ →
      spa_fakesrc_node_process_output this = .error SpaFault.blocked) ∧
    (this.callbacks.have_output ≠ none →
      spa_fakesrc_node_process_output this = .ok (SpaResult.OK, this)) := by
  have hc : c < this.io_mem.length := lt_of_getElem? hcell
  have hi : i < this.buffers.length := lt_of_getElem? hb
  have e : this.callbacks.have_output = none →
      spa_fakesrc_node_process_output this = fakesrc_make_buffer this := by
    intro hcb
    simp [spa_fakesrc_node_process_output, hio, hcell, bind, Except.bind, pure,
      Except.pure, hcb]
  refine ⟨?_, ?_, ?_⟩
  · intro hcb htimer
    have hrd : fakesrc_make_buffer this = make_buffer_after_read this := by
      refine make_buffer_ready this (fun hg => ?_)
      rcases hg with hg | hg
      · rw [hcb] at hg
        cases hg
      · exact htimer hg
    obtain ⟨ts, hmk⟩ := make_buffer_eq this c i rest b ob hio hc hempty hb hob
    exact ⟨_, _, (e hcb).trans (hrd.trans hmk), rfl, List.getElem?_set_self hi, rfl, rfl,
      fun j hj => List.getElem?_set_ne (Ne.symm hj), List.getElem?_set_self hc, rfl, rfl, rfl⟩
  · intro hcb hl ht
    rw [e hcb]
    exact make_buffer_blocked this (Or.inr hl) ht
  · intro hcb
    simp [spa_fakesrc_node_process_output, hio, hcell, bind, Except.bind, pure,
      Except.pure, hcb]

/-- The produce step on the example source without a `have_output` callback, with both
buffers in the `empty` list. -/
theorem process_output_produces_witness :
    ∃ (this' : SpaFakeSrc) (b' : Buffer),
      spa_fakesrc_node_process_output
        (fakesrc_demo none false [0, 1] ⟨SpaResult.NEED_BUFFER, SPA_ID_INVALID⟩)
        = .ok (SpaResult.HAVE_BUFFER, this') ∧
      this'.empty = [1] ∧ this'.buffers[0]? = some b' ∧ b'.outstanding = true ∧
      this'.io_mem[0]? = some ⟨SpaResult.HAVE_BUFFER, 0⟩ ∧ this'.buffer_count = 1 := by
  obtain ⟨this', b', h1, h2, h3, h4, _, _, h7, h8, _⟩ :=
    (process_output_produces
      (fakesrc_demo none false [0, 1] ⟨SpaResult.NEED_BUFFER, SPA_ID_INVALID⟩) 0 0 [1]
      ⟨some ⟨0, 64, 0, 0, 0⟩, false, some ⟨0, 0, 0⟩⟩ ⟨0, 64, 0, 0, 0⟩ rfl rfl rfl rfl rfl).1 rfl
      (fun h => absurd h (by decide))
  exact ⟨this', b', h1, h2, h3, h4, h7, h8⟩

/-- C20, counterexample: on the example source with a `have_output` callback installed, a
cell of status `NEED_BUFFER` with invalid `buffer_id` and both buffers in the `empty`
list, `spa_fakesrc_node_process_output` returns `OK`, not `HAVE_BUFFER`, and leaves the
`empty` list, the cell and `buffer_count` as they were; and on the same source without
callback, live and with the timer disarmed, the call does not return: it blocks in
`read_timer`. -/
theorem process_output_callback_no_produce :
    (fakesrc_demo (some 1) false [0, 1] ⟨SpaResult.NEED_BUFFER, SPA_ID_INVALID⟩).empty ≠ [] ∧
    spa_fakesrc_node_process_output
      (fakesrc_demo (some 1) false [0, 1] ⟨SpaResult.NEED_BUFFER, SPA_ID_INVALID⟩)
      = .ok (SpaResult.OK,
          fakesrc_demo (some 1) false [0, 1] ⟨SpaResult.NEED_BUFFER, SPA_ID_INVALID⟩) ∧
    (fakesrc_demo none true [0, 1] ⟨SpaResult.NEED_BUFFER, SPA_ID_INVALID⟩).timerspec
      = ⟨0, 0⟩ ∧
    spa_fakesrc_node_process_output
      (fakesrc_demo none true [0, 1] ⟨SpaResult.NEED_BUFFER, SPA_ID_INVALID⟩)
      = .error SpaFault.blocked :=
  ⟨by decide, rfl, rfl, rfl⟩

/-- C21 (in-flight guard): for every state of the reference source with an attached cell
whose status is `HAVE_BUFFER`, `spa_fakesrc_node_process_output` returns `HAVE_BUFFER`
and the state after the call is the state before it: the cell, the `empty` list, the
buffers, `buffer_count`, `elapsed_time`, `underrun` and the timer setting are
unchanged. -/
theorem process_output_in_flight (this : SpaFakeSrc) (c : Nat) (io : SpaPortIO)
    (hio : this.io = some c) (hcell : this.io_mem[c]? = some io)
    (hst : io.status = SpaResult.HAVE_BUFFER) :
    spa_fakesrc_node_process_output this = .ok (SpaResult.HAVE_BUFFER, this) := by
  simp only [spa_fakesrc_node_process_output, hio, hcell, hst, if_true, pure, Except.pure]

/-- The in-flight guard on the example source with buffer 0 outstanding and in the
cell. -/
theorem process_output_in_flight_witness :
    spa_fakesrc_node_process_output
        (fakesrc_pool none false true false [1] false ⟨0, 0⟩ ⟨SpaResult.HAVE_BUFFER, 0⟩)
      = .ok (SpaResult.HAVE_BUFFER,
          fakesrc_pool none false true false [1] false ⟨0, 0⟩ ⟨SpaResult.HAVE_BUFFER, 0⟩) :=
  process_output_in_flight
    (fakesrc_pool none false true false [1] false ⟨0, 0⟩ ⟨SpaResult.HAVE_BUFFER, 0⟩) 0
    ⟨SpaResult.HAVE_BUFFER, 0⟩ rfl rfl rfl

/-- C22 (under-run), as the code has it: for every state of the reference source with an
attached cell of status `NEED_BUFFER` and invalid `buffer_id`, no `have_output` callback
and an empty `empty` list: when the source is not live, or is live with its timer set,
`spa_fakesrc_node_process_output` returns `OUT_OF_BUFFERS` and sets `underrun`, and the
cell, `buffer_count`, `elapsed_time`, the buffers and the `empty` list are as before (the
timer of a live source is disarmed); when the source is live and its timer is disarmed,
as it is after such a call, the call blocks in `read_timer`. -/
theorem process_output_underrun (this : SpaFakeSrc) (c : Nat)
    (hio : this.io = some c)
    (hcell : this.io_mem[c]? = some ⟨SpaResult.NEED_BUFFER, SPA_ID_INVALID⟩)
    (hcb : this.callbacks.have_output = none) (hempty : this.empty = []) :
    ((this.props.live = true → this.timerspec ≠ ⟨0, 0⟩) →
      ∃ this' : SpaFakeSrc,
        spa_fakesrc_node_process_output this = .ok (SpaResult.OUT_OF_BUFFERS, this') ∧
        this'.underrun = true ∧
        this'.io_mem[c]? = some ⟨SpaResult.NEED_BUFFER, SPA_ID_INVALID⟩ ∧
        this'.io_mem = this.io_mem ∧ this'.io = this.io ∧
        this'.buffer_count = this.buffer_count ∧ this'.elapsed_time = this.elapsed_time ∧
        this'.buffers = this.buffers ∧ this'.empty = [] ∧
        this'.n_buffers = this.n_buffers ∧
        this'.timerspec = (if this.props.live = true then ⟨0, 0⟩ else this.timerspec)) ∧
    (this.props.live = true → this.timerspec = ⟨0, 0⟩ →
      spa_fakesrc_node_process_output this = .error SpaFault.blocked) := by
  have e0 : spa_fakesrc_node_process_output this = fakesrc_make_buffer this := by
    simp [spa_fakesrc_node_process_output, hio, hcell, bind, Except.bind, pure,
      Except.pure, hcb]
  constructor
  · intro htimer
    have hrd : fakesrc_make_buffer this = make_buffer_after_read this := by
      refine make_buffer_ready this (fun hg => ?_)
      rcases hg with hg | hg
      · rw [hcb] at hg
        cases hg
      · exact htimer hg
    have e : spa_fakesrc_node_process_output this = .ok (SpaResult.OUT_OF_BUFFERS,
        { set_timer this false with underrun := true }) := by
      rw [e0, hrd]
      simp [make_buffer_after_read, hempty, pure, Except.pure]
    refine ⟨_, e, rfl, ?_, ?_, ?_, ?_, ?_, ?_, ?_, ?_, ?_⟩
    · show (set_timer this false).io_mem[c]? = _
      rw [set_timer_eq]
      exact hcell
    · show (set_timer this false).io_mem = _
      rw [set_timer_eq]
    · show (set_timer this false).io = _
      rw [set_timer_eq]
    · show (set_timer this false).buffer_count = _
      rw [set_timer_eq]
    · show (set_timer this false).elapsed_time = _
      rw [set_timer_eq]
    · show (set_timer this false).buffers = _
      rw [set_timer_eq]
    · show (set_timer this false).empty = _
      rw [set_timer_eq]
      exact hempty
    · show (set_timer this false).n_buffers = _
      rw [set_timer_eq]
    · show (set_timer this false).timerspec = _
      rw [set_timer_timerspec]
      simp [hcb]
  · intro hl ht
    rw [e0]
    exact make_buffer_blocked this (Or.inr hl) ht

/-- The under-run on the example source, not live, with both buffers outstanding. -/
theorem process_output_underrun_witness :
    ∃ this' : SpaFakeSrc,
      spa_fakesrc_node_process_output
        (fakesrc_pool none false true true [] false ⟨0, 0⟩
          ⟨SpaResult.NEED_BUFFER, SPA_ID_INVALID⟩)
        = .ok (SpaResult.OUT_OF_BUFFERS, this') ∧
      this'.underrun = true ∧
      this'.io_mem[0]? = some ⟨SpaResult.NEED_BUFFER, SPA_ID_INVALID⟩ ∧
      this'.buffer_count = 0 := by
  obtain ⟨this', h1, h2, h3, _, _, h4, _⟩ := (process_output_underrun
    (fakesrc_pool none false true true [] false ⟨0, 0⟩
          ⟨SpaResult.NEED_BUFFER, SPA_ID_INVALID⟩) 0 rfl rfl rfl rfl).1
    (fun h => absurd h (by decide))
  exact ⟨this', h1, h2, h3, h4⟩

/-- C22, counterexample: the example source, live and without callback, has both buffers
outstanding and its timer set.  `spa_fakesrc_node_process_output` returns
`OUT_OF_BUFFERS` and disarms the timer; the next call, in the state the claim describes
(cell `NEED_BUFFER` with invalid id, no callback, `empty` list empty), does not return:
it blocks in `read_timer`. -/
theorem process_output_underrun_blocks :
    ∃ s1 : SpaFakeSrc,
      spa_fakesrc_node_process_output
        (fakesrc_pool none true true true [] false ⟨5, 7⟩
          ⟨SpaResult.NEED_BUFFER, SPA_ID_INVALID⟩)
        = .ok (SpaResult.OUT_OF_BUFFERS, s1) ∧
      s1.io = some 0 ∧ s1.io_mem = [ ⟨SpaResult.NEED_BUFFER, SPA_ID_INVALID⟩] ∧
      s1.callbacks.have_output = none ∧ s1.empty = [] ∧ s1.underrun = true ∧
      s1.timerspec = ⟨0, 0⟩ ∧
      spa_fakesrc_node_process_output s1 = .error SpaFault.blocked :=
  ⟨_, rfl, rfl, rfl, rfl, rfl, rfl, rfl, rfl⟩

/-- C24, as the code has it: the timer callback `fakesrc_on_output` makes a buffer without
looking at the cell.  For every state with an attached cell, whatever its status
(`HAVE_BUFFER` included), and a non-empty `empty` list whose head is the slot `i` of a
buffer with id `ob.id`, it takes `i` off `empty`, marks the buffer outstanding,
overwrites the cell with `HAVE_BUFFER` and the id of the buffer, increments
`buffer_count` by one (as a `uint64_t`), and invokes the `have_output` callback exactly
when one is installed. -/
theorem on_output_produces (this : SpaFakeSrc) (c i : Nat) (rest : List Nat) (b : Buffer)
    (ob : SpaBuffer) (hio : this.io = some c) (hc : c < this.io_mem.length)
    (hempty : this.empty = i :: rest) (hb : this.buffers[i]? = some b)
    (hob : b.outbuf = some ob) :
    ∃ (this' : SpaFakeSrc) (b' : Buffer),
      fakesrc_on_output this = .ok (this.callbacks.have_output.isSome, this') ∧
      this'.empty = rest ∧ this'.buffers[i]? = some b' ∧ b'.outstanding = true ∧
      (∀ j, j ≠ i → this'.buffers[j]? = this.buffers[j]?) ∧
      this'.io_mem[c]? = some ⟨SpaResult.HAVE_BUFFER, ob.id⟩ ∧
      this'.buffer_count = (this.buffer_count + 1) % UINT64_MOD := by
  have hi : i < this.buffers.length := lt_of_getElem? hb
  obtain ⟨this', b', hmk, h1, h2, h3, _, _, h6, h7, _, h9, _⟩ :=
    make_buffer_spec this c i rest b ob hio hc hempty hb hob
  have e : fakesrc_on_output this = .ok (this.callbacks.have_output.isSome, this') := by
    simp only [fakesrc_on_output, hmk, bind, Except.bind, pure, Except.pure, true_and,
      Bool.decide_eq_true, h9]
  refine ⟨this', b', e, h1, ?_, h3, ?_, ?_, h7⟩
  · rw [h2]
    exact List.getElem?_set_self hi
  · intro j hj
    rw [h2]
    exact List.getElem?_set_ne (Ne.symm hj)
  · rw [h6]
    exact List.getElem?_set_self hc

/-- The timer callback on the example source with a `have_output` callback, buffer 0 in
flight in the cell and buffer 1 in the `empty` list. -/
theorem on_output_produces_witness :
    ∃ (this' : SpaFakeSrc) (b' : Buffer),
      fakesrc_on_output
        (fakesrc_pool (some 1) false true false [1] false ⟨0, 1⟩ ⟨SpaResult.HAVE_BUFFER, 0⟩)
        = .ok (true, this') ∧
      this'.empty = [] ∧ this'.buffers[1]? = some b' ∧ b'.outstanding = true ∧
      this'.io_mem[0]? = some ⟨SpaResult.HAVE_BUFFER, 1⟩ ∧ this'.buffer_count = 1 := by
  obtain ⟨this', b', h1, h2, h3, h4, _, h6, h7⟩ := on_output_produces
    (fakesrc_pool (some 1) false true false [1] false ⟨0, 1⟩ ⟨SpaResult.HAVE_BUFFER, 0⟩)
    0 1 [] ⟨some ⟨1, 64, 0, 0, 0⟩, false, none⟩ ⟨1, 64, 0, 0, 0⟩ rfl (by decide) rfl rfl rfl
  exact ⟨this', b', h1, h2, h3, h4, h6, h7⟩

/-- C24, counterexample: on the example source with buffer 0 still in flight (the cell
has status `HAVE_BUFFER` and `buffer_id` 0) and buffer 1 in the `empty` list, the timer
callback dequeues buffer 1, overwrites the `buffer_id` of the cell with 1 and makes
`buffer_count` 1. -/
theorem on_output_ignores_in_flight :
    ∃ this' : SpaFakeSrc,
      (fakesrc_pool (some 1) false true false [1] false ⟨0, 1⟩
        ⟨SpaResult.HAVE_BUFFER, 0⟩).io_mem = [ ⟨SpaResult.HAVE_BUFFER, 0⟩] ∧
      fakesrc_on_output
        (fakesrc_pool (some 1) false true false [1] false ⟨0, 1⟩ ⟨SpaResult.HAVE_BUFFER, 0⟩)
        = .ok (true, this') ∧
      this'.empty = [] ∧ this'.io_mem = [ ⟨SpaResult.HAVE_BUFFER, 1⟩] ∧
      this'.buffer_count = 1 ∧
      (this'.buffers[1]?).map (fun b => b.outstanding) = some true :=
  ⟨_, rfl, rfl, rfl, rfl, rfl, rfl⟩

/-- C25 (a `HAVE_BUFFER` cell has a valid id), as the code has it: from a state in which
every bound buffer has an id other than `SPA_ID_INVALID` and the cell, when its status is
`HAVE_BUFFER`, holds such an id, both facts hold again after
`spa_fakesrc_node_process_output`, after the timer callback `fakesrc_on_output`, and after
`spa_fakesrc_node_port_use_buffers` with buffers whose ids all differ from
`SPA_ID_INVALID`, whatever these calls return. -/
theorem have_buffer_id_valid (this : SpaFakeSrc) (hids : ids_valid this)
    (hcell : cell_valid this) :
    (∀ (r : SpaResult) (this' : SpaFakeSrc),
      spa_fakesrc_node_process_output this = .ok (r, this') →
        ids_valid this' ∧ cell_valid this') ∧
    (∀ (fire : Bool) (this' : SpaFakeSrc),
      fakesrc_on_output this = .ok (fire, this') → ids_valid this' ∧ cell_valid this') ∧
    (∀ (d : SpaDirection) (p n : Nat) (bufs : List (SpaBuffer × Option SpaMetaHeader))
      (r : SpaResult) (this' : SpaFakeSrc),
      (∀ buf ∈ bufs, buf.1.id ≠ SPA_ID_INVALID) →
      spa_fakesrc_node_port_use_buffers this d p bufs n = .ok (r, this') →
        ids_valid this' ∧ cell_valid this') := by
  refine ⟨fun r this' h => process_output_valid this this' r h hids hcell, ?_,
    fun d p n bufs r this' hb h => use_buffers_valid this this' r d p n bufs hb h hids hcell⟩
  intro fire this' h
  cases hm : make_buffer_after_read this with
  | error e =>
    simp [fakesrc_on_output, hm, bind, Except.bind] at h
  | ok v =>
    simp only [fakesrc_on_output, hm, bind, Except.bind, pure, Except.pure] at h
    have h2 : v.2 = this' := congrArg Prod.snd (Except.ok.inj h)
    subst h2
    exact make_buffer_valid this v.2 v.1 hm hids hcell

/-- The ids stay valid on the example source: the call that hands out buffer 0 leaves a
cell with `HAVE_BUFFER` and the id 0. -/
theorem have_buffer_id_valid_witness :
    ∃ this' : SpaFakeSrc,
      spa_fakesrc_node_process_output
          (fakesrc_pool none false false false [0, 1] false ⟨0, 0⟩
            ⟨SpaResult.NEED_BUFFER, SPA_ID_INVALID⟩)
        = .ok (SpaResult.HAVE_BUFFER, this') ∧
      this'.io_mem[0]? = some ⟨SpaResult.HAVE_BUFFER, 0⟩ ∧
      ids_valid this' ∧ cell_valid this' :=
  ⟨_, rfl, rfl,
    (have_buffer_id_valid
      (fakesrc_pool none false false false [0, 1] false ⟨0, 0⟩
        ⟨SpaResult.NEED_BUFFER, SPA_ID_INVALID⟩)
      (by simp only [ids_valid]; decide) (by simp only [cell_valid]; decide)).1 _ _ rfl⟩

/-- Counterexample to C25 as stated: `spa_fakesrc_node_port_use_buffers` accepts a buffer
whose id is `SPA_ID_INVALID`, and the next `spa_fakesrc_node_process_output` hands it out:
the cell holds `HAVE_BUFFER` with the id `SPA_ID_INVALID`. -/
theorem have_buffer_invalid_id :
    ∃ s1 s2 : SpaFakeSrc,
      spa_fakesrc_node_port_use_buffers
          (fakesrc_pool none false false false [0, 1] false ⟨0, 0⟩
            ⟨SpaResult.NEED_BUFFER, SPA_ID_INVALID⟩)
          SpaDirection.OUTPUT 0 [(⟨SPA_ID_INVALID, 64, 0, 0, 0⟩, none)] 1
        = .ok (SpaResult.OK, s1) ∧
      spa_fakesrc_node_process_output s1 = .ok (SpaResult.HAVE_BUFFER, s2) ∧
      s2.io_mem[0]? = some ⟨SpaResult.HAVE_BUFFER, SPA_ID_INVALID⟩ :=
  ⟨_, _, rfl, rfl, rfl⟩

/-- C26 (scenario S6), as the code has it: from an under-run state of the reference source
(`underrun` set, `empty` empty, buffer 0 outstanding, `n_buffers ≥ 1`),
`spa_fakesrc_node_port_reuse_buffer (0, 0)` returns `OK`, puts buffer 0 in the `empty`
list and clears `underrun`; it sets the timer to the next expiry when a `have_output`
callback is installed or the source is live, and leaves the timer as it is otherwise.
The next `spa_fakesrc_node_process_output` with a cell of status `NEED_BUFFER`, whose
`buffer_id` is invalid or the index of a slot, returns `HAVE_BUFFER` with the cell at
`HAVE_BUFFER` and the id of buffer 0 when no `have_output` callback is installed, except
on a live source whose next expiry `start_time + elapsed_time` is zero as a `uint64_t`:
that expiry disarms the timer and the call blocks in `read_timer`; with a callback
installed it returns `OK` and the cell stays at `NEED_BUFFER`. -/
theorem underrun_recovery (this : SpaFakeSrc) (b : Buffer) (ob : SpaBuffer)
    (hu : this.underrun = true) (he : this.empty = []) (hb : this.buffers[0]? = some b)
    (hout : b.outstanding = true) (hob : b.outbuf = some ob) (hn : 0 < this.n_buffers) :
    ∃ s1 : SpaFakeSrc,
      spa_fakesrc_node_port_reuse_buffer this 0 0 = .ok (SpaResult.OK, s1) ∧
      s1.empty = [0] ∧ s1.underrun = false ∧
      s1.buffers = this.buffers.set 0 { b with outstanding := false } ∧
      s1.timerspec
        = (if this.callbacks.have_output.isSome = true ∨ this.props.live = true then
            (if this.props.live = true then
              ⟨(this.start_time + this.elapsed_time) % UINT64_MOD / SPA_NSEC_PER_SEC,
                (this.start_time + this.elapsed_time) % UINT64_MOD % SPA_NSEC_PER_SEC⟩
            else ⟨0, 1⟩)
          else this.timerspec) ∧
      ∀ (c : Nat) (io : SpaPortIO), this.io = some c → this.io_mem[c]? = some io →
        io.status = SpaResult.NEED_BUFFER →
        (io.buffer_id = SPA_ID_INVALID ∨ io.buffer_id < this.buffers.length) →
        (this.callbacks.have_output = none →
          (this.props.live = true →
            (this.start_time + this.elapsed_time) % UINT64_MOD ≠ 0) →
          ∃ s2 : SpaFakeSrc,
            spa_fakesrc_node_process_output s1 = .ok (SpaResult.HAVE_BUFFER, s2) ∧
            s2.io_mem[c]? = some ⟨SpaResult.HAVE_BUFFER, ob.id⟩) ∧
        (this.callbacks.have_output = none → this.props.live = true →
          (this.start_time + this.elapsed_time) % UINT64_MOD = 0 →
          spa_fakesrc_node_process_output s1 = .error SpaFault.blocked) ∧
        (this.callbacks.have_output ≠ none →
          ∃ s2 : SpaFakeSrc,
            spa_fakesrc_node_process_output s1 = .ok (SpaResult.OK, s2) ∧
            s2.io_mem[c]? = some ⟨SpaResult.NEED_BUFFER, SPA_ID_INVALID⟩) := by
  have hlt : 0 < this.buffers.length := lt_of_getElem? hb
  set s1 : SpaFakeSrc := { this with
    buffers := this.buffers.set 0 { b with outstanding := false }
    empty := this.empty ++ [0]
    underrun := false
    timerspec := if this.underrun = true then (set_timer this true).timerspec
      else this.timerspec } with hs1
  have e1 : spa_fakesrc_node_port_reuse_buffer this 0 0 = .ok (SpaResult.OK, s1) := by
    have h0 : ¬ this.n_buffers = 0 := by omega
    have h1 : ¬ this.n_buffers ≤ 0 := by omega
    simp only [spa_fakesrc_node_port_reuse_buffer, ne_eq, not_true_eq_false, if_false, h0, h1,
      bind, Except.bind, reuse_buffer_eq this 0 b hb hout, pure, Except.pure]
  refine ⟨s1, e1, by simp [hs1, he], rfl, rfl, ?_, ?_⟩
  · simp only [hs1, hu, if_true, set_timer_timerspec]
  · intro c io hio hcell hst hid
    have hst' : io.status ≠ SpaResult.HAVE_BUFFER := by
      rw [hst]
      decide
    have hid1 : io.buffer_id = SPA_ID_INVALID ∨ io.buffer_id < s1.buffers.length := by
      rcases hid with h | h
      · exact Or.inl h
      · exact Or.inr (by simpa [hs1] using h)
    obtain ⟨t, extra, e, a1, a2, a3, _, a5, a6, _, a8, _, a10, a11, a12⟩ :=
      process_output_reuse s1 c io hio hcell hst' hid1
    have hc : c < this.io_mem.length := lt_of_getElem? hcell
    have hts : t.timerspec = s1.timerspec := a12 rfl
    have hlv : t.props.live = this.props.live := by rw [a11]
    rw [hst] at a3
    refine ⟨?_, ?_, ?_⟩
    · intro hcb htimer
      have hcb' : t.callbacks.have_output = none := by
        rw [a5]
        exact hcb
      rw [if_pos ⟨hcb', hst⟩] at e
      have hrd : fakesrc_make_buffer t = make_buffer_after_read t := by
        refine make_buffer_ready t (fun hg => ?_)
        rcases hg with hg | hg
        · rw [hcb'] at hg
          cases hg
        · rw [hlv] at hg
          rw [hts]
          simp only [hs1, hu, if_true, set_timer_timerspec, hg, or_true]
          intro h0
          have h1 := congrArg Timespec.tv_sec h0
          have h2 := congrArg Timespec.tv_nsec h0
          simp only at h1 h2
          have h3 := Nat.div_add_mod ((this.start_time + this.elapsed_time) % UINT64_MOD)
            SPA_NSEC_PER_SEC
          rw [h1, h2] at h3
          exact htimer hg h3.symm
      -- the head of `empty` is slot 0, which holds buffer 0
      have hempty : t.empty = 0 :: extra := by
        rw [a6]
        simp [hs1, he]
      have hs10 : s1.buffers[0]? = some { b with outstanding := false } :=
        List.getElem?_set_self hlt
      obtain ⟨b0, hb0, hob0⟩ : ∃ b0, t.buffers[0]? = some b0 ∧ b0.outbuf = some ob := by
        rcases a10 0 _ hs10 with h | h
        · exact ⟨_, h, hob⟩
        · exact ⟨_, h, hob⟩
      obtain ⟨s2, _, hmk, _, _, _, _, _, h6, _⟩ :=
        make_buffer_spec t c 0 extra b0 ob (a1.trans hio) (by rw [a2]; exact hc) hempty hb0 hob0
      refine ⟨s2, e.trans (hrd.trans hmk), ?_⟩
      rw [h6]
      exact List.getElem?_set_self (by rw [a2]; exact hc)
    · intro hcb hl hz
      have hcb' : t.callbacks.have_output = none := by
        rw [a5]
        exact hcb
      rw [if_pos ⟨hcb', hst⟩] at e
      rw [e]
      refine make_buffer_blocked t (Or.inr (hlv.trans hl)) ?_
      rw [hts]
      simp only [hs1, hu, if_true, set_timer_timerspec, hl, or_true, hz]
      rfl
    · intro hcb
      have hcb' : ¬ (t.callbacks.have_output = none ∧ io.status = SpaResult.NEED_BUFFER) := by
        rw [a5]
        exact fun hx => hcb hx.1
      rw [if_neg hcb'] at e
      exact ⟨t, e, a3⟩

/-- The recovery on the example source without a `have_output` callback, not live, with
both buffers outstanding and `underrun` set. -/
theorem underrun_recovery_witness :
    ∃ s1 s2 : SpaFakeSrc,
      spa_fakesrc_node_port_reuse_buffer
        (fakesrc_pool none false true true [] true ⟨0, 0⟩
          ⟨SpaResult.NEED_BUFFER, SPA_ID_INVALID⟩) 0 0 = .ok (SpaResult.OK, s1) ∧
      s1.empty = [0] ∧ s1.underrun = false ∧
      spa_fakesrc_node_process_output s1 = .ok (SpaResult.HAVE_BUFFER, s2) ∧
      s2.io_mem[0]? = some ⟨SpaResult.HAVE_BUFFER, 0⟩ := by
  obtain ⟨s1, h1, h2, h3, _, _, h6⟩ := underrun_recovery
    (fakesrc_pool none false true true [] true ⟨0, 0⟩ ⟨SpaResult.NEED_BUFFER, SPA_ID_INVALID⟩)
    ⟨some ⟨0, 64, 0, 0, 0⟩, true, some ⟨0, 0, 0⟩⟩ ⟨0, 64, 0, 0, 0⟩ rfl rfl rfl rfl rfl
    (by decide)
  obtain ⟨s2, h7, h8⟩ :=
    (h6 0 ⟨SpaResult.NEED_BUFFER, SPA_ID_INVALID⟩ rfl rfl rfl (Or.inl rfl)).1 rfl
      (fun h => absurd h (by decide))
  exact ⟨s1, s2, h1, h2, h3, h7, h8⟩

/-- C26, counterexample: on the example source in under-run, with neither a `have_output`
callback nor `props.live`, `spa_fakesrc_node_port_reuse_buffer (0, 0)` returns `OK` and
leaves the timer disarmed; and with a `have_output` callback installed the timer is set
but the next `spa_fakesrc_node_process_output` returns `OK`, not `HAVE_BUFFER`, and the
cell stays at `NEED_BUFFER`. -/
theorem underrun_recovery_gated :
    (∃ s1 : SpaFakeSrc,
      spa_fakesrc_node_port_reuse_buffer
        (fakesrc_pool none false true true [] true ⟨0, 0⟩
          ⟨SpaResult.NEED_BUFFER, SPA_ID_INVALID⟩) 0 0 = .ok (SpaResult.OK, s1) ∧
      s1.underrun = false ∧ s1.timerspec = ⟨0, 0⟩) ∧
    (∃ s1 s2 : SpaFakeSrc,
      spa_fakesrc_node_port_reuse_buffer
        (fakesrc_pool (some 1) false true true [] true ⟨0, 0⟩
          ⟨SpaResult.NEED_BUFFER, SPA_ID_INVALID⟩) 0 0 = .ok (SpaResult.OK, s1) ∧
      s1.timerspec = ⟨0, 1⟩ ∧
      spa_fakesrc_node_process_output s1 = .ok (SpaResult.OK, s2) ∧
      s2.io_mem = [ ⟨SpaResult.NEED_BUFFER, SPA_ID_INVALID⟩] ∧ s2.empty = [0]) :=
  ⟨⟨_, rfl, rfl, rfl⟩, ⟨_, _, rfl, rfl, rfl, rfl, rfl⟩⟩

/-- C27, the code at the failing input: on the example source with buffer 0 outstanding
and the cell carrying its id with status `NEED_BUFFER`, unbinding the buffers, by
`spa_fakesrc_node_port_use_buffers` with `n_buffers = 0` or by
`spa_fakesrc_node_port_set_format` with a `NULL` format, leaves `n_buffers == 0` and an
empty `empty` list; the next `spa_fakesrc_node_process_output` passes the id of the cell
to `reuse_buffer` without the test `buffer_id < n_buffers`, so that buffer 0 is put back
in the `empty` list, dequeued, and the cell set to `HAVE_BUFFER` with `n_buffers` still
0. -/
theorem process_output_after_unbind :
    (∃ s1 s2 : SpaFakeSrc,
      spa_fakesrc_node_port_use_buffers
        (fakesrc_pool none false true false [1] false ⟨0, 0⟩ ⟨SpaResult.NEED_BUFFER, 0⟩)
        SpaDirection.OUTPUT 0 [] 0 = .ok (SpaResult.OK, s1) ∧
      s1.n_buffers = 0 ∧ s1.empty = [] ∧
      spa_fakesrc_node_process_output s1 = .ok (SpaResult.HAVE_BUFFER, s2) ∧
      s2.n_buffers = 0 ∧ s2.io_mem = [ ⟨SpaResult.HAVE_BUFFER, 0⟩] ∧
      (s2.buffers[0]?).map (fun b => b.outstanding) = some true) ∧
    (∃ s1 s2 : SpaFakeSrc,
      spa_fakesrc_node_port_set_format
        (fakesrc_pool none false true false [1] false ⟨0, 0⟩ ⟨SpaResult.NEED_BUFFER, 0⟩)
        SpaDirection.OUTPUT 0 0 none = (SpaResult.OK, s1) ∧
      s1.n_buffers = 0 ∧ s1.empty = [] ∧ s1.have_format = false ∧
      spa_fakesrc_node_process_output s1 = .ok (SpaResult.HAVE_BUFFER, s2) ∧
      s2.n_buffers = 0 ∧ s2.io_mem = [ ⟨SpaResult.HAVE_BUFFER, 0⟩]) :=
  ⟨⟨_, _, rfl, rfl, rfl, rfl, rfl, rfl, rfl⟩, ⟨_, _, rfl, rfl, rfl, rfl, rfl, rfl, rfl⟩⟩

/-- C28 (scenario S5, live timing): for a reference source with `props.live` that `Start`
starts at the monotonic time `now`, after `k` buffers have been made with no further
`Start`, the making of the next buffer, the `k + 1`-th, leaves
`buffer_count == elapsed_time == k + 1` and the timer set to the expiry
`tv_sec * 10^9 + tv_nsec == now + (k + 1)` with `tv_nsec < 10^9`, and the header of that
buffer, when it has one, has `seq == k` and `pts == now + k` (all as `uint64_t`, modulo
`2^64`). -/
theorem live_timing (s s1 s2 : SpaFakeSrc) (now k : Nat)
    (hlive : s.props.live = true) (hf : s.have_format = true) (hn : s.n_buffers ≠ 0)
    (hs : s.started = false)
    (hprod : productions k (spa_fakesrc_node_send_command s SpaCommandNode.Start now).2 s1)
    (hmake : fakesrc_make_buffer s1 = .ok (SpaResult.HAVE_BUFFER, s2)) :
    (spa_fakesrc_node_send_command s SpaCommandNode.Start now).1 = SpaResult.OK ∧
    s2.buffer_count = (k + 1) % UINT64_MOD ∧ s2.elapsed_time = (k + 1) % UINT64_MOD ∧
    s2.timerspec.tv_sec * SPA_NSEC_PER_SEC + s2.timerspec.tv_nsec
      = (now + (k + 1)) % UINT64_MOD ∧
    s2.timerspec.tv_nsec < SPA_NSEC_PER_SEC ∧
    ∃ (i : Nat) (rest : List Nat) (b b' : Buffer),
      s1.empty = i :: rest ∧ s1.buffers[i]? = some b ∧ s2.buffers[i]? = some b' ∧
      b'.outstanding = true ∧
      b'.h = b.h.map (fun _ => ⟨k % UINT64_MOD, (now + k) % UINT64_MOD, 0⟩) := by
  have hstart : spa_fakesrc_node_send_command s SpaCommandNode.Start now
      = (SpaResult.OK, set_timer { s with
          start_time := if s.props.live = true then now % UINT64_MOD else 0
          buffer_count := 0
          elapsed_time := 0
          started := true } true) := by
    simp [spa_fakesrc_node_send_command, hf, hn, hs]
  rw [hstart] at hprod ⊢
  obtain ⟨a1, a2, a3, a4⟩ := productions_count k _ s1 hprod
    (by rw [set_timer_eq]) (by rw [set_timer_eq])
  have hl1 : s1.props.live = true := by
    rw [a1, set_timer_eq]
    exact hlive
  have ht1 : s1.start_time = now % UINT64_MOD := by
    rw [a2, set_timer_eq]
    simp [hlive]
  have hmake' := make_buffer_ok s1 _ hmake
  obtain ⟨c, i, rest, b, ob, b1, b2, b3, b4, b5⟩ := make_buffer_inv s1 s2 hmake'
  have hmk := make_buffer_timer s1 c i rest b ob b1 b2 b3 b4 b5
  rw [hmake'] at hmk
  have hs2 := (Prod.mk.inj (Except.ok.inj hmk)).2
  have hi : i < s1.buffers.length := lt_of_getElem? b4
  have hnext : (s1.start_time + (s1.buffer_count + 1) % UINT64_MOD) % UINT64_MOD
      = (now + (k + 1)) % UINT64_MOD := by
    rw [ht1, a3]
    simp only [UINT64_MOD]
    omega
  have hpos : 0 < SPA_NSEC_PER_SEC := by decide
  refine ⟨rfl, ?_, ?_, ?_, ?_, i, rest, b,
    { outbuf := some { ob with
        chunk_offset := 0, chunk_size := ob.maxsize, chunk_stride := ob.maxsize }
      outstanding := true
      h := b.h.map (fun hdr => { hdr with
        seq := s1.buffer_count
        pts := (s1.start_time + s1.elapsed_time) % UINT64_MOD
        dts_offset := 0 }) }, b3, b4, ?_, ?_, ?_⟩
  · rw [hs2]
    show (s1.buffer_count + 1) % UINT64_MOD = _
    rw [a3]
    simp only [UINT64_MOD]
    omega
  · rw [hs2]
    show (s1.buffer_count + 1) % UINT64_MOD = _
    rw [a3]
    simp only [UINT64_MOD]
    omega
  · rw [hs2]
    simp only [hl1, or_true, if_true, hnext]
    exact Nat.div_add_mod' _ _
  · rw [hs2]
    simp only [hl1, or_true, if_true]
    exact Nat.mod_lt _ hpos
  · rw [hs2]
    exact List.getElem?_set_self hi
  · rfl
  · show b.h.map _ = b.h.map _
    have hpts : (s1.start_time + s1.elapsed_time) % UINT64_MOD = (now + k) % UINT64_MOD := by
      rw [ht1, a4]
      simp only [UINT64_MOD]
      omega
    rw [a3, hpts]

/-- The timing of the second buffer of the example source, live and started at the
monotonic time of 5 s and 7 ns: the first buffer has been made, and the second is made
with `buffer_count == 2` and the timer set to 5 s and 9 ns. -/
theorem live_timing_witness :
    ∃ s1 s2 : SpaFakeSrc,
      productions 1
        (spa_fakesrc_node_send_command
          { fakesrc_demo none true [0, 1] ⟨SpaResult.NEED_BUFFER, SPA_ID_INVALID⟩ with
            started := false } SpaCommandNode.Start 5000000007).2 s1 ∧
      fakesrc_make_buffer s1 = .ok (SpaResult.HAVE_BUFFER, s2) ∧
      s2.buffer_count = 2 ∧ s2.elapsed_time = 2 ∧
      s2.timerspec.tv_sec * SPA_NSEC_PER_SEC + s2.timerspec.tv_nsec = 5000000009 ∧
      s2.timerspec.tv_nsec < SPA_NSEC_PER_SEC := by
  have h1 : productions 1
      (spa_fakesrc_node_send_command
        { fakesrc_demo none true [0, 1] ⟨SpaResult.NEED_BUFFER, SPA_ID_INVALID⟩ with
          started := false } SpaCommandNode.Start 5000000007).2
      { fakesrc_demo none true [1] ⟨SpaResult.HAVE_BUFFER, 0⟩ with
        start_time := 5000000007
        buffer_count := 1
        elapsed_time := 1
        timerspec := ⟨5, 8⟩
        buffers := [ ⟨some ⟨0, 64, 0, 64, 64⟩, true, some ⟨0, 5000000007, 0⟩⟩,
            ⟨some ⟨1, 64, 0, 0, 0⟩, false, none⟩]
          ++ List.replicate 14 ⟨none, false, none⟩ } :=
    productions.make 0 _ _ _ (productions.start _) rfl
  have h2 : fakesrc_make_buffer
      { fakesrc_demo none true [1] ⟨SpaResult.HAVE_BUFFER, 0⟩ with
        start_time := 5000000007
        buffer_count := 1
        elapsed_time := 1
        timerspec := ⟨5, 8⟩
        buffers := [ ⟨some ⟨0, 64, 0, 64, 64⟩, true, some ⟨0, 5000000007, 0⟩⟩,
            ⟨some ⟨1, 64, 0, 0, 0⟩, false, none⟩]
          ++ List.replicate 14 ⟨none, false, none⟩ }
      = .ok (SpaResult.HAVE_BUFFER,
        { fakesrc_demo none true [] ⟨SpaResult.HAVE_BUFFER, 1⟩ with
          start_time := 5000000007
          buffer_count := 2
          elapsed_time := 2
          timerspec := ⟨5, 9⟩
          buffers := [ ⟨some ⟨0, 64, 0, 64, 64⟩, true, some ⟨0, 5000000007, 0⟩⟩,
              ⟨some ⟨1, 64, 0, 64, 64⟩, true, none⟩]
            ++ List.replicate 14 ⟨none, false, none⟩ }) := by
    rfl
  obtain ⟨_, a2, a3, a4, a5, _⟩ := live_timing
    { fakesrc_demo none true [0, 1] ⟨SpaResult.NEED_BUFFER, SPA_ID_INVALID⟩ with
      started := false } _ _ 5000000007 1 rfl rfl (by decide) rfl h1 h2
  exact ⟨_, _, h1, h2, a2, a3, a4, a5⟩

/-- C29, as the code has it: `spa_fakesrc_node_send_command` with `Start` returns
`NO_FORMAT` if no format is set, otherwise `NO_BUFFERS` if `n_buffers == 0`, otherwise
`OK`, in the first two cases and when the node is already started with the state
unchanged; when the node is not started it sets `started`, `buffer_count = 0`,
`elapsed_time = 0`, `start_time` to the monotonic time if `props.live` and to 0 otherwise,
and calls `set_timer`, which sets the timer to the first expiry when a `have_output`
callback is installed or the source is live and leaves the timer as it is otherwise.  A
command other than `Start` and `Pause` returns `NOT_IMPLEMENTED` with the state
unchanged. -/
theorem send_command_start (this : SpaFakeSrc) (now : Nat) :
    (this.have_format = false →
      spa_fakesrc_node_send_command this SpaCommandNode.Start now
        = (SpaResult.NO_FORMAT, this)) ∧
    (this.have_format = true → this.n_buffers = 0 →
      spa_fakesrc_node_send_command this SpaCommandNode.Start now
        = (SpaResult.NO_BUFFERS, this)) ∧
    (this.have_format = true → this.n_buffers ≠ 0 → this.started = true →
      spa_fakesrc_node_send_command this SpaCommandNode.Start now = (SpaResult.OK, this)) ∧
    (this.have_format = true → this.n_buffers ≠ 0 → this.started = false →
      spa_fakesrc_node_send_command this SpaCommandNode.Start now
        = (SpaResult.OK, { this with
            started := true
            buffer_count := 0
            elapsed_time := 0
            start_time := if this.props.live = true then now % UINT64_MOD else 0
            timerspec :=
              if this.callbacks.have_output.isSome = true ∨ this.props.live = true then
                (if this.props.live = true then
                  ⟨now % UINT64_MOD / SPA_NSEC_PER_SEC, now % UINT64_MOD % SPA_NSEC_PER_SEC⟩
                else ⟨0, 1⟩)
              else this.timerspec })) ∧
    (∀ type : Nat,
      spa_fakesrc_node_send_command this (SpaCommandNode.other type) now
        = (SpaResult.NOT_IMPLEMENTED, this)) := by
  refine ⟨?_, ?_, ?_, ?_, fun _ => rfl⟩
  · intro h
    simp [spa_fakesrc_node_send_command, h]
  · intro h1 h2
    simp [spa_fakesrc_node_send_command, h1, h2]
  · intro h1 h2 h3
    simp [spa_fakesrc_node_send_command, h1, h2, h3]
  · intro h1 h2 h3
    simp only [spa_fakesrc_node_send_command, h1, h2, h3, if_false, Bool.true_eq_false,
      Bool.false_eq_true]
    rw [set_timer_eq, set_timer_timerspec]
    by_cases hl : this.props.live = true
    · simp [hl, Nat.mod_mod]
    · simp [hl]

/-- The command `Start` on the example source, live and not yet started, at the
monotonic time of 5 s and 7 ns. -/
theorem send_command_start_witness :
    ∃ s : SpaFakeSrc,
      spa_fakesrc_node_send_command
        { fakesrc_demo none true [0, 1] ⟨SpaResult.NEED_BUFFER, SPA_ID_INVALID⟩ with
          started := false } SpaCommandNode.Start 5000000007 = (SpaResult.OK, s) ∧
      s.started = true ∧ s.start_time = 5000000007 ∧ s.buffer_count = 0 ∧
      s.elapsed_time = 0 ∧ s.timerspec = ⟨5, 7⟩ :=
  ⟨_, (send_command_start
      { fakesrc_demo none true [0, 1] ⟨SpaResult.NEED_BUFFER, SPA_ID_INVALID⟩ with
        started := false } 5000000007).2.2.2.1 rfl (by decide) rfl,
    rfl, by decide, rfl, rfl, by decide⟩

/-- C29, counterexample: on the example source with neither a `have_output` callback nor
`props.live`, not yet started, `Start` returns `OK` and sets `started`, and the timer is
still disarmed. -/
theorem send_command_start_not_armed :
    ∃ s : SpaFakeSrc,
      spa_fakesrc_node_send_command
        { fakesrc_demo none false [0, 1] ⟨SpaResult.NEED_BUFFER, SPA_ID_INVALID⟩ with
          started := false } SpaCommandNode.Start 5000000007 = (SpaResult.OK, s) ∧
      s.started = true ∧ s.timerspec = ⟨0, 0⟩ :=
  ⟨_, rfl, rfl, rfl⟩

/-- C30, as the code has it: for every state of the reference source with a format set
and buffers bound, `spa_fakesrc_node_send_command` with `Pause` returns `OK` and
`started` is false afterwards.  When the node was started it calls `set_timer`, which
disarms the timer when a `have_output` callback is installed or the source is live and
leaves the timer as it is otherwise; when the node was not started the state, and with
it the timer, is unchanged. -/
theorem send_command_pause (this : SpaFakeSrc) (now : Nat)
    (hf : this.have_format = true) (hn : this.n_buffers ≠ 0) :
    ∃ s : SpaFakeSrc,
      spa_fakesrc_node_send_command this SpaCommandNode.Pause now = (SpaResult.OK, s) ∧
      s.started = false ∧
      (this.started = true →
        s = { this with
          started := false
          timerspec :=
            if this.callbacks.have_output.isSome = true ∨ this.props.live = true then ⟨0, 0⟩
            else this.timerspec }) ∧
      (this.started = false → s = this) := by
  by_cases hs : this.started = true
  · refine ⟨set_timer { this with started := false } false, ?_, ?_, ?_, ?_⟩
    · simp [spa_fakesrc_node_send_command, hf, hn, hs]
    · rw [set_timer_eq]
    · intro _
      rw [set_timer_eq, set_timer_timerspec]
      simp
    · intro h
      rw [hs] at h
      exact absurd h (by decide)
  · have hs' : this.started = false := by simpa using hs
    exact ⟨this, by simp [spa_fakesrc_node_send_command, hf, hn, hs'], hs',
      fun h => absurd h hs, fun _ => rfl⟩

/-- The command `Pause` on the example source, started, with a `have_output` callback and
the timer set. -/
theorem send_command_pause_witness :
    ∃ s : SpaFakeSrc,
      spa_fakesrc_node_send_command
        (fakesrc_pool (some 1) false false false [0, 1] false ⟨0, 1⟩
          ⟨SpaResult.NEED_BUFFER, SPA_ID_INVALID⟩) SpaCommandNode.Pause 0
        = (SpaResult.OK, s) ∧
      s.started = false ∧ s.timerspec = ⟨0, 0⟩ := by
  obtain ⟨s, h1, h2, h3, _⟩ := send_command_pause
    (fakesrc_pool (some 1) false false false [0, 1] false ⟨0, 1⟩
      ⟨SpaResult.NEED_BUFFER, SPA_ID_INVALID⟩) 0 rfl (by decide)
  refine ⟨s, h1, h2, ?_⟩
  rw [h3 rfl]
  rfl

/-- C30, counterexample: the example source, started without a `have_output` callback, is
paused, given a `have_output` callback and started again, which sets the timer; the
callback is then taken away again and the node paused.  This `Pause` returns `OK` with the
format set and the buffers bound, and the timer is still set afterwards.  A further
`Pause`, on the node that is not started, returns `OK` as well and leaves the timer
set. -/
theorem send_command_pause_timer_armed :
    ∃ s1 s2 s3 s4 s5 s6 : SpaFakeSrc,
      spa_fakesrc_node_send_command
        (fakesrc_demo none false [0, 1] ⟨SpaResult.NEED_BUFFER, SPA_ID_INVALID⟩)
        SpaCommandNode.Pause 0 = (SpaResult.OK, s1) ∧
      spa_fakesrc_node_set_callbacks s1 ⟨none, none, some 1, none⟩ 0 = (SpaResult.OK, s2) ∧
      spa_fakesrc_node_send_command s2 SpaCommandNode.Start 0 = (SpaResult.OK, s3) ∧
      s3.timerspec = ⟨0, 1⟩ ∧
      spa_fakesrc_node_set_callbacks s3 ⟨none, none, none, none⟩ 0 = (SpaResult.OK, s4) ∧
      s4.started = true ∧ s4.have_format = true ∧ s4.n_buffers = 2 ∧
      spa_fakesrc_node_send_command s4 SpaCommandNode.Pause 0 = (SpaResult.OK, s5) ∧
      s5.started = false ∧ s5.timerspec = ⟨0, 1⟩ ∧
      spa_fakesrc_node_send_command s5 SpaCommandNode.Pause 0 = (SpaResult.OK, s6) ∧
      s6.started = false ∧ s6.timerspec = ⟨0, 1⟩ :=
  ⟨_, _, _, _, _, _, rfl, rfl, rfl, rfl, rfl, rfl, rfl, rfl, rfl, rfl, rfl, rfl, rfl, rfl⟩

/-- C31 (`port_use_buffers`), as the code has it: on `(OUTPUT, 0)` with a cell attached
`spa_fakesrc_node_port_use_buffers` returns `NO_FORMAT` with the state unchanged when no
format is set.  With a format set and `n ≤ MAX_BUFFERS` buffers given it returns `OK` with
`n_buffers = n`, the given buffers in the slots `0 .. n-1` in their order, none of them
outstanding, `underrun` cleared, and the slots `0 .. n-1` appended in order to the
`empty` list; that list is emptied first when `n_buffers > 0`, and kept as it is when
`n_buffers == 0`. -/
theorem use_buffers_rebuilds (this : SpaFakeSrc) (c n : Nat)
    (bufs : List (SpaBuffer × Option SpaMetaHeader)) (hio : this.io = some c)
    (harr : this.buffers.length = MAX_BUFFERS) :
    (this.have_format = false →
      spa_fakesrc_node_port_use_buffers this SpaDirection.OUTPUT 0 bufs n
        = .ok (SpaResult.NO_FORMAT, this)) ∧
    (this.have_format = true → n ≤ MAX_BUFFERS → n ≤ bufs.length →
      ∃ this' : SpaFakeSrc,
        spa_fakesrc_node_port_use_buffers this SpaDirection.OUTPUT 0 bufs n
          = .ok (SpaResult.OK, this') ∧
        this'.n_buffers = n ∧
        this'.empty = (if 0 < this.n_buffers then [] else this.empty) ++ List.range n ∧
        (∀ i, i < n → ∃ buf : SpaBuffer × Option SpaMetaHeader,
          bufs[i]? = some buf ∧ this'.buffers[i]? = some ⟨some buf.1, false, buf.2⟩) ∧
        (∀ i, n ≤ i → this'.buffers[i]? = this.buffers[i]?) ∧
        this'.underrun = false) := by
  have hchk : ¬ CHECK_PORT this SpaDirection.OUTPUT 0 = false := by
    simp [CHECK_PORT, CHECK_PORT_NUM, MAX_PORTS, hio]
  constructor
  · intro hf
    rw [spa_fakesrc_node_port_use_buffers, if_neg hchk, if_pos hf]
    rfl
  · intro hf hn hlen
    obtain ⟨s1, e1, u1, _, u3, u4, u5, u6, _⟩ :=
      use_buffers_spec this c n bufs hio hf (by omega) hlen
    refine ⟨s1, e1, u5, ?_, ?_, u4, u6⟩
    · rw [u1, (clear_buffers_pool this).1, List.range_eq_range']
    · intro i hi
      have hb : bufs[i]? = some (bufs[i]) := List.getElem?_eq_getElem (by omega)
      exact ⟨_, hb, u3 i _ hi hb⟩

/-- The rebinding of the example source, which has two buffers bound, to three
buffers. -/
theorem use_buffers_rebuilds_witness :
    ∃ this' : SpaFakeSrc,
      spa_fakesrc_node_port_use_buffers
          (fakesrc_pool none false true false [1] false ⟨0, 0⟩ ⟨SpaResult.HAVE_BUFFER, 0⟩)
          SpaDirection.OUTPUT 0
          [(⟨0, 64, 0, 0, 0⟩, none), (⟨1, 64, 0, 0, 0⟩, none), (⟨2, 64, 0, 0, 0⟩, none)] 3
        = .ok (SpaResult.OK, this') ∧
      this'.n_buffers = 3 ∧ this'.empty = [0, 1, 2] ∧ this'.underrun = false := by
  obtain ⟨s, h1, h2, h3, _, _, h6⟩ := (use_buffers_rebuilds
    (fakesrc_pool none false true false [1] false ⟨0, 0⟩ ⟨SpaResult.HAVE_BUFFER, 0⟩) 0 3
    [(⟨0, 64, 0, 0, 0⟩, none), (⟨1, 64, 0, 0, 0⟩, none), (⟨2, 64, 0, 0, 0⟩, none)]
    rfl rfl).2 rfl (by decide) (by decide)
  exact ⟨s, h1, h2, h3, h6⟩

/-- C31, the code at the failing input: the example source has buffer 0 outstanding and
the consumer left its id in the cell with status `OK`.  The buffers are unbound
(`n_buffers = 0`), `spa_fakesrc_node_process_output` then puts the slot 0 back in the
`empty` list although `n_buffers == 0`, and the next `port_use_buffers` with two buffers
returns `OK` with slot 0 twice in `empty`. -/
theorem use_buffers_keeps_stale_empty :
    ∃ s1 s2 s3 : SpaFakeSrc,
      spa_fakesrc_node_port_use_buffers
        (fakesrc_pool none false true false [1] false ⟨0, 0⟩ ⟨SpaResult.OK, 0⟩)
        SpaDirection.OUTPUT 0 [] 0 = .ok (SpaResult.OK, s1) ∧
      s1.n_buffers = 0 ∧ s1.empty = [] ∧
      spa_fakesrc_node_process_output s1 = .ok (SpaResult.OK, s2) ∧
      s2.n_buffers = 0 ∧ s2.empty = [0] ∧
      spa_fakesrc_node_port_use_buffers s2 SpaDirection.OUTPUT 0
        [(⟨0, 64, 0, 0, 0⟩, none), (⟨1, 64, 0, 0, 0⟩, none)] 2 = .ok (SpaResult.OK, s3) ∧
      s3.n_buffers = 2 ∧ s3.empty = [0, 0, 1] :=
  ⟨_, _, _, rfl, rfl, rfl, rfl, rfl, rfl, rfl, rfl, rfl⟩

/-- C32 (`port_reuse_buffer`): on the reference source, with `n_buffers` within the buffer
array, `spa_fakesrc_node_port_reuse_buffer` returns `INVALID_PORT` if `port_id ≠ 0`,
otherwise `NO_BUFFERS` if `n_buffers == 0`, otherwise `INVALID_BUFFER_ID` if
`buffer_id ≥ n_buffers`, with the whole state unchanged in these three cases; otherwise it
returns `OK`, and a buffer that is outstanding is appended to the tail of `empty` with its
`outstanding` flag cleared (all other slots as before). -/
theorem port_reuse_buffer_codes (this : SpaFakeSrc) (port_id buffer_id : Nat)
    (harr : this.n_buffers ≤ this.buffers.length) :
    (port_id ≠ 0 →
      spa_fakesrc_node_port_reuse_buffer this port_id buffer_id
        = .ok (SpaResult.INVALID_PORT, this)) ∧
    (port_id = 0 → this.n_buffers = 0 →
      spa_fakesrc_node_port_reuse_buffer this port_id buffer_id
        = .ok (SpaResult.NO_BUFFERS, this)) ∧
    (port_id = 0 → this.n_buffers ≠ 0 → this.n_buffers ≤ buffer_id →
      spa_fakesrc_node_port_reuse_buffer this port_id buffer_id
        = .ok (SpaResult.INVALID_BUFFER_ID, this)) ∧
    (port_id = 0 → buffer_id < this.n_buffers →
      ∃ (b : Buffer) (this' : SpaFakeSrc),
        this.buffers[buffer_id]? = some b ∧
        spa_fakesrc_node_port_reuse_buffer this port_id buffer_id
          = .ok (SpaResult.OK, this') ∧
        (b.outstanding = true →
          this'.empty = this.empty ++ [buffer_id] ∧
          this'.buffers = this.buffers.set buffer_id { b with outstanding := false } ∧
          this'.n_buffers = this.n_buffers)) := by
  refine ⟨?_, ?_, ?_, ?_⟩
  · intro h
    simp only [spa_fakesrc_node_port_reuse_buffer, if_pos h]
    rfl
  · intro h h0
    subst h
    simp only [spa_fakesrc_node_port_reuse_buffer, ne_eq, not_true_eq_false, if_false,
      if_pos h0]
    rfl
  · intro h h0 h1
    subst h
    simp only [spa_fakesrc_node_port_reuse_buffer, ne_eq, not_true_eq_false, if_false,
      if_neg h0, if_pos h1]
    rfl
  · intro h h1
    subst h
    have h0 : ¬ this.n_buffers = 0 := by omega
    have h2 : ¬ this.n_buffers ≤ buffer_id := by omega
    have hlt : buffer_id < this.buffers.length := by omega
    have hb : this.buffers[buffer_id]? = some (this.buffers[buffer_id]) :=
      List.getElem?_eq_getElem hlt
    by_cases hout : (this.buffers[buffer_id]).outstanding = true
    · refine ⟨this.buffers[buffer_id], { this with
          buffers := this.buffers.set buffer_id
            { this.buffers[buffer_id] with outstanding := false }
          empty := this.empty ++ [buffer_id]
          underrun := false
          timerspec := if this.underrun = true then (set_timer this true).timerspec
            else this.timerspec }, hb, ?_, fun _ => ⟨rfl, rfl, rfl⟩⟩
      simp only [spa_fakesrc_node_port_reuse_buffer, ne_eq, not_true_eq_false, if_false,
        if_neg h0, if_neg h2, reuse_buffer_eq this buffer_id _ hb hout, bind, Except.bind,
        pure, Except.pure]
    · have hout' : (this.buffers[buffer_id]).outstanding = false := by simpa using hout
      refine ⟨this.buffers[buffer_id], this, hb, ?_, fun h => absurd h hout⟩
      simp only [spa_fakesrc_node_port_reuse_buffer, ne_eq, not_true_eq_false, if_false,
        if_neg h0, if_neg h2, reuse_buffer_idle this buffer_id _ hb hout', bind, Except.bind,
        pure, Except.pure]

/-- The four cases of `port_reuse_buffer` on the example source with buffer 0
outstanding. -/
theorem port_reuse_buffer_codes_witness :
    spa_fakesrc_node_port_reuse_buffer
        (fakesrc_pool none false true false [1] false ⟨0, 0⟩ ⟨SpaResult.HAVE_BUFFER, 0⟩) 1 0
      = .ok (SpaResult.INVALID_PORT,
          fakesrc_pool none false true false [1] false ⟨0, 0⟩ ⟨SpaResult.HAVE_BUFFER, 0⟩) ∧
    spa_fakesrc_node_port_reuse_buffer
        (fakesrc_pool none false true false [1] false ⟨0, 0⟩ ⟨SpaResult.HAVE_BUFFER, 0⟩) 0 2
      = .ok (SpaResult.INVALID_BUFFER_ID,
          fakesrc_pool none false true false [1] false ⟨0, 0⟩ ⟨SpaResult.HAVE_BUFFER, 0⟩) ∧
    ∃ (b : Buffer) (this' : SpaFakeSrc),
      (fakesrc_pool none false true false [1] false ⟨0, 0⟩
        ⟨SpaResult.HAVE_BUFFER, 0⟩).buffers[0]? = some b ∧
      spa_fakesrc_node_port_reuse_buffer
          (fakesrc_pool none false true false [1] false ⟨0, 0⟩ ⟨SpaResult.HAVE_BUFFER, 0⟩) 0 0
        = .ok (SpaResult.OK, this') ∧
      (b.outstanding = true →
        this'.empty
            = (fakesrc_pool none false true false [1] false ⟨0, 0⟩
                ⟨SpaResult.HAVE_BUFFER, 0⟩).empty ++ [0] ∧
        this'.buffers
            = (fakesrc_pool none false true false [1] false ⟨0, 0⟩
                ⟨SpaResult.HAVE_BUFFER, 0⟩).buffers.set 0 { b with outstanding := false } ∧
        this'.n_buffers
            = (fakesrc_pool none false true false [1] false ⟨0, 0⟩
                ⟨SpaResult.HAVE_BUFFER, 0⟩).n_buffers) :=
  ⟨(port_reuse_buffer_codes
      (fakesrc_pool none false true false [1] false ⟨0, 0⟩ ⟨SpaResult.HAVE_BUFFER, 0⟩) 1 0
      (by decide)).1 (by decide),
    (port_reuse_buffer_codes
      (fakesrc_pool none false true false [1] false ⟨0, 0⟩ ⟨SpaResult.HAVE_BUFFER, 0⟩) 0 2
      (by decide)).2.2.1 rfl (by decide) (by decide),
    (port_reuse_buffer_codes
      (fakesrc_pool none false true false [1] false ⟨0, 0⟩ ⟨SpaResult.HAVE_BUFFER, 0⟩) 0 0
      (by decide)).2.2.2 rfl (by decide)⟩

/-- C33 (`set_callbacks`): `spa_fakesrc_node_set_callbacks` returns `ERROR` exactly when
the source has no data loop and the given table has a `have_output` callback, and then
the state, the stored table and user data with it, is unchanged; in every other case it
stores the given table and user data, changes nothing else, and returns `OK`. -/
theorem set_callbacks_refuses (this : SpaFakeSrc) (callbacks : SpaNodeCallbacks)
    (user_data : Nat) :
    ((spa_fakesrc_node_set_callbacks this callbacks user_data).1 = SpaResult.ERROR ↔
      (this.data_loop = none ∧ callbacks.have_output ≠ none)) ∧
    ((this.data_loop = none ∧ callbacks.have_output ≠ none) →
      spa_fakesrc_node_set_callbacks this callbacks user_data = (SpaResult.ERROR, this)) ∧
    (¬ (this.data_loop = none ∧ callbacks.have_output ≠ none) →
      spa_fakesrc_node_set_callbacks this callbacks user_data
        = (SpaResult.OK, { this with callbacks := callbacks, user_data := user_data })) := by
  by_cases h : this.data_loop = none ∧ callbacks.have_output ≠ none
  · have e : spa_fakesrc_node_set_callbacks this callbacks user_data
        = (SpaResult.ERROR, this) := by
      rw [spa_fakesrc_node_set_callbacks, if_pos h]
    refine ⟨?_, fun _ => e, fun h' => absurd h h'⟩
    rw [e]
    exact ⟨fun _ => h, fun _ => rfl⟩
  · have e : spa_fakesrc_node_set_callbacks this callbacks user_data
        = (SpaResult.OK, { this with callbacks := callbacks, user_data := user_data }) := by
      rw [spa_fakesrc_node_set_callbacks, if_neg h]
    refine ⟨?_, fun h' => absurd h' h, fun _ => e⟩
    rw [e]
    constructor
    · intro h'
      exact absurd h' (show SpaResult.OK ≠ SpaResult.ERROR by decide)
    · intro h'
      exact absurd h' h

/-- The two outcomes of `set_callbacks` on the example source, without and with a data
loop. -/
theorem set_callbacks_refuses_witness :
    spa_fakesrc_node_set_callbacks
        { fakesrc_demo none false [0, 1] ⟨SpaResult.NEED_BUFFER, SPA_ID_INVALID⟩ with
          data_loop := none } ⟨none, none, some 1, none⟩ 7
      = (SpaResult.ERROR,
          { fakesrc_demo none false [0, 1] ⟨SpaResult.NEED_BUFFER, SPA_ID_INVALID⟩ with
            data_loop := none }) ∧
    spa_fakesrc_node_set_callbacks
        (fakesrc_demo none false [0, 1] ⟨SpaResult.NEED_BUFFER, SPA_ID_INVALID⟩)
        ⟨none, none, some 1, none⟩ 7
      = (SpaResult.OK,
          { fakesrc_demo none false [0, 1] ⟨SpaResult.NEED_BUFFER, SPA_ID_INVALID⟩ with
            callbacks := ⟨none, none, some 1, none⟩, user_data := 7 }) :=
  ⟨(set_callbacks_refuses
      { fakesrc_demo none false [0, 1] ⟨SpaResult.NEED_BUFFER, SPA_ID_INVALID⟩ with
        data_loop := none } ⟨none, none, some 1, none⟩ 7).2.1 ⟨rfl, by decide⟩,
    (set_callbacks_refuses
      (fakesrc_demo none false [0, 1] ⟨SpaResult.NEED_BUFFER, SPA_ID_INVALID⟩)
      ⟨none, none, some 1, none⟩ 7).2.2 (by decide)⟩

/-- C34 (port info flags): after a `fakesrc_init` that returns `OK` and any sequence of
`spa_fakesrc_node_set_props` calls, with props objects that hold any values or with
`NULL`, `info.flags` has the bit `LIVE` exactly when `props.live` is true, and has the
bits `CAN_USE_BUFFERS` and `NO_REF`; every `set_props` call returns `OK`. -/
theorem info_flags_invariant (this s : SpaFakeSrc) (map : Option Nat)
    (support : List (SpaSupportType × Option Nat))
    (hinit : fakesrc_init this map support = (SpaResult.OK, s))
    (calls : List (Option SpaProps)) :
    flag_set (set_props_all calls s).info_flags SPA_PORT_INFO_FLAG_LIVE
      = (set_props_all calls s).props.live ∧
    flag_set (set_props_all calls s).info_flags SPA_PORT_INFO_FLAG_CAN_USE_BUFFERS = true ∧
    flag_set (set_props_all calls s).info_flags SPA_PORT_INFO_FLAG_NO_REF = true ∧
    (∀ (t : SpaFakeSrc) (q : Option SpaProps),
      (spa_fakesrc_node_set_props t q).1 = SpaResult.OK) := by
  obtain ⟨h1, h2, _, _⟩ := init_ok this s map support hinit
  have hinv : ∀ (cs : List (Option SpaProps)) (t : SpaFakeSrc),
      t.info_flags.testBit 6 = t.props.live → t.info_flags.testBit 3 = true →
      t.info_flags.testBit 5 = true →
      (set_props_all cs t).info_flags.testBit 6 = (set_props_all cs t).props.live ∧
      (set_props_all cs t).info_flags.testBit 3 = true ∧
      (set_props_all cs t).info_flags.testBit 5 = true := by
    intro cs
    induction cs with
    | nil =>
      intro t a b c
      exact ⟨a, b, c⟩
    | cons q rest ih =>
      intro t _ b c
      rw [set_props_all]
      refine ih _ (set_props_live_bit t q) ?_ ?_
      · rw [set_props_other_bit t q 3 (Or.inl rfl)]
        exact b
      · rw [set_props_other_bit t q 5 (Or.inr rfl)]
        exact c
  obtain ⟨a, b, c⟩ := hinv calls s
    (by rw [h1, h2]; decide) (by rw [h2]; decide) (by rw [h2]; decide)
  refine ⟨?_, ?_, ?_, ?_⟩
  · rw [SPA_PORT_INFO_FLAG_LIVE, flag_set_two_pow]
    exact a
  · rw [SPA_PORT_INFO_FLAG_CAN_USE_BUFFERS, flag_set_two_pow]
    exact b
  · rw [SPA_PORT_INFO_FLAG_NO_REF, flag_set_two_pow]
    exact c
  · intro t q
    simp only [spa_fakesrc_node_set_props]
    split_ifs <;> rfl

/-- The flags of the example source after `fakesrc_init` with a type map and a data loop
and the calls `set_props (live = true)`, `set_props (pattern = 3)`: `LIVE` is set, with
`CAN_USE_BUFFERS` and `NO_REF`; after a further `set_props (NULL)` it is cleared. -/
theorem info_flags_invariant_witness :
    (set_props_all [some ⟨some true, none⟩, some ⟨none, some 3⟩]
      (fakesrc_init (fakesrc_demo none true [] ⟨SpaResult.OK, SPA_ID_INVALID⟩) none
        [(SpaSupportType.TypeMap, some 1), (SpaSupportType.DataLoop, some 2)]).2).info_flags
      = 104 ∧
    (set_props_all [some ⟨some true, none⟩, some ⟨none, some 3⟩, none]
      (fakesrc_init (fakesrc_demo none true [] ⟨SpaResult.OK, SPA_ID_INVALID⟩) none
        [(SpaSupportType.TypeMap, some 1), (SpaSupportType.DataLoop, some 2)]).2).info_flags
      = 40 ∧
    flag_set (set_props_all [some ⟨some true, none⟩, some ⟨none, some 3⟩]
      (fakesrc_init (fakesrc_demo none true [] ⟨SpaResult.OK, SPA_ID_INVALID⟩) none
        [(SpaSupportType.TypeMap, some 1), (SpaSupportType.DataLoop, some 2)]).2).info_flags
        SPA_PORT_INFO_FLAG_LIVE
      = (set_props_all [some ⟨some true, none⟩, some ⟨none, some 3⟩]
      (fakesrc_init (fakesrc_demo none true [] ⟨SpaResult.OK, SPA_ID_INVALID⟩) none
        [(SpaSupportType.TypeMap, some 1), (SpaSupportType.DataLoop, some 2)]).2).props.live :=
  ⟨by decide, by decide,
    (info_flags_invariant (fakesrc_demo none true [] ⟨SpaResult.OK, SPA_ID_INVALID⟩)
      (fakesrc_init (fakesrc_demo none true [] ⟨SpaResult.OK, SPA_ID_INVALID⟩) none
        [(SpaSupportType.TypeMap, some 1), (SpaSupportType.DataLoop, some 2)]).2 none
      [(SpaSupportType.TypeMap, some 1), (SpaSupportType.DataLoop, some 2)] rfl
      [some ⟨some true, none⟩, some ⟨none, some 3⟩]).1⟩

/-- C35 (interface enumeration), the code at the failing input: the table
`fakesrc_interfaces` has the two entries `Node` and `Clock`, and
`spa_fakesrc_get_interface` hands out both interfaces, but
`fakesrc_enum_interface_info` returns `OK` only for the index 0: for the index 1, below
the number of interfaces, it returns `ENUM_END` and sets no info, as for every other index
above 0. -/
theorem enum_interface_info_first_only :
    fakesrc_interfaces.length = 2 ∧
    fakesrc_interfaces[1]? = some SpaInterfaceType.Clock ∧
    fakesrc_enum_interface_info 0 = (SpaResult.OK, some SpaInterfaceType.Node) ∧
    fakesrc_enum_interface_info 1 = (SpaResult.ENUM_END, none) ∧
    (∀ index, index ≠ 0 → fakesrc_enum_interface_info index = (SpaResult.ENUM_END, none)) ∧
    (∀ type_node type_clock : Nat,
      spa_fakesrc_get_interface type_node type_clock type_node
        = (SpaResult.OK, some SpaInterfaceType.Node) ∧
      (type_clock ≠ type_node →
        spa_fakesrc_get_interface type_node type_clock type_clock
          = (SpaResult.OK, some SpaInterfaceType.Clock))) := by
  refine ⟨rfl, rfl, rfl, rfl, ?_, ?_⟩
  · intro index h
    match index, h with
    | 0, h => exact absurd rfl h
    | k + 1, _ => rfl
  · intro type_node type_clock
    constructor
    · simp [spa_fakesrc_get_interface]
    · intro h
      simp [spa_fakesrc_get_interface, h]

/-- C36, the code at the failing input: the stereo graph, built with the operations of
the graph, has every port bound to a cell and linked to a peer, and all its pointers lead
to records.  In the schedule of the sink the `CHECK`/`NEED_BUFFER` step takes the two
input ports in turn.  For port 2 it reads the peer and the cell, which are there, and
puts the source on the ready queue, which marks the `ready_link` of the source present.
For port 3 it calls `spa_list_insert` on the same `ready_link` again, with no test of
`ready_link.next`: the step links a node that is linked already.  The sequence of the
model then holds the source twice; what the second insertion does to the links of the
list is in `spa/list.h`. -/
theorem schedule_relinks_queued_node :
    ∃ (g0 g1 g2 gA gB gC : SpaGraph Unit) (sink src : SpaGraphNode),
      stereo_graph = .ok g0 ∧ ports_linked g0 ∧ pointers_valid g0 ∧
      spa_graph_node_schedule_enter g0 1 = .ok g1 ∧
      spa_graph_node_schedule_step sched_demo 1 g1 = .ok g2 ∧
      g2.ready = [1] ∧ g2.node_mem[1]? = some sink ∧
      sink.action = SPA_GRAPH_ACTION_CHECK ∧ sink.state = SpaResult.NEED_BUFFER ∧
      sink.ports_input = [2, 3] ∧
      gA = { store_node g2 1 { sink with ready_link_next := false, ready_in := 0 } with
        ready := [] } ∧
      schedule_need_buffer 1 1 [2] gA = .ok gB ∧
      gB.ready = [0] ∧ gB.node_mem[0]? = some src ∧ src.ready_link_next = true ∧
      schedule_need_buffer 1 1 [3] gB = .ok gC ∧
      gC = { gB with ready := spa_list_insert_tail gB.ready 0 } ∧ gC.ready = [0, 0] ∧
      spa_graph_node_schedule_step sched_demo 1 g2 = .ok gC ∧
      ports_linked gC ∧ pointers_valid gC := by
  have hl : ∀ (nodes ready : List Nat) (nm : List SpaGraphNode) (io : List SpaPortIO)
      (calls : List (Nat × SpaGraphNode)), nm.length = 2 → io.length = 2 →
      ports_linked (⟨nodes, ready, nm,
        [ ⟨0, SpaDirection.OUTPUT, 0, 0, some 0, some 2⟩,
          ⟨0, SpaDirection.OUTPUT, 1, 0, some 1, some 3⟩,
          ⟨1, SpaDirection.INPUT, 0, 0, some 0, some 0⟩,
          ⟨1, SpaDirection.INPUT, 1, 0, some 1, some 1⟩], io, (), calls⟩ : SpaGraph Unit) := by
    intro nodes ready nm io calls h1 h2 port hp
    simp only [List.mem_cons, List.mem_singleton, List.not_mem_nil, or_false] at hp
    rcases hp with rfl | rfl | rfl | rfl
    · exact ⟨by simp [h1], ⟨0, rfl, by simp [h2]⟩, ⟨2, rfl, by simp⟩⟩
    · exact ⟨by simp [h1], ⟨1, rfl, by simp [h2]⟩, ⟨3, rfl, by simp⟩⟩
    · exact ⟨by simp [h1], ⟨0, rfl, by simp [h2]⟩, ⟨0, rfl, by simp⟩⟩
    · exact ⟨by simp [h1], ⟨1, rfl, by simp [h2]⟩, ⟨1, rfl, by simp⟩⟩
  refine ⟨⟨[0, 1], [],
      [ ⟨false, [], [0, 1], 0, SpaResult.OK, 2, 0, 0, 2, 0, 0⟩,
        ⟨false, [2, 3], [], 0, SpaResult.OK, 2, 0, 0, 2, 2, 0⟩],
      [ ⟨0, SpaDirection.OUTPUT, 0, 0, some 0, some 2⟩,
        ⟨0, SpaDirection.OUTPUT, 1, 0, some 1, some 3⟩,
        ⟨1, SpaDirection.INPUT, 0, 0, some 0, some 0⟩,
        ⟨1, SpaDirection.INPUT, 1, 0, some 1, some 1⟩],
      [ ⟨SpaResult.NEED_BUFFER, 0⟩, ⟨SpaResult.NEED_BUFFER, 0⟩], (), []⟩,
    _, _, _, _,
    ⟨[0, 1], [0, 0],
      [ ⟨true, [], [0, 1], 0, SpaResult.OK, 2, 0, 0, 2, 0, 0⟩,
        ⟨false, [2, 3], [], 0, SpaResult.NEED_BUFFER, 0, 0, 0, 2, 2, 0⟩],
      [ ⟨0, SpaDirection.OUTPUT, 0, 0, some 0, some 2⟩,
        ⟨0, SpaDirection.OUTPUT, 1, 0, some 1, some 3⟩,
        ⟨1, SpaDirection.INPUT, 0, 0, some 0, some 0⟩,
        ⟨1, SpaDirection.INPUT, 1, 0, some 1, some 1⟩],
      [ ⟨SpaResult.NEED_BUFFER, 0⟩, ⟨SpaResult.NEED_BUFFER, 0⟩], (),
      [(1, ⟨false, [2, 3], [], 0, SpaResult.OK, 2, 0, 0, 2, 2, 0⟩)]⟩,
    _, _, rfl, hl _ _ _ _ _ rfl rfl, ?_, rfl, rfl, rfl, rfl, rfl, rfl, rfl, rfl, rfl,
    rfl, rfl, rfl, rfl, rfl, rfl, rfl, hl _ _ _ _ _ rfl rfl, ?_⟩
  · unfold pointers_valid
    decide
  · unfold pointers_valid
    decide

/-- C37 (partition of the buffer pool), what the code keeps: from a state in which the
pool is partitioned (`pool_partition`), the partition holds again after
`spa_fakesrc_node_process_output` when the `buffer_id` of the attached cell is invalid or
below `n_buffers`, after the timer callback `fakesrc_on_output`, after
`spa_fakesrc_node_port_reuse_buffer`, after `spa_fakesrc_node_port_use_buffers`, and after
a write of the consumer to the status of the cell, whatever the calls return. -/
theorem pool_partition_preserved (this : SpaFakeSrc) (hp : pool_partition this) :
    (∀ (r : SpaResult) (this' : SpaFakeSrc),
      (∀ (c : Nat) (io : SpaPortIO), this.io = some c → this.io_mem[c]? = some io →
        io.buffer_id = SPA_ID_INVALID ∨ io.buffer_id < this.n_buffers) →
      spa_fakesrc_node_process_output this = .ok (r, this') → pool_partition this') ∧
    (∀ (fire : Bool) (this' : SpaFakeSrc),
      fakesrc_on_output this = .ok (fire, this') → pool_partition this') ∧
    (∀ (port_id buffer_id : Nat) (r : SpaResult) (this' : SpaFakeSrc),
      spa_fakesrc_node_port_reuse_buffer this port_id buffer_id = .ok (r, this') →
        pool_partition this') ∧
    (∀ (d : SpaDirection) (p n : Nat) (bufs : List (SpaBuffer × Option SpaMetaHeader))
      (r : SpaResult) (this' : SpaFakeSrc),
      spa_fakesrc_node_port_use_buffers this d p bufs n = .ok (r, this') →
        pool_partition this') ∧
    (∀ status : SpaResult, pool_partition (consumer_status this status)) := by
  refine ⟨fun r this' hc h => process_output_partition this this' r hc h hp, ?_, ?_,
    fun d p n bufs r this' h => use_buffers_partition this this' r d p n bufs h hp, ?_⟩
  · intro fire this' h
    cases hm : make_buffer_after_read this with
    | error e =>
      simp [fakesrc_on_output, hm, bind, Except.bind] at h
    | ok v =>
      simp only [fakesrc_on_output, hm, bind, Except.bind, pure, Except.pure] at h
      have h2 : v.2 = this' := congrArg Prod.snd (Except.ok.inj h)
      subst h2
      exact make_buffer_partition this v.2 v.1 hm hp
  · intro port_id buffer_id r this' h
    rw [spa_fakesrc_node_port_reuse_buffer] at h
    by_cases h1 : port_id ≠ 0
    · rw [if_pos h1] at h
      cases h
      exact hp
    · rw [if_neg h1] at h
      by_cases h2 : this.n_buffers = 0
      · rw [if_pos h2] at h
        cases h
        exact hp
      · rw [if_neg h2] at h
        by_cases h3 : this.n_buffers ≤ buffer_id
        · rw [if_pos h3] at h
          cases h
          exact hp
        · rw [if_neg h3] at h
          cases hre : reuse_buffer this buffer_id with
          | error e =>
            rw [hre] at h
            cases h
          | ok t =>
            rw [hre] at h
            have h4 : t = this' := congrArg Prod.snd (Except.ok.inj h)
            subst h4
            exact reuse_buffer_partition this t buffer_id (by omega) hre hp
  · intro status
    cases hio : this.io with
    | none =>
      simp only [consumer_status, hio]
      exact hp
    | some c =>
      cases hc : this.io_mem[c]? with
      | none =>
        simp only [consumer_status, hio, hc]
        exact hp
      | some v =>
        simp only [consumer_status, hio, hc]
        exact pool_partition_congr this _ rfl rfl rfl hp

/-- The partition on the example source with both buffers in the `empty` list, kept by
the call that hands out buffer 0. -/
theorem pool_partition_preserved_witness :
    ∃ this' : SpaFakeSrc,
      spa_fakesrc_node_process_output
          (fakesrc_pool none false false false [0, 1] false ⟨0, 0⟩
            ⟨SpaResult.NEED_BUFFER, SPA_ID_INVALID⟩)
        = .ok (SpaResult.HAVE_BUFFER, this') ∧
      this'.empty = [1] ∧ pool_partition this' := by
  have hp : pool_partition (fakesrc_pool none false false false [0, 1] false ⟨0, 0⟩
      ⟨SpaResult.NEED_BUFFER, SPA_ID_INVALID⟩) := by
    refine ⟨by decide, by decide, ?_⟩
    intro i hi
    have hi2 : i < 2 := hi
    match i, hi2 with
    | 0, _ => exact ⟨_, rfl, by decide⟩
    | 1, _ => exact ⟨_, rfl, by decide⟩
  refine ⟨_, rfl, rfl, (pool_partition_preserved _ hp).1 _ _ ?_ rfl⟩
  intro c io h1 h2
  have hc : c = 0 := (Option.some.inj h1).symm
  subst hc
  have hio : io = ⟨SpaResult.NEED_BUFFER, SPA_ID_INVALID⟩ := (Option.some.inj h2).symm
  subst hio
  exact Or.inl rfl

/-- C37, the code at the failing input: two buffers are bound and buffers 0 and 1 are
handed out in turn (buffer 0 comes back in between).  The port is then rebound to one
buffer while the cell still holds the id 1, and the consumer sets the status of the cell
to `NEED_BUFFER`.  The next `spa_fakesrc_node_process_output` passes the id 1 to
`reuse_buffer` although `n_buffers == 1`: the slot 1 is put in the `empty` list and stays
there, so the partition is broken. -/
theorem pool_partition_broken :
    ∃ s1 s2 s3 s4 s5 : SpaFakeSrc,
      spa_fakesrc_node_port_use_buffers
        (fakesrc_pool none false false false [] false ⟨0, 0⟩
          ⟨SpaResult.NEED_BUFFER, SPA_ID_INVALID⟩)
        SpaDirection.OUTPUT 0 [(⟨0, 64, 0, 0, 0⟩, none), (⟨1, 64, 0, 0, 0⟩, none)] 2
        = .ok (SpaResult.OK, s1) ∧
      spa_fakesrc_node_process_output s1 = .ok (SpaResult.HAVE_BUFFER, s2) ∧
      spa_fakesrc_node_process_output (consumer_status s2 SpaResult.NEED_BUFFER)
        = .ok (SpaResult.HAVE_BUFFER, s3) ∧
      s3.io_mem = [ ⟨SpaResult.HAVE_BUFFER, 1⟩] ∧ s3.empty = [0] ∧
      spa_fakesrc_node_port_use_buffers s3 SpaDirection.OUTPUT 0
        [(⟨0, 64, 0, 0, 0⟩, none)] 1 = .ok (SpaResult.OK, s4) ∧
      s4.n_buffers = 1 ∧ s4.empty = [0] ∧
      spa_fakesrc_node_process_output (consumer_status s4 SpaResult.NEED_BUFFER)
        = .ok (SpaResult.HAVE_BUFFER, s5) ∧
      s5.n_buffers = 1 ∧ s5.empty = [1] ∧ ¬ pool_partition s5 := by
  refine ⟨_, _, _, _, _, rfl, rfl, rfl, rfl, rfl, rfl, rfl, rfl, rfl, rfl, rfl, ?_⟩
  intro h
  exact absurd (h.1 1 (List.mem_singleton.mpr rfl)) (by decide)

/-- C38 (capacity of the buffer array), the code at the failing inputs: for every state
with a cell attached, the format set and the buffer array of `MAX_BUFFERS` slots, and
every `n_buffers` above `MAX_BUFFERS` (with that many buffers given),
`spa_fakesrc_node_port_use_buffers` is not rejected: its loop stores the first
`MAX_BUFFERS` buffers in the slots, and the next iteration stores to the slot with the
index `MAX_BUFFERS`, past the end of the array, which is the fault the call ends in. -/
theorem use_buffers_overflow (this : SpaFakeSrc) (c n : Nat)
    (bufs : List (SpaBuffer × Option SpaMetaHeader)) (hio : this.io = some c)
    (hf : this.have_format = true) (harr : this.buffers.length = MAX_BUFFERS)
    (hn : MAX_BUFFERS < n) (hlen : n ≤ bufs.length) :
    (∃ t : SpaFakeSrc,
      port_use_buffers_loop bufs MAX_BUFFERS 0 (clear_buffers this) = .ok t ∧
      t.buffers.length = MAX_BUFFERS ∧
      (∀ i, i < MAX_BUFFERS → ∃ buf : SpaBuffer × Option SpaMetaHeader,
        bufs[i]? = some buf ∧ t.buffers[i]? = some ⟨some buf.1, false, buf.2⟩) ∧
      port_use_buffers_loop bufs (n - MAX_BUFFERS) MAX_BUFFERS t
        = .error SpaFault.bad_pointer) ∧
    spa_fakesrc_node_port_use_buffers this SpaDirection.OUTPUT 0 bufs n
      = .error SpaFault.bad_pointer := by
  obtain ⟨_, _, _, k4, _⟩ := clear_buffers_fields this
  have hcl : (clear_buffers this).buffers.length = MAX_BUFFERS := by
    rw [k4]
    exact harr
  constructor
  · obtain ⟨t, e, _, a2, _, a4, _⟩ := use_buffers_loop_spec bufs MAX_BUFFERS 0
      (clear_buffers this) (by omega) (by omega)
    have htl : t.buffers.length = MAX_BUFFERS := a2.trans hcl
    refine ⟨t, e, htl, ?_, ?_⟩
    · intro i hi
      have hb : bufs[i]? = some (bufs[i]) := List.getElem?_eq_getElem (by omega)
      exact ⟨_, hb, a4 i _ (Nat.zero_le _) (by omega) hb⟩
    · exact use_buffers_loop_overflow bufs (n - MAX_BUFFERS) MAX_BUFFERS t (by omega)
        (by omega) (Or.inl (by omega))
  · have hchk : ¬ CHECK_PORT this SpaDirection.OUTPUT 0 = false := by
      simp [CHECK_PORT, CHECK_PORT_NUM, MAX_PORTS, hio]
    have hf' : ¬ this.have_format = false := by
      rw [hf]
      decide
    rw [spa_fakesrc_node_port_use_buffers, if_neg hchk, if_neg hf',
      use_buffers_loop_overflow bufs n 0 (clear_buffers this) (Nat.zero_le _)
        (Nat.zero_le _) (Or.inl (by omega))]
    rfl

/-- The call with 17 buffers on the example source. -/
theorem use_buffers_overflow_witness :
    spa_fakesrc_node_port_use_buffers
        (fakesrc_pool none false false false [0, 1] false ⟨0, 0⟩
          ⟨SpaResult.NEED_BUFFER, SPA_ID_INVALID⟩)
        SpaDirection.OUTPUT 0
        ((List.range 17).map (fun i => (⟨i, 64, 0, 0, 0⟩, none))) 17
      = .error SpaFault.bad_pointer :=
  (use_buffers_overflow
    (fakesrc_pool none false false false [0, 1] false ⟨0, 0⟩
      ⟨SpaResult.NEED_BUFFER, SPA_ID_INVALID⟩)
    0 17 ((List.range 17).map (fun i => (⟨i, 64, 0, 0, 0⟩, none))) rfl rfl rfl (by decide)
    (by decide)).2

/-- C40 (double reuse is harmless): `spa_fakesrc_node_port_reuse_buffer` on port 0 with a
buffer id below `n_buffers` whose buffer is not outstanding returns `OK` and the state
after the call is the state before it: the `empty` list, every `outstanding` flag, the
`underrun` flag and the timer setting are unchanged. -/
theorem double_reuse_harmless (this : SpaFakeSrc) (buffer_id : Nat) (b : Buffer)
    (hn : buffer_id < this.n_buffers) (hb : this.buffers[buffer_id]? = some b)
    (hout : b.outstanding = false) :
    spa_fakesrc_node_port_reuse_buffer this 0 buffer_id = .ok (SpaResult.OK, this) := by
  have h0 : ¬ this.n_buffers = 0 := by omega
  have h2 : ¬ this.n_buffers ≤ buffer_id := by omega
  simp only [spa_fakesrc_node_port_reuse_buffer, ne_eq, not_true_eq_false, if_false,
    if_neg h0, if_neg h2, reuse_buffer_idle this buffer_id b hb hout, bind, Except.bind,
    pure, Except.pure]

/-- The reuse of buffer 1 of the example source, which is in the `empty` list, while the
source is in under-run with the timer disarmed. -/
theorem double_reuse_harmless_witness :
    spa_fakesrc_node_port_reuse_buffer
        (fakesrc_pool (some 1) false true false [1] true ⟨0, 0⟩ ⟨SpaResult.HAVE_BUFFER, 0⟩)
        0 1
      = .ok (SpaResult.OK,
          fakesrc_pool (some 1) false true false [1] true ⟨0, 0⟩
            ⟨SpaResult.HAVE_BUFFER, 0⟩) :=
  double_reuse_harmless
    (fakesrc_pool (some 1) false true false [1] true ⟨0, 0⟩ ⟨SpaResult.HAVE_BUFFER, 0⟩) 1
    ⟨some ⟨1, 64, 0, 0, 0⟩, false, none⟩ (by decide) rfl rfl

end Spa
